import Mathlib

/-! # ZenList service layer: cursor codec, validators, pagination and task operations

A shallow embedding of `internal/service` (types.go, errors.go, service.go) and
`internal/db/repo/store.go`, together with the library routines those files call
(`encoding/base64`, `time`, `github.com/google/uuid`, `strings`).

Conventions.
* A Go `string` holding text is a Lean `String`; a Go `[]byte` (and a `string` obtained
  from raw bytes) is a `List Nat` of values below 256.
* A Go `int` is an `Int`; the values that occur are far below the machine bound.
* A Go `error` is `Option GoError` (`none` is `nil`); a function returning `(T, error)`
  returns `Except GoError T`.
-/

namespace ZenList

/-! ## encoding/base64, StdEncoding -/

namespace Base64

/-- The alphabet of `base64.StdEncoding` (`encodeStd`). -/
def encodeStd : List Char :=
  "ABCDEFGHIJKLMNOPQRSTUVWXYZabcdefghijklmnopqrstuvwxyz0123456789+/".toList

/-- The character of the alphabet at a 6-bit index. -/
def enc (i : Nat) : Char := encodeStd.getD i 'A'

/-- The `decodeMap` of the encoding: the index of an alphabet character, `none` for every
other character (the table holds `0xff` there). -/
def dec (c : Char) : Option Nat :=
  if encodeStd.indexOf c < 64 then some (encodeStd.indexOf c) else none

/-- `Encoding.Encode`: three bytes give four characters; a final group of one or two bytes
is padded with `=`. -/
def encode : List Nat → List Char
  | [] => []
  | [a] =>
      let v := a * 65536
      [enc (v / 262144 % 64), enc (v / 4096 % 64), '=', '=']
  | [a, b] =>
      let v := a * 65536 + b * 256
      [enc (v / 262144 % 64), enc (v / 4096 % 64), enc (v / 64 % 64), '=']
  | a :: b :: c :: rest =>
      let v := a * 65536 + b * 256 + c
      enc (v / 262144 % 64) :: enc (v / 4096 % 64) :: enc (v / 64 % 64) :: enc (v % 64)
        :: encode rest

/-- `Encoding.EncodeToString`. -/
def EncodeToString (src : List Nat) : String := String.mk (encode src)

/-- The quanta of `Encoding.Decode` once line breaks are skipped: groups of four alphabet
characters, the last of which may end in `=` or `==`, after which nothing may follow.
The encoding is not strict, so the unused low bits of a padded group are not checked. -/
def decodeQuanta : List Char → Option (List Nat)
  | [] => some []
  | a :: b :: c :: d :: rest =>
      if c = '=' ∧ d = '=' ∧ rest = [] then
        match dec a, dec b with
        | some x, some y =>
            let v := x * 262144 + y * 4096
            some [v / 65536 % 256]
        | _, _ => none
      else if d = '=' ∧ rest = [] then
        match dec a, dec b, dec c with
        | some x, some y, some z =>
            let v := x * 262144 + y * 4096 + z * 64
            some [v / 65536 % 256, v / 256 % 256]
        | _, _, _ => none
      else
        match dec a, dec b, dec c, dec d, decodeQuanta rest with
        | some x, some y, some z, some w, some out =>
            let v := x * 262144 + y * 4096 + z * 64 + w
            some (v / 65536 % 256 :: v / 256 % 256 :: v % 256 :: out)
        | _, _, _, _, _ => none
  | _ => none

/-- `Encoding.DecodeString`: carriage returns and line feeds are ignored wherever they
stand; `none` is a `CorruptInputError`. -/
def DecodeString (s : String) : Option (List Nat) :=
  decodeQuanta (s.toList.filter fun c => c ≠ '\n' ∧ c ≠ '\r')

end Base64

/-! ## package time -/

/-- A `time.Time`, held as the civil reading of the instant in the time's own location:
`offset` is the location's offset in seconds east of UTC. -/
structure Time where
  year : Int
  month : Nat
  day : Nat
  hour : Nat
  min : Nat
  sec : Nat
  nsec : Nat
  offset : Int
deriving DecidableEq, Repr

namespace Time

/-- `time.isLeap`. -/
def isLeap (year : Int) : Bool :=
  year % 4 == 0 && (year % 100 != 0 || year % 400 == 0)

/-- `time.daysIn`. -/
def daysIn (m : Nat) (year : Int) : Nat :=
  if m = 2 then (if isLeap year then 29 else 28)
  else if m = 4 ∨ m = 6 ∨ m = 9 ∨ m = 11 then 30
  else 31

/-- The readings that denote an instant: a calendar day and a time of day. -/
def Valid (t : Time) : Prop :=
  1 ≤ t.month ∧ t.month ≤ 12 ∧ 1 ≤ t.day ∧ t.day ≤ daysIn t.month t.year ∧
    t.hour < 24 ∧ t.min < 60 ∧ t.sec < 60 ∧ t.nsec < 1000000000

instance (t : Time) : Decidable t.Valid := by unfold Valid; infer_instance

/-- The zero `time.Time`: January 1, year 1, 00:00:00 UTC. -/
def zero : Time := ⟨1, 1, 1, 0, 0, 0, 0, 0⟩

/-- The calendar day after `(year, month, day)`. -/
def nextDay (d : Int × Nat × Nat) : Int × Nat × Nat :=
  if d.2.2 < daysIn d.2.1 d.1 then (d.1, d.2.1, d.2.2 + 1)
  else if d.2.1 < 12 then (d.1, d.2.1 + 1, 1)
  else (d.1 + 1, 1, 1)

/-- The calendar day before `(year, month, day)`. -/
def prevDay (d : Int × Nat × Nat) : Int × Nat × Nat :=
  if 1 < d.2.2 then (d.1, d.2.1, d.2.2 - 1)
  else if 1 < d.2.1 then (d.1, d.2.1 - 1, daysIn (d.2.1 - 1) d.1)
  else (d.1 - 1, 12, 31)

/-- The calendar day `n` days away. -/
def addDays (d : Int × Nat × Nat) (n : Int) : Int × Nat × Nat :=
  if 0 ≤ n then Nat.iterate nextDay n.toNat d else Nat.iterate prevDay (-n).toNat d

/-- The same instant read in a location `offset` seconds east of UTC. -/
def inZone (t : Time) (offset : Int) : Time :=
  let total : Int := (t.hour * 3600 + t.min * 60 + t.sec : Nat) + (offset - t.offset)
  let d := addDays (t.year, t.month, t.day) (total / 86400)
  let s := (total % 86400).toNat
  { year := d.1, month := d.2.1, day := d.2.2,
    hour := s / 3600, min := s / 60 % 60, sec := s % 60, nsec := t.nsec, offset := offset }

/-- `Time.UTC`. -/
def UTC (t : Time) : Time := t.inZone 0

/-- `Time.Add` for a duration of whole seconds. -/
def AddSeconds (t : Time) (d : Int) : Time :=
  { (inZone { t with offset := 0 } d) with offset := t.offset }

/-- `Time.Before`: the instant of `t` is earlier than that of `u`. -/
def Before (t u : Time) : Bool :=
  let a := t.UTC
  let b := u.UTC
  if a.year ≠ b.year then decide (a.year < b.year)
  else if a.month ≠ b.month then decide (a.month < b.month)
  else if a.day ≠ b.day then decide (a.day < b.day)
  else if a.hour ≠ b.hour then decide (a.hour < b.hour)
  else if a.min ≠ b.min then decide (a.min < b.min)
  else if a.sec ≠ b.sec then decide (a.sec < b.sec)
  else decide (a.nsec < b.nsec)

/-- `Time.Equal`: the two values denote the same instant. -/
def Equal (t u : Time) : Bool := t.UTC.year == u.UTC.year && t.UTC.month == u.UTC.month &&
  t.UTC.day == u.UTC.day && t.UTC.hour == u.UTC.hour && t.UTC.min == u.UTC.min &&
  t.UTC.sec == u.UTC.sec && t.UTC.nsec == u.UTC.nsec

/-- The `width` low-order decimal digits of `u`, most significant first, as ASCII. -/
def lowDigits : Nat → Nat → List Nat
  | 0, _ => []
  | w + 1, u => lowDigits w (u / 10) ++ [48 + u % 10]

/-- `time.appendInt`: the decimal form of `x`, zero-padded to `width` digits, after a
minus sign when `x` is negative. -/
def appendInt (x : Int) (width : Nat) : List Nat :=
  let u := x.natAbs
  (if x < 0 then [45] else []) ++
    (if u < 10 ^ width then lowDigits width u else (Nat.toDigits 10 u).map Char.toNat)

/-- The trailing-zero trimming loop of `time.appendNano`. -/
def trimZeros (b : List Nat) : List Nat := (b.reverse.dropWhile (· == 48)).reverse

/-- `time.appendNano` for the layout element `.999999999`: nothing for a zero fraction,
else a period and the nine digits without their trailing zeros. -/
def appendNano (nanosec : Nat) : List Nat :=
  if nanosec = 0 then []
  else
    let b := trimZeros (46 :: appendInt nanosec 9)
    if b.getLast? = some 46 then b.dropLast else b

/-- The layout element `Z07:00` of `Time.Format`. -/
def appendZone (offset : Int) : List Nat :=
  if offset = 0 then [90]
  else
    let zone := Int.tdiv offset 60
    (if zone < 0 then [45] else [43]) ++ appendInt (zone.natAbs / 60) 2 ++ [58] ++
      appendInt (zone.natAbs % 60) 2

/-- `Time.Format(time.RFC3339Nano)`, layout `2006-01-02T15:04:05.999999999Z07:00`. -/
def FormatRFC3339Nano (t : Time) : List Nat :=
  appendInt t.year 4 ++ [45] ++ appendInt t.month 2 ++ [45] ++ appendInt t.day 2 ++ [84] ++
    appendInt t.hour 2 ++ [58] ++ appendInt t.min 2 ++ [58] ++ appendInt t.sec 2 ++
    appendNano t.nsec ++ appendZone t.offset

/-- `time.isDigit` on one byte. -/
def isDigit (b : Nat) : Bool := decide (48 ≤ b) && decide (b ≤ 57)

/-- `time.getnum`: a one- or two-digit number, exactly two digits when `fixed`. -/
def getnum : List Nat → Bool → Option (Nat × List Nat)
  | [], _ => none
  | [a], fixed => if isDigit a && !fixed then some (a - 48, []) else none
  | a :: b :: rest, fixed =>
      if !isDigit a then none
      else if !isDigit b then (if fixed then none else some (a - 48, b :: rest))
      else some ((a - 48) * 10 + (b - 48), rest)

/-- The layout element `2006` of `time.Parse`: exactly four digits. -/
def getYear : List Nat → Option (Nat × List Nat)
  | a :: b :: c :: d :: rest =>
      if isDigit a && isDigit b && isDigit c && isDigit d then
        some ((a - 48) * 1000 + (b - 48) * 100 + (c - 48) * 10 + (d - 48), rest)
      else none
  | _ => none

/-- `time.skip` for a one-byte literal of the layout. -/
def skip (lit : Nat) : List Nat → Option (List Nat)
  | [] => none
  | a :: rest => if a = lit then some rest else none

/-- The value of a run of ASCII digits (`time.atoi` on digits). -/
def digitsVal (ds : List Nat) : Nat := ds.foldl (fun acc d => acc * 10 + (d - 48)) 0

/-- The layout element `.999999999` of `time.Parse`: an optional fraction introduced by a
period or a comma; every digit is consumed and the first nine count
(`time.parseNanoseconds`). -/
def getFrac : List Nat → Nat × List Nat
  | sep :: d :: rest =>
      if (sep = 46 ∨ sep = 44) ∧ isDigit d then
        let ds := (d :: rest).takeWhile isDigit
        let used := ds.take 9
        (digitsVal used * 10 ^ (9 - used.length), (d :: rest).dropWhile isDigit)
      else (0, sep :: d :: rest)
  | v => (0, v)

/-- The layout element `Z07:00` of `time.Parse`: `Z`, or a sign, two digits, a colon and
two digits, with the hour at most 24 and the minute at most 60. -/
def getZone : List Nat → Option (Int × List Nat)
  | [] => none
  | z :: rest =>
      if z = 90 then some (0, rest)
      else
        match rest with
        | h1 :: h2 :: colon :: m1 :: m2 :: rest =>
            if colon ≠ 58 then none
            else
              match getnum [h1, h2] true, getnum [m1, m2] true with
              | some (hr, _), some (mm, _) =>
                  if 24 < hr ∨ 60 < mm then none
                  else if z = 43 then some ((((hr * 60 + mm) * 60 : Nat) : Int), rest)
                  else if z = 45 then some (-(((hr * 60 + mm) * 60 : Nat) : Int), rest)
                  else none
              | _, _ => none
        | _ => none

/-- A range test of `time.Parse`. -/
def require (ok : Bool) : Option Unit := if ok then some () else none

/-- The layout elements `2006-01-02` of `time.Parse`: year, month (1 to 12) and a
two-digit day, which is checked against the month once the whole value is read. -/
def getDate (value : List Nat) : Option ((Nat × Nat × Nat) × List Nat) :=
  (getYear value).bind fun y =>
  (skip 45 y.2).bind fun v =>
  (getnum v true).bind fun m =>
  (require (decide (1 ≤ m.1 ∧ m.1 ≤ 12))).bind fun _ =>
  (skip 45 m.2).bind fun v =>
  (getnum v true).bind fun d =>
  some ((y.1, m.1, d.1), d.2)

/-- The layout elements `15:04:05` of `time.Parse`; the hour may have one digit. -/
def getClock (value : List Nat) : Option ((Nat × Nat × Nat) × List Nat) :=
  (getnum value false).bind fun h =>
  (require (decide (h.1 < 24))).bind fun _ =>
  (skip 58 h.2).bind fun v =>
  (getnum v true).bind fun m =>
  (require (decide (m.1 < 60))).bind fun _ =>
  (skip 58 m.2).bind fun v =>
  (getnum v true).bind fun s =>
  (require (decide (s.1 < 60))).bind fun _ =>
  some ((h.1, m.1, s.1), s.2)

/-- `time.Parse(time.RFC3339Nano, value)`; `none` stands for a `*time.ParseError`. -/
def ParseRFC3339Nano (value : List Nat) : Option Time :=
  (getDate value).bind fun d =>
  (skip 84 d.2).bind fun v =>
  (getClock v).bind fun c =>
  (getZone (getFrac c.2).2).bind fun z =>
  (require (decide (z.2 = []))).bind fun _ =>
  (require (decide (1 ≤ d.1.2.2 ∧ d.1.2.2 ≤ daysIn d.1.2.1 (d.1.1 : Int)))).bind fun _ =>
  some { year := (d.1.1 : Int), month := d.1.2.1, day := d.1.2.2, hour := c.1.1,
         min := c.1.2.1, sec := c.1.2.2, nsec := (getFrac c.2).1, offset := z.1 }

end Time

/-! ## package github.com/google/uuid -/

/-- A `uuid.UUID`: an array of 16 bytes. -/
structure UUID where
  bytes : List Nat
deriving DecidableEq, Repr

namespace UUID

/-- The values of the Go type: exactly 16 bytes. -/
def WF (id : UUID) : Prop := id.bytes.length = 16 ∧ ∀ b ∈ id.bytes, b < 256

instance (id : UUID) : Decidable id.WF := by unfold WF; infer_instance

/-- `uuid.Nil`. -/
def Nil : UUID := ⟨List.replicate 16 0⟩

/-- One digit of `hex.Encode` (lower case). -/
def hexDigit (n : Nat) : Nat := ("0123456789abcdef".toList.getD n '0').toNat

/-- `hex.Encode`. -/
def hexEncode : List Nat → List Nat
  | [] => []
  | b :: rest => hexDigit (b / 16) :: hexDigit (b % 16) :: hexEncode rest

/-- `UUID.String` (`encodeHex`): the form `xxxxxxxx-xxxx-xxxx-xxxx-xxxxxxxxxxxx`. -/
def String (id : UUID) : List Nat :=
  hexEncode (id.bytes.take 4) ++ [45] ++ hexEncode ((id.bytes.drop 4).take 2) ++ [45] ++
    hexEncode ((id.bytes.drop 6).take 2) ++ [45] ++ hexEncode ((id.bytes.drop 8).take 2) ++
    [45] ++ hexEncode (id.bytes.drop 10)

/-- The table `xvalues`: the value of a hexadecimal digit of either case, `none` for the
entry 255 of every other byte. -/
def xvalue (c : Nat) : Option Nat :=
  if 48 ≤ c ∧ c ≤ 57 then some (c - 48)
  else if 97 ≤ c ∧ c ≤ 102 then some (c - 87)
  else if 65 ≤ c ∧ c ≤ 70 then some (c - 55)
  else none

/-- `xtob`: the byte written by two hexadecimal digits. -/
def xtob (x1 x2 : Nat) : Option Nat :=
  match xvalue x1, xvalue x2 with
  | some b1, some b2 => some (b1 * 16 + b2)
  | _, _ => none

/-- The pairs of digits at the given offsets of `s`. -/
def hexAt (s : List Nat) : List Nat → Option (List Nat)
  | [] => some []
  | x :: xs =>
      match xtob (s.getD x 0) (s.getD (x + 1) 0), hexAt s xs with
      | some b, some rest => some (b :: rest)
      | _, _ => none

/-- The common tail of `uuid.Parse`: `s` holds at least 36 bytes, of which the first 36
are read: hyphens at 8, 13, 18 and 23 and digit pairs elsewhere. -/
def parseStandard (s : List Nat) : Option UUID :=
  if s.getD 8 0 ≠ 45 ∨ s.getD 13 0 ≠ 45 ∨ s.getD 18 0 ≠ 45 ∨ s.getD 23 0 ≠ 45 then none
  else (hexAt s [0, 2, 4, 6, 9, 11, 14, 16, 19, 21, 24, 26, 28, 30, 32, 34]).map UUID.mk

/-- ASCII lower case of one byte. -/
def lowerByte (c : Nat) : Nat := if 65 ≤ c ∧ c ≤ 90 then c + 32 else c

/-- `uuid.Parse`: the standard 36-byte form, the same after `urn:uuid:` (in any case),
the same between two bytes that are not examined, or 32 hexadecimal digits; `none` stands
for the error. -/
def Parse (s : List Nat) : Option UUID :=
  if s.length = 36 then parseStandard s
  else if s.length = 36 + 9 then
    if (s.take 9).map lowerByte = [117, 114, 110, 58, 117, 117, 105, 100, 58] then
      parseStandard (s.drop 9)
    else none
  else if s.length = 36 + 2 then parseStandard (s.drop 1)
  else if s.length = 32 then
    (hexAt s [0, 2, 4, 6, 8, 10, 12, 14, 16, 18, 20, 22, 24, 26, 28, 30]).map UUID.mk
  else none

end UUID

/-! ## package strings (byte level) -/

/-- `strings.Split(s, sep)` for a one-byte separator. -/
def Split (sep : Nat) : List Nat → List (List Nat)
  | [] => [[]]
  | b :: rest =>
      if b = sep then [] :: Split sep rest
      else
        match Split sep rest with
        | [] => [[b]]
        | part :: parts => (b :: part) :: parts

/-! ## errors.go -/

/-- `ErrorCode` is a string type. -/
abbrev ErrorCode := String

def CodeBadUserInput : ErrorCode := "BAD_USER_INPUT"
def CodeNotFound : ErrorCode := "NOT_FOUND"
def CodeConflict : ErrorCode := "CONFLICT"
def CodeInternal : ErrorCode := "INTERNAL"

/-- An error value of the storage driver, by what the service can observe of it:
whether `errors.Is(err, pgx.ErrNoRows)` holds, the `Code` of the `*pgconn.PgError` that
`errors.As` finds in it (if any), and its text. -/
structure StorageError where
  noRows : Bool
  pgCode : Option String
  text : String
deriving DecidableEq, Repr

/-- A non-nil Go `error` of this program: an error of the storage driver, or an
`*AppError` with its `Code`, `Message` and wrapped `Err` (`app` when `Err` is nil). -/
inductive GoError where
  | storage (e : StorageError)
  | app (Code : ErrorCode) (Message : String)
  | appWrap (Code : ErrorCode) (Message : String) (Err : GoError)
deriving DecidableEq, Repr

/-- An `*AppError` holding `err` (possibly nil) as its cause. -/
def mkAppError (code : ErrorCode) (msg : String) : Option GoError → GoError
  | none => .app code msg
  | some e => .appWrap code msg e

def NewBadInput (msg : String) : GoError := .app CodeBadUserInput msg
def NewNotFound (msg : String) : GoError := .app CodeNotFound msg
def NewConflict (msg : String) (err : Option GoError) : GoError := mkAppError CodeConflict msg err
def NewInternal (msg : String) (err : Option GoError) : GoError := mkAppError CodeInternal msg err

/-! ## types.go: the cursor codec -/

/-- The struct `cursor`. -/
structure cursor where
  CreatedAt : Time
  ID : UUID
deriving DecidableEq, Repr

/-- The zero value `cursor{}`. -/
def cursor.zero : cursor := ⟨Time.zero, UUID.Nil⟩

/-- The bytes of `fmt.Sprintf("%s|%s", createdAt.UTC().Format(time.RFC3339Nano),
id.String())`. -/
def cursorText (createdAt : Time) (id : UUID) : List Nat :=
  createdAt.UTC.FormatRFC3339Nano ++ [124] ++ id.String

def encodeCursor (createdAt : Time) (id : UUID) : String :=
  Base64.EncodeToString (cursorText createdAt id)

def decodeCursor (raw : String) : cursor × Option GoError :=
  match Base64.DecodeString raw with
  | none => (cursor.zero, some (NewBadInput "invalid cursor"))
  | some decoded =>
      let parts := Split 124 decoded
      if parts.length ≠ 2 then (cursor.zero, some (NewBadInput "invalid cursor"))
      else
        match Time.ParseRFC3339Nano (parts.getD 0 []) with
        | none => (cursor.zero, some (NewBadInput "invalid cursor"))
        | some t =>
            match UUID.Parse (parts.getD 1 []) with
            | none => (cursor.zero, some (NewBadInput "invalid cursor"))
            | some id => ({ CreatedAt := t.UTC, ID := id }, none)


/-! ## package strings and strconv (text level) -/

/-- The tables of package `unicode` that the service reaches through `strings.ToUpper`
and the verb `%q`. They are data of the Go distribution and are taken as parameters:
`upper` and `lower` are `unicode.To(unicode.UpperCase, r)` and
`unicode.To(unicode.LowerCase, r)` for `r` above `unicode.MaxASCII`, and `isPrint` is `strconv.IsPrint(r)` for `r` above `0xFF`. -/
structure UnicodeTables where
  upper : Char → Char
  lower : Char → Char
  isPrint : Char → Bool

/-- `unicode.IsSpace`: the code points with the property White_Space. -/
def isSpace (c : Char) : Bool :=
  let n := c.toNat
  (decide (9 ≤ n) && decide (n ≤ 13)) || n == 0x20 || n == 0x85 || n == 0xA0 || n == 0x1680 ||
    (decide (0x2000 ≤ n) && decide (n ≤ 0x200A)) || n == 0x2028 || n == 0x2029 || n == 0x202F ||
    n == 0x205F || n == 0x3000

/-- `strings.TrimSpace`. -/
def TrimSpace (s : String) : String :=
  String.mk ((s.toList.dropWhile isSpace).reverse.dropWhile isSpace).reverse

/-- `unicode.ToUpper`. -/
def toUpperRune (U : UnicodeTables) (c : Char) : Char :=
  if c.toNat ≤ 0x7F then
    (if 'a'.toNat ≤ c.toNat ∧ c.toNat ≤ 'z'.toNat then Char.ofNat (c.toNat - 32) else c)
  else U.upper c

/-- `strings.ToUpper`. -/
def ToUpper (U : UnicodeTables) (s : String) : String := String.mk (s.toList.map (toUpperRune U))

/-- `unicode.ToLower`. -/
def toLowerRune (U : UnicodeTables) (c : Char) : Char :=
  if c.toNat ≤ 0x7F then
    (if 'A'.toNat ≤ c.toNat ∧ c.toNat ≤ 'Z'.toNat then Char.ofNat (c.toNat + 32) else c)
  else U.lower c

/-- `strings.ToLower`. -/
def ToLower (U : UnicodeTables) (s : String) : String := String.mk (s.toList.map (toLowerRune U))

/-- `strconv.IsPrint`. -/
def IsPrint (U : UnicodeTables) (c : Char) : Bool :=
  let n := c.toNat
  if n ≤ 0xFF then
    (decide (0x20 ≤ n) && decide (n < 0x7F)) || (decide (0xA1 ≤ n) && n != 0xAD)
  else U.isPrint c

/-- One digit of the table `lowerhex`. -/
def lowerhex (n : Nat) : Char := "0123456789abcdef".toList.getD n '0'

/-- `strconv.appendEscapedRune` for the quote `"`, neither ASCII-only nor graphic-only. -/
def escapedRune (U : UnicodeTables) (c : Char) : List Char :=
  let n := c.toNat
  if c = '"' ∨ c = '\\' then ['\\', c]
  else if IsPrint U c then [c]
  else if n = 7 then ['\\', 'a']
  else if n = 8 then ['\\', 'b']
  else if n = 12 then ['\\', 'f']
  else if n = 10 then ['\\', 'n']
  else if n = 13 then ['\\', 'r']
  else if n = 9 then ['\\', 't']
  else if n = 11 then ['\\', 'v']
  else if n < 0x20 ∨ n = 0x7F then ['\\', 'x', lowerhex (n / 16 % 16), lowerhex (n % 16)]
  else if n < 0x10000 then
    ['\\', 'u', lowerhex (n / 4096 % 16), lowerhex (n / 256 % 16), lowerhex (n / 16 % 16),
      lowerhex (n % 16)]
  else
    ['\\', 'U', lowerhex (n / 268435456 % 16), lowerhex (n / 16777216 % 16),
      lowerhex (n / 1048576 % 16), lowerhex (n / 65536 % 16), lowerhex (n / 4096 % 16),
      lowerhex (n / 256 % 16), lowerhex (n / 16 % 16), lowerhex (n % 16)]

/-- `strconv.Quote`, the text written for the verb `%q`. -/
def Quote (U : UnicodeTables) (s : String) : String :=
  String.mk ('"' :: (s.toList.flatMap (escapedRune U) ++ ['"']))

/-- The UTF-8 encoding of one code point (`utf8.AppendRune`). -/
def utf8Bytes (c : Char) : List Nat :=
  let n := c.toNat
  if n < 0x80 then [n]
  else if n < 0x800 then [0xC0 + n / 64, 0x80 + n % 64]
  else if n < 0x10000 then [0xE0 + n / 4096, 0x80 + n / 64 % 64, 0x80 + n % 64]
  else [0xF0 + n / 262144, 0x80 + n / 4096 % 64, 0x80 + n / 64 % 64, 0x80 + n % 64]

/-- The bytes of a Go string holding the text `s`. -/
def bytesOf (s : String) : List Nat := s.toList.flatMap utf8Bytes

/-! ## types.go: identifiers and database values -/

deriving instance DecidableEq for Except

def parseUUID (input : String) (fieldName : String) : Except GoError UUID :=
  match UUID.Parse (bytesOf (TrimSpace input)) with
  | none => .error (NewBadInput (fieldName ++ " must be a valid UUID"))
  | some id => .ok id

/-- The type `pgtype.UUID`. -/
structure PgUUID where
  Bytes : UUID
  Valid : Bool
deriving DecidableEq, Repr

/-- The type `pgtype.Timestamptz`. -/
structure PgTime where
  Time : Time
  Valid : Bool
deriving DecidableEq, Repr

def toPgUUID (id : UUID) : PgUUID := { Bytes := id, Valid := true }

def fromPgUUID (v : PgUUID) : UUID := if !v.Valid then UUID.Nil else v.Bytes

def toPgUUIDPtr (id : Option UUID) : PgUUID :=
  match id with
  | none => { Bytes := UUID.Nil, Valid := false }
  | some id => toPgUUID id

def toPgTime (t : Option Time) : PgTime :=
  match t with
  | none => { Time := Time.zero, Valid := false }
  | some t => { Time := t.UTC, Valid := true }

def fromPgTime (v : PgTime) : Option Time := if !v.Valid then none else some v.Time.UTC

/-- The struct `PageResult[T]`. -/
structure PageResult (T : Type) where
  Items : List T
  EndCursor : Option String
  HasNextPage : Bool
deriving DecidableEq, Repr

structure UpsertMeInput where
  Name : String
  Email : String
  Timezone : String
  AvatarURL : Option String
deriving DecidableEq, Repr

structure CreateProjectInput where
  Title : String
  Description : Option String
  Color : Option String
deriving DecidableEq, Repr

structure UpdateProjectInput where
  ID : String
  Title : String
  Description : Option String
  Color : Option String
deriving DecidableEq, Repr

structure CreateLabelInput where
  Name : String
deriving DecidableEq, Repr

structure UpdateLabelInput where
  ID : String
  Name : String
deriving DecidableEq, Repr

/-- The struct `CreateTaskInput`; a nil `LabelIDs` slice is `none`. -/
structure CreateTaskInput where
  ProjectID : String
  ParentTaskID : Option String
  Title : String
  Description : Option String
  Status : String
  Priority : String
  StartAt : Option Time
  DueAt : Option Time
  LabelIDs : Option (List String)
deriving DecidableEq, Repr

/-- The struct `UpdateTaskInput`; a nil `LabelIDs` slice is `none`. -/
structure UpdateTaskInput where
  ID : String
  Title : Option String
  Description : Option String
  Status : Option String
  Priority : Option String
  StartAt : Option Time
  DueAt : Option Time
  LabelIDs : Option (List String)
deriving DecidableEq, Repr

structure DeleteResult where
  ID : UUID
  DeletedAt : Time
deriving DecidableEq, Repr

/-! ## service.go: validators and pagination -/

def defaultTaskStatus : String := "TODO"
def defaultTaskPriority : String := "P3"

/-- The keys of the map `validStatuses`. -/
def validStatuses : List String := ["TODO", "IN_PROGRESS", "BLOCKED", "DONE"]

/-- The keys of the map `validPriorities`. -/
def validPriorities : List String := ["P1", "P2", "P3", "P4", "P5"]

def normalizeStatus (U : UnicodeTables) (v : String) : Except GoError String :=
  let v := TrimSpace (ToUpper U v)
  if v = "" then .ok defaultTaskStatus
  else if v ∉ validStatuses then .error (NewBadInput ("invalid status " ++ Quote U v))
  else .ok v

def normalizePriority (U : UnicodeTables) (v : String) : Except GoError String :=
  let v := TrimSpace (ToUpper U v)
  if v = "" then .ok defaultTaskPriority
  else if v ∉ validPriorities then .error (NewBadInput ("invalid priority " ++ Quote U v))
  else .ok v

/-- The loop of `normalizeFilters`: `out` holds the values kept so far (the map `seen` has
the same keys). -/
def normalizeFiltersLoop (normalize : String → Except GoError String) :
    List String → List String → Except GoError (List String)
  | [], out => .ok out
  | item :: rest, out =>
      match normalize item with
      | .error err => .error err
      | .ok v =>
          if v ∈ out then normalizeFiltersLoop normalize rest out
          else normalizeFiltersLoop normalize rest (out ++ [v])

def normalizeFilters (input : List String) (normalize : String → Except GoError String) :
    Except GoError (List String) :=
  if input.length = 0 then .ok [] else normalizeFiltersLoop normalize input []

/-- The loop of `parseUUIDList`. -/
def parseUUIDListLoop (field : String) : List String → List UUID → Except GoError (List UUID)
  | [], out => .ok out
  | raw :: rest, out =>
      match parseUUID raw field with
      | .error err => .error err
      | .ok id =>
          if id ∈ out then parseUUIDListLoop field rest out
          else parseUUIDListLoop field rest (out ++ [id])

def parseUUIDList (ids : List String) (field : String) : Except GoError (List UUID) :=
  if ids.length = 0 then .ok [] else parseUUIDListLoop field ids []

/-- One hexadecimal digit, the class `[0-9A-Fa-f]`. -/
def isHexDigit (c : Char) : Bool :=
  (decide ('0' ≤ c) && decide (c ≤ '9')) || (decide ('A' ≤ c) && decide (c ≤ 'F')) ||
    (decide ('a' ≤ c) && decide (c ≤ 'f'))

/-- `colorPattern.MatchString`, the pattern `^#[0-9A-Fa-f]{6}$`. -/
def colorPatternMatch (s : String) : Bool :=
  match s.toList with
  | c :: digits => c == '#' && digits.length == 6 && digits.all isHexDigit
  | [] => false

/-- `validateColor`: the error, and the value `*color` holds afterwards. -/
def validateColor (U : UnicodeTables) (color : Option String) : Option String × Option GoError :=
  match color with
  | none => (none, none)
  | some c =>
      let trimmed := TrimSpace c
      if trimmed = "" then
        (some c, some (NewBadInput "color cannot be empty; omit it or use #RRGGBB"))
      else if !colorPatternMatch trimmed then
        (some c, some (NewBadInput "color must be in #RRGGBB format"))
      else (some (ToUpper U trimmed), none)

def validateSchedule (startAt dueAt : Option Time) : Option GoError :=
  match startAt, dueAt with
  | some s, some d =>
      if d.Before s then some (NewBadInput "dueAt must be after or equal to startAt") else none
  | _, _ => none

def normalizePageSize (first defaultValue maxValue : Int) : Int :=
  if first ≤ 0 then defaultValue
  else if first > maxValue then maxValue
  else first

/-- `paginateRows`; `none` is the run-time panic of slicing `rows[:limit]` with a negative
`limit`. -/
def paginateRows {T : Type} (rows : List T) (limit : Int) (cursorFn : T → String) :
    Option (PageResult T) :=
  if (rows.length : Int) > limit then
    if limit < 0 then none
    else
      let rows := rows.take limit.toNat
      some { Items := rows, EndCursor := rows.getLast?.map cursorFn, HasNextPage := true }
  else
    some { Items := rows, EndCursor := rows.getLast?.map cursorFn, HasNextPage := false }


/-! ## package internal/db/sqlc: rows, parameters and queries -/

/-- Modelled from the spec: the generated package `internal/db/sqlc` is not among the
sources. The row `sqlc.User`, with the fields that service.go and mapper.go read. -/
structure User where
  ID : PgUUID
  Name : String
  Email : String
  Timezone : String
  AvatarUrl : Option String
  CreatedAt : PgTime
  UpdatedAt : PgTime
deriving DecidableEq, Repr

/-- Modelled from the spec: the row `sqlc.Project` of the missing package. -/
structure Project where
  ID : PgUUID
  UserID : PgUUID
  Title : String
  Description : Option String
  Color : Option String
  CreatedAt : PgTime
  UpdatedAt : PgTime
  DeletedAt : PgTime
deriving DecidableEq, Repr

/-- Modelled from the spec: the row `sqlc.Label` of the missing package. -/
structure Label where
  ID : PgUUID
  UserID : PgUUID
  Name : String
  CreatedAt : PgTime
  UpdatedAt : PgTime
  DeletedAt : PgTime
deriving DecidableEq, Repr

/-- Modelled from the spec: the row `sqlc.Task` of the missing package. -/
structure Task where
  ID : PgUUID
  UserID : PgUUID
  ProjectID : PgUUID
  ParentTaskID : PgUUID
  Title : String
  Description : Option String
  Status : String
  Priority : String
  StartAt : PgTime
  DueAt : PgTime
  CompletedAt : PgTime
  CreatedAt : PgTime
  UpdatedAt : PgTime
  DeletedAt : PgTime
deriving DecidableEq, Repr

/-- Modelled from the spec: what the soft-delete queries of the missing package return, of
which service.go reads `ID` and `DeletedAt`. -/
structure DeletedRow where
  ID : PgUUID
  DeletedAt : PgTime
deriving DecidableEq, Repr

structure UpsertUserByEmailParams where
  Name : String
  Email : String
  Timezone : String
  AvatarUrl : Option String
deriving DecidableEq, Repr

structure CreateProjectParams where
  UserID : PgUUID
  Title : String
  Description : Option String
  Color : Option String
deriving DecidableEq, Repr

structure UpdateProjectParams where
  ID : PgUUID
  UserID : PgUUID
  Title : String
  Description : Option String
  Color : Option String
deriving DecidableEq, Repr

structure SoftDeleteProjectParams where
  ID : PgUUID
  UserID : PgUUID
deriving DecidableEq, Repr

structure SoftDeleteTasksByProjectParams where
  ProjectID : PgUUID
  UserID : PgUUID
deriving DecidableEq, Repr

structure GetProjectByIDParams where
  ID : PgUUID
  UserID : PgUUID
deriving DecidableEq, Repr

structure ListProjectsParams where
  UserID : PgUUID
  Column2 : Bool
  Column3 : PgTime
  Column4 : PgUUID
  Limit : Int
deriving DecidableEq, Repr

structure CreateLabelParams where
  UserID : PgUUID
  Name : String
deriving DecidableEq, Repr

structure UpdateLabelParams where
  ID : PgUUID
  UserID : PgUUID
  Name : String
deriving DecidableEq, Repr

structure SoftDeleteLabelParams where
  ID : PgUUID
  UserID : PgUUID
deriving DecidableEq, Repr

structure ListLabelsParams where
  UserID : PgUUID
  Column2 : Bool
  Column3 : PgTime
  Column4 : PgUUID
  Limit : Int
deriving DecidableEq, Repr

structure GetTaskByIDParams where
  ID : PgUUID
  UserID : PgUUID
deriving DecidableEq, Repr

structure CreateTaskParams where
  UserID : PgUUID
  ProjectID : PgUUID
  ParentTaskID : PgUUID
  Title : String
  Description : Option String
  Status : String
  Priority : String
  StartAt : PgTime
  DueAt : PgTime
  CompletedAt : PgTime
deriving DecidableEq, Repr

structure UpdateTaskParams where
  ID : PgUUID
  UserID : PgUUID
  Title : String
  Description : Option String
  Status : String
  Priority : String
  StartAt : PgTime
  DueAt : PgTime
  CompletedAt : PgTime
deriving DecidableEq, Repr

structure SoftDeleteTaskParams where
  ID : PgUUID
  UserID : PgUUID
deriving DecidableEq, Repr

structure SoftDeleteDirectSubtasksParams where
  ParentTaskID : PgUUID
  UserID : PgUUID
deriving DecidableEq, Repr

structure ListRootTasksParams where
  UserID : PgUUID
  ProjectID : PgUUID
  Column3 : List String
  Column4 : List String
  Column5 : Bool
  Column6 : PgTime
  Column7 : PgUUID
  Limit : Int
deriving DecidableEq, Repr

structure ListSubtasksParams where
  UserID : PgUUID
  ProjectID : PgUUID
  ParentTaskID : PgUUID
  Column4 : List String
  Column5 : List String
  Column6 : Bool
  Column7 : PgTime
  Column8 : PgUUID
  Limit : Int
deriving DecidableEq, Repr

structure ListLabelsByTaskIDParams where
  TaskID : PgUUID
  UserID : PgUUID
deriving DecidableEq, Repr

structure ListSubtasksByParentIDParams where
  UserID : PgUUID
  ParentTaskID : PgUUID
deriving DecidableEq, Repr

structure GetLabelsByIDsParams where
  UserID : PgUUID
  Column2 : List PgUUID
deriving DecidableEq, Repr

structure InsertTaskLabelParams where
  TaskID : PgUUID
  LabelID : PgUUID
deriving DecidableEq, Repr

/-- A call that reaches the storage layer, with its arguments: the transaction control
of `pgxpool.Pool` and `pgx.Tx`, and the queries of `sqlc.Queries`. -/
inductive Call where
  | BeginTx
  | Commit
  | Rollback
  | UpsertUserByEmail (arg : UpsertUserByEmailParams)
  | GetUserByID (id : PgUUID)
  | CreateProject (arg : CreateProjectParams)
  | UpdateProject (arg : UpdateProjectParams)
  | SoftDeleteProject (arg : SoftDeleteProjectParams)
  | SoftDeleteTasksByProject (arg : SoftDeleteTasksByProjectParams)
  | GetProjectByID (arg : GetProjectByIDParams)
  | ListProjects (arg : ListProjectsParams)
  | CreateLabel (arg : CreateLabelParams)
  | UpdateLabel (arg : UpdateLabelParams)
  | SoftDeleteLabel (arg : SoftDeleteLabelParams)
  | DeleteTaskLabelsByLabelID (labelID : PgUUID)
  | ListLabels (arg : ListLabelsParams)
  | GetTaskByID (arg : GetTaskByIDParams)
  | CreateTask (arg : CreateTaskParams)
  | UpdateTask (arg : UpdateTaskParams)
  | SoftDeleteTask (arg : SoftDeleteTaskParams)
  | SoftDeleteDirectSubtasks (arg : SoftDeleteDirectSubtasksParams)
  | ListRootTasks (arg : ListRootTasksParams)
  | ListSubtasks (arg : ListSubtasksParams)
  | ListLabelsByTaskID (arg : ListLabelsByTaskIDParams)
  | ListSubtasksByParentID (arg : ListSubtasksByParentIDParams)
  | DeleteTaskLabelsForTask (taskID : PgUUID)
  | GetLabelsByIDs (arg : GetLabelsByIDsParams)
  | InsertTaskLabel (arg : InsertTaskLabelParams)
deriving DecidableEq, Repr

/-- The calls that are queries of `sqlc.Queries`. -/
def Call.isQuery : Call → Bool
  | .BeginTx => false
  | .Commit => false
  | .Rollback => false
  | _ => true

/-- Modelled from the spec: the Storage Gateway, that is `pgxpool.Pool`, `pgx.Tx` and the
generated `sqlc.Queries`, none of which is among the sources. Each entry acts on a storage
state `σ` and either fails with an error of the driver or returns its rows; no behaviour
is assumed of them. A query issued while a transaction is open runs in that transaction
(service.go passes the transactional handle to every query of a unit of work). -/
structure Queries (σ : Type) where
  BeginTx : σ → Option StorageError × σ
  Commit : σ → Option StorageError × σ
  Rollback : σ → Option StorageError × σ
  UpsertUserByEmail : UpsertUserByEmailParams → σ → Except StorageError User × σ
  GetUserByID : PgUUID → σ → Except StorageError User × σ
  CreateProject : CreateProjectParams → σ → Except StorageError Project × σ
  UpdateProject : UpdateProjectParams → σ → Except StorageError Project × σ
  SoftDeleteProject : SoftDeleteProjectParams → σ → Except StorageError DeletedRow × σ
  SoftDeleteTasksByProject : SoftDeleteTasksByProjectParams → σ → Except StorageError Unit × σ
  GetProjectByID : GetProjectByIDParams → σ → Except StorageError Project × σ
  ListProjects : ListProjectsParams → σ → Except StorageError (List Project) × σ
  CreateLabel : CreateLabelParams → σ → Except StorageError Label × σ
  UpdateLabel : UpdateLabelParams → σ → Except StorageError Label × σ
  SoftDeleteLabel : SoftDeleteLabelParams → σ → Except StorageError DeletedRow × σ
  DeleteTaskLabelsByLabelID : PgUUID → σ → Except StorageError Unit × σ
  ListLabels : ListLabelsParams → σ → Except StorageError (List Label) × σ
  GetTaskByID : GetTaskByIDParams → σ → Except StorageError Task × σ
  CreateTask : CreateTaskParams → σ → Except StorageError Task × σ
  UpdateTask : UpdateTaskParams → σ → Except StorageError Task × σ
  SoftDeleteTask : SoftDeleteTaskParams → σ → Except StorageError DeletedRow × σ
  SoftDeleteDirectSubtasks : SoftDeleteDirectSubtasksParams → σ → Except StorageError Unit × σ
  ListRootTasks : ListRootTasksParams → σ → Except StorageError (List Task) × σ
  ListSubtasks : ListSubtasksParams → σ → Except StorageError (List Task) × σ
  ListLabelsByTaskID : ListLabelsByTaskIDParams → σ → Except StorageError (List Label) × σ
  ListSubtasksByParentID : ListSubtasksByParentIDParams → σ → Except StorageError (List Task) × σ
  DeleteTaskLabelsForTask : PgUUID → σ → Except StorageError Unit × σ
  GetLabelsByIDs : GetLabelsByIDsParams → σ → Except StorageError (List Label) × σ
  InsertTaskLabel : InsertTaskLabelParams → σ → Except StorageError Unit × σ

/-! ## The service and how an operation runs -/

/-- The mutable fields of the struct `Service` (the store and the query timeout are left
out: deadlines are not modelled). -/
structure Service where
  defaultUser : UpsertMeInput
  defaultUserID : UUID
  defaultUserSet : Bool
deriving DecidableEq, Repr

/-- One storage call of a run, with the error it returned (`none` for nil). -/
structure Event where
  call : Call
  err : Option StorageError
deriving DecidableEq, Repr

/-- What a run of service code leaves behind: the value or error returned, the service
struct, the storage state, and the storage calls issued, in order. -/
structure Outcome (σ α : Type) where
  result : Except GoError α
  svc : Service
  db : σ
  events : List Event

/-- Service code: it runs from a service struct and a storage state. -/
def Op (σ α : Type) : Type := Service → σ → Outcome σ α

namespace Op

/-- `return a, nil`. -/
def ret {σ α : Type} (a : α) : Op σ α := fun s d => ⟨.ok a, s, d, []⟩

/-- `return zero, err`. -/
def fail {σ α : Type} (e : GoError) : Op σ α := fun s d => ⟨.error e, s, d, []⟩

/-- Sequencing: the rest runs unless the first part returned an error. -/
def andThen {σ α β : Type} (p : Op σ α) (f : α → Op σ β) : Op σ β := fun s d =>
  let o := p s d
  match o.result with
  | .error e => ⟨.error e, o.svc, o.db, o.events⟩
  | .ok a =>
      let o2 := f a o.svc o.db
      ⟨o2.result, o2.svc, o2.db, o.events ++ o2.events⟩

instance {σ : Type} : Monad (Op σ) where
  pure := ret
  bind := andThen

/-- The result of a validator, returned as it is when it is an error. -/
def check {σ α : Type} (r : Except GoError α) : Op σ α :=
  match r with
  | .ok a => ret a
  | .error e => fail e

/-- Reading the service struct. -/
def getService {σ : Type} : Op σ Service := fun s d => ⟨.ok s, s, d, []⟩

/-- Writing the service struct. -/
def setService {σ : Type} (s : Service) : Op σ Unit := fun _ d => ⟨.ok (), s, d, []⟩

/-- The statement `if cond { return zero, err }`. -/
def failIf {σ : Type} (cond : Prop) [Decidable cond] (err : GoError) : Op σ Unit :=
  if cond then fail err else ret ()

/-- The statement `if err := f(); err != nil { return zero, err }`. -/
def checkErr {σ : Type} (err : Option GoError) : Op σ Unit :=
  match err with
  | some e => fail e
  | none => ret ()

/-- One query: it is recorded and its result handed back. -/
def query {σ R : Type} (c : Call) (run : σ → Except StorageError R × σ) :
    Op σ (Except StorageError R) := fun s d =>
  let r := run d
  ⟨.ok r.1, s, r.2, [⟨c, match r.1 with | .ok _ => none | .error e => some e⟩]⟩

end Op

/-! ## store.go -/

/-- `Store.WithTx`. The unit of work `fn` returns, beside its error, the value it leaves
in the variable captured from the caller. Errors of `BeginTx` and of `Commit` are
returned as they are; the deferred `Rollback` runs on every path after a successful
`BeginTx` and its error is dropped. -/
def WithTx {σ α : Type} (Q : Queries σ) (fn : Op σ α) : Op σ α := fun s d =>
  match Q.BeginTx d with
  | (some err, d1) => ⟨.error (.storage err), s, d1, [⟨.BeginTx, some err⟩]⟩
  | (none, d1) =>
      let o := fn s d1
      match o.result with
      | .error err =>
          let r := Q.Rollback o.db
          ⟨.error err, o.svc, r.2, ⟨.BeginTx, none⟩ :: o.events ++ [⟨.Rollback, r.1⟩]⟩
      | .ok a =>
          let c := Q.Commit o.db
          let r := Q.Rollback c.2
          ⟨match c.1 with | some err => .error (.storage err) | none => .ok a, o.svc, r.2,
            ⟨.BeginTx, none⟩ :: o.events ++ [⟨.Commit, c.1⟩, ⟨.Rollback, r.1⟩]⟩

/-! ## service.go: the error classifier -/

/-- `errors.Is(err, pgx.ErrNoRows)`, following `AppError.Unwrap`. -/
def isNoRows : GoError → Bool
  | .storage e => e.noRows
  | .app _ _ => false
  | .appWrap _ _ e => isNoRows e

/-- `errors.As(err, &pgErr)` and the `Code` of the error found. -/
def pgCodeOf : GoError → Option String
  | .storage e => e.pgCode
  | .app _ _ => none
  | .appWrap _ _ e => pgCodeOf e

/-- The body of `wrapDBError` for an error that is not nil. -/
def classify (err : GoError) (fallback : String) : GoError :=
  if isNoRows err then NewNotFound fallback
  else
    match pgCodeOf err with
    | some code =>
        if code = "23505" then NewConflict "resource already exists" (some err)
        else if code = "23503" ∨ code = "23514" then
          NewBadInput "request violates data constraints"
        else NewInternal fallback (some err)
    | none => NewInternal fallback (some err)

def wrapDBError (err : Option GoError) (fallback : String) : Option GoError :=
  match err with
  | none => none
  | some e => some (classify e fallback)

/-- The statement `return zero, s.wrapDBError(err, fallback)` for the error of a query. -/
def failDB {σ α : Type} (err : StorageError) (fallback : String) : Op σ α :=
  Op.fail (classify (.storage err) fallback)

/-- The statements `row, err := q.F(ctx, arg); if err != nil { return zero,
s.wrapDBError(err, fallback) }`. -/
def exec {σ R : Type} (c : Call) (run : σ → Except StorageError R × σ) (fallback : String) :
    Op σ R := do
  match ← Op.query c run with
  | .error err => failDB err fallback
  | .ok row => Op.ret row

/-- The conversion `int32(x)`. -/
def toInt32 (x : Int) : Int := (x + 2147483648) % 4294967296 - 2147483648


/-! ## service.go: the operations -/

section Operations

variable {σ : Type}

open Op

def ensureDefaultUser (Q : Queries σ) : Op σ UUID := do
  let s ← getService
  if s.defaultUserSet && s.defaultUserID != UUID.Nil then
    ret s.defaultUserID
  else
    let arg : UpsertUserByEmailParams :=
      { Name := s.defaultUser.Name, Email := s.defaultUser.Email,
        Timezone := s.defaultUser.Timezone, AvatarUrl := s.defaultUser.AvatarURL }
    let user ← exec (.UpsertUserByEmail arg) (Q.UpsertUserByEmail arg)
      "failed to bootstrap default user"
    setService { s with defaultUserID := fromPgUUID user.ID, defaultUserSet := true }
    ret (fromPgUUID user.ID)

def userID (Q : Queries σ) : Op σ UUID := ensureDefaultUser Q

def Bootstrap (Q : Queries σ) : Op σ Unit := do
  let _ ← ensureDefaultUser Q
  ret ()

def Me (Q : Queries σ) : Op σ User := do
  let uid ← userID Q
  exec (.GetUserByID (toPgUUID uid)) (Q.GetUserByID (toPgUUID uid)) "user not found"

def UpsertMe (U : UnicodeTables) (Q : Queries σ) (input : UpsertMeInput) : Op σ User := do
  let name := TrimSpace input.Name
  let email := TrimSpace (ToLower U input.Email)
  let timezone := TrimSpace input.Timezone
  failIf (name = "") (NewBadInput "name is required")
  failIf (email = "") (NewBadInput "email is required")
  failIf (timezone = "") (NewBadInput "timezone is required")
  let arg : UpsertUserByEmailParams :=
    { Name := name, Email := email, Timezone := timezone, AvatarUrl := input.AvatarURL }
  let user ← exec (.UpsertUserByEmail arg) (Q.UpsertUserByEmail arg) "failed to update user"
  let s ← getService
  setService { s with defaultUserID := fromPgUUID user.ID, defaultUserSet := true }
  ret user

def CreateProject (U : UnicodeTables) (Q : Queries σ) (input : CreateProjectInput) :
    Op σ Project := do
  let uid ← userID Q
  let title := TrimSpace input.Title
  failIf (title = "") (NewBadInput "project title is required")
  let color := validateColor U input.Color
  checkErr color.2
  let arg : CreateProjectParams :=
    { UserID := toPgUUID uid, Title := title, Description := input.Description,
      Color := color.1 }
  exec (.CreateProject arg) (Q.CreateProject arg) "failed to create project"

def UpdateProject (U : UnicodeTables) (Q : Queries σ) (input : UpdateProjectInput) :
    Op σ Project := do
  let uid ← userID Q
  let id ← check (parseUUID input.ID "project id")
  let title := TrimSpace input.Title
  failIf (title = "") (NewBadInput "project title is required")
  let color := validateColor U input.Color
  checkErr color.2
  let arg : UpdateProjectParams :=
    { ID := toPgUUID id, UserID := toPgUUID uid, Title := title,
      Description := input.Description, Color := color.1 }
  exec (.UpdateProject arg) (Q.UpdateProject arg) "project not found"

/-- The unit of work that DeleteProject hands to `WithTx`. -/
def deleteProjectTx (Q : Queries σ) (uid projectID : UUID) : Op σ DeleteResult := do
  let a1 : SoftDeleteProjectParams := { ID := toPgUUID projectID, UserID := toPgUUID uid }
  let deleted ← exec (.SoftDeleteProject a1) (Q.SoftDeleteProject a1) "project not found"
  let a2 : SoftDeleteTasksByProjectParams :=
    { ProjectID := toPgUUID projectID, UserID := toPgUUID uid }
  let _ ← exec (.SoftDeleteTasksByProject a2) (Q.SoftDeleteTasksByProject a2)
    "failed to delete project tasks"
  ret { ID := fromPgUUID deleted.ID, DeletedAt := deleted.DeletedAt.Time.UTC }

def DeleteProject (Q : Queries σ) (id : String) : Op σ DeleteResult := do
  let uid ← userID Q
  let projectID ← check (parseUUID id "project id")
  WithTx Q (deleteProjectTx Q uid projectID)

/-- The end of `Service.Project` and of `Service.Task`: no matching row gives a nil
pointer and no error. -/
def orAbsent {R : Type} (r : Except StorageError R) (fallback : String) : Op σ (Option R) :=
  match r with
  | .error err => if isNoRows (.storage err) then ret none else failDB err fallback
  | .ok row => ret (some row)

/-- `Service.Project`; the nil pointer returned when no row matches is `none`. -/
def GetProject (Q : Queries σ) (id : String) : Op σ (Option Project) := do
  let uid ← userID Q
  let projectID ← check (parseUUID id "project id")
  let arg : GetProjectByIDParams := { ID := toPgUUID projectID, UserID := toPgUUID uid }
  let r ← query (.GetProjectByID arg) (Q.GetProjectByID arg)
  orAbsent r "failed to fetch project"

/-- The block that ListProjects, ListLabels and ListTasks repeat: the values of
`useCursor`, `cursorTime` and `cursorID` for the argument `after`. -/
def cursorArgs (after : Option String) : Except GoError (Bool × PgTime × PgUUID) :=
  match after with
  | none => .ok (false, { Time := Time.zero, Valid := false }, { Bytes := UUID.Nil, Valid := false })
  | some a =>
      if TrimSpace a ≠ "" then
        match decodeCursor a with
        | (_, some err) => .error err
        | (c, none) => .ok (true, toPgTime (some c.CreatedAt), toPgUUID c.ID)
      else .ok (false, { Time := Time.zero, Valid := false }, { Bytes := UUID.Nil, Valid := false })

/-- `Service.ListProjects`; a result `none` is the panic of `paginateRows`. -/
def ListProjects (Q : Queries σ) (first : Int) (after : Option String) :
    Op σ (Option (PageResult Project)) := do
  let uid ← userID Q
  let limit := normalizePageSize first 20 100
  let c ← check (cursorArgs after)
  let arg : ListProjectsParams :=
    { UserID := toPgUUID uid, Column2 := c.1, Column3 := c.2.1, Column4 := c.2.2,
      Limit := toInt32 (limit + 1) }
  let rows ← exec (.ListProjects arg) (Q.ListProjects arg) "failed to list projects"
  ret (paginateRows rows limit fun p => encodeCursor p.CreatedAt.Time.UTC (fromPgUUID p.ID))

def CreateLabel (Q : Queries σ) (input : CreateLabelInput) : Op σ Label := do
  let uid ← userID Q
  let name := TrimSpace input.Name
  failIf (name = "") (NewBadInput "label name is required")
  let arg : CreateLabelParams := { UserID := toPgUUID uid, Name := name }
  exec (.CreateLabel arg) (Q.CreateLabel arg) "failed to create label"

def UpdateLabel (Q : Queries σ) (input : UpdateLabelInput) : Op σ Label := do
  let uid ← userID Q
  let labelID ← check (parseUUID input.ID "label id")
  let name := TrimSpace input.Name
  failIf (name = "") (NewBadInput "label name is required")
  let arg : UpdateLabelParams := { ID := toPgUUID labelID, UserID := toPgUUID uid, Name := name }
  exec (.UpdateLabel arg) (Q.UpdateLabel arg) "label not found"

/-- The unit of work that DeleteLabel hands to `WithTx`. -/
def deleteLabelTx (Q : Queries σ) (uid labelID : UUID) : Op σ DeleteResult := do
  let a1 : SoftDeleteLabelParams := { ID := toPgUUID labelID, UserID := toPgUUID uid }
  let deleted ← exec (.SoftDeleteLabel a1) (Q.SoftDeleteLabel a1) "label not found"
  let _ ← exec (.DeleteTaskLabelsByLabelID (toPgUUID labelID))
    (Q.DeleteTaskLabelsByLabelID (toPgUUID labelID)) "failed to clean task labels"
  ret { ID := fromPgUUID deleted.ID, DeletedAt := deleted.DeletedAt.Time.UTC }

def DeleteLabel (Q : Queries σ) (id : String) : Op σ DeleteResult := do
  let uid ← userID Q
  let labelID ← check (parseUUID id "label id")
  WithTx Q (deleteLabelTx Q uid labelID)

/-- `Service.ListLabels`; a result `none` is the panic of `paginateRows`. -/
def ListLabels (Q : Queries σ) (first : Int) (after : Option String) :
    Op σ (Option (PageResult Label)) := do
  let uid ← userID Q
  let limit := normalizePageSize first 50 200
  let c ← check (cursorArgs after)
  let arg : ListLabelsParams :=
    { UserID := toPgUUID uid, Column2 := c.1, Column3 := c.2.1, Column4 := c.2.2,
      Limit := toInt32 (limit + 1) }
  let rows ← exec (.ListLabels arg) (Q.ListLabels arg) "failed to list labels"
  ret (paginateRows rows limit fun l => encodeCursor l.CreatedAt.Time.UTC (fromPgUUID l.ID))

/-- `Service.Task`; the nil pointer returned when no row matches is `none`. -/
def GetTask (Q : Queries σ) (id : String) : Op σ (Option Task) := do
  let uid ← userID Q
  let taskID ← check (parseUUID id "task id")
  let arg : GetTaskByIDParams := { ID := toPgUUID taskID, UserID := toPgUUID uid }
  let r ← query (.GetTaskByID arg) (Q.GetTaskByID arg)
  orAbsent r "failed to fetch task"

/-- The loop of `replaceTaskLabels` that inserts the associations. -/
def insertTaskLabels (Q : Queries σ) (taskID : UUID) : List PgUUID → Op σ Unit
  | [] => ret ()
  | id :: rest => do
      let arg : InsertTaskLabelParams := { TaskID := toPgUUID taskID, LabelID := id }
      exec (.InsertTaskLabel arg) (Q.InsertTaskLabel arg) "failed to attach labels"
      insertTaskLabels Q taskID rest

def replaceTaskLabels (Q : Queries σ) (userID taskID : UUID) (labelIDs : List UUID) :
    Op σ Unit := do
  exec (.DeleteTaskLabelsForTask (toPgUUID taskID)) (Q.DeleteTaskLabelsForTask (toPgUUID taskID))
    "failed to reset task labels"
  if labelIDs.length = 0 then ret ()
  else
    let pgIDs := labelIDs.map toPgUUID
    let arg : GetLabelsByIDsParams := { UserID := toPgUUID userID, Column2 := pgIDs }
    let labels ← exec (.GetLabelsByIDs arg) (Q.GetLabelsByIDs arg) "failed to validate labels"
    failIf (labels.length ≠ pgIDs.length) (NewBadInput "one or more labelIds are invalid")
    insertTaskLabels Q taskID pgIDs

/-- The value of `parentID` in CreateTask and of `parentUUID` in ListTasks. -/
def parseParent (parentTaskID : Option String) : Except GoError (Option UUID) :=
  match parentTaskID with
  | none => .ok none
  | some p =>
      if TrimSpace p ≠ "" then
        match parseUUID p "parent task id" with
        | .error err => .error err
        | .ok id => .ok (some id)
      else .ok none

/-- The checks CreateTask makes of the parent inside the transaction; the result is
`parentPg`. -/
def checkParent (Q : Queries σ) (uid projectID : UUID) (parentID : Option UUID) : Op σ PgUUID :=
  match parentID with
  | none => ret { Bytes := UUID.Nil, Valid := false }
  | some pid => do
      let arg : GetTaskByIDParams := { ID := toPgUUID pid, UserID := toPgUUID uid }
      let parentTask ← exec (.GetTaskByID arg) (Q.GetTaskByID arg) "parent task not found"
      failIf (parentTask.ParentTaskID.Valid = true)
        (NewBadInput "only one level of subtasks is supported")
      failIf (fromPgUUID parentTask.ProjectID ≠ projectID)
        (NewBadInput "parent task must belong to the same project")
      ret (toPgUUID pid)

/-- The unit of work that CreateTask hands to `WithTx`; `now` is the value of
`time.Now()`. -/
def createTaskTx (Q : Queries σ) (now : Time) (input : CreateTaskInput) (uid projectID : UUID)
    (parentID : Option UUID) (title status priority : String) (labelIDs : List UUID) :
    Op σ Task := do
  let a1 : GetProjectByIDParams := { ID := toPgUUID projectID, UserID := toPgUUID uid }
  let _ ← exec (.GetProjectByID a1) (Q.GetProjectByID a1) "project not found"
  let parentPg ← checkParent Q uid projectID parentID
  let completedAt : PgTime :=
    if status = "DONE" then toPgTime (some now.UTC) else { Time := Time.zero, Valid := false }
  let a2 : CreateTaskParams :=
    { UserID := toPgUUID uid, ProjectID := toPgUUID projectID, ParentTaskID := parentPg,
      Title := title, Description := input.Description, Status := status,
      Priority := priority, StartAt := toPgTime input.StartAt, DueAt := toPgTime input.DueAt,
      CompletedAt := completedAt }
  let created ← exec (.CreateTask a2) (Q.CreateTask a2) "failed to create task"
  replaceTaskLabels Q uid (fromPgUUID created.ID) labelIDs
  ret created

/-- `Service.CreateTask`; `now` is the value of `time.Now()`. -/
def CreateTask (U : UnicodeTables) (Q : Queries σ) (now : Time) (input : CreateTaskInput) :
    Op σ Task := do
  let uid ← userID Q
  let projectID ← check (parseUUID input.ProjectID "project id")
  let parentID ← check (parseParent input.ParentTaskID)
  let title := TrimSpace input.Title
  failIf (title = "") (NewBadInput "task title is required")
  let status ← check (normalizeStatus U input.Status)
  let priority ← check (normalizePriority U input.Priority)
  checkErr (validateSchedule input.StartAt input.DueAt)
  let labelIDs ← check (parseUUIDList (input.LabelIDs.getD []) "labelIds")
  WithTx Q (createTaskTx Q now input uid projectID parentID title status priority labelIDs)

/-- The value of `title` in UpdateTask. -/
def updateTitle (existing : Task) (title : Option String) : Except GoError String :=
  match title with
  | none => .ok existing.Title
  | some t =>
      if TrimSpace t = "" then .error (NewBadInput "task title cannot be empty")
      else .ok (TrimSpace t)

/-- The value of `status` (with `normalizeStatus`) or of `priority` (with
`normalizePriority`) in UpdateTask. -/
def updateEnum (normalize : String → Except GoError String) (existing : String)
    (supplied : Option String) : Except GoError String :=
  match supplied with
  | none => .ok existing
  | some v => normalize v

/-- The value of `completedAt` that UpdateTask writes. -/
def updateCompletedAt (existing : Task) (status : String) (now : Time) : Option Time :=
  let completedAt := fromPgTime existing.CompletedAt
  if status = "DONE" then
    if existing.Status ≠ "DONE" ∨ completedAt = none then some now.UTC else completedAt
  else none

/-- The part of UpdateTask after the task is written: the label set is replaced when
`LabelIDs` is not nil. -/
def updateLabels (Q : Queries σ) (uid taskID : UUID) (labelIDs : Option (List String)) :
    Op σ Unit :=
  match labelIDs with
  | none => ret ()
  | some ids => do
      let labelIDs ← check (parseUUIDList ids "labelIds")
      replaceTaskLabels Q uid taskID labelIDs

/-- The value UpdateTask keeps for an optional field: the one supplied when it is not nil,
the stored one otherwise. -/
def supplied {α : Type} (input stored : Option α) : Option α :=
  match input with
  | some v => some v
  | none => stored

/-- The task row UpdateTask writes over the stored row `existing`, once title, status and
priority are settled. -/
def updateTaskParams (now : Time) (input : UpdateTaskInput) (uid taskID : UUID) (existing : Task)
    (title status priority : String) : UpdateTaskParams :=
  let description := supplied input.Description existing.Description
  let startAt := supplied input.StartAt (fromPgTime existing.StartAt)
  let dueAt := supplied input.DueAt (fromPgTime existing.DueAt)
  { ID := toPgUUID taskID, UserID := toPgUUID uid, Title := title,
    Description := description, Status := status, Priority := priority,
    StartAt := toPgTime startAt, DueAt := toPgTime dueAt,
    CompletedAt := toPgTime (updateCompletedAt existing status now) }

/-- The unit of work that UpdateTask hands to `WithTx`; `now` is the value of
`time.Now()`. -/
def updateTaskTx (U : UnicodeTables) (Q : Queries σ) (now : Time) (input : UpdateTaskInput)
    (uid taskID : UUID) : Op σ Task := do
  let a1 : GetTaskByIDParams := { ID := toPgUUID taskID, UserID := toPgUUID uid }
  let existing ← exec (.GetTaskByID a1) (Q.GetTaskByID a1) "task not found"
  let title ← check (updateTitle existing input.Title)
  let status ← check (updateEnum (normalizeStatus U) existing.Status input.Status)
  let priority ← check (updateEnum (normalizePriority U) existing.Priority input.Priority)
  let startAt := supplied input.StartAt (fromPgTime existing.StartAt)
  let dueAt := supplied input.DueAt (fromPgTime existing.DueAt)
  checkErr (validateSchedule startAt dueAt)
  let a2 := updateTaskParams now input uid taskID existing title status priority
  let updated ← exec (.UpdateTask a2) (Q.UpdateTask a2) "failed to update task"
  updateLabels Q uid taskID input.LabelIDs
  ret updated

/-- `Service.UpdateTask`; `now` is the value of `time.Now()`. -/
def UpdateTask (U : UnicodeTables) (Q : Queries σ) (now : Time) (input : UpdateTaskInput) :
    Op σ Task := do
  let uid ← userID Q
  let taskID ← check (parseUUID input.ID "task id")
  WithTx Q (updateTaskTx U Q now input uid taskID)

/-- The unit of work that DeleteTask hands to `WithTx`. -/
def deleteTaskTx (Q : Queries σ) (uid taskID : UUID) : Op σ DeleteResult := do
  let a1 : SoftDeleteTaskParams := { ID := toPgUUID taskID, UserID := toPgUUID uid }
  let deleted ← exec (.SoftDeleteTask a1) (Q.SoftDeleteTask a1) "task not found"
  let a2 : SoftDeleteDirectSubtasksParams :=
    { ParentTaskID := toPgUUID taskID, UserID := toPgUUID uid }
  let _ ← exec (.SoftDeleteDirectSubtasks a2) (Q.SoftDeleteDirectSubtasks a2)
    "failed to delete subtasks"
  ret { ID := fromPgUUID deleted.ID, DeletedAt := deleted.DeletedAt.Time.UTC }

def DeleteTask (Q : Queries σ) (id : String) : Op σ DeleteResult := do
  let uid ← userID Q
  let taskID ← check (parseUUID id "task id")
  WithTx Q (deleteTaskTx Q uid taskID)

/-- The two queries ListTasks chooses between: root tasks when no parent is given,
subtasks of the parent otherwise. -/
def listTaskRows (Q : Queries σ) (uid projectUUID : UUID) (parentUUID : Option UUID)
    (statuses priorities : List String) (c : Bool × PgTime × PgUUID) (limit : Int) :
    Op σ (List Task) :=
  match parentUUID with
  | none =>
      let a2 : ListRootTasksParams :=
        { UserID := toPgUUID uid, ProjectID := toPgUUID projectUUID, Column3 := statuses,
          Column4 := priorities, Column5 := c.1, Column6 := c.2.1, Column7 := c.2.2,
          Limit := toInt32 (limit + 1) }
      exec (.ListRootTasks a2) (Q.ListRootTasks a2) "failed to list tasks"
  | some parent =>
      let a2 : ListSubtasksParams :=
        { UserID := toPgUUID uid, ProjectID := toPgUUID projectUUID,
          ParentTaskID := toPgUUID parent, Column4 := statuses, Column5 := priorities,
          Column6 := c.1, Column7 := c.2.1, Column8 := c.2.2, Limit := toInt32 (limit + 1) }
      exec (.ListSubtasks a2) (Q.ListSubtasks a2) "failed to list subtasks"

/-- `Service.ListTasks`; a result `none` is the panic of `paginateRows`. -/
def ListTasks (U : UnicodeTables) (Q : Queries σ) (projectID : String)
    (parentTaskID : Option String) (statuses priorities : List String) (first : Int)
    (after : Option String) : Op σ (Option (PageResult Task)) := do
  let uid ← userID Q
  let projectUUID ← check (parseUUID projectID "project id")
  let statuses ← check (normalizeFilters statuses (normalizeStatus U))
  let priorities ← check (normalizeFilters priorities (normalizePriority U))
  let parentUUID ← check (parseParent parentTaskID)
  let limit := normalizePageSize first 20 100
  let c ← check (cursorArgs after)
  let a1 : GetProjectByIDParams := { ID := toPgUUID projectUUID, UserID := toPgUUID uid }
  let _ ← exec (.GetProjectByID a1) (Q.GetProjectByID a1) "project not found"
  let rows ← listTaskRows Q uid projectUUID parentUUID statuses priorities c limit
  ret (paginateRows rows limit fun t => encodeCursor t.CreatedAt.Time.UTC (fromPgUUID t.ID))

def LabelsForTask (Q : Queries σ) (taskID : String) : Op σ (List Label) := do
  let uid ← userID Q
  let tid ← check (parseUUID taskID "task id")
  let arg : ListLabelsByTaskIDParams := { TaskID := toPgUUID tid, UserID := toPgUUID uid }
  exec (.ListLabelsByTaskID arg) (Q.ListLabelsByTaskID arg) "failed to load task labels"

def SubtasksForTask (Q : Queries σ) (taskID : String) : Op σ (List Task) := do
  let uid ← userID Q
  let tid ← check (parseUUID taskID "task id")
  let arg : ListSubtasksByParentIDParams := { UserID := toPgUUID uid, ParentTaskID := toPgUUID tid }
  exec (.ListSubtasksByParentID arg) (Q.ListSubtasksByParentID arg) "failed to load subtasks"

end Operations


/-! ## Further definitions used to state the properties -/

namespace Time

/-- `Time.Add` for a duration `d` in nanoseconds. -/
def Add (t : Time) (d : Int) : Time :=
  let n : Int := (t.nsec : Int) + d
  let shifted := inZone { t with offset := 0 } (n / 1000000000)
  { shifted with nsec := (n % 1000000000).toNat, offset := t.offset }

/-- The times an RFC 3339 timestamp can write: a year of four digits and a zone offset of
whole minutes below 24 hours. -/
def RFC3339 (t : Time) : Prop :=
  t.Valid ∧ 0 ≤ t.year ∧ t.year ≤ 9999 ∧ t.offset % 60 = 0 ∧ -86400 < t.offset ∧ t.offset < 86400

instance (t : Time) : Decidable t.RFC3339 := by unfold RFC3339; infer_instance

/-- A calendar day. -/
def ValidDate (d : Int × Nat × Nat) : Prop :=
  1 ≤ d.2.1 ∧ d.2.1 ≤ 12 ∧ 1 ≤ d.2.2 ∧ d.2.2 ≤ daysIn d.2.1 d.1

end Time

/-- The cursors that are malformed: not standard base64, or a decoded text without
exactly one vertical bar, or with a part before the bar that `time.Parse` rejects, or
with a part after it that `uuid.Parse` rejects. -/
def MalformedCursor (raw : String) : Prop :=
  match Base64.DecodeString raw with
  | none => True
  | some decoded =>
      decoded.count 124 ≠ 1 ∨
      Time.ParseRFC3339Nano (decoded.takeWhile (· ≠ 124)) = none ∨
      UUID.Parse ((decoded.dropWhile (· ≠ 124)).drop 1) = none

instance (raw : String) : Decidable (MalformedCursor raw) := by
  unfold MalformedCursor
  split <;> infer_instance

/-- Tables that leave every code point above ASCII as it is and hold none of those above
`0xFF` printable; they serve to evaluate the service on ASCII text. -/
def asciiTables : UnicodeTables := { upper := id, lower := id, isPrint := fun _ => false }

/-- The zero value of `pgtype.UUID`. -/
def PgUUID.zero : PgUUID := { Bytes := UUID.Nil, Valid := false }

/-- The zero value of `pgtype.Timestamptz`. -/
def PgTime.zero : PgTime := { Time := Time.zero, Valid := false }

/-- The zero value of `sqlc.User`. -/
def User.zero : User := ⟨PgUUID.zero, "", "", "", none, PgTime.zero, PgTime.zero⟩

/-- The zero value of `sqlc.Project`. -/
def Project.zero : Project :=
  ⟨PgUUID.zero, PgUUID.zero, "", none, none, PgTime.zero, PgTime.zero, PgTime.zero⟩

/-- The zero value of `sqlc.Label`. -/
def Label.zero : Label := ⟨PgUUID.zero, PgUUID.zero, "", PgTime.zero, PgTime.zero, PgTime.zero⟩

/-- The zero value of `sqlc.Task`. -/
def Task.zero : Task :=
  ⟨PgUUID.zero, PgUUID.zero, PgUUID.zero, PgUUID.zero, "", none, "", "", PgTime.zero,
    PgTime.zero, PgTime.zero, PgTime.zero, PgTime.zero, PgTime.zero⟩

/-- A scripted storage layer for evaluating the operations: `faults` holds, call by call,
the error the next call returns (`none`, or an exhausted list, for success); a successful
query returns the rows held in the script. -/
structure Script where
  faults : List (Option StorageError)
  user : User
  project : Project
  task : Task
  labels : List Label
  tasks : List Task
deriving DecidableEq, Repr

namespace Script

/-- The error of the next call and the script after it. -/
def next (d : Script) : Option StorageError × Script :=
  match d.faults with
  | [] => (none, d)
  | f :: rest => (f, { d with faults := rest })

/-- A query of the scripted storage layer returning `row`. -/
def reply {R : Type} (row : Script → R) (d : Script) : Except StorageError R × Script :=
  match d.next with
  | (some err, d1) => (.error err, d1)
  | (none, d1) => (.ok (row d1), d1)

/-- The scripted storage layer. -/
def queries : Queries Script where
  BeginTx := next
  Commit := next
  Rollback := next
  UpsertUserByEmail := fun _ => reply (·.user)
  GetUserByID := fun _ => reply (·.user)
  CreateProject := fun _ => reply (·.project)
  UpdateProject := fun _ => reply (·.project)
  SoftDeleteProject := fun _ => reply fun d => ⟨d.project.ID, d.project.DeletedAt⟩
  SoftDeleteTasksByProject := fun _ => reply fun _ => ()
  GetProjectByID := fun _ => reply (·.project)
  ListProjects := fun _ => reply fun d => [d.project]
  CreateLabel := fun _ => reply fun d => d.labels.headD Label.zero
  UpdateLabel := fun _ => reply fun d => d.labels.headD Label.zero
  SoftDeleteLabel := fun _ => reply fun d =>
    ⟨(d.labels.headD Label.zero).ID, (d.labels.headD Label.zero).DeletedAt⟩
  DeleteTaskLabelsByLabelID := fun _ => reply fun _ => ()
  ListLabels := fun _ => reply (·.labels)
  GetTaskByID := fun _ => reply (·.task)
  CreateTask := fun _ => reply (·.task)
  UpdateTask := fun _ => reply (·.task)
  SoftDeleteTask := fun _ => reply fun d => ⟨d.task.ID, d.task.DeletedAt⟩
  SoftDeleteDirectSubtasks := fun _ => reply fun _ => ()
  ListRootTasks := fun _ => reply (·.tasks)
  ListSubtasks := fun _ => reply (·.tasks)
  ListLabelsByTaskID := fun _ => reply (·.labels)
  ListSubtasksByParentID := fun _ => reply (·.tasks)
  DeleteTaskLabelsForTask := fun _ => reply fun _ => ()
  GetLabelsByIDs := fun _ => reply (·.labels)
  InsertTaskLabel := fun _ => reply fun _ => ()

/-- A script without faults whose rows are zero values. -/
def blank : Script :=
  { faults := [], user := User.zero, project := Project.zero, task := Task.zero, labels := [],
    tasks := [] }

end Script

/-- A service whose owner id is cached. -/
def Service.cached (id : UUID) : Service :=
  { defaultUser := ⟨"", "", "", none⟩, defaultUserID := id, defaultUserSet := true }

/-- A service as `New` leaves it: no owner id cached. -/
def Service.fresh : Service :=
  { defaultUser := ⟨"Owner", "owner@example.com", "UTC", none⟩, defaultUserID := UUID.Nil,
    defaultUserSet := false }

namespace Sample

/-- An owner id for examples. -/
def owner : UUID := ⟨[1, 1, 1, 1, 1, 1, 1, 1, 1, 1, 1, 1, 1, 1, 1, 1]⟩

/-- The text of a UUID for examples. -/
def idText : String := "123e4567-e89b-12d3-a456-426614174000"

/-- The UUID that `idText` writes. -/
def id : UUID := ⟨[18, 62, 69, 103, 232, 155, 18, 211, 164, 86, 66, 102, 20, 23, 64, 0]⟩

/-- A reading of the clock for examples: 2026-02-17T10:00:00Z. -/
def now : Time := ⟨2026, 2, 17, 10, 0, 0, 0, 0⟩

/-- A later reading of the clock: 2026-02-18T09:30:00Z. -/
def later : Time := ⟨2026, 2, 18, 9, 30, 0, 0, 0⟩

/-- An error of the storage driver that is neither "no rows" nor a Postgres error. -/
def outage : StorageError := { noRows := false, pgCode := none, text := "connection refused" }

/-- The error `pgx.ErrNoRows`. -/
def noRows : StorageError := { noRows := true, pgCode := none, text := "no rows in result set" }

/-- A task input creating a task with status `done`. -/
def createDone : CreateTaskInput :=
  { ProjectID := idText, ParentTaskID := none, Title := "write", Description := none,
    Status := "done", Priority := "", StartAt := none, DueAt := none, LabelIDs := none }

/-- An update that sets the status and nothing else. -/
def setStatus (status : String) : UpdateTaskInput :=
  { ID := idText, Title := none, Description := none, Status := some status, Priority := none,
    StartAt := none, DueAt := none, LabelIDs := none }

/-- A stored task with the given status and completion time. -/
def storedTask (status : String) (completedAt : PgTime) : Task :=
  { Task.zero with ID := toPgUUID id, Title := "write", Status := status, Priority := "P3",
                   CompletedAt := completedAt }

/-- The storage calls of a run that write a task row, as status and validity of
`CompletedAt`. -/
def taskWrites (events : List Event) : List (String × PgTime) :=
  events.filterMap fun ev =>
    match ev.call with
    | .CreateTask a => some (a.Status, a.CompletedAt)
    | .UpdateTask a => some (a.Status, a.CompletedAt)
    | _ => none

end Sample

/-- A caller-facing operation of the service with its arguments. -/
inductive Request where
  | Bootstrap
  | Me
  | UpsertMe (input : UpsertMeInput)
  | CreateProject (input : CreateProjectInput)
  | UpdateProject (input : UpdateProjectInput)
  | DeleteProject (id : String)
  | Project (id : String)
  | ListProjects (first : Int) (after : Option String)
  | CreateLabel (input : CreateLabelInput)
  | UpdateLabel (input : UpdateLabelInput)
  | DeleteLabel (id : String)
  | ListLabels (first : Int) (after : Option String)
  | Task (id : String)
  | CreateTask (input : CreateTaskInput)
  | UpdateTask (input : UpdateTaskInput)
  | DeleteTask (id : String)
  | ListTasks (projectID : String) (parentTaskID : Option String) (statuses priorities : List String)
      (first : Int) (after : Option String)
  | LabelsForTask (taskID : String)
  | SubtasksForTask (taskID : String)
deriving DecidableEq, Repr

/-- The run of an operation, keeping of its result only whether it is an error. -/
def Op.void {σ α : Type} (p : Op σ α) : Op σ Unit := fun s d =>
  let o := p s d
  ⟨o.result.map fun _ => (), o.svc, o.db, o.events⟩

/-- The run of a request; `now` is the reading of the clock. -/
def perform {σ : Type} (U : UnicodeTables) (Q : Queries σ) (now : Time) : Request → Op σ Unit
  | .Bootstrap => (Bootstrap Q).void
  | .Me => (Me Q).void
  | .UpsertMe input => (UpsertMe U Q input).void
  | .CreateProject input => (CreateProject U Q input).void
  | .UpdateProject input => (UpdateProject U Q input).void
  | .DeleteProject id => (DeleteProject Q id).void
  | .Project id => (GetProject Q id).void
  | .ListProjects first after => (ListProjects Q first after).void
  | .CreateLabel input => (CreateLabel Q input).void
  | .UpdateLabel input => (UpdateLabel Q input).void
  | .DeleteLabel id => (DeleteLabel Q id).void
  | .ListLabels first after => (ListLabels Q first after).void
  | .Task id => (GetTask Q id).void
  | .CreateTask input => (CreateTask U Q now input).void
  | .UpdateTask input => (UpdateTask U Q now input).void
  | .DeleteTask id => (DeleteTask Q id).void
  | .ListTasks projectID parentTaskID statuses priorities first after =>
      (ListTasks U Q projectID parentTaskID statuses priorities first after).void
  | .LabelsForTask taskID => (LabelsForTask Q taskID).void
  | .SubtasksForTask taskID => (SubtasksForTask Q taskID).void

/-- An `*AppError` with code BAD_USER_INPUT and no cause. -/
def IsBadInput (e : GoError) : Prop := ∃ msg, e = GoError.app "BAD_USER_INPUT" msg

/-- The error of a run is the classifier applied once to the error of `ev`, when `ev` is a
failed query. -/
def ClassifiedAt {σ α : Type} (o : Outcome σ α) (ev : Event) : Prop :=
  ev.call.isQuery = true → ∀ se, ev.err = some se →
    ∃ fallback, o.result = .error (classify (.storage se) fallback)

/-- Every failed query of a run is answered by the classifier applied once to its
error. -/
def Classified {σ α : Type} (o : Outcome σ α) : Prop := ∀ ev ∈ o.events, ClassifiedAt o ev

/-- The first error among a list of checks. -/
def firstError : List (Option GoError) → Option GoError
  | [] => none
  | some e :: _ => some e
  | none :: rest => firstError rest

/-- The error of a check. -/
def errorOf {α : Type} (r : Except GoError α) : Option GoError :=
  match r with
  | .ok _ => none
  | .error e => some e

/-- The error of a required string: it is empty after trimming. -/
def blankError (value : String) (msg : String) : Option GoError :=
  if TrimSpace value = "" then some (NewBadInput msg) else none

/-- The validation failure of a request: the first failing check of its arguments, in the
order of the source, among the checks of required strings, colors, statuses and
priorities, the schedule, identifiers and cursors that need no stored row. For UpdateTask
this is the check of the task id alone. -/
def inputError (U : UnicodeTables) : Request → Option GoError
  | .Bootstrap => none
  | .Me => none
  | .UpsertMe input =>
      firstError [blankError input.Name "name is required",
        blankError (ToLower U input.Email) "email is required",
        blankError input.Timezone "timezone is required"]
  | .CreateProject input =>
      firstError [blankError input.Title "project title is required",
        (validateColor U input.Color).2]
  | .UpdateProject input =>
      firstError [errorOf (parseUUID input.ID "project id"),
        blankError input.Title "project title is required", (validateColor U input.Color).2]
  | .DeleteProject id => errorOf (parseUUID id "project id")
  | .Project id => errorOf (parseUUID id "project id")
  | .ListProjects _ after => errorOf (cursorArgs after)
  | .CreateLabel input => blankError input.Name "label name is required"
  | .UpdateLabel input =>
      firstError [errorOf (parseUUID input.ID "label id"),
        blankError input.Name "label name is required"]
  | .DeleteLabel id => errorOf (parseUUID id "label id")
  | .ListLabels _ after => errorOf (cursorArgs after)
  | .Task id => errorOf (parseUUID id "task id")
  | .CreateTask input =>
      firstError [errorOf (parseUUID input.ProjectID "project id"),
        errorOf (parseParent input.ParentTaskID),
        blankError input.Title "task title is required",
        errorOf (normalizeStatus U input.Status), errorOf (normalizePriority U input.Priority),
        validateSchedule input.StartAt input.DueAt,
        errorOf (parseUUIDList (input.LabelIDs.getD []) "labelIds")]
  | .UpdateTask input => errorOf (parseUUID input.ID "task id")
  | .DeleteTask id => errorOf (parseUUID id "task id")
  | .ListTasks projectID parentTaskID statuses priorities _ after =>
      firstError [errorOf (parseUUID projectID "project id"),
        errorOf (normalizeFilters statuses (normalizeStatus U)),
        errorOf (normalizeFilters priorities (normalizePriority U)),
        errorOf (parseParent parentTaskID), errorOf (cursorArgs after)]
  | .LabelsForTask taskID => errorOf (parseUUID taskID "task id")
  | .SubtasksForTask taskID => errorOf (parseUUID taskID "task id")

/-- The storage calls of owner resolution at the start of a request: none for UpsertMe,
which does not resolve the owner, and none when the owner id is cached. -/
def ownerEvents {σ : Type} (Q : Queries σ) (req : Request) (s : Service) (d : σ) : List Event :=
  match req with
  | .UpsertMe _ => []
  | _ => (ensureDefaultUser Q s d).events

/-- Owner resolution at the start of a request succeeds (UpsertMe has none). -/
def ownerResolved {σ : Type} (Q : Queries σ) (req : Request) (s : Service) (d : σ) : Prop :=
  match req with
  | .UpsertMe _ => True
  | _ => ∃ uid, (ensureDefaultUser Q s d).result = .ok uid

/-- The validation failure of UpdateTask against the stored row `existing`: the first
failing check among title, status, priority and the schedule of the effective values. -/
def updateInputError (U : UnicodeTables) (existing : Task) (input : UpdateTaskInput) :
    Option GoError :=
  firstError [errorOf (updateTitle existing input.Title),
    errorOf (updateEnum (normalizeStatus U) existing.Status input.Status),
    errorOf (updateEnum (normalizePriority U) existing.Priority input.Priority),
    validateSchedule (supplied input.StartAt (fromPgTime existing.StartAt))
      (supplied input.DueAt (fromPgTime existing.DueAt))]


/-! ## Properties of service code over all runs -/

namespace Op

/-- Every storage call a piece of service code issues satisfies `P`. -/
structure Issues {σ α : Type} (p : Op σ α) (P : Event → Prop) : Prop where
  all : ∀ s d, ∀ ev ∈ (p s d).events, P ev

/-- Every value a piece of service code returns satisfies `R`. -/
structure Returns {σ α : Type} (p : Op σ α) (R : α → Prop) : Prop where
  all : ∀ s d a, (p s d).result = .ok a → R a

/-- Every run of a piece of service code answers each failed query with the classifier
applied once to its error. -/
structure Sound {σ α : Type} (p : Op σ α) : Prop where
  all : ∀ s d, Classified (p s d)

/-- As `Sound`, but a query that found no row may be answered with no error. -/
structure SoundOrAbsent {σ α : Type} (p : Op σ α) : Prop where
  all : ∀ s d, ∀ ev ∈ (p s d).events, ev.call.isQuery = true → ∀ se, ev.err = some se →
    (∃ m, (p s d).result = .error (classify (.storage se) m)) ∨
      (se.noRows = true ∧ ∃ a, (p s d).result = .ok a)

end Op


/-! ## Lists without duplicates -/

/-- The wording of the specification for de-duplicated lists: the list with every later
duplicate removed, in order of first occurrence. It is what `normalizeFilters` and
`parseUUIDList` are compared with. -/
def keepFirst {α : Type} [DecidableEq α] : List α → List α
  | [] => []
  | x :: xs => x :: (keepFirst xs).filter (fun y => decide (y ≠ x))

/-! ## Further properties of database values and of service code -/

/-- Two values of `pgtype.Timestamptz` are the same database value: both are NULL, or
both hold the same instant. -/
def PgTime.Same (a b : PgTime) : Prop :=
  a.Valid = b.Valid ∧ (a.Valid = true → Time.Equal a.Time b.Time = true)

namespace Op

/-- Every error a piece of service code returns satisfies `P`. -/
structure Fails {σ α : Type} (p : Op σ α) (P : GoError → Prop) : Prop where
  all : ∀ s d e, (p s d).result = .error e → P e

end Op

namespace Sample

/-- A stored task that starts at `later` and has no due time. -/
def scheduled : Task :=
  { storedTask "TODO" PgTime.zero with StartAt := { Time := later, Valid := true } }

/-- An update that supplies a due time and nothing else. -/
def setDue (t : Time) : UpdateTaskInput :=
  { ID := idText, Title := none, Description := none, Status := none, Priority := none,
    StartAt := none, DueAt := some t, LabelIDs := none }

/-- A task input creating a subtask of the task whose id is that of `owner`. -/
def subtask : CreateTaskInput :=
  { createDone with ParentTaskID := some "01010101-0101-0101-0101-010101010101" }

/-- An update that supplies a title, a description and a start time. -/
def retitle : UpdateTaskInput :=
  { ID := idText, Title := some " read ", Description := some "chapter 2", Status := none,
    Priority := none, StartAt := some now, DueAt := none, LabelIDs := none }

end Sample

/-! ## The relational store -/

/-- Modelled from the spec: the tables of the relational schema (users, projects, labels,
tasks, task-label links), which the missing package `internal/db/sqlc` reads and writes.
A row of the join table is a pair of a task id and a label id. -/
structure Tables where
  users : List User
  projects : List Project
  labels : List Label
  tasks : List Task
  taskLabels : List InsertTaskLabelParams
deriving DecidableEq, Repr

/-- Modelled from the spec: what the database draws by itself: the id of the `n`-th row it
creates and the reading of its clock at the `n`-th statement. -/
structure Source where
  uuid : Nat → UUID
  clock : Nat → Time

/-- Modelled from the spec: the state of the database: the tables, the tables as they
were when the open transaction began (`none` when no transaction is open), and the number
of statements run so far. -/
structure Store where
  tables : Tables
  saved : Option Tables
  serial : Nat
deriving DecidableEq, Repr

namespace Tables

/-- The error `pgx.ErrNoRows`. -/
def errNoRows : StorageError := { noRows := true, pgCode := none, text := "no rows in result set" }

/-- The error of Postgres for a violated unique constraint. -/
def errUnique : StorageError :=
  { noRows := false, pgCode := some "23505", text := "duplicate key value violates unique constraint" }

/-- The error `pgx.ErrTxClosed`. -/
def errTxClosed : StorageError := { noRows := false, pgCode := none, text := "tx is closed" }

/-- A row that is not soft-deleted. -/
def live (deletedAt : PgTime) : Bool := !deletedAt.Valid

/-- Modelled from the spec: a statement that returns the one row matching `p`, or "no
rows". -/
def getOne {α : Type} (p : α → Bool) (rows : List α) : Except StorageError α :=
  match rows.find? p with
  | none => .error errNoRows
  | some row => .ok row

/-- Modelled from the spec: a statement that changes the rows matching `p` by `f` and
returns the changed row, or "no rows" when none matches. -/
def updateOne {α : Type} (p : α → Bool) (f : α → α) (rows : List α) :
    Except StorageError α × List α :=
  match rows.find? p with
  | none => (.error errNoRows, rows)
  | some row => (.ok (f row), rows.map fun r => if p r then f r else r)

/-- Modelled from the spec: the upsert of the owner keyed by e-mail: the row with that
e-mail gets the name, timezone and avatar passed, or a new row is created. -/
def upsertUserByEmail (id : UUID) (now : Time) (arg : UpsertUserByEmailParams) (T : Tables) :
    Except StorageError User × Tables :=
  match T.users.find? (fun u => u.Email == arg.Email) with
  | some _ =>
      let r := updateOne (fun u => u.Email == arg.Email)
        (fun u => { u with Name := arg.Name, Timezone := arg.Timezone,
                           AvatarUrl := arg.AvatarUrl, UpdatedAt := ⟨now, true⟩ }) T.users
      (r.1, { T with users := r.2 })
  | none =>
      if T.users.any (fun u => u.ID == toPgUUID id) then (.error errUnique, T)
      else
        let u : User := ⟨toPgUUID id, arg.Name, arg.Email, arg.Timezone, arg.AvatarUrl,
          ⟨now, true⟩, ⟨now, true⟩⟩
        (.ok u, { T with users := T.users ++ [u] })

/-- Modelled from the spec: the user with that id, or "no rows". -/
def getUserByID (id : PgUUID) (T : Tables) : Except StorageError User × Tables :=
  (getOne (fun u => u.ID == id) T.users, T)

/-- Modelled from the spec: a project is created with a new id and the clock reading. -/
def createProject (id : UUID) (now : Time) (arg : CreateProjectParams) (T : Tables) :
    Except StorageError Project × Tables :=
  if T.projects.any (fun p => p.ID == toPgUUID id) then (.error errUnique, T)
  else
    let p : Project := ⟨toPgUUID id, arg.UserID, arg.Title, arg.Description, arg.Color,
      ⟨now, true⟩, ⟨now, true⟩, PgTime.zero⟩
    (.ok p, { T with projects := T.projects ++ [p] })

/-- Modelled from the spec: the project of the owner with that id, if not deleted, gets
the title, description and color passed. -/
def updateProject (now : Time) (arg : UpdateProjectParams) (T : Tables) :
    Except StorageError Project × Tables :=
  let r := updateOne (fun p => p.ID == arg.ID && p.UserID == arg.UserID && live p.DeletedAt)
    (fun p => { p with Title := arg.Title, Description := arg.Description, Color := arg.Color,
                       UpdatedAt := ⟨now, true⟩ }) T.projects
  (r.1, { T with projects := r.2 })

/-- Modelled from the spec: the project of the owner with that id, if not deleted yet,
gets the deletion timestamp; the statement returns its id and that timestamp. -/
def softDeleteProject (now : Time) (arg : SoftDeleteProjectParams) (T : Tables) :
    Except StorageError DeletedRow × Tables :=
  let r := updateOne (fun p => p.ID == arg.ID && p.UserID == arg.UserID && live p.DeletedAt)
    (fun p => { p with DeletedAt := ⟨now, true⟩, UpdatedAt := ⟨now, true⟩ }) T.projects
  (r.1.map fun p => ⟨p.ID, p.DeletedAt⟩, { T with projects := r.2 })

/-- Modelled from the spec: every task of the project that is not deleted yet gets the
deletion timestamp. -/
def softDeleteTasksByProject (now : Time) (arg : SoftDeleteTasksByProjectParams) (T : Tables) :
    Except StorageError Unit × Tables :=
  (.ok (), { T with tasks := T.tasks.map fun t =>
    if t.ProjectID == arg.ProjectID && t.UserID == arg.UserID && live t.DeletedAt then
      { t with DeletedAt := ⟨now, true⟩, UpdatedAt := ⟨now, true⟩ }
    else t })

/-- Modelled from the spec: the project of the owner with that id that is not deleted, or
"no rows". -/
def getProjectByID (arg : GetProjectByIDParams) (T : Tables) :
    Except StorageError Project × Tables :=
  (getOne (fun p => p.ID == arg.ID && p.UserID == arg.UserID && live p.DeletedAt) T.projects, T)

/-- The order of the list queries: creation time, then id. -/
def keyLess (a b : PgTime × PgUUID) : Bool :=
  a.1.Time.Before b.1.Time || (a.1.Time.Equal b.1.Time && decide (a.2.Bytes.bytes < b.2.Bytes.bytes))

/-- Modelled from the spec: a page of a list query: the rows after the cursor when one is
given, in the order of `(createdAt, id)`, at most `limit` of them. -/
def page {α : Type} (key : α → PgTime × PgUUID) (useCursor : Bool) (cursor : PgTime × PgUUID)
    (limit : Int) (rows : List α) : List α :=
  ((rows.filter fun r => !useCursor || keyLess cursor (key r)).insertionSort
    (fun a b => keyLess (key b) (key a) = false)).take limit.toNat

/-- Modelled from the spec: a page of the projects of the owner that are not deleted. -/
def listProjects (arg : ListProjectsParams) (T : Tables) :
    Except StorageError (List Project) × Tables :=
  (.ok (page (fun p => (p.CreatedAt, p.ID)) arg.Column2 (arg.Column3, arg.Column4) arg.Limit
    (T.projects.filter fun p => p.UserID == arg.UserID && live p.DeletedAt)), T)

/-- Modelled from the spec: a label is created with a new id; its name is unique among
the labels of its owner. -/
def createLabel (id : UUID) (now : Time) (arg : CreateLabelParams) (T : Tables) :
    Except StorageError Label × Tables :=
  if T.labels.any (fun l => l.ID == toPgUUID id ||
      (l.UserID == arg.UserID && l.Name == arg.Name && live l.DeletedAt)) then
    (.error errUnique, T)
  else
    let l : Label := ⟨toPgUUID id, arg.UserID, arg.Name, ⟨now, true⟩, ⟨now, true⟩, PgTime.zero⟩
    (.ok l, { T with labels := T.labels ++ [l] })

/-- Modelled from the spec: the label of the owner with that id, if not deleted, gets the
name passed, which stays unique among the labels of the owner. -/
def updateLabel (now : Time) (arg : UpdateLabelParams) (T : Tables) :
    Except StorageError Label × Tables :=
  if T.labels.any (fun l => l.ID != arg.ID && l.UserID == arg.UserID && l.Name == arg.Name &&
      live l.DeletedAt) then
    (.error errUnique, T)
  else
    let r := updateOne (fun l => l.ID == arg.ID && l.UserID == arg.UserID && live l.DeletedAt)
      (fun l => { l with Name := arg.Name, UpdatedAt := ⟨now, true⟩ }) T.labels
    (r.1, { T with labels := r.2 })

/-- Modelled from the spec: the label of the owner with that id, if not deleted yet, gets
the deletion timestamp; the statement returns its id and that timestamp. -/
def softDeleteLabel (now : Time) (arg : SoftDeleteLabelParams) (T : Tables) :
    Except StorageError DeletedRow × Tables :=
  let r := updateOne (fun l => l.ID == arg.ID && l.UserID == arg.UserID && live l.DeletedAt)
    (fun l => { l with DeletedAt := ⟨now, true⟩, UpdatedAt := ⟨now, true⟩ }) T.labels
  (r.1.map fun l => ⟨l.ID, l.DeletedAt⟩, { T with labels := r.2 })

/-- Modelled from the spec: the links of the label are deleted. -/
def deleteTaskLabelsByLabelID (labelID : PgUUID) (T : Tables) :
    Except StorageError Unit × Tables :=
  (.ok (), { T with taskLabels := T.taskLabels.filter fun r => !(r.LabelID == labelID) })

/-- Modelled from the spec: a page of the labels of the owner that are not deleted. -/
def listLabels (arg : ListLabelsParams) (T : Tables) :
    Except StorageError (List Label) × Tables :=
  (.ok (page (fun l => (l.CreatedAt, l.ID)) arg.Column2 (arg.Column3, arg.Column4) arg.Limit
    (T.labels.filter fun l => l.UserID == arg.UserID && live l.DeletedAt)), T)

/-- Modelled from the spec: the task of the owner with that id that is not deleted, or
"no rows". -/
def getTaskByID (arg : GetTaskByIDParams) (T : Tables) : Except StorageError Task × Tables :=
  (getOne (fun t => t.ID == arg.ID && t.UserID == arg.UserID && live t.DeletedAt) T.tasks, T)

/-- Modelled from the spec: a task is created with a new id and the fields passed. -/
def createTask (id : UUID) (now : Time) (arg : CreateTaskParams) (T : Tables) :
    Except StorageError Task × Tables :=
  if T.tasks.any (fun t => t.ID == toPgUUID id) then (.error errUnique, T)
  else
    let t : Task := ⟨toPgUUID id, arg.UserID, arg.ProjectID, arg.ParentTaskID, arg.Title,
      arg.Description, arg.Status, arg.Priority, arg.StartAt, arg.DueAt, arg.CompletedAt,
      ⟨now, true⟩, ⟨now, true⟩, PgTime.zero⟩
    (.ok t, { T with tasks := T.tasks ++ [t] })

/-- Modelled from the spec: the task of the owner with that id gets the fields passed;
its id, project and parent stay. -/
def updateTask (now : Time) (arg : UpdateTaskParams) (T : Tables) :
    Except StorageError Task × Tables :=
  let r := updateOne (fun t => t.ID == arg.ID && t.UserID == arg.UserID && live t.DeletedAt)
    (fun t => { t with Title := arg.Title, Description := arg.Description,
                       Status := arg.Status, Priority := arg.Priority, StartAt := arg.StartAt,
                       DueAt := arg.DueAt, CompletedAt := arg.CompletedAt,
                       UpdatedAt := ⟨now, true⟩ }) T.tasks
  (r.1, { T with tasks := r.2 })

/-- Modelled from the spec: the task of the owner with that id, if not deleted yet, gets
the deletion timestamp; the statement returns its id and that timestamp. -/
def softDeleteTask (now : Time) (arg : SoftDeleteTaskParams) (T : Tables) :
    Except StorageError DeletedRow × Tables :=
  let r := updateOne (fun t => t.ID == arg.ID && t.UserID == arg.UserID && live t.DeletedAt)
    (fun t => { t with DeletedAt := ⟨now, true⟩, UpdatedAt := ⟨now, true⟩ }) T.tasks
  (r.1.map fun t => ⟨t.ID, t.DeletedAt⟩, { T with tasks := r.2 })

/-- Modelled from the spec: every direct subtask of the parent that is not deleted yet
gets the deletion timestamp. -/
def softDeleteDirectSubtasks (now : Time) (arg : SoftDeleteDirectSubtasksParams) (T : Tables) :
    Except StorageError Unit × Tables :=
  (.ok (), { T with tasks := T.tasks.map fun t =>
    if t.ParentTaskID == arg.ParentTaskID && t.UserID == arg.UserID && live t.DeletedAt then
      { t with DeletedAt := ⟨now, true⟩, UpdatedAt := ⟨now, true⟩ }
    else t })

/-- A status or priority filter: an empty set filters nothing. -/
def inFilter (set : List String) (v : String) : Bool := set.isEmpty || set.contains v

/-- Modelled from the spec: a page of the tasks of the project that have no parent and are
not deleted, filtered by status and priority. -/
def listRootTasks (arg : ListRootTasksParams) (T : Tables) :
    Except StorageError (List Task) × Tables :=
  (.ok (page (fun t => (t.CreatedAt, t.ID)) arg.Column5 (arg.Column6, arg.Column7) arg.Limit
    (T.tasks.filter fun t => t.UserID == arg.UserID && t.ProjectID == arg.ProjectID &&
      !t.ParentTaskID.Valid && live t.DeletedAt && inFilter arg.Column3 t.Status &&
      inFilter arg.Column4 t.Priority)), T)

/-- Modelled from the spec: a page of the tasks of the project with that parent that are
not deleted, filtered by status and priority. -/
def listSubtasks (arg : ListSubtasksParams) (T : Tables) :
    Except StorageError (List Task) × Tables :=
  (.ok (page (fun t => (t.CreatedAt, t.ID)) arg.Column6 (arg.Column7, arg.Column8) arg.Limit
    (T.tasks.filter fun t => t.UserID == arg.UserID && t.ProjectID == arg.ProjectID &&
      t.ParentTaskID == arg.ParentTaskID && live t.DeletedAt && inFilter arg.Column4 t.Status &&
      inFilter arg.Column5 t.Priority)), T)

/-- Modelled from the spec: the labels of the owner attached to the task. -/
def listLabelsByTaskID (arg : ListLabelsByTaskIDParams) (T : Tables) :
    Except StorageError (List Label) × Tables :=
  (.ok (T.labels.filter fun l => l.UserID == arg.UserID && live l.DeletedAt &&
    T.taskLabels.any fun r => r.TaskID == arg.TaskID && r.LabelID == l.ID), T)

/-- Modelled from the spec: the tasks of the owner with that parent that are not
deleted. -/
def listSubtasksByParentID (arg : ListSubtasksByParentIDParams) (T : Tables) :
    Except StorageError (List Task) × Tables :=
  (.ok (T.tasks.filter fun t => t.UserID == arg.UserID &&
    t.ParentTaskID == arg.ParentTaskID && live t.DeletedAt), T)

/-- Modelled from the spec: the links of the task are deleted. -/
def deleteTaskLabelsForTask (taskID : PgUUID) (T : Tables) : Except StorageError Unit × Tables :=
  (.ok (), { T with taskLabels := T.taskLabels.filter fun r => !(r.TaskID == taskID) })

/-- Modelled from the spec: the labels among `ids` that belong to the owner and are not
deleted; it is what GetLabelsByIDs returns. -/
def ownedLabels (arg : GetLabelsByIDsParams) (T : Tables) : List Label :=
  T.labels.filter fun l => l.UserID == arg.UserID && live l.DeletedAt && arg.Column2.contains l.ID

/-- Modelled from the spec: the statement GetLabelsByIDs returns `ownedLabels`. -/
def getLabelsByIDs (arg : GetLabelsByIDsParams) (T : Tables) :
    Except StorageError (List Label) × Tables :=
  (.ok (ownedLabels arg T), T)

/-- Modelled from the spec: a link is inserted unless it is there already. -/
def insertTaskLabel (arg : InsertTaskLabelParams) (T : Tables) :
    Except StorageError Unit × Tables :=
  if T.taskLabels.contains arg then (.ok (), T)
  else (.ok (), { T with taskLabels := T.taskLabels ++ [arg] })

/-- The label ids linked to a task, in the order of the join table. -/
def labelsOf (T : Tables) (taskID : PgUUID) : List PgUUID :=
  (T.taskLabels.filter fun r => r.TaskID == taskID).map fun r => r.LabelID

end Tables

namespace Store

/-- Modelled from the spec: one statement: it acts on the tables with the id and the clock
reading the database draws for it. A transaction that is open keeps its saved tables. -/
def run {R : Type} (src : Source) (f : UUID → Time → Tables → Except StorageError R × Tables)
    (d : Store) : Except StorageError R × Store :=
  let r := f (src.uuid d.serial) (src.clock d.serial) d.tables
  (r.1, { tables := r.2, saved := d.saved, serial := d.serial + 1 })

/-- Modelled from the spec: the Storage Gateway over the tables. BeginTx saves the tables,
Rollback restores them and Commit keeps the new ones; after either the transaction is
closed. -/
def queries (src : Source) : Queries Store where
  BeginTx := fun d => (none, { d with saved := some d.tables })
  Commit := fun d =>
    match d.saved with
    | some _ => (none, { d with saved := none })
    | none => (some Tables.errTxClosed, d)
  Rollback := fun d =>
    match d.saved with
    | some t => (none, { d with tables := t, saved := none })
    | none => (some Tables.errTxClosed, d)
  UpsertUserByEmail := fun arg => run src fun id now => Tables.upsertUserByEmail id now arg
  GetUserByID := fun id => run src fun _ _ => Tables.getUserByID id
  CreateProject := fun arg => run src fun id now => Tables.createProject id now arg
  UpdateProject := fun arg => run src fun _ now => Tables.updateProject now arg
  SoftDeleteProject := fun arg => run src fun _ now => Tables.softDeleteProject now arg
  SoftDeleteTasksByProject := fun arg => run src fun _ now => Tables.softDeleteTasksByProject now arg
  GetProjectByID := fun arg => run src fun _ _ => Tables.getProjectByID arg
  ListProjects := fun arg => run src fun _ _ => Tables.listProjects arg
  CreateLabel := fun arg => run src fun id now => Tables.createLabel id now arg
  UpdateLabel := fun arg => run src fun _ now => Tables.updateLabel now arg
  SoftDeleteLabel := fun arg => run src fun _ now => Tables.softDeleteLabel now arg
  DeleteTaskLabelsByLabelID := fun id => run src fun _ _ => Tables.deleteTaskLabelsByLabelID id
  ListLabels := fun arg => run src fun _ _ => Tables.listLabels arg
  GetTaskByID := fun arg => run src fun _ _ => Tables.getTaskByID arg
  CreateTask := fun arg => run src fun id now => Tables.createTask id now arg
  UpdateTask := fun arg => run src fun _ now => Tables.updateTask now arg
  SoftDeleteTask := fun arg => run src fun _ now => Tables.softDeleteTask now arg
  SoftDeleteDirectSubtasks := fun arg => run src fun _ now => Tables.softDeleteDirectSubtasks now arg
  ListRootTasks := fun arg => run src fun _ _ => Tables.listRootTasks arg
  ListSubtasks := fun arg => run src fun _ _ => Tables.listSubtasks arg
  ListLabelsByTaskID := fun arg => run src fun _ _ => Tables.listLabelsByTaskID arg
  ListSubtasksByParentID := fun arg => run src fun _ _ => Tables.listSubtasksByParentID arg
  DeleteTaskLabelsForTask := fun id => run src fun _ _ => Tables.deleteTaskLabelsForTask id
  GetLabelsByIDs := fun arg => run src fun _ _ => Tables.getLabelsByIDs arg
  InsertTaskLabel := fun arg => run src fun _ _ => Tables.insertTaskLabel arg

/-- The store with empty tables and no open transaction. -/
def empty : Store := { tables := ⟨[], [], [], [], []⟩, saved := none, serial := 0 }

end Store

/-! ## Properties of service code over the states of the storage layer -/

namespace Op

/-- Service code keeps `I`: started in a storage state with `I`, it ends in one. -/
structure Keeps {σ α : Type} (I : σ → Prop) (p : Op σ α) : Prop where
  all : ∀ s d, I d → I (p s d).db

/-- Started in a storage state with `P`, service code ends in a state with `R a` when it
returns `a`, and in a state with `E` when it returns an error. -/
structure Triple {σ α : Type} (P : σ → Prop) (p : Op σ α) (R : α → σ → Prop) (E : σ → Prop) :
    Prop where
  ok : ∀ s d a, P d → (p s d).result = .ok a → R a (p s d).db
  err : ∀ s d e, P d → (p s d).result = .error e → E (p s d).db

end Op

/-- A property of the tables that holds of the current tables and of the tables saved by
the open transaction, if there is one. -/
def Store.Inv (J : Tables → Prop) (d : Store) : Prop := J d.tables ∧ ∀ t, d.saved = some t → J t

/-- The id, parent and project of a task row. -/
def Task.key (t : Task) : PgUUID × PgUUID × PgUUID := (t.ID, t.ParentTaskID, t.ProjectID)

/-- The ids, parents and projects of the task rows, in the order of the table. -/
def Tables.keys (T : Tables) : List (PgUUID × PgUUID × PgUUID) := T.tasks.map Task.key

/-- The nesting invariant of the specification on the keys of the task rows: a task that
has a parent has it among the rows, and the parent has no parent and is in the same
project. Beside it, ids are unique and every task has a project. -/
def Nested (keys : List (PgUUID × PgUUID × PgUUID)) : Prop :=
  (keys.map fun k => k.1).Nodup ∧ (∀ k ∈ keys, k.2.2.Valid = true) ∧
    ∀ k ∈ keys, k.2.1.Valid = true →
      ∃ p ∈ keys, p.1 = k.2.1 ∧ p.2.1.Valid = false ∧ p.2.2 = k.2.2

/-- The tables other than the table of users. -/
def Tables.withoutUsers (T : Tables) : Tables := { T with users := [] }

/-- Service code on the store that checks the labels it fetches: a run that fetched the
labels for `arg` without error, from tables in which their number differs from the
number of ids asked for, returns the error of that check. -/
structure Op.LabelsChecked {α : Type} (p : Op Store α) : Prop where
  all : ∀ s d arg, (⟨.GetLabelsByIDs arg, none⟩ : Event) ∈ (p s d).events →
    (Tables.ownedLabels arg d.tables).length ≠ arg.Column2.length →
    (p s d).result = .error (NewBadInput "one or more labelIds are invalid")

/-- Service code on the store that fails without effect on the tables: a run that
returns an error leaves the tables as it found them. -/
structure Op.Atomic {α : Type} (p : Op Store α) : Prop where
  all : ∀ s d e, (p s d).result = .error e → (p s d).db.tables = d.tables

/-- A storage call that deletes or inserts links between tasks and labels. -/
def Call.writesTaskLabels : Call → Bool
  | .DeleteTaskLabelsForTask _ => true
  | .DeleteTaskLabelsByLabelID _ => true
  | .InsertTaskLabel _ => true
  | _ => false

/-- The runs of a sequence of requests, each with its reading of the clock. -/
def runAll {σ : Type} (U : UnicodeTables) (Q : Queries σ) :
    List (Time × Request) → Service → σ → Service × σ
  | [], s, d => (s, d)
  | step :: rest, s, d =>
      runAll U Q rest (perform U Q step.1 step.2 s d).svc (perform U Q step.1 step.2 s d).db

namespace Sample

/-- A source of ids and clock readings for examples: the `n`-th id ends in the byte `n`. -/
def source : Source :=
  { uuid := fun n => ⟨List.replicate 15 7 ++ [n % 256]⟩, clock := fun _ => now }

/-- A task input for the project with id `07070707-0707-0707-0707-070707070701`. -/
def taskIn (parent : Option String) (labels : Option (List String)) : CreateTaskInput :=
  { ProjectID := "07070707-0707-0707-0707-070707070701", ParentTaskID := parent,
    Title := "write", Description := none, Status := "", Priority := "", StartAt := none,
    DueAt := none, LabelIDs := labels }

/-- A session: a project, a task in it, a subtask of that task, and the attempt to create a
subtask of the subtask. -/
def session : List (Time × Request) :=
  [(now, .CreateProject ⟨"home", none, none⟩),
   (now, .CreateTask (taskIn none none)),
   (now, .CreateTask (taskIn (some "07070707-0707-0707-0707-070707070703") none)),
   (later, .CreateTask (taskIn (some "07070707-0707-0707-0707-070707070707") none))]

/-- An update of the task of `session` that sets its labels and nothing else. -/
def relabel (ids : Option (List String)) : UpdateTaskInput :=
  { ID := "07070707-0707-0707-0707-070707070703", Title := none, Description := none,
    Status := none, Priority := none, StartAt := none, DueAt := none, LabelIDs := ids }

/-- A session: a project, a task in it, and the owner changing the name of the profile. -/
def renamed : List (Time × Request) :=
  session.take 2 ++ [(now, .UpsertMe ⟨"Bob", "owner@example.com", "UTC", none⟩)]

/-- A session: a project, a task in it, and two labels, with the ids ending in 05 and
06. -/
def labelled : List (Time × Request) :=
  session.take 2 ++ [(now, .CreateLabel ⟨"home"⟩), (now, .CreateLabel ⟨"work"⟩)]

end Sample


/-- Service code that leaves the service struct `s0` as it is. -/
structure Op.KeepsCache {σ α : Type} (s0 : Service) (p : Op σ α) : Prop where
  all : ∀ d, (p s0 d).svc = s0

/-- The owner id is cached: the test at the head of `ensureDefaultUser`. -/
def Service.Cached (s : Service) : Prop := s.defaultUserSet = true ∧ s.defaultUserID ≠ UUID.Nil

instance (s : Service) : Decidable s.Cached := by unfold Service.Cached; infer_instance

/-- The argument of the upsert of owner resolution: the configured defaults. -/
def Service.defaultsArg (s : Service) : UpsertUserByEmailParams :=
  { Name := s.defaultUser.Name, Email := s.defaultUser.Email,
    Timezone := s.defaultUser.Timezone, AvatarUrl := s.defaultUser.AvatarURL }

/-- Modelled from the spec: the store on which the cascade statements of the deletes fail
with the error `e` of the driver (a lost connection, an expired deadline) and change
nothing; every other statement and the transaction are those of `Store.queries`. -/
def Store.failingCascade (src : Source) (e : StorageError) : Queries Store :=
  { Store.queries src with
    SoftDeleteTasksByProject := fun _ => Store.run src fun _ _ T => (.error e, T)
    SoftDeleteDirectSubtasks := fun _ => Store.run src fun _ _ T => (.error e, T)
    DeleteTaskLabelsByLabelID := fun _ => Store.run src fun _ _ T => (.error e, T) }

/-- A queries record over the store whose transaction is that of `Store.queries`. -/
structure Store.SameTx (src : Source) (Q : Queries Store) : Prop where
  begin : Q.BeginTx = (Store.queries src).BeginTx
  commit : Q.Commit = (Store.queries src).Commit
  rollback : Q.Rollback = (Store.queries src).Rollback

/-- The id and the owner of a project row. -/
def Project.scope (p : Project) : PgUUID × PgUUID := (p.ID, p.UserID)

/-- The id, the project, the parent and the owner of a task row. -/
def Task.scope (t : Task) : PgUUID × PgUUID × PgUUID × PgUUID :=
  (t.ID, t.ProjectID, t.ParentTaskID, t.UserID)

/-- The scopes of the project rows and of the task rows, in the order of the tables. -/
def Tables.owners (T : Tables) :
    List (PgUUID × PgUUID) × List (PgUUID × PgUUID × PgUUID × PgUUID) :=
  (T.projects.map Project.scope, T.tasks.map Task.scope)

/-- Rows are scoped by owner: project ids and task ids are keys, a task belongs to the
owner of its project, and a subtask to the owner of its parent. -/
def Scoped (k : List (PgUUID × PgUUID) × List (PgUUID × PgUUID × PgUUID × PgUUID)) : Prop :=
  (k.1.map fun p => p.1).Nodup ∧ (k.2.map fun t => t.1).Nodup ∧
    ∀ t ∈ k.2, (t.2.1, t.2.2.2) ∈ k.1 ∧
      (t.2.2.1.Valid = true → ∃ q ∈ k.2, q.1 = t.2.2.1 ∧ q.2.2.2 = t.2.2.2)

namespace Sample

/-- The service and the store after the session `labelled`, with the task linked to both
labels. -/
def linked : Service × Store :=
  let r := runAll asciiTables (Store.queries source) labelled Service.fresh Store.empty
  (r.1, { r.2 with tables := { r.2.tables with
    taskLabels := [⟨toPgUUID (source.uuid 3), toPgUUID (source.uuid 5)⟩,
      ⟨toPgUUID (source.uuid 3), toPgUUID (source.uuid 6)⟩] } })

/-- The service and the store after the first three requests of `session`: a project, a
task in it and a subtask of the task. -/
def nested : Service × Store :=
  runAll asciiTables (Store.queries source) (session.take 3) Service.fresh Store.empty

end Sample

/-! ## graph/errors.go -/

/-- The `*gqlerror.Error` that `asGraphQLError` builds: its `Message` and the entry `code`
of its `Extensions`. -/
structure GqlError where
  Message : String
  code : String
deriving DecidableEq, Repr

/-- `errors.As(err, &appErr)` for a `*service.AppError`: code and message of the first
`AppError` in the chain of `err`, which is `err` itself when it is one; an error of the
storage driver holds none. -/
def asAppError : GoError → Option (ErrorCode × String)
  | .storage _ => none
  | .app code msg => some (code, msg)
  | .appWrap code msg _ => some (code, msg)

/-- `asGraphQLError`; nil is `none`. -/
def asGraphQLError (err : Option GoError) : Option GqlError :=
  match err with
  | none => none
  | some e =>
      match asAppError e with
      | some found => some { Message := found.2, code := found.1 }
      | none => some { Message := "internal server error", code := CodeInternal }

/-! ## graph/mapper.go -/

/-- `uuidString`: the text of the id, as bytes; empty for an id that is not valid. -/
def uuidString (v : PgUUID) : List Nat := if !v.Valid then [] else v.Bytes.String

/-- `timeValue`: the zero time for a value that is not valid. -/
def timeValue (v : PgTime) : Time := if !v.Valid then Time.zero else v.Time.UTC

/-- `timePtr`; a nil pointer is `none`. -/
def timePtr (v : PgTime) : Option Time := if !v.Valid then none else some v.Time.UTC

/-- `stringPtr`: a copy of the string pointed to. -/
def stringPtr (v : Option String) : Option String :=
  match v with
  | none => none
  | some s => some s

/-- Modelled from the spec: the struct `model.Project` of the missing package
`graph/model`, by the fields mapper.go sets. -/
structure ModelProject where
  ID : List Nat
  UserID : List Nat
  Title : String
  Description : Option String
  Color : Option String
  CreatedAt : Time
  UpdatedAt : Time
deriving DecidableEq, Repr

/-- Modelled from the spec: the struct `model.Label` of the missing package `graph/model`,
by the fields mapper.go sets. -/
structure ModelLabel where
  ID : List Nat
  UserID : List Nat
  Name : String
  CreatedAt : Time
  UpdatedAt : Time
deriving DecidableEq, Repr

/-- Modelled from the spec: the struct `model.Task` of the missing package `graph/model`,
by the fields mapper.go sets. -/
structure ModelTask where
  ID : List Nat
  UserID : List Nat
  ProjectID : List Nat
  ParentTaskID : Option (List Nat)
  Title : String
  Description : Option String
  Status : String
  Priority : String
  StartAt : Option Time
  DueAt : Option Time
  CompletedAt : Option Time
  CreatedAt : Time
  UpdatedAt : Time
deriving DecidableEq, Repr

def toModelProject (p : Project) : ModelProject :=
  { ID := uuidString p.ID, UserID := uuidString p.UserID, Title := p.Title,
    Description := stringPtr p.Description, Color := stringPtr p.Color,
    CreatedAt := timeValue p.CreatedAt, UpdatedAt := timeValue p.UpdatedAt }

def toModelLabel (l : Label) : ModelLabel :=
  { ID := uuidString l.ID, UserID := uuidString l.UserID, Name := l.Name,
    CreatedAt := timeValue l.CreatedAt, UpdatedAt := timeValue l.UpdatedAt }

def toModelTask (t : Task) : ModelTask :=
  { ID := uuidString t.ID, UserID := uuidString t.UserID, ProjectID := uuidString t.ProjectID,
    ParentTaskID := if t.ParentTaskID.Valid then some (uuidString t.ParentTaskID) else none,
    Title := t.Title, Description := stringPtr t.Description, Status := t.Status,
    Priority := t.Priority, StartAt := timePtr t.StartAt, DueAt := timePtr t.DueAt,
    CompletedAt := timePtr t.CompletedAt, CreatedAt := timeValue t.CreatedAt,
    UpdatedAt := timeValue t.UpdatedAt }

/-- `edgeCursor`. -/
def edgeCursor (createdAt : Time) (id : PgUUID) : String :=
  let uid := if id.Valid then id.Bytes else UUID.Nil
  Base64.EncodeToString (createdAt.UTC.FormatRFC3339Nano ++ [124] ++ uid.String)

/-- Modelled from the spec: the structs `model.ProjectEdge`, `model.LabelEdge` and
`model.TaskEdge` of the missing package `graph/model`, which differ in the type of the
node. -/
structure Edge (N : Type) where
  Cursor : String
  Node : N
deriving DecidableEq, Repr

/-- Modelled from the spec: the struct `model.PageInfo` of the missing package
`graph/model`. -/
structure PageInfo where
  EndCursor : Option String
  HasNextPage : Bool
deriving DecidableEq, Repr

/-- Modelled from the spec: the structs `model.ProjectConnection`, `model.LabelConnection`
and `model.TaskConnection` of the missing package `graph/model`. -/
structure Connection (N : Type) where
  Edges : List (Edge N)
  PageInfo : PageInfo
deriving DecidableEq, Repr

def toProjectConnection (page : PageResult Project) : Connection ModelProject :=
  { Edges := page.Items.map fun item =>
      { Cursor := edgeCursor item.CreatedAt.Time item.ID, Node := toModelProject item },
    PageInfo := { EndCursor := page.EndCursor, HasNextPage := page.HasNextPage } }

def toLabelConnection (page : PageResult Label) : Connection ModelLabel :=
  { Edges := page.Items.map fun item =>
      { Cursor := edgeCursor item.CreatedAt.Time item.ID, Node := toModelLabel item },
    PageInfo := { EndCursor := page.EndCursor, HasNextPage := page.HasNextPage } }

def toTaskConnection (page : PageResult Task) : Connection ModelTask :=
  { Edges := page.Items.map fun item =>
      { Cursor := edgeCursor item.CreatedAt.Time item.ID, Node := toModelTask item },
    PageInfo := { EndCursor := page.EndCursor, HasNextPage := page.HasNextPage } }


/-! ## The texts of a cursor, in the words of the specification -/

/-- A text of exactly `n` decimal digits. -/
def Digits (n : Nat) (l : List Nat) : Prop := l.length = n ∧ ∀ b ∈ l, Time.isDigit b = true

instance (n : Nat) (l : List Nat) : Decidable (Digits n l) := by unfold Digits; infer_instance

/-- A text of exactly `n` hexadecimal digits, of either case. -/
def HexDigits (n : Nat) (l : List Nat) : Prop :=
  l.length = n ∧ ∀ b ∈ l, (UUID.xvalue b).isSome = true

instance (n : Nat) (l : List Nat) : Decidable (HexDigits n l) := by
  unfold HexDigits; infer_instance

namespace Base64

/-- Valid standard base64, once line breaks are left out: groups of four characters of the
alphabet, of which the last may end in `==` or in `=`. -/
inductive Wellformed : List Char → Prop
  | nil : Wellformed []
  | pad2 (a b : Char) : a ∈ encodeStd → b ∈ encodeStd → Wellformed [a, b, '=', '=']
  | pad1 (a b c : Char) : a ∈ encodeStd → b ∈ encodeStd → c ∈ encodeStd →
      Wellformed [a, b, c, '=']
  | group (a b c d : Char) (rest : List Char) : a ∈ encodeStd → b ∈ encodeStd →
      c ∈ encodeStd → d ∈ encodeStd → Wellformed rest → Wellformed (a :: b :: c :: d :: rest)

/-- Valid standard base64: well-formed once carriage returns and line feeds are left
out. -/
def Valid (s : String) : Prop :=
  Wellformed (s.toList.filter fun c => c ≠ '\n' ∧ c ≠ '\r')

end Base64

namespace Time

/-- The grammar `date-time` of RFC 3339, section 5.6, by position:
`4DIGIT "-" 2DIGIT "-" 2DIGIT "T" 2DIGIT ":" 2DIGIT ":" 2DIGIT ["." 1*DIGIT]` followed by
`"Z"` or `("+" / "-") 2DIGIT ":" 2DIGIT`, where `T` and `Z` may be in lower case. Every
RFC 3339 timestamp has this shape; the ranges of the fields are left out. -/
def RFC3339Shape (v : List Nat) : Bool :=
  let dg := fun i => isDigit (v.getD i 0)
  let ch := fun i b => v.getD i 0 == b
  let rest := v.drop 19
  let zone := if rest.head? = some 46 then (rest.drop 1).dropWhile isDigit else rest
  dg 0 && dg 1 && dg 2 && dg 3 && ch 4 45 && dg 5 && dg 6 && ch 7 45 && dg 8 && dg 9 &&
  (ch 10 84 || ch 10 116) && dg 11 && dg 12 && ch 13 58 && dg 14 && dg 15 && ch 16 58 &&
  dg 17 && dg 18 && (rest.head? != some 46 || isDigit (rest.getD 1 0)) &&
  (zone == [90] || zone == [122] ||
    (zone.length == 6 && (zone.getD 0 0 == 43 || zone.getD 0 0 == 45) &&
      isDigit (zone.getD 1 0) && isDigit (zone.getD 2 0) && zone.getD 3 0 == 58 &&
      isDigit (zone.getD 4 0) && isDigit (zone.getD 5 0)))

/-- The fraction of a second that `time.Parse` reads: nothing, or a period or a comma and
at least one digit. -/
def FracText (f : List Nat) : Prop :=
  f = [] ∨ ∃ sep ds, f = sep :: ds ∧ (sep = 46 ∨ sep = 44) ∧ ds ≠ [] ∧
    ∀ b ∈ ds, isDigit b = true

/-- The zone that `time.Parse` reads: `Z`, or a sign, two digits of hours up to 24, a colon
and two digits of minutes up to 60. -/
def ZoneText (z : List Nat) : Prop :=
  z = [90] ∨ ∃ sg hh mm, z = sg :: (hh ++ [58] ++ mm) ∧ (sg = 43 ∨ sg = 45) ∧
    Digits 2 hh ∧ Digits 2 mm ∧ digitsVal hh ≤ 24 ∧ digitsVal mm ≤ 60

/-- The timestamps that `time.Parse` reads with the layout RFC3339Nano, as the amended
sentence describes them: a date of four, two and two digits, `T`, an hour of one or two
digits, minutes and seconds of two digits, a fraction, a zone, nothing after it, and the
month, the day of the month, the hour, the minute and the second in range. -/
def Accepted (v : List Nat) : Prop :=
  ∃ y M D h m s frac zone : List Nat,
    v = y ++ [45] ++ M ++ [45] ++ D ++ [84] ++ h ++ [58] ++ m ++ [58] ++ s ++ frac ++ zone ∧
    Digits 4 y ∧ Digits 2 M ∧ Digits 2 D ∧ (Digits 1 h ∨ Digits 2 h) ∧ Digits 2 m ∧
    Digits 2 s ∧ FracText frac ∧ ZoneText zone ∧
    1 ≤ digitsVal M ∧ digitsVal M ≤ 12 ∧
    1 ≤ digitsVal D ∧ digitsVal D ≤ daysIn (digitsVal M) (digitsVal y : Int) ∧
    digitsVal h < 24 ∧ digitsVal m < 60 ∧ digitsVal s < 60

end Time

namespace UUID

/-- The form `xxxxxxxx-xxxx-xxxx-xxxx-xxxxxxxxxxxx` of hexadecimal digits. -/
def Canonical (s : List Nat) : Prop :=
  ∃ a b c d e : List Nat, s = a ++ [45] ++ b ++ [45] ++ c ++ [45] ++ d ++ [45] ++ e ∧
    HexDigits 8 a ∧ HexDigits 4 b ∧ HexDigits 4 c ∧ HexDigits 4 d ∧ HexDigits 12 e

/-- The texts that `uuid.Parse` reads: the canonical form, the same after `urn:uuid:` in
any case, the same between two further characters (braces), or 32 hexadecimal digits. -/
def Parseable (s : List Nat) : Prop :=
  Canonical s ∨
  (∃ p t, s = p ++ t ∧ p.map lowerByte = [117, 114, 110, 58, 117, 117, 105, 100, 58] ∧
    Canonical t) ∨
  (∃ x y t, s = x :: (t ++ [y]) ∧ Canonical t) ∨
  HexDigits 32 s

end UUID

namespace Base64

/-! ### Round trip of the base64 codec -/

theorem dec_enc : ∀ i : Fin 64, dec (enc i.val) = some i.val := by decide
theorem dec_enc_nat (i : Nat) (h : i < 64) : dec (enc i) = some i := dec_enc ⟨i, h⟩
theorem enc_ne_eq : ∀ i : Fin 64, enc i.val ≠ '=' ∧ enc i.val ≠ '\n' ∧ enc i.val ≠ '\r' := by
  decide
theorem enc_plain (i : Nat) (h : i < 64) : enc i ≠ '=' ∧ enc i ≠ '\n' ∧ enc i ≠ '\r' :=
  enc_ne_eq ⟨i, h⟩

theorem encode_no_breaks (bs : List Nat) :
    ∀ c ∈ encode bs, c ≠ '\n' ∧ c ≠ '\r' := by
  induction bs using encode.induct with
  | case1 => simp [encode]
  | case2 a =>
      have h1 := enc_plain (a * 65536 / 262144 % 64) (Nat.mod_lt _ (by decide))
      have h2 := enc_plain (a * 65536 / 4096 % 64) (Nat.mod_lt _ (by decide))
      simp [encode, h1.2.1, h1.2.2, h2.2.1, h2.2.2]
  | case3 a b =>
      have h1 := enc_plain ((a * 65536 + b * 256) / 262144 % 64) (Nat.mod_lt _ (by decide))
      have h2 := enc_plain ((a * 65536 + b * 256) / 4096 % 64) (Nat.mod_lt _ (by decide))
      have h3 := enc_plain ((a * 65536 + b * 256) / 64 % 64) (Nat.mod_lt _ (by decide))
      simp [encode, h1.2.1, h1.2.2, h2.2.1, h2.2.2, h3.2.1, h3.2.2]
  | case4 a b c rest ih =>
      have h1 := enc_plain ((a * 65536 + b * 256 + c) / 262144 % 64) (Nat.mod_lt _ (by decide))
      have h2 := enc_plain ((a * 65536 + b * 256 + c) / 4096 % 64) (Nat.mod_lt _ (by decide))
      have h3 := enc_plain ((a * 65536 + b * 256 + c) / 64 % 64) (Nat.mod_lt _ (by decide))
      have h4 := enc_plain ((a * 65536 + b * 256 + c) % 64) (Nat.mod_lt _ (by decide))
      simp only [encode, List.mem_cons]
      rintro x (rfl | rfl | rfl | rfl | hx)
      · exact h1.2
      · exact h2.2
      · exact h3.2
      · exact h4.2
      · exact ih x hx

theorem decodeQuanta_encode (bs : List Nat) (hb : ∀ b ∈ bs, b < 256) :
    decodeQuanta (encode bs) = some bs := by
  induction bs using encode.induct with
  | case1 => rfl
  | case2 a =>
      have ha : a < 256 := hb a (by simp)
      have h1 := dec_enc_nat (a * 65536 / 262144 % 64) (Nat.mod_lt _ (by decide))
      have h2 := dec_enc_nat (a * 65536 / 4096 % 64) (Nat.mod_lt _ (by decide))
      simp only [encode, decodeQuanta, h1, h2]
      simp
      omega
  | case3 a b =>
      have ha : a < 256 := hb a (by simp)
      have hb' : b < 256 := hb b (by simp)
      have h1 := dec_enc_nat ((a * 65536 + b * 256) / 262144 % 64) (Nat.mod_lt _ (by decide))
      have h2 := dec_enc_nat ((a * 65536 + b * 256) / 4096 % 64) (Nat.mod_lt _ (by decide))
      have h3 := dec_enc_nat ((a * 65536 + b * 256) / 64 % 64) (Nat.mod_lt _ (by decide))
      have p3 := enc_plain ((a * 65536 + b * 256) / 64 % 64) (Nat.mod_lt _ (by decide))
      simp only [encode, decodeQuanta, h1, h2, h3]
      simp [p3.1]
      omega
  | case4 a b c rest ih =>
      have ha : a < 256 := hb a (by simp)
      have hb' : b < 256 := hb b (by simp)
      have hc : c < 256 := hb c (by simp)
      have ih' := ih (fun x hx => hb x (by simp [hx]))
      have h1 := dec_enc_nat ((a * 65536 + b * 256 + c) / 262144 % 64) (Nat.mod_lt _ (by decide))
      have h2 := dec_enc_nat ((a * 65536 + b * 256 + c) / 4096 % 64) (Nat.mod_lt _ (by decide))
      have h3 := dec_enc_nat ((a * 65536 + b * 256 + c) / 64 % 64) (Nat.mod_lt _ (by decide))
      have h4 := dec_enc_nat ((a * 65536 + b * 256 + c) % 64) (Nat.mod_lt _ (by decide))
      have p3 := enc_plain ((a * 65536 + b * 256 + c) / 64 % 64) (Nat.mod_lt _ (by decide))
      have p4 := enc_plain ((a * 65536 + b * 256 + c) % 64) (Nat.mod_lt _ (by decide))
      simp only [encode, decodeQuanta, h1, h2, h3, h4, ih']
      simp [p3.1, p4.1]
      omega

theorem DecodeString_EncodeToString (bs : List Nat) (hb : ∀ b ∈ bs, b < 256) :
    DecodeString (EncodeToString bs) = some bs := by
  have hf : (encode bs).filter (fun c => c ≠ '\n' ∧ c ≠ '\r') = encode bs :=
    List.filter_eq_self.mpr (fun c hc => by simpa using encode_no_breaks bs c hc)
  show decodeQuanta ((encode bs).filter fun c => c ≠ '\n' ∧ c ≠ '\r') = some bs
  rw [hf, decodeQuanta_encode bs hb]


end Base64
namespace Time

/-! ### Digits -/

theorem lowDigits_length (w u : Nat) : (lowDigits w u).length = w := by
  induction w generalizing u with
  | zero => rfl
  | succ w ih => simp [lowDigits, ih]

theorem lowDigits_digit (w u : Nat) : ∀ b ∈ lowDigits w u, 48 ≤ b ∧ b ≤ 57 := by
  induction w generalizing u with
  | zero => simp [lowDigits]
  | succ w ih =>
      intro b hb
      simp only [lowDigits, List.mem_append, List.mem_singleton] at hb
      rcases hb with hb | hb
      · exact ih _ b hb
      · omega

theorem digitsVal_snoc (l : List Nat) (d : Nat) :
    digitsVal (l ++ [d]) = digitsVal l * 10 + (d - 48) := by
  simp [digitsVal, List.foldl_append]

theorem digitsVal_lowDigits (w u : Nat) : digitsVal (lowDigits w u) = u % 10 ^ w := by
  induction w generalizing u with
  | zero => simp [lowDigits, digitsVal, Nat.mod_one]
  | succ w ih =>
      rw [lowDigits, digitsVal_snoc, ih, pow_succ, mul_comm (10 ^ w) 10, Nat.mod_mul]
      omega

theorem trimZeros_snoc (l : List Nat) (d : Nat) :
    trimZeros (l ++ [d]) = if d = 48 then trimZeros l else l ++ [d] := by
  unfold trimZeros
  by_cases h : d = 48
  · simp [h, List.dropWhile]
  · simp [h, List.dropWhile]

theorem trimZeros_nil : trimZeros [] = [] := rfl

theorem trimZeros_spec (l : List Nat) :
    (trimZeros l).length ≤ l.length ∧ (∀ b ∈ trimZeros l, b ∈ l) ∧
      digitsVal l = digitsVal (trimZeros l) * 10 ^ (l.length - (trimZeros l).length) ∧
      (trimZeros l).getLast? ≠ some 48 := by
  induction l using List.reverseRecOn with
  | nil => simp [trimZeros_nil]
  | append_singleton l d ih =>
      rw [trimZeros_snoc]
      by_cases h : d = 48
      · obtain ⟨h1, h2, h3, h4⟩ := ih
        simp only [h, if_true, List.length_append, List.length_singleton]
        refine ⟨by omega, fun b hb => by simp [h2 b hb], ?_, h4⟩
        rw [digitsVal_snoc, h3]
        have : l.length + 1 - (trimZeros l).length = (l.length - (trimZeros l).length) + 1 := by
          omega
        rw [this, pow_succ]
        ring
      · simp [h]

theorem trimZeros_cons_dot (l : List Nat) : trimZeros (46 :: l) = 46 :: trimZeros l := by
  induction l using List.reverseRecOn with
  | nil => rfl
  | append_singleton l d ih =>
      rw [← List.cons_append, trimZeros_snoc, trimZeros_snoc]
      by_cases h : d = 48
      · simp [h, ih]
      · simp [h]

/-! ### Reading back what `appendInt` writes -/

theorem appendInt_natCast (n w : Nat) (h : n < 10 ^ w) :
    appendInt (n : Int) w = lowDigits w n := by
  have h0 : ¬ ((n : Int) < 0) := by omega
  simp [appendInt, h0, h]

theorem lowDigits_two (n : Nat) : lowDigits 2 n = [48 + n / 10 % 10, 48 + n % 10] := by
  simp [lowDigits]

theorem lowDigits_four (n : Nat) :
    lowDigits 4 n = [48 + n / 10 / 10 / 10 % 10, 48 + n / 10 / 10 % 10, 48 + n / 10 % 10,
      48 + n % 10] := by
  simp [lowDigits]

theorem getnum_two (n : Nat) (h : n < 100) (fixed : Bool) (rest : List Nat) :
    getnum (lowDigits 2 n ++ rest) fixed = some (n, rest) := by
  have h1 : isDigit (48 + n / 10 % 10) = true := by simp [isDigit]; omega
  have h2 : isDigit (48 + n % 10) = true := by simp [isDigit]; omega
  simp only [lowDigits_two, List.cons_append, List.nil_append, getnum, h1, h2]
  simp
  omega

theorem getYear_four (n : Nat) (h : n < 10000) (rest : List Nat) :
    getYear (lowDigits 4 n ++ rest) = some (n, rest) := by
  have h1 : isDigit (48 + n / 10 / 10 / 10 % 10) = true := by simp [isDigit]; omega
  have h2 : isDigit (48 + n / 10 / 10 % 10) = true := by simp [isDigit]; omega
  have h3 : isDigit (48 + n / 10 % 10) = true := by simp [isDigit]; omega
  have h4 : isDigit (48 + n % 10) = true := by simp [isDigit]; omega
  simp only [lowDigits_four, List.cons_append, List.nil_append, getYear, h1, h2, h3, h4]
  simp
  omega

end Time
namespace Time

/-! ### The fraction of a second -/

theorem appendNano_pos (n : Nat) (h0 : n ≠ 0) (h : n < 1000000000) :
    ∃ d tz, appendNano n = 46 :: d :: tz ∧ (∀ b ∈ d :: tz, 48 ≤ b ∧ b ≤ 57) ∧
      (d :: tz).length ≤ 9 ∧ digitsVal (d :: tz) * 10 ^ (9 - (d :: tz).length) = n := by
  obtain ⟨h1, h2, h3, h4⟩ := trimZeros_spec (lowDigits 9 n)
  rw [lowDigits_length] at h1 h3
  rw [digitsVal_lowDigits] at h3
  have hn : n % 10 ^ 9 = n := Nat.mod_eq_of_lt (by simpa using h)
  rw [hn] at h3
  have hdig : ∀ b ∈ trimZeros (lowDigits 9 n), 48 ≤ b ∧ b ≤ 57 :=
    fun b hb => lowDigits_digit 9 n b (h2 b hb)
  cases htz : trimZeros (lowDigits 9 n) with
  | nil =>
      rw [htz] at h3
      simp [digitsVal] at h3
      exact absurd h3 h0
  | cons d tz =>
      rw [htz] at h1 h3 hdig
      refine ⟨d, tz, ?_, hdig, h1, h3.symm⟩
      have hlast : (46 :: d :: tz).getLast? ≠ some 46 := by
        rw [List.getLast?_cons_cons]
        intro hc
        have hm : (46 : Nat) ∈ d :: tz := List.mem_of_getLast?_eq_some hc
        have := hdig 46 hm
        omega
      have happ : appendInt (n : Int) 9 = lowDigits 9 n :=
        appendInt_natCast n 9 (by simpa using h)
      unfold appendNano
      rw [if_neg h0]
      simp only [happ, trimZeros_cons_dot, htz]
      rw [if_neg hlast]

theorem getFrac_appendNano (n : Nat) (h : n < 1000000000) (r : List Nat) :
    getFrac (appendNano n ++ 90 :: r) = (n, 90 :: r) := by
  have hz : isDigit 90 = false := by decide
  by_cases h0 : n = 0
  · subst h0
    cases r with
    | nil => simp [appendNano, getFrac]
    | cons y r => simp [appendNano, getFrac]
  · obtain ⟨d, tz, he, hdig, hlen, hval⟩ := appendNano_pos n h0 h
    have hd : isDigit d = true := by
      have := hdig d (by simp)
      simp [isDigit]; omega
    have hall : ∀ b ∈ d :: tz, isDigit b = true := by
      intro b hb
      have := hdig b hb
      simp [isDigit]; omega
    have htake : (d :: (tz ++ 90 :: r)).takeWhile isDigit = d :: tz := by
      rw [← List.cons_append, List.takeWhile_append_of_pos hall]
      simp [List.takeWhile, hz]
    have hdrop : (d :: (tz ++ 90 :: r)).dropWhile isDigit = 90 :: r := by
      rw [← List.cons_append, List.dropWhile_append_of_pos hall]
      simp [List.dropWhile, hz]
    have ht : (d :: tz).take 9 = d :: tz := List.take_of_length_le hlen
    rw [he]
    simp only [List.cons_append, getFrac, hd, htake, hdrop, ht, hval]
    simp

end Time
namespace Time

/-! ### `time.Parse` reads back what `Time.Format` writes -/

theorem daysIn_le (m : Nat) (y : Int) : daysIn m y ≤ 31 := by
  unfold daysIn
  split_ifs <;> omega

theorem daysIn_ge (m : Nat) (y : Int) : 28 ≤ daysIn m y := by
  unfold daysIn
  split_ifs <;> omega

/-- The text written for a UTC time whose year has four digits. -/
theorem Format_utc (y month day hour min sec nsec : Nat) (hy : y < 10000) (hm : month < 100)
    (hd : day < 100) (hh : hour < 100) (hmi : min < 100) (hs : sec < 100) :
    FormatRFC3339Nano ⟨(y : Int), month, day, hour, min, sec, nsec, 0⟩ =
      lowDigits 4 y ++ 45 :: (lowDigits 2 month ++ 45 :: (lowDigits 2 day ++ 84 ::
        (lowDigits 2 hour ++ 58 :: (lowDigits 2 min ++ 58 :: (lowDigits 2 sec ++
          (appendNano nsec ++ [90])))))) := by
  simp only [FormatRFC3339Nano, appendZone, if_true]
  rw [appendInt_natCast y 4 (by simpa using hy), appendInt_natCast month 2 (by simpa using hm),
    appendInt_natCast day 2 (by simpa using hd), appendInt_natCast hour 2 (by simpa using hh),
    appendInt_natCast min 2 (by simpa using hmi), appendInt_natCast sec 2 (by simpa using hs)]
  simp only [List.append_assoc, List.cons_append, List.nil_append, List.singleton_append]

theorem Parse_Format (t : Time) (hv : t.Valid) (ho : t.offset = 0) (hy0 : 0 ≤ t.year)
    (hy1 : t.year ≤ 9999) : ParseRFC3339Nano (FormatRFC3339Nano t) = some t := by
  obtain ⟨year, month, day, hour, min, sec, nsec, offset⟩ := t
  simp only [Valid] at hv
  obtain ⟨hm1, hm2, hd1, hd2, hh, hmi, hs, hn⟩ := hv
  simp only at ho hy0 hy1
  subst ho
  lift year to Nat using hy0
  have hd3 := daysIn_le month (year : Int)
  rw [Format_utc year month day hour min sec nsec (by omega) (by omega) (by omega) (by omega)
    (by omega) (by omega)]
  have hdate : getDate (lowDigits 4 year ++ 45 :: (lowDigits 2 month ++ 45 :: (lowDigits 2 day
      ++ 84 :: (lowDigits 2 hour ++ 58 :: (lowDigits 2 min ++ 58 :: (lowDigits 2 sec ++
        (appendNano nsec ++ [90]))))))) = some ((year, month, day), 84 :: (lowDigits 2 hour ++
          58 :: (lowDigits 2 min ++ 58 :: (lowDigits 2 sec ++ (appendNano nsec ++ [90]))))) := by
    simp only [getDate, getYear_four year (by omega), Option.bind, skip, if_true,
      getnum_two month (by omega), getnum_two day (by omega), require]
    simp [hm1, hm2]
  have hclock : getClock (lowDigits 2 hour ++ 58 :: (lowDigits 2 min ++ 58 ::
      (lowDigits 2 sec ++ (appendNano nsec ++ [90])))) =
        some ((hour, min, sec), appendNano nsec ++ [90]) := by
    simp only [getClock, Option.bind, skip, if_true,
      getnum_two hour (by omega), getnum_two min (by omega), getnum_two sec (by omega), require]
    simp [hh, hmi, hs]
  simp only [ParseRFC3339Nano, hdate, Option.bind, skip, if_true, hclock,
    getFrac_appendNano nsec hn []]
  simp [getZone, require, hd1, hd2]

end Time
namespace Time

theorem appendNano_bytes (n : Nat) (h : n < 1000000000) :
    ∀ b ∈ appendNano n, b = 46 ∨ (48 ≤ b ∧ b ≤ 57) := by
  by_cases h0 : n = 0
  · subst h0
    simp [appendNano]
  · obtain ⟨d, tz, he, hdig, _, _⟩ := appendNano_pos n h0 h
    intro b hb
    rw [he, List.mem_cons] at hb
    rcases hb with hb | hb
    · exact Or.inl hb
    · exact Or.inr (hdig b hb)

/-- The text of a UTC time with a four-digit year is ASCII without a vertical bar. -/
theorem Format_bytes (t : Time) (hv : t.Valid) (ho : t.offset = 0) (hy0 : 0 ≤ t.year)
    (hy1 : t.year ≤ 9999) : ∀ b ∈ FormatRFC3339Nano t, b ≠ 124 ∧ b < 256 := by
  obtain ⟨year, month, day, hour, min, sec, nsec, offset⟩ := t
  simp only [Valid] at hv
  obtain ⟨hm1, hm2, hd1, hd2, hh, hmi, hs, hn⟩ := hv
  simp only at ho hy0 hy1
  subst ho
  lift year to Nat using hy0
  have hd3 := daysIn_le month (year : Int)
  rw [Format_utc year month day hour min sec nsec (by omega) (by omega) (by omega) (by omega)
    (by omega) (by omega)]
  intro b hb
  simp only [List.mem_append, List.mem_cons, List.mem_singleton, List.not_mem_nil,
    or_false] at hb
  have hdig := fun w u (h : b ∈ lowDigits w u) => lowDigits_digit w u b h
  have hnano := appendNano_bytes nsec hn b
  rcases hb with hb | hb | hb | hb | hb | hb | hb | hb | hb | hb | hb | hb | hb
  all_goals first
    | exact ⟨by have h1 := hdig _ _ hb; omega, by have h1 := hdig _ _ hb; omega⟩
    | exact ⟨by have h1 := hnano hb; omega, by have h1 := hnano hb; omega⟩
    | omega

/-! ### Changing the location keeps the reading well formed -/

theorem nextDay_valid (d : Int × Nat × Nat) (h : ValidDate d) : ValidDate (nextDay d) := by
  obtain ⟨y, m, dd⟩ := d
  dsimp only [ValidDate] at h
  have h1 := daysIn_ge (m + 1) y
  have h2 := daysIn_ge 1 (y + 1)
  unfold nextDay
  dsimp only
  split_ifs <;> dsimp only [ValidDate] <;> omega

theorem prevDay_valid (d : Int × Nat × Nat) (h : ValidDate d) : ValidDate (prevDay d) := by
  obtain ⟨y, m, dd⟩ := d
  dsimp only [ValidDate] at h
  have h1 := daysIn_ge (m - 1) y
  have h2 : daysIn 12 (y - 1) = 31 := by simp [daysIn]
  unfold prevDay
  dsimp only
  split_ifs <;> dsimp only [ValidDate] <;> omega

theorem iterate_valid (f : Int × Nat × Nat → Int × Nat × Nat)
    (hf : ∀ d, ValidDate d → ValidDate (f d)) (n : Nat) (d : Int × Nat × Nat)
    (h : ValidDate d) : ValidDate (Nat.iterate f n d) := by
  induction n generalizing d with
  | zero => exact h
  | succ n ih => exact ih (f d) (hf d h)

theorem addDays_valid (d : Int × Nat × Nat) (n : Int) (h : ValidDate d) :
    ValidDate (addDays d n) := by
  unfold addDays
  split_ifs
  · exact iterate_valid nextDay nextDay_valid _ d h
  · exact iterate_valid prevDay prevDay_valid _ d h

theorem inZone_valid (t : Time) (offset : Int) (hv : t.Valid) : (t.inZone offset).Valid := by
  obtain ⟨hm1, hm2, hd1, hd2, hh, hmi, hs, hn⟩ := hv
  have hd := addDays_valid (t.year, t.month, t.day)
    (((t.hour * 3600 + t.min * 60 + t.sec : Nat) + (offset - t.offset) : Int) / 86400)
    ⟨hm1, hm2, hd1, hd2⟩
  obtain ⟨a1, a2, a3, a4⟩ := hd
  have hs : ((((t.hour * 3600 + t.min * 60 + t.sec : Nat) + (offset - t.offset) : Int) % 86400)).toNat
      < 86400 := by omega
  refine ⟨a1, a2, a3, a4, ?_, ?_, ?_, hn⟩
  · simp only [inZone]; omega
  · simp only [inZone]; omega
  · simp only [inZone]; omega

theorem UTC_valid (t : Time) (hv : t.Valid) : t.UTC.Valid := inZone_valid t 0 hv

theorem UTC_offset (t : Time) : t.UTC.offset = 0 := rfl

/-- Reading a UTC time in UTC changes nothing. -/
theorem UTC_of_utc (t : Time) (hv : t.Valid) (ho : t.offset = 0) : t.UTC = t := by
  obtain ⟨year, month, day, hour, min, sec, nsec, offset⟩ := t
  obtain ⟨hm1, hm2, hd1, hd2, hh, hmi, hs, hn⟩ := hv
  dsimp only at ho hh hmi hs
  subst ho
  have h0 : ((hour * 3600 + min * 60 + sec : Nat) + (0 - 0) : Int) / 86400 = 0 := by omega
  have h1 : (((hour * 3600 + min * 60 + sec : Nat) + (0 - 0) : Int) % 86400).toNat =
      hour * 3600 + min * 60 + sec := by omega
  have h2 : (hour * 3600 + min * 60 + sec) / 3600 = hour := by omega
  have h3 : (hour * 3600 + min * 60 + sec) / 60 % 60 = min := by omega
  have h4 : (hour * 3600 + min * 60 + sec) % 60 = sec := by omega
  unfold UTC inZone
  dsimp only
  rw [h0, h1, h2, h3, h4]
  rfl

theorem UTC_idem (t : Time) (hv : t.Valid) : t.UTC.UTC = t.UTC :=
  UTC_of_utc t.UTC (UTC_valid t hv) (UTC_offset t)

end Time
namespace UUID

/-! ### `uuid.Parse` reads back what `UUID.String` writes -/

theorem xvalue_hexDigit : ∀ n : Fin 16, xvalue (hexDigit n.val) = some n.val := by decide

theorem xtob_hex (b : Nat) (h : b < 256) :
    xtob (hexDigit (b / 16)) (hexDigit (b % 16)) = some b := by
  have h1 := xvalue_hexDigit ⟨b / 16, by omega⟩
  have h2 := xvalue_hexDigit ⟨b % 16, Nat.mod_lt _ (by decide)⟩
  dsimp only at h1 h2
  simp only [xtob, h1, h2]
  congr 1
  omega

theorem hexDigit_plain : ∀ n : Fin 16, hexDigit n.val ≠ 124 ∧ hexDigit n.val < 256 := by decide

theorem hexDigit_byte (n : Nat) (h : n < 16) : hexDigit n ≠ 124 ∧ hexDigit n < 256 :=
  hexDigit_plain ⟨n, h⟩

theorem hexEncode_bytes (l : List Nat) (h : ∀ b ∈ l, b < 256) :
    ∀ c ∈ hexEncode l, c ≠ 124 ∧ c < 256 := by
  induction l with
  | nil => simp [hexEncode]
  | cons b l ih =>
      have hb : b < 256 := h b (by simp)
      intro c hc
      simp only [hexEncode, List.mem_cons] at hc
      rcases hc with hc | hc | hc
      · subst hc; exact hexDigit_byte _ (by omega)
      · subst hc; exact hexDigit_byte _ (Nat.mod_lt _ (by decide))
      · exact ih (fun x hx => h x (by simp [hx])) c hc

theorem String_bytes (id : UUID) (h : id.WF) : ∀ c ∈ id.String, c ≠ 124 ∧ c < 256 := by
  have hb := h.2
  have e1 := hexEncode_bytes (id.bytes.take 4) (fun b hx => hb b (List.mem_of_mem_take hx))
  have e2 := hexEncode_bytes ((id.bytes.drop 4).take 2)
    (fun b hx => hb b (List.mem_of_mem_drop (List.mem_of_mem_take hx)))
  have e3 := hexEncode_bytes ((id.bytes.drop 6).take 2)
    (fun b hx => hb b (List.mem_of_mem_drop (List.mem_of_mem_take hx)))
  have e4 := hexEncode_bytes ((id.bytes.drop 8).take 2)
    (fun b hx => hb b (List.mem_of_mem_drop (List.mem_of_mem_take hx)))
  have e5 := hexEncode_bytes (id.bytes.drop 10) (fun b hx => hb b (List.mem_of_mem_drop hx))
  intro c hc
  simp only [String, List.mem_append, List.mem_singleton] at hc
  rcases hc with (((((((hc | hc) | hc) | hc) | hc) | hc) | hc) | hc) | hc
  · exact e1 c hc
  · subst hc; decide
  · exact e2 c hc
  · subst hc; decide
  · exact e3 c hc
  · subst hc; decide
  · exact e4 c hc
  · subst hc; decide
  · exact e5 c hc

theorem length_sixteen (l : List Nat) (h : l.length = 16) :
    ∃ b0 b1 b2 b3 b4 b5 b6 b7 b8 b9 b10 b11 b12 b13 b14 b15, l = [b0, b1, b2, b3, b4, b5, b6, b7, b8, b9, b10, b11, b12, b13, b14, b15] := by
  match l, h with
  | [b0, b1, b2, b3, b4, b5, b6, b7, b8, b9, b10, b11, b12, b13, b14, b15], _ => exact ⟨b0, b1, b2, b3, b4, b5, b6, b7, b8, b9, b10, b11, b12, b13, b14, b15, rfl⟩

theorem Parse_String (id : UUID) (h : id.WF) : Parse id.String = some id := by
  obtain ⟨bytes⟩ := id
  obtain ⟨hlen, hb⟩ := h
  dsimp only at hlen hb
  obtain ⟨b0, b1, b2, b3, b4, b5, b6, b7, b8, b9, b10, b11, b12, b13, b14, b15, rfl⟩ := length_sixteen bytes hlen
  simp only [List.mem_cons, List.mem_singleton, List.not_mem_nil, or_false, forall_eq_or_imp,
    forall_eq] at hb
  obtain ⟨h0, h1, h2, h3, h4, h5, h6, h7, h8, h9, h10, h11, h12, h13, h14, h15⟩ := hb
  simp only [String, List.take, List.drop, hexEncode, List.cons_append, List.nil_append,
    List.append_nil]
  have hl : ∀ (l : List Nat), l.length = 36 → Parse l = parseStandard l := by
    intro l hl
    simp [Parse, hl]
  rw [hl _ (by rfl)]
  unfold parseStandard
  simp only [List.getD_cons_succ, List.getD_cons_zero]
  simp only [hexAt, List.getD_cons_succ, List.getD_cons_zero, xtob_hex b0 h0, xtob_hex b1 h1, xtob_hex b2 h2, xtob_hex b3 h3, xtob_hex b4 h4, xtob_hex b5 h5, xtob_hex b6 h6, xtob_hex b7 h7, xtob_hex b8 h8, xtob_hex b9 h9, xtob_hex b10 h10, xtob_hex b11 h11, xtob_hex b12 h12, xtob_hex b13 h13, xtob_hex b14 h14, xtob_hex b15 h15]
  simp

end UUID

/-! ### Splitting the cursor text -/

theorem Split_plain (sep : Nat) (l : List Nat) (h : ∀ b ∈ l, b ≠ sep) : Split sep l = [l] := by
  induction l with
  | nil => rfl
  | cons b l ih =>
      have hb : b ≠ sep := h b (by simp)
      simp [Split, hb, ih (fun x hx => h x (by simp [hx]))]

theorem Split_two (sep : Nat) (l r : List Nat) (hl : ∀ b ∈ l, b ≠ sep)
    (hr : ∀ b ∈ r, b ≠ sep) : Split sep (l ++ [sep] ++ r) = [l, r] := by
  induction l with
  | nil => simp [Split, Split_plain sep r hr]
  | cons b l ih =>
      have hb : b ≠ sep := hl b (by simp)
      have := ih (fun x hx => hl x (by simp [hx]))
      simp only [List.append_assoc, List.cons_append, List.nil_append] at this ⊢
      simp [Split, hb, this]


/-! ### The cursor codec -/

/-- Decoding an encoded cursor, for a time whose UTC reading has a four-digit year. -/
theorem decodeCursor_encodeCursor (t : Time) (id : UUID) (ht : t.Valid) (hid : id.WF)
    (hy0 : 0 ≤ t.UTC.year) (hy1 : t.UTC.year ≤ 9999) :
    decodeCursor (encodeCursor t id) = ({ CreatedAt := t.UTC, ID := id }, none) := by
  have hv := Time.UTC_valid t ht
  have ho := Time.UTC_offset t
  have hF := Time.Format_bytes t.UTC hv ho hy0 hy1
  have hS := UUID.String_bytes id hid
  have hbytes : ∀ b ∈ cursorText t id, b < 256 := by
    intro b hb
    simp only [cursorText, List.mem_append, List.mem_singleton] at hb
    rcases hb with (hb | hb) | hb
    · exact (hF b hb).2
    · omega
    · exact (hS b hb).2
  have hsplit : Split 124 (cursorText t id) = [t.UTC.FormatRFC3339Nano, id.String] :=
    Split_two 124 _ _ (fun b hb => (hF b hb).1) (fun b hb => (hS b hb).1)
  unfold decodeCursor encodeCursor
  rw [Base64.DecodeString_EncodeToString _ hbytes]
  simp only [hsplit, List.length_cons, List.length_nil, List.getD_cons_zero,
    List.getD_cons_succ, Time.Parse_Format t.UTC hv ho hy0 hy1, UUID.Parse_String id hid,
    Time.UTC_idem t ht]
  simp


theorem Split_length (sep : Nat) (l : List Nat) : (Split sep l).length = l.count sep + 1 := by
  induction l with
  | nil => rfl
  | cons b l ih =>
      by_cases hb : b = sep
      · subst hb
        simp [Split, ih]
      · have hne : Split sep l ≠ [] := by
          intro h
          rw [h] at ih
          simp at ih
        obtain ⟨part, parts, hp⟩ := List.exists_cons_of_ne_nil hne
        rw [hp] at ih
        have hc : List.count sep (b :: l) = List.count sep l := by
          rw [List.count_cons_of_ne (Ne.symm hb)]
        simp only [Split, hb, if_false, hp, hc]
        simpa using ih

theorem Split_head (sep : Nat) (l : List Nat) :
    (Split sep l).getD 0 [] = l.takeWhile (· ≠ sep) := by
  induction l with
  | nil => rfl
  | cons b l ih =>
      by_cases hb : b = sep
      · subst hb
        simp [Split]
      · cases hp : Split sep l with
        | nil =>
            have := Split_length sep l
            rw [hp] at this
            simp at this
        | cons part parts =>
            rw [hp] at ih
            simp only [List.getD_cons_zero] at ih
            simp [Split, hb, hp, ih]

theorem Split_second (sep : Nat) (l : List Nat) (h : l.count sep = 1) :
    (Split sep l).getD 1 [] = (l.dropWhile (· ≠ sep)).drop 1 := by
  induction l with
  | nil => simp at h
  | cons b l ih =>
      by_cases hb : b = sep
      · subst hb
        have hc : l.count b = 0 := by simpa using h
        have hno : ∀ x ∈ l, x ≠ b := fun x hx hxb =>
          (List.count_eq_zero.mp hc) (hxb ▸ hx)
        simp [Split, Split_plain b l hno]
      · have hc : l.count sep = 1 := by
          rw [List.count_cons_of_ne (Ne.symm hb)] at h
          exact h
        have ih := ih hc
        cases hp : Split sep l with
        | nil =>
            have := Split_length sep l
            rw [hp] at this
            simp at this
        | cons part parts =>
            rw [hp] at ih
            simp only [List.getD_cons_succ] at ih
            simp only [Split, hb, if_false, hp, List.getD_cons_succ, ih]
            simp [List.dropWhile, hb]


/-! ## Running service code: basic facts -/

namespace Op

variable {σ α β : Type}

@[simp] theorem run_ret (a : α) (s : Service) (d : σ) :
    (ret a : Op σ α) s d = ⟨.ok a, s, d, []⟩ := rfl

@[simp] theorem run_pure (a : α) (s : Service) (d : σ) :
    (pure a : Op σ α) s d = ⟨.ok a, s, d, []⟩ := rfl

@[simp] theorem run_fail (e : GoError) (s : Service) (d : σ) :
    (fail e : Op σ α) s d = ⟨.error e, s, d, []⟩ := rfl

@[simp] theorem run_check_ok (a : α) (s : Service) (d : σ) :
    (check (.ok a) : Op σ α) s d = ⟨.ok a, s, d, []⟩ := rfl

@[simp] theorem run_check_error (e : GoError) (s : Service) (d : σ) :
    (check (.error e) : Op σ α) s d = ⟨.error e, s, d, []⟩ := rfl

@[simp] theorem run_getService (s : Service) (d : σ) :
    (getService : Op σ Service) s d = ⟨.ok s, s, d, []⟩ := rfl

@[simp] theorem run_setService (s' s : Service) (d : σ) :
    (setService s' : Op σ Unit) s d = ⟨.ok (), s', d, []⟩ := rfl

@[simp] theorem run_checkErr_none (s : Service) (d : σ) :
    (checkErr none : Op σ Unit) s d = ⟨.ok (), s, d, []⟩ := rfl

@[simp] theorem run_checkErr_some (e : GoError) (s : Service) (d : σ) :
    (checkErr (some e) : Op σ Unit) s d = ⟨.error e, s, d, []⟩ := rfl

theorem run_failIf_pos (c : Prop) [Decidable c] (e : GoError) (s : Service) (d : σ) (h : c) :
    (failIf c e : Op σ Unit) s d = ⟨.error e, s, d, []⟩ := by
  simp [failIf, h]

theorem run_failIf_neg (c : Prop) [Decidable c] (e : GoError) (s : Service) (d : σ) (h : ¬ c) :
    (failIf c e : Op σ Unit) s d = ⟨.ok (), s, d, []⟩ := by
  simp [failIf, h]

theorem run_bind (p : Op σ α) (f : α → Op σ β) (s : Service) (d : σ) :
    (p >>= f) s d =
      match (p s d).result with
      | .error e => ⟨.error e, (p s d).svc, (p s d).db, (p s d).events⟩
      | .ok a =>
          ⟨(f a (p s d).svc (p s d).db).result, (f a (p s d).svc (p s d).db).svc,
            (f a (p s d).svc (p s d).db).db, (p s d).events ++ (f a (p s d).svc (p s d).db).events⟩ :=
  rfl

theorem run_bind_ok (p : Op σ α) (f : α → Op σ β) (s : Service) (d : σ) (a : α)
    (h : (p s d).result = .ok a) :
    (p >>= f) s d =
      ⟨(f a (p s d).svc (p s d).db).result, (f a (p s d).svc (p s d).db).svc,
        (f a (p s d).svc (p s d).db).db, (p s d).events ++ (f a (p s d).svc (p s d).db).events⟩ := by
  rw [run_bind, h]

theorem run_bind_error (p : Op σ α) (f : α → Op σ β) (s : Service) (d : σ) (e : GoError)
    (h : (p s d).result = .error e) :
    (p >>= f) s d = ⟨.error e, (p s d).svc, (p s d).db, (p s d).events⟩ := by
  rw [run_bind, h]

theorem issues_ret (a : α) (P : Event → Prop) : Issues (ret a : Op σ α) P :=
  ⟨by intro s d ev h; simp at h⟩

theorem issues_pure (a : α) (P : Event → Prop) : Issues (pure a : Op σ α) P :=
  ⟨by intro s d ev h; simp at h⟩

theorem issues_fail (e : GoError) (P : Event → Prop) : Issues (fail e : Op σ α) P :=
  ⟨by intro s d ev h; simp at h⟩

theorem issues_failDB (e : StorageError) (m : String) (P : Event → Prop) :
    Issues (failDB e m : Op σ α) P :=
  ⟨by intro s d ev h; simp [failDB] at h⟩

theorem issues_check (r : Except GoError α) (P : Event → Prop) : Issues (check r : Op σ α) P :=
  ⟨by intro s d ev h; cases r <;> simp at h⟩

theorem issues_checkErr (e : Option GoError) (P : Event → Prop) :
    Issues (checkErr e : Op σ Unit) P :=
  ⟨by intro s d ev h; cases e <;> simp at h⟩

theorem issues_failIf (c : Prop) [Decidable c] (e : GoError) (P : Event → Prop) :
    Issues (failIf c e : Op σ Unit) P := by
  refine ⟨?_⟩
  intro s d ev h
  by_cases hc : c
  · simp [run_failIf_pos c e s d hc] at h
  · simp [run_failIf_neg c e s d hc] at h

theorem issues_getService (P : Event → Prop) : Issues (getService : Op σ Service) P :=
  ⟨by intro s d ev h; simp at h⟩

theorem issues_setService (s' : Service) (P : Event → Prop) :
    Issues (setService s' : Op σ Unit) P :=
  ⟨by intro s d ev h; simp at h⟩

theorem issues_query {R : Type} (c : Call) (run : σ → Except StorageError R × σ)
    (P : Event → Prop) (h : ∀ e, P ⟨c, e⟩) : Issues (query c run) P := by
  refine ⟨?_⟩
  intro s d ev hev
  simp only [query, List.mem_singleton] at hev
  subst hev
  exact h _

theorem issues_bind (p : Op σ α) (f : α → Op σ β) (P : Event → Prop) (hp : Issues p P)
    (hf : ∀ a, Issues (f a) P) : Issues (p >>= f) P := by
  refine ⟨?_⟩
  intro s d ev hev
  rw [run_bind] at hev
  split at hev
  · exact hp.all s d ev hev
  · simp only [List.mem_append] at hev
    rcases hev with h | h
    · exact hp.all s d ev h
    · exact (hf _).all _ _ ev h

theorem issues_exec {R : Type} (c : Call) (run : σ → Except StorageError R × σ) (m : String)
    (P : Event → Prop) (h : ∀ e, P ⟨c, e⟩) : Issues (exec c run m) P := by
  unfold exec
  refine issues_bind _ _ _ (issues_query c run P h) ?_
  intro r
  cases r with
  | error e => exact issues_failDB _ _ P
  | ok v => exact issues_ret _ P

theorem issues_orAbsent {R : Type} (r : Except StorageError R) (m : String) (P : Event → Prop) :
    Issues (orAbsent r m : Op σ (Option R)) P := by
  unfold orAbsent
  cases r with
  | error e =>
      dsimp only
      split
      · exact issues_ret _ P
      · exact issues_failDB _ _ P
  | ok v => exact issues_ret _ P

theorem issues_void (p : Op σ α) (P : Event → Prop) (hp : Issues p P) : Issues p.void P :=
  ⟨fun s d ev hev => hp.all s d ev hev⟩

theorem returns_ret (a : α) (R : α → Prop) (h : R a) : Returns (ret a : Op σ α) R := by
  refine ⟨?_⟩
  intro s d b hb
  simp at hb
  exact hb ▸ h

theorem returns_fail (e : GoError) (R : α → Prop) : Returns (fail e : Op σ α) R :=
  ⟨by intro s d b hb; simp at hb⟩

theorem returns_failDB (e : StorageError) (m : String) (R : α → Prop) :
    Returns (failDB e m : Op σ α) R :=
  ⟨by intro s d b hb; simp [failDB] at hb⟩

theorem returns_exec {R : Type} (c : Call) (run : σ → Except StorageError R × σ) (m : String)
    (P : R → Prop) (h : ∀ v, P v) : Returns (exec c run m) P :=
  ⟨fun _ _ a _ => h a⟩

theorem returns_bind (p : Op σ α) (f : α → Op σ β) (R : β → Prop)
    (hf : ∀ a, Returns (f a) R) : Returns (p >>= f) R := by
  refine ⟨?_⟩
  intro s d b hb
  rw [run_bind] at hb
  split at hb
  · simp at hb
  · exact (hf _).all _ _ b hb

end Op

theorem issues_WithTx {σ α : Type} (Q : Queries σ) (fn : Op σ α) (P : Event → Prop)
    (hb : ∀ e, P ⟨.BeginTx, e⟩) (hc : ∀ e, P ⟨.Commit, e⟩) (hr : ∀ e, P ⟨.Rollback, e⟩)
    (hf : Op.Issues fn P) : Op.Issues (WithTx Q fn) P := by
  refine ⟨?_⟩
  intro s d ev hev
  unfold WithTx at hev
  split at hev
  · simp only [List.mem_singleton] at hev
    subst hev
    exact hb _
  · dsimp only at hev
    split at hev
    · simp only [List.cons_append, List.mem_cons, List.mem_append, List.mem_singleton,
        List.not_mem_nil, or_false] at hev
      rcases hev with h | h | h
      · subst h; exact hb _
      · exact hf.all _ _ ev h
      · subst h; exact hr _
    · simp only [List.cons_append, List.mem_cons, List.mem_append, List.mem_singleton,
        List.not_mem_nil, or_false] at hev
      rcases hev with h | h | h | h
      · subst h; exact hb _
      · exact hf.all _ _ ev h
      · subst h; exact hc _
      · subst h; exact hr _

theorem issues_ensureDefaultUser {σ : Type} (Q : Queries σ) (P : Event → Prop)
    (h : ∀ a e, P ⟨.UpsertUserByEmail a, e⟩) : Op.Issues (ensureDefaultUser Q) P := by
  unfold ensureDefaultUser
  refine Op.issues_bind _ _ _ (Op.issues_getService P) ?_
  intro s
  split
  · exact Op.issues_ret _ P
  · refine Op.issues_bind _ _ _ (Op.issues_exec _ _ _ P (h _)) ?_
    intro r
    refine Op.issues_bind _ _ _ (Op.issues_setService _ P) ?_
    intro _
    exact Op.issues_ret _ P

theorem issues_insertTaskLabels {σ : Type} (Q : Queries σ) (taskID : UUID) (ids : List PgUUID)
    (P : Event → Prop) (h : ∀ a e, P ⟨.InsertTaskLabel a, e⟩) :
    Op.Issues (insertTaskLabels Q taskID ids) P := by
  induction ids with
  | nil => exact Op.issues_ret _ P
  | cons id rest ih =>
      unfold insertTaskLabels
      refine Op.issues_bind _ _ _ (Op.issues_exec _ _ _ P (h _)) ?_
      intro _
      exact ih

theorem issues_replaceTaskLabels {σ : Type} (Q : Queries σ) (uid taskID : UUID)
    (ids : List UUID) (P : Event → Prop) (h1 : ∀ a e, P ⟨.DeleteTaskLabelsForTask a, e⟩)
    (h2 : ∀ a e, P ⟨.GetLabelsByIDs a, e⟩) (h3 : ∀ a e, P ⟨.InsertTaskLabel a, e⟩) :
    Op.Issues (replaceTaskLabels Q uid taskID ids) P := by
  unfold replaceTaskLabels
  refine Op.issues_bind _ _ _ (Op.issues_exec _ _ _ P (h1 _)) ?_
  intro _
  split
  · exact Op.issues_ret _ P
  · refine Op.issues_bind _ _ _ (Op.issues_exec _ _ _ P (h2 _)) ?_
    intro r
    refine Op.issues_bind _ _ _ (Op.issues_failIf _ _ P) ?_
    intro _
    exact issues_insertTaskLabels Q taskID _ P h3

theorem issues_checkParent {σ : Type} (Q : Queries σ) (uid projectID : UUID)
    (parentID : Option UUID) (P : Event → Prop) (h : ∀ a e, P ⟨.GetTaskByID a, e⟩) :
    Op.Issues (checkParent Q uid projectID parentID) P := by
  unfold checkParent
  split
  · exact Op.issues_ret _ P
  · refine Op.issues_bind _ _ _ (Op.issues_exec _ _ _ P (h _)) ?_
    intro r
    refine Op.issues_bind _ _ _ (Op.issues_failIf _ _ P) ?_
    intro _
    refine Op.issues_bind _ _ _ (Op.issues_failIf _ _ P) ?_
    intro _
    exact Op.issues_ret _ P

theorem issues_updateLabels {σ : Type} (Q : Queries σ) (uid taskID : UUID)
    (ids : Option (List String)) (P : Event → Prop)
    (h1 : ∀ a e, P ⟨.DeleteTaskLabelsForTask a, e⟩) (h2 : ∀ a e, P ⟨.GetLabelsByIDs a, e⟩)
    (h3 : ∀ a e, P ⟨.InsertTaskLabel a, e⟩) : Op.Issues (updateLabels Q uid taskID ids) P := by
  unfold updateLabels
  split
  · exact Op.issues_ret _ P
  · refine Op.issues_bind _ _ _ (Op.issues_check _ P) ?_
    intro l
    exact issues_replaceTaskLabels Q uid taskID l P h1 h2 h3

theorem issues_listTaskRows {σ : Type} (Q : Queries σ) (uid projectUUID : UUID)
    (parentUUID : Option UUID) (statuses priorities : List String) (c : Bool × PgTime × PgUUID)
    (limit : Int) (P : Event → Prop) (h1 : ∀ a e, a.Limit = toInt32 (limit + 1) →
      P ⟨.ListRootTasks a, e⟩) (h2 : ∀ a e, a.Limit = toInt32 (limit + 1) →
      P ⟨.ListSubtasks a, e⟩) :
    Op.Issues (listTaskRows Q uid projectUUID parentUUID statuses priorities c limit) P := by
  unfold listTaskRows
  split
  · exact Op.issues_exec _ _ _ P (fun e => h1 _ e rfl)
  · exact Op.issues_exec _ _ _ P (fun e => h2 _ e rfl)


/-! ## Runs of single operations -/

theorem ensureDefaultUser_cached {σ : Type} (Q : Queries σ) (s : Service) (d : σ)
    (hs : s.defaultUserSet = true) (hn : s.defaultUserID ≠ UUID.Nil) :
    ensureDefaultUser Q s d = ⟨.ok s.defaultUserID, s, d, []⟩ := by
  have hb : (s.defaultUserSet && s.defaultUserID != UUID.Nil) = true := by
    simp [hs, hn]
  unfold ensureDefaultUser
  rw [Op.run_bind]
  simp only [Op.run_getService, hb, if_true, Op.run_ret, List.append_nil]

theorem run_exec_ok {σ R : Type} (c : Call) (run : σ → Except StorageError R × σ) (m : String)
    (s : Service) (d d' : σ) (row : R) (h : run d = (.ok row, d')) :
    exec c run m s d = ⟨.ok row, s, d', [⟨c, none⟩]⟩ := by
  unfold exec
  rw [Op.run_bind]
  simp [Op.query, h]

theorem run_exec_error {σ R : Type} (c : Call) (run : σ → Except StorageError R × σ)
    (m : String) (s : Service) (d d' : σ) (e : StorageError) (h : run d = (.error e, d')) :
    (exec c run m : Op σ R) s d =
      ⟨.error (classify (.storage e) m), s, d', [⟨c, some e⟩]⟩ := by
  unfold exec
  rw [Op.run_bind]
  simp [Op.query, h, failDB]

/-- The outcome of `exec`, whatever the query returns. -/
theorem run_exec_cases {σ R : Type} (c : Call) (run : σ → Except StorageError R × σ)
    (m : String) (s : Service) (d : σ) :
    (∃ row, (run d).1 = .ok row ∧ exec c run m s d = ⟨.ok row, s, (run d).2, [⟨c, none⟩]⟩) ∨
    (∃ e, (run d).1 = .error e ∧
      (exec c run m : Op σ R) s d =
        ⟨.error (classify (.storage e) m), s, (run d).2, [⟨c, some e⟩]⟩) := by
  cases h : (run d).1 with
  | ok row => exact Or.inl ⟨row, rfl, run_exec_ok c run m s d _ row (Prod.ext h rfl)⟩
  | error e => exact Or.inr ⟨e, rfl, run_exec_error c run m s d _ e (Prod.ext h rfl)⟩

/-- The events of a unit of work run by `WithTx` after a successful `BeginTx`. -/
theorem WithTx_events {σ α : Type} (Q : Queries σ) (fn : Op σ α) (s : Service) (d d1 : σ)
    (hb : Q.BeginTx d = (none, d1)) :
    ∃ tail, (WithTx Q fn s d).events = ⟨.BeginTx, none⟩ :: (fn s d1).events ++ tail ∧
      (WithTx Q fn s d).svc = (fn s d1).svc ∧
      (∀ e, (fn s d1).result = .error e →
        (WithTx Q fn s d).result = .error e ∧ ∃ r, tail = [⟨.Rollback, r⟩]) := by
  unfold WithTx
  simp only [hb]
  cases h : (fn s d1).result with
  | error e =>
      refine ⟨[⟨.Rollback, (Q.Rollback (fn s d1).db).1⟩], ?_, rfl, ?_⟩
      · simp
      · intro e' he'
        cases he'
        exact ⟨rfl, _, rfl⟩
  | ok a =>
      refine ⟨[⟨.Commit, (Q.Commit (fn s d1).db).1⟩,
        ⟨.Rollback, (Q.Rollback (Q.Commit (fn s d1).db).2).1⟩], ?_, rfl, ?_⟩
      · simp
      · intro e' he'
        cases he'

theorem errorOf_eq_none {α : Type} (r : Except GoError α) (h : errorOf r = none) :
    ∃ a, r = .ok a := by
  cases r with
  | ok a => exact ⟨a, rfl⟩
  | error e => simp [errorOf] at h

/-- The run of UpdateTask's unit of work when the stored row is found and a check of the
input fails: the error is returned as it is and nothing is written. -/
theorem updateTaskTx_invalid {σ : Type} (U : UnicodeTables) (Q : Queries σ) (now : Time)
    (input : UpdateTaskInput) (uid taskID : UUID) (s : Service) (d d2 : σ) (existing : Task)
    (hg : Q.GetTaskByID ⟨toPgUUID taskID, toPgUUID uid⟩ d = (.ok existing, d2)) (e : GoError)
    (he : updateInputError U existing input = some e) :
    updateTaskTx U Q now input uid taskID s d =
      ⟨.error e, s, d2, [⟨.GetTaskByID ⟨toPgUUID taskID, toPgUUID uid⟩, none⟩]⟩ := by
  unfold updateInputError at he
  unfold updateTaskTx
  rw [Op.run_bind, run_exec_ok _ _ _ _ _ _ _ hg]
  dsimp only
  rw [Op.run_bind]
  cases h1 : updateTitle existing input.Title with
  | error e1 =>
      simp only [h1, errorOf, firstError, Option.some.injEq] at he
      subst he
      simp
  | ok title =>
      simp only [Op.run_check_ok]
      rw [Op.run_bind]
      cases h2 : updateEnum (normalizeStatus U) existing.Status input.Status with
      | error e2 =>
          simp only [h1, h2, errorOf, firstError, Option.some.injEq] at he
          subst he
          simp
      | ok status =>
          simp only [Op.run_check_ok]
          rw [Op.run_bind]
          cases h3 : updateEnum (normalizePriority U) existing.Priority input.Priority with
          | error e3 =>
              simp only [h1, h2, h3, errorOf, firstError, Option.some.injEq] at he
              subst he
              simp
          | ok priority =>
              simp only [Op.run_check_ok]
              rw [Op.run_bind]
              simp only [h1, h2, h3, errorOf, firstError] at he
              cases h4 : validateSchedule (supplied input.StartAt (fromPgTime existing.StartAt))
                  (supplied input.DueAt (fromPgTime existing.DueAt)) with
              | none => simp [h4, firstError] at he
              | some e4 =>
                  simp only [h4, firstError, Option.some.injEq] at he
                  subst he
                  simp

/-- The run of UpdateTask's unit of work when the stored row is found and the input
passes the checks: the row is fetched and then written with the effective values. -/
theorem updateTaskTx_valid {σ : Type} (U : UnicodeTables) (Q : Queries σ) (now : Time)
    (input : UpdateTaskInput) (uid taskID : UUID) (s : Service) (d d2 : σ) (existing : Task)
    (hg : Q.GetTaskByID ⟨toPgUUID taskID, toPgUUID uid⟩ d = (.ok existing, d2))
    (title status priority : String) (h1 : updateTitle existing input.Title = .ok title)
    (h2 : updateEnum (normalizeStatus U) existing.Status input.Status = .ok status)
    (h3 : updateEnum (normalizePriority U) existing.Priority input.Priority = .ok priority)
    (h4 : validateSchedule (supplied input.StartAt (fromPgTime existing.StartAt))
      (supplied input.DueAt (fromPgTime existing.DueAt)) = none) :
    ∃ e rest, (updateTaskTx U Q now input uid taskID s d).events =
      ⟨.GetTaskByID ⟨toPgUUID taskID, toPgUUID uid⟩, none⟩ ::
        ⟨.UpdateTask (updateTaskParams now input uid taskID existing title status priority), e⟩ ::
          rest := by
  unfold updateTaskTx
  rw [Op.run_bind, run_exec_ok _ _ _ _ _ _ _ hg]
  dsimp only
  rw [Op.run_bind]
  simp only [h1, Op.run_check_ok]
  rw [Op.run_bind]
  simp only [h2, Op.run_check_ok]
  rw [Op.run_bind]
  simp only [h3, Op.run_check_ok]
  rw [Op.run_bind]
  simp only [h4, Op.run_checkErr_none]
  rw [Op.run_bind]
  rcases run_exec_cases (.UpdateTask (updateTaskParams now input uid taskID existing title
      status priority)) (Q.UpdateTask (updateTaskParams now input uid taskID existing title
      status priority)) "failed to update task" s d2 with ⟨row, _, hr⟩ | ⟨e, _, hr⟩
  · rw [hr]
    dsimp only
    exact ⟨none, _, by simp only [List.nil_append, List.cons_append, List.singleton_append]; rfl⟩
  · rw [hr]
    exact ⟨some e, [], by simp⟩

/-- UpdateTask after owner resolution and the check of the task id: the unit of work runs
in a transaction. -/
theorem UpdateTask_run {σ : Type} (U : UnicodeTables) (Q : Queries σ) (now : Time)
    (input : UpdateTaskInput) (s : Service) (d : σ) (uid taskID : UUID)
    (hown : (ensureDefaultUser Q s d).result = .ok uid)
    (hid : parseUUID input.ID "task id" = .ok taskID) :
    UpdateTask U Q now input s d =
      ⟨(WithTx Q (updateTaskTx U Q now input uid taskID) (ensureDefaultUser Q s d).svc
          (ensureDefaultUser Q s d).db).result,
        (WithTx Q (updateTaskTx U Q now input uid taskID) (ensureDefaultUser Q s d).svc
          (ensureDefaultUser Q s d).db).svc,
        (WithTx Q (updateTaskTx U Q now input uid taskID) (ensureDefaultUser Q s d).svc
          (ensureDefaultUser Q s d).db).db,
        (ensureDefaultUser Q s d).events ++
          (WithTx Q (updateTaskTx U Q now input uid taskID) (ensureDefaultUser Q s d).svc
            (ensureDefaultUser Q s d).db).events⟩ := by
  unfold UpdateTask userID
  rw [Op.run_bind_ok _ _ _ _ uid hown]
  rw [Op.run_bind]
  simp only [hid, Op.run_check_ok, List.nil_append]


/-! ## The errors of the validators -/

theorem isBadInput_new (msg : String) : IsBadInput (NewBadInput msg) := ⟨msg, rfl⟩

theorem parseUUID_error (input field : String) (e : GoError)
    (h : parseUUID input field = .error e) : IsBadInput e := by
  unfold parseUUID at h
  split at h
  · cases h; exact isBadInput_new _
  · cases h

theorem parseParent_error (p : Option String) (e : GoError) (h : parseParent p = .error e) :
    IsBadInput e := by
  unfold parseParent at h
  split at h
  · cases h
  · split at h
    · split at h
      · rename_i err hp
        cases h
        exact parseUUID_error _ _ _ hp
      · cases h
    · cases h

theorem normalizeStatus_error (U : UnicodeTables) (v : String) (e : GoError)
    (h : normalizeStatus U v = .error e) : IsBadInput e := by
  unfold normalizeStatus at h
  dsimp only at h
  split at h
  · cases h
  · split at h
    · cases h; exact isBadInput_new _
    · cases h

theorem normalizePriority_error (U : UnicodeTables) (v : String) (e : GoError)
    (h : normalizePriority U v = .error e) : IsBadInput e := by
  unfold normalizePriority at h
  dsimp only at h
  split at h
  · cases h
  · split at h
    · cases h; exact isBadInput_new _
    · cases h

theorem validateColor_error (U : UnicodeTables) (c : Option String) (e : GoError)
    (h : (validateColor U c).2 = some e) : IsBadInput e := by
  unfold validateColor at h
  split at h
  · cases h
  · dsimp only at h
    split at h
    · cases h; exact isBadInput_new _
    · split at h
      · cases h; exact isBadInput_new _
      · cases h

theorem validateSchedule_error (s d : Option Time) (e : GoError)
    (h : validateSchedule s d = some e) : IsBadInput e := by
  unfold validateSchedule at h
  split at h
  · split at h
    · cases h; exact isBadInput_new _
    · cases h
  · cases h

theorem normalizeFiltersLoop_error (normalize : String → Except GoError String)
    (hn : ∀ v e, normalize v = .error e → IsBadInput e) (input out : List String) (e : GoError)
    (h : normalizeFiltersLoop normalize input out = .error e) : IsBadInput e := by
  induction input generalizing out with
  | nil => cases h
  | cons item rest ih =>
      unfold normalizeFiltersLoop at h
      split at h
      · rename_i err hv
        cases h
        exact hn _ _ hv
      · split at h
        · exact ih _ h
        · exact ih _ h

theorem normalizeFilters_error (normalize : String → Except GoError String)
    (hn : ∀ v e, normalize v = .error e → IsBadInput e) (input : List String) (e : GoError)
    (h : normalizeFilters input normalize = .error e) : IsBadInput e := by
  unfold normalizeFilters at h
  split at h
  · cases h
  · exact normalizeFiltersLoop_error normalize hn _ _ e h

theorem parseUUIDListLoop_error (field : String) (ids : List String) (out : List UUID)
    (e : GoError) (h : parseUUIDListLoop field ids out = .error e) : IsBadInput e := by
  induction ids generalizing out with
  | nil => cases h
  | cons raw rest ih =>
      unfold parseUUIDListLoop at h
      split at h
      · rename_i err hv
        cases h
        exact parseUUID_error _ _ _ hv
      · split at h
        · exact ih _ h
        · exact ih _ h

theorem parseUUIDList_error (ids : List String) (field : String) (e : GoError)
    (h : parseUUIDList ids field = .error e) : IsBadInput e := by
  unfold parseUUIDList at h
  split at h
  · cases h
  · exact parseUUIDListLoop_error field _ _ e h

/-- `decodeCursor` accepts a cursor or rejects it with the zero cursor and "invalid
cursor". -/
theorem decodeCursor_cases (raw : String) :
    (MalformedCursor raw →
      decodeCursor raw = (cursor.zero, some (GoError.app "BAD_USER_INPUT" "invalid cursor"))) ∧
    (¬ MalformedCursor raw → (decodeCursor raw).2 = none) := by
  unfold MalformedCursor decodeCursor
  cases hd : Base64.DecodeString raw with
  | none => simp [NewBadInput, CodeBadUserInput]
  | some decoded =>
      simp only []
      by_cases hc : decoded.count 124 = 1
      · have hl : (Split 124 decoded).length = 2 := by rw [Split_length, hc]
        simp only [hl, ne_eq, not_true_eq_false, if_false, Split_head, Split_second 124 decoded hc,
          hc, false_or]
        cases ht : Time.ParseRFC3339Nano (decoded.takeWhile (· ≠ 124)) with
        | none => simp [NewBadInput, CodeBadUserInput]
        | some t =>
            cases hu : UUID.Parse ((decoded.dropWhile (· ≠ 124)).drop 1) with
            | none => simp [NewBadInput, CodeBadUserInput]
            | some id => simp
      · have hl : (Split 124 decoded).length ≠ 2 := by
          rw [Split_length]
          omega
        simp [hl, hc, NewBadInput, CodeBadUserInput]

theorem decodeCursor_error (raw : String) (e : GoError) (h : (decodeCursor raw).2 = some e) :
    IsBadInput e := by
  by_cases hm : MalformedCursor raw
  · rw [(decodeCursor_cases raw).1 hm] at h
    cases h
    exact ⟨_, rfl⟩
  · rw [(decodeCursor_cases raw).2 hm] at h
    cases h

theorem cursorArgs_error (after : Option String) (e : GoError)
    (h : cursorArgs after = .error e) : IsBadInput e := by
  unfold cursorArgs at h
  split at h
  · cases h
  · split at h
    · split at h
      · rename_i c err hd
        cases h
        exact decodeCursor_error _ _ (by rw [hd])
      · cases h
    · cases h

theorem updateTitle_error (existing : Task) (t : Option String) (e : GoError)
    (h : updateTitle existing t = .error e) : IsBadInput e := by
  unfold updateTitle at h
  split at h
  · cases h
  · split at h
    · cases h; exact isBadInput_new _
    · cases h

theorem updateEnum_error (normalize : String → Except GoError String)
    (hn : ∀ v e, normalize v = .error e → IsBadInput e) (existing : String)
    (v : Option String) (e : GoError) (h : updateEnum normalize existing v = .error e) :
    IsBadInput e := by
  unfold updateEnum at h
  split at h
  · cases h
  · exact hn _ _ h

theorem blankError_error (v msg : String) (e : GoError) (h : blankError v msg = some e) :
    IsBadInput e := by
  unfold blankError at h
  split at h
  · cases h; exact isBadInput_new _
  · cases h

theorem errorOf_error {α : Type} (r : Except GoError α) (e : GoError) (h : errorOf r = some e) :
    r = .error e := by
  cases r with
  | ok a => simp [errorOf] at h
  | error e' => simp only [errorOf, Option.some.injEq] at h; rw [h]

theorem firstError_mem (l : List (Option GoError)) (e : GoError) (h : firstError l = some e) :
    some e ∈ l := by
  induction l with
  | nil => simp [firstError] at h
  | cons x rest ih =>
      cases x with
      | none => exact List.mem_cons_of_mem _ (ih (by simpa [firstError] using h))
      | some e' =>
          simp only [firstError, Option.some.injEq] at h
          subst h
          exact List.mem_cons_self _ _

theorem firstError_all (l : List (Option GoError)) (e : GoError) (h : firstError l = some e)
    (hl : ∀ x ∈ l, x = some e → IsBadInput e) : IsBadInput e :=
  hl _ (firstError_mem l e h) rfl

/-- Every validation failure of a request is a BAD_USER_INPUT error without cause. -/
theorem inputError_bad (U : UnicodeTables) (req : Request) (e : GoError)
    (h : inputError U req = some e) : IsBadInput e := by
  have hs := normalizeStatus_error U
  have hp := normalizePriority_error U
  cases req <;> simp only [inputError] at h
  all_goals first
    | cases h
    | exact parseUUID_error _ _ _ (errorOf_error _ _ h)
    | exact cursorArgs_error _ _ (errorOf_error _ _ h)
    | exact blankError_error _ _ _ h
    | skip
  all_goals
    refine firstError_all _ _ h ?_
    simp only [List.forall_mem_cons, List.not_mem_nil, false_implies, implies_true, and_true]
    repeat' apply And.intro
    all_goals
      intro hm
      first
        | exact blankError_error _ _ _ hm
        | exact validateColor_error _ _ _ hm
        | exact validateSchedule_error _ _ _ hm
        | exact parseUUID_error _ _ _ (errorOf_error _ _ hm)
        | exact parseParent_error _ _ (errorOf_error _ _ hm)
        | exact hs _ _ (errorOf_error _ _ hm)
        | exact hp _ _ (errorOf_error _ _ hm)
        | exact parseUUIDList_error _ _ _ (errorOf_error _ _ hm)
        | exact normalizeFilters_error _ hs _ _ (errorOf_error _ _ hm)
        | exact normalizeFilters_error _ hp _ _ (errorOf_error _ _ hm)
        | exact cursorArgs_error _ _ (errorOf_error _ _ hm)

theorem updateInputError_bad (U : UnicodeTables) (existing : Task) (input : UpdateTaskInput)
    (e : GoError) (h : updateInputError U existing input = some e) : IsBadInput e := by
  refine firstError_all _ _ h ?_
  simp only [List.forall_mem_cons, List.not_mem_nil, false_implies, implies_true, and_true]
  refine ⟨?_, ?_, ?_, ?_⟩
  · intro hm; exact updateTitle_error _ _ _ (errorOf_error _ _ hm)
  · intro hm
    exact updateEnum_error _ (normalizeStatus_error U) _ _ _ (errorOf_error _ _ hm)
  · intro hm
    exact updateEnum_error _ (normalizePriority_error U) _ _ _ (errorOf_error _ _ hm)
  · intro hm; exact validateSchedule_error _ _ _ hm


/-! ## Checks that fail before the first storage call -/

namespace Op

variable {σ α β : Type}

theorem outcome_eta (o : Outcome σ α) : (⟨o.result, o.svc, o.db, o.events⟩ : Outcome σ α) = o := by
  cases o; rfl

theorem run_check_bind (r : Except GoError α) (f : α → Op σ β) (s : Service) (d : σ) :
    (check r >>= f) s d =
      match r with
      | .error e => ⟨.error e, s, d, []⟩
      | .ok a => f a s d := by
  cases r with
  | error e => rfl
  | ok a =>
      rw [run_bind]
      simp only [run_check_ok, List.nil_append]

theorem run_failIf_bind (c : Prop) [Decidable c] (e : GoError) (f : Unit → Op σ β)
    (s : Service) (d : σ) :
    (failIf c e >>= f) s d = if c then ⟨.error e, s, d, []⟩ else f () s d := by
  rw [run_bind]
  by_cases h : c
  · simp only [run_failIf_pos c e s d h, h, if_true]
  · simp only [run_failIf_neg c e s d h, h, if_false, List.nil_append]

theorem run_checkErr_bind (x : Option GoError) (f : Unit → Op σ β) (s : Service) (d : σ) :
    (checkErr x >>= f) s d =
      match x with
      | some e => ⟨.error e, s, d, []⟩
      | none => f () s d := by
  cases x with
  | some e => rfl
  | none =>
      rw [run_bind]
      simp only [run_checkErr_none, List.nil_append]

end Op

/-- A request whose arguments fail a check returns that error, and its storage calls are
those of owner resolution. -/
theorem perform_invalid {σ : Type} (U : UnicodeTables) (Q : Queries σ) (now : Time)
    (req : Request) (s : Service) (d : σ) (e : GoError) (he : inputError U req = some e)
    (hown : ownerResolved Q req s d) :
    (perform U Q now req s d).result = .error e ∧
      (perform U Q now req s d).events = ownerEvents Q req s d := by
  cases req
  case Bootstrap => simp [inputError] at he
  case Me => simp [inputError] at he
  case UpsertMe input =>
    simp only [perform, Op.void, UpsertMe, ownerEvents, Op.run_failIf_bind]
    simp only [inputError, blankError] at he
    repeat' split
    all_goals simp_all [firstError, Except.map]
  all_goals
    obtain ⟨uid, hu⟩ := hown
    simp only [perform, Op.void, ownerEvents, CreateProject, UpdateProject, DeleteProject,
      GetProject, ListProjects, CreateLabel, UpdateLabel, DeleteLabel, ListLabels, GetTask,
      CreateTask, UpdateTask, DeleteTask, ListTasks, LabelsForTask, SubtasksForTask, userID]
    rw [Op.run_bind_ok _ _ _ _ uid hu]
    simp only [Op.run_check_bind, Op.run_failIf_bind, Op.run_checkErr_bind]
    simp only [inputError, blankError] at he
    repeat' split
    all_goals simp_all [firstError, errorOf, Except.map]


/-! ## Failed queries are classified once -/

namespace Op

variable {σ α β : Type}

theorem sound_of_no_events (p : Op σ α) (h : ∀ s d, (p s d).events = []) : Sound p :=
  ⟨fun s d ev hev => by rw [h s d] at hev; cases hev⟩

theorem sound_ret (a : α) : Sound (ret a : Op σ α) := sound_of_no_events _ fun _ _ => rfl

theorem sound_fail (e : GoError) : Sound (fail e : Op σ α) := sound_of_no_events _ fun _ _ => rfl

theorem sound_check (r : Except GoError α) : Sound (check r : Op σ α) :=
  sound_of_no_events _ fun _ _ => by cases r <;> rfl

theorem sound_checkErr (x : Option GoError) : Sound (checkErr x : Op σ Unit) :=
  sound_of_no_events _ fun _ _ => by cases x <;> rfl

theorem sound_failIf (c : Prop) [Decidable c] (e : GoError) : Sound (failIf c e : Op σ Unit) :=
  sound_of_no_events _ fun s d => by
    by_cases h : c
    · rw [run_failIf_pos c e s d h]
    · rw [run_failIf_neg c e s d h]

theorem sound_getService : Sound (getService : Op σ Service) :=
  sound_of_no_events _ fun _ _ => rfl

theorem sound_setService (s' : Service) : Sound (setService s' : Op σ Unit) :=
  sound_of_no_events _ fun _ _ => rfl

theorem sound_exec {R : Type} (c : Call) (run : σ → Except StorageError R × σ) (m : String) :
    Sound (exec c run m) := by
  refine ⟨?_⟩
  intro s d ev hev _ se hse
  rcases run_exec_cases c run m s d with ⟨row, _, hr⟩ | ⟨e, _, hr⟩
  · rw [hr] at hev
    simp only [List.mem_singleton] at hev
    subst hev
    cases hse
  · rw [hr] at hev ⊢
    simp only [List.mem_singleton] at hev
    subst hev
    cases hse
    exact ⟨m, rfl⟩

theorem sound_bind (p : Op σ α) (f : α → Op σ β) (hp : Sound p) (hf : ∀ a, Sound (f a)) :
    Sound (p >>= f) := by
  refine ⟨?_⟩
  intro s d ev hev hq se hse
  cases hr : (p s d).result with
  | error e =>
      rw [run_bind_error p f s d e hr] at hev ⊢
      obtain ⟨m, hm⟩ := hp.all s d ev hev hq se hse
      exact ⟨m, by rw [hr] at hm; cases hm; rfl⟩
  | ok a =>
      rw [run_bind_ok p f s d a hr] at hev ⊢
      simp only [List.mem_append] at hev
      rcases hev with h | h
      · obtain ⟨m, hm⟩ := hp.all s d ev h hq se hse
        rw [hr] at hm
        cases hm
      · exact (hf a).all _ _ ev h hq se hse

theorem soundOrAbsent_bind (p : Op σ α) (f : α → Op σ β) (hp : Sound p)
    (hf : ∀ a, SoundOrAbsent (f a)) : SoundOrAbsent (p >>= f) := by
  refine ⟨?_⟩
  intro s d ev hev hq se hse
  cases hr : (p s d).result with
  | error e =>
      rw [run_bind_error p f s d e hr] at hev ⊢
      obtain ⟨m, hm⟩ := hp.all s d ev hev hq se hse
      exact Or.inl ⟨m, by rw [hr] at hm; cases hm; rfl⟩
  | ok a =>
      rw [run_bind_ok p f s d a hr] at hev ⊢
      simp only [List.mem_append] at hev
      rcases hev with h | h
      · obtain ⟨m, hm⟩ := hp.all s d ev h hq se hse
        rw [hr] at hm
        cases hm
      · exact (hf a).all _ _ ev h hq se hse

theorem soundOrAbsent_fetch {R : Type} (c : Call) (run : σ → Except StorageError R × σ)
    (m : String) : SoundOrAbsent (query c run >>= fun r => orAbsent r m) := by
  refine ⟨?_⟩
  intro s d ev hev hq se hse
  have hq1 : (query c run s d).result = .ok (run d).1 := rfl
  rw [run_bind_ok _ _ s d _ hq1] at hev ⊢
  cases hr : (run d).1 with
  | ok row =>
      simp only [query, hr, orAbsent, run_ret, List.append_nil, List.mem_singleton] at hev
      subst hev
      cases hse
  | error e =>
      by_cases hn : e.noRows = true
      · simp only [query, hr, orAbsent, isNoRows, hn, if_true, run_ret, List.append_nil,
          List.mem_singleton] at hev ⊢
        subst hev
        cases hse
        exact Or.inr ⟨hn, none, rfl⟩
      · simp only [query, hr, orAbsent, isNoRows, hn, if_false, failDB, run_fail,
          List.append_nil, List.mem_singleton, Bool.false_eq_true] at hev ⊢
        subst hev
        cases hse
        exact Or.inl ⟨m, rfl⟩

theorem soundOrAbsent_void (p : Op σ α) (hp : SoundOrAbsent p) : SoundOrAbsent p.void := by
  refine ⟨?_⟩
  intro s d ev hev hq se hse
  rcases hp.all s d ev hev hq se hse with ⟨m, hm⟩ | ⟨hn, a, ha⟩
  · exact Or.inl ⟨m, by simp only [void, hm, Except.map]⟩
  · exact Or.inr ⟨hn, (), by simp only [void, ha, Except.map]⟩

theorem sound_void (p : Op σ α) (hp : Sound p) : Sound p.void := by
  refine ⟨?_⟩
  intro s d ev hev hq se hse
  obtain ⟨m, hm⟩ := hp.all s d ev hev hq se hse
  exact ⟨m, by simp only [void, hm, Except.map]⟩

end Op

theorem sound_WithTx {σ α : Type} (Q : Queries σ) (fn : Op σ α) (hf : Op.Sound fn) :
    Op.Sound (WithTx Q fn) := by
  refine ⟨?_⟩
  intro s d ev hev hq se hse
  unfold WithTx at hev ⊢
  split at hev
  · simp only [List.mem_singleton] at hev
    subst hev
    cases hq
  · rename_i d1 hb
    simp only [hb]
    dsimp only at hev ⊢
    cases hr : (fn s d1).result with
    | error e =>
        rw [hr] at hev
        simp only [List.cons_append, List.mem_cons, List.mem_append, List.mem_singleton,
          List.not_mem_nil, or_false] at hev
        rcases hev with h | h | h
        · subst h; cases hq
        · obtain ⟨m, hm⟩ := hf.all s d1 ev h hq se hse
          exact ⟨m, by rw [← hm, hr]⟩
        · subst h; cases hq
    | ok a =>
        rw [hr] at hev
        simp only [List.cons_append, List.mem_cons, List.mem_append, List.mem_singleton,
          List.not_mem_nil, or_false] at hev
        rcases hev with h | h | h | h
        · subst h; cases hq
        · obtain ⟨m, hm⟩ := hf.all s d1 ev h hq se hse
          rw [hr] at hm
          cases hm
        · subst h; cases hq
        · subst h; cases hq

theorem sound_ensureDefaultUser {σ : Type} (Q : Queries σ) : Op.Sound (ensureDefaultUser Q) := by
  unfold ensureDefaultUser
  refine Op.sound_bind _ _ Op.sound_getService ?_
  intro s
  split
  · exact Op.sound_ret _
  · refine Op.sound_bind _ _ (Op.sound_exec _ _ _) ?_
    intro r
    refine Op.sound_bind _ _ (Op.sound_setService _) ?_
    intro _
    exact Op.sound_ret _

theorem sound_insertTaskLabels {σ : Type} (Q : Queries σ) (taskID : UUID) (ids : List PgUUID) :
    Op.Sound (insertTaskLabels Q taskID ids) := by
  induction ids with
  | nil => exact Op.sound_ret _
  | cons id rest ih =>
      unfold insertTaskLabels
      refine Op.sound_bind _ _ (Op.sound_exec _ _ _) ?_
      intro _
      exact ih

theorem sound_replaceTaskLabels {σ : Type} (Q : Queries σ) (uid taskID : UUID)
    (ids : List UUID) : Op.Sound (replaceTaskLabels Q uid taskID ids) := by
  unfold replaceTaskLabels
  refine Op.sound_bind _ _ (Op.sound_exec _ _ _) ?_
  intro _
  split
  · exact Op.sound_ret _
  · refine Op.sound_bind _ _ (Op.sound_exec _ _ _) ?_
    intro r
    refine Op.sound_bind _ _ (Op.sound_failIf _ _) ?_
    intro _
    exact sound_insertTaskLabels Q taskID _

theorem sound_checkParent {σ : Type} (Q : Queries σ) (uid projectID : UUID)
    (parentID : Option UUID) : Op.Sound (checkParent Q uid projectID parentID) := by
  unfold checkParent
  split
  · exact Op.sound_ret _
  · refine Op.sound_bind _ _ (Op.sound_exec _ _ _) ?_
    intro r
    refine Op.sound_bind _ _ (Op.sound_failIf _ _) ?_
    intro _
    refine Op.sound_bind _ _ (Op.sound_failIf _ _) ?_
    intro _
    exact Op.sound_ret _

theorem sound_updateLabels {σ : Type} (Q : Queries σ) (uid taskID : UUID)
    (ids : Option (List String)) : Op.Sound (updateLabels Q uid taskID ids) := by
  unfold updateLabels
  split
  · exact Op.sound_ret _
  · refine Op.sound_bind _ _ (Op.sound_check _) ?_
    intro l
    exact sound_replaceTaskLabels Q uid taskID l

theorem sound_listTaskRows {σ : Type} (Q : Queries σ) (uid projectUUID : UUID)
    (parentUUID : Option UUID) (statuses priorities : List String) (c : Bool × PgTime × PgUUID)
    (limit : Int) :
    Op.Sound (listTaskRows Q uid projectUUID parentUUID statuses priorities c limit) := by
  unfold listTaskRows
  split
  · exact Op.sound_exec _ _ _
  · exact Op.sound_exec _ _ _

theorem soundOrAbsent_GetProject {σ : Type} (Q : Queries σ) (id : String) :
    Op.SoundOrAbsent (GetProject Q id) := by
  unfold GetProject userID
  refine Op.soundOrAbsent_bind _ _ (sound_ensureDefaultUser Q) ?_
  intro uid
  refine Op.soundOrAbsent_bind _ _ (Op.sound_check _) ?_
  intro projectID
  exact Op.soundOrAbsent_fetch _ _ _

theorem soundOrAbsent_GetTask {σ : Type} (Q : Queries σ) (id : String) :
    Op.SoundOrAbsent (GetTask Q id) := by
  unfold GetTask userID
  refine Op.soundOrAbsent_bind _ _ (sound_ensureDefaultUser Q) ?_
  intro uid
  refine Op.soundOrAbsent_bind _ _ (Op.sound_check _) ?_
  intro taskID
  exact Op.soundOrAbsent_fetch _ _ _

/-- What the classifier returns for an error of the driver: an `*AppError` whose cause,
when it has one, is that error. -/
theorem classify_storage (se : StorageError) (fallback : String) :
    classify (.storage se) fallback = .app "NOT_FOUND" fallback ∨
    classify (.storage se) fallback = .appWrap "CONFLICT" "resource already exists" (.storage se) ∨
    classify (.storage se) fallback = .app "BAD_USER_INPUT" "request violates data constraints" ∨
    classify (.storage se) fallback = .appWrap "INTERNAL" fallback (.storage se) := by
  unfold classify
  split
  · exact Or.inl rfl
  · split
    · split
      · exact Or.inr (Or.inl rfl)
      · split
        · exact Or.inr (Or.inr (Or.inl rfl))
        · exact Or.inr (Or.inr (Or.inr rfl))
    · exact Or.inr (Or.inr (Or.inr rfl))

set_option maxHeartbeats 4000000 in
/-- The operations other than the two single-row fetches answer every failed query with
the classifier. -/
theorem perform_sound {σ : Type} (U : UnicodeTables) (Q : Queries σ) (now : Time)
    (req : Request) (h1 : ∀ id, req ≠ .Project id) (h2 : ∀ id, req ≠ .Task id) :
    Op.Sound (perform U Q now req) := by
  cases req
  case Project id => exact absurd rfl (h1 id)
  case Task id => exact absurd rfl (h2 id)
  all_goals
    simp only [perform]
    refine Op.sound_void _ ?_
    simp only [Bootstrap, Me, UpsertMe, CreateProject, UpdateProject, DeleteProject,
      ListProjects, CreateLabel, UpdateLabel, DeleteLabel, ListLabels,
      CreateTask, UpdateTask, DeleteTask, ListTasks, LabelsForTask, SubtasksForTask, userID,
      deleteProjectTx, deleteLabelTx, createTaskTx, updateTaskTx, deleteTaskTx]
    repeat' first
      | exact Op.sound_ret _
      | exact Op.sound_check _
      | exact Op.sound_checkErr _
      | exact Op.sound_failIf _ _
      | exact Op.sound_exec _ _ _
      | exact Op.sound_getService
      | exact Op.sound_setService _
      | exact sound_ensureDefaultUser Q
      | exact sound_checkParent Q _ _ _
      | exact sound_replaceTaskLabels Q _ _ _
      | exact sound_updateLabels Q _ _ _
      | exact sound_listTaskRows Q _ _ _ _ _ _ _
      | refine sound_WithTx Q _ ?_
      | refine Op.sound_bind _ _ ?_ ?_
      | intro _


/-! ## The cursor codec: claims -/

theorem Time.Equal_UTC (t : Time) (ht : t.Valid) : Time.Equal t.UTC t = true := by
  unfold Time.Equal
  rw [Time.UTC_idem t ht]
  simp

/-- C1 (as amended): for every time `t` whose UTC reading has a year from 0 to 9999 and
every UUID `id`, decoding the encoded cursor succeeds and returns the UTC reading of `t`,
which is the same instant as `t`, and `id`. -/
theorem cursor_round_trip (t : Time) (id : UUID) (ht : t.Valid) (hid : id.WF)
    (hy0 : 0 ≤ t.UTC.year) (hy1 : t.UTC.year ≤ 9999) :
    decodeCursor (encodeCursor t id) = ({ CreatedAt := t.UTC, ID := id }, none) ∧
      Time.Equal t.UTC t = true :=
  ⟨decodeCursor_encodeCursor t id ht hid hy0 hy1, Time.Equal_UTC t ht⟩

/-- C1, an instance: 2026-02-17T12:45:00.5+01:00 and a UUID. -/
theorem cursor_round_trip_witness :
    (⟨2026, 2, 17, 12, 45, 0, 500000000, 3600⟩ : Time).Valid ∧
    (⟨[18, 62, 69, 103, 232, 155, 18, 211, 164, 86, 66, 102, 20, 23, 64, 0]⟩ : UUID).WF ∧
    decodeCursor (encodeCursor ⟨2026, 2, 17, 12, 45, 0, 500000000, 3600⟩
      ⟨[18, 62, 69, 103, 232, 155, 18, 211, 164, 86, 66, 102, 20, 23, 64, 0]⟩) =
      ({ CreatedAt := ⟨2026, 2, 17, 11, 45, 0, 500000000, 0⟩,
         ID := ⟨[18, 62, 69, 103, 232, 155, 18, 211, 164, 86, 66, 102, 20, 23, 64, 0]⟩ }, none) :=
  ⟨by decide, by decide,
    (cursor_round_trip ⟨2026, 2, 17, 12, 45, 0, 500000000, 3600⟩
      ⟨[18, 62, 69, 103, 232, 155, 18, 211, 164, 86, 66, 102, 20, 23, 64, 0]⟩
      (by decide) (by decide) (by decide) (by decide)).1⟩

/-- C1 as stated fails: 0000-01-01T00:00:00+01:00 is a time RFC 3339 can write, its UTC
reading lies in the year -1, the text written for it is `-0001-12-31T23:00:00Z`, and
decoding the cursor is rejected. -/
theorem cursor_round_trip_fails_at_year_zero :
    (⟨0, 1, 1, 0, 0, 0, 0, 3600⟩ : Time).RFC3339 ∧ UUID.Nil.WF ∧
    (⟨0, 1, 1, 0, 0, 0, 0, 3600⟩ : Time).UTC = ⟨-1, 12, 31, 23, 0, 0, 0, 0⟩ ∧
    decodeCursor (encodeCursor ⟨0, 1, 1, 0, 0, 0, 0, 3600⟩ UUID.Nil) =
      (cursor.zero, some (NewBadInput "invalid cursor")) := by
  decide


/-! ## Validators: claims -/

/-- C3: with `u` the upper-cased input trimmed of surrounding whitespace, `normalizeStatus`
returns TODO when `u` is empty, `u` when it is one of the four statuses, and a
BAD_USER_INPUT error otherwise; `normalizePriority` does the same with P3 and P1 to P5;
the empty string and `todo` give TODO, `BAD` is rejected, and every value returned is in
the enumerated set. -/
theorem normalize_status_priority (U : UnicodeTables) (v : String) :
    (TrimSpace (ToUpper U v) = "" → normalizeStatus U v = .ok "TODO") ∧
    (TrimSpace (ToUpper U v) ∈ ["TODO", "IN_PROGRESS", "BLOCKED", "DONE"] →
      normalizeStatus U v = .ok (TrimSpace (ToUpper U v))) ∧
    (TrimSpace (ToUpper U v) ≠ "" →
      TrimSpace (ToUpper U v) ∉ ["TODO", "IN_PROGRESS", "BLOCKED", "DONE"] →
      ∃ msg, normalizeStatus U v = .error (GoError.app "BAD_USER_INPUT" msg)) ∧
    (TrimSpace (ToUpper U v) = "" → normalizePriority U v = .ok "P3") ∧
    (TrimSpace (ToUpper U v) ∈ ["P1", "P2", "P3", "P4", "P5"] →
      normalizePriority U v = .ok (TrimSpace (ToUpper U v))) ∧
    (TrimSpace (ToUpper U v) ≠ "" →
      TrimSpace (ToUpper U v) ∉ ["P1", "P2", "P3", "P4", "P5"] →
      ∃ msg, normalizePriority U v = .error (GoError.app "BAD_USER_INPUT" msg)) ∧
    normalizeStatus U "" = .ok "TODO" ∧
    normalizeStatus U "todo" = .ok "TODO" ∧
    (∃ msg, normalizeStatus U "BAD" = .error (GoError.app "BAD_USER_INPUT" msg)) ∧
    normalizePriority U "" = .ok "P3" ∧
    (∀ r, normalizeStatus U v = .ok r → r ∈ ["TODO", "IN_PROGRESS", "BLOCKED", "DONE"]) ∧
    (∀ r, normalizePriority U v = .ok r → r ∈ ["P1", "P2", "P3", "P4", "P5"]) := by
  have hs : ("" : String) ∉ validStatuses := by decide
  have hp : ("" : String) ∉ validPriorities := by decide
  refine ⟨?_, ?_, ?_, ?_, ?_, ?_, rfl, rfl, ⟨_, rfl⟩, rfl, ?_, ?_⟩
  · intro h
    simp [normalizeStatus, h, defaultTaskStatus]
  · intro h
    have hne : TrimSpace (ToUpper U v) ≠ "" := fun h0 => hs (h0 ▸ h)
    have hin : TrimSpace (ToUpper U v) ∈ validStatuses := h
    simp only [normalizeStatus, hne, if_false, hin, not_true_eq_false]
  · intro hne hnot
    have hin : TrimSpace (ToUpper U v) ∉ validStatuses := hnot
    refine ⟨"invalid status " ++ Quote U (TrimSpace (ToUpper U v)), ?_⟩
    simp only [normalizeStatus, hne, if_false, hin, not_false_eq_true, if_true,
      NewBadInput, CodeBadUserInput]
  · intro h
    simp [normalizePriority, h, defaultTaskPriority]
  · intro h
    have hne : TrimSpace (ToUpper U v) ≠ "" := fun h0 => hp (h0 ▸ h)
    have hin : TrimSpace (ToUpper U v) ∈ validPriorities := h
    simp only [normalizePriority, hne, if_false, hin, not_true_eq_false]
  · intro hne hnot
    have hin : TrimSpace (ToUpper U v) ∉ validPriorities := hnot
    refine ⟨"invalid priority " ++ Quote U (TrimSpace (ToUpper U v)), ?_⟩
    simp only [normalizePriority, hne, if_false, hin, not_false_eq_true, if_true,
      NewBadInput, CodeBadUserInput]
  · intro r hr
    unfold normalizeStatus at hr
    by_cases h0 : TrimSpace (ToUpper U v) = ""
    · simp only [h0, if_true, defaultTaskStatus, Except.ok.injEq] at hr
      subst hr
      decide
    · by_cases hin : TrimSpace (ToUpper U v) ∈ validStatuses
      · simp only [h0, if_false, hin, not_true_eq_false, Except.ok.injEq] at hr
        subst hr
        exact hin
      · simp [h0, hin] at hr
  · intro r hr
    unfold normalizePriority at hr
    by_cases h0 : TrimSpace (ToUpper U v) = ""
    · simp only [h0, if_true, defaultTaskPriority, Except.ok.injEq] at hr
      subst hr
      decide
    · by_cases hin : TrimSpace (ToUpper U v) ∈ validPriorities
      · simp only [h0, if_false, hin, not_true_eq_false, Except.ok.injEq] at hr
        subst hr
        exact hin
      · simp [h0, hin] at hr

/-- C3, instances: ` in_progress ` is normalised and `urgent` is rejected. -/
theorem normalize_status_priority_witness :
    TrimSpace (ToUpper asciiTables " in_progress ") ∈ ["TODO", "IN_PROGRESS", "BLOCKED", "DONE"] ∧
    normalizeStatus asciiTables " in_progress " = .ok "IN_PROGRESS" ∧
    TrimSpace (ToUpper asciiTables "urgent") ≠ "" ∧
    TrimSpace (ToUpper asciiTables "urgent") ∉ ["P1", "P2", "P3", "P4", "P5"] ∧
    (∃ msg, normalizePriority asciiTables "urgent" = .error (GoError.app "BAD_USER_INPUT" msg)) :=
  ⟨by decide, (normalize_status_priority asciiTables " in_progress ").2.1 (by decide),
    by decide, by decide,
    (normalize_status_priority asciiTables "urgent").2.2.2.2.2.1 (by decide) (by decide)⟩

theorem Time.Before_of_Equal (d s : Time) (h : Time.Equal d s = true) :
    Time.Before d s = false := by
  unfold Time.Equal at h
  simp only [Bool.and_eq_true, beq_iff_eq] at h
  obtain ⟨⟨⟨⟨⟨⟨h1, h2⟩, h3⟩, h4⟩, h5⟩, h6⟩, h7⟩ := h
  unfold Time.Before
  simp [h1, h2, h3, h4, h5, h6, h7]

theorem Time.Equal_refl (t : Time) : Time.Equal t t = true := by
  simp [Time.Equal]

/-- C4: `validateSchedule` fails exactly when both times are present and `dueAt` is
before `startAt`, and then with BAD_USER_INPUT; it succeeds when either is absent and
when the two are the same instant. With start 2026-02-17T10:00:00Z, a due time two hours
later is accepted and one two hours earlier is rejected. -/
theorem validateSchedule_iff (startAt dueAt : Option Time) :
    (validateSchedule startAt dueAt ≠ none ↔
      ∃ s d, startAt = some s ∧ dueAt = some d ∧ d.Before s = true) ∧
    (validateSchedule startAt dueAt = none ∨
      validateSchedule startAt dueAt =
        some (GoError.app "BAD_USER_INPUT" "dueAt must be after or equal to startAt")) ∧
    validateSchedule none dueAt = none ∧
    validateSchedule startAt none = none ∧
    (∀ s d, startAt = some s → dueAt = some d → Time.Equal d s = true →
      validateSchedule startAt dueAt = none) ∧
    validateSchedule (some ⟨2026, 2, 17, 10, 0, 0, 0, 0⟩)
      (some (Time.Add ⟨2026, 2, 17, 10, 0, 0, 0, 0⟩ (2 * 3600 * 1000000000))) = none ∧
    validateSchedule (some ⟨2026, 2, 17, 10, 0, 0, 0, 0⟩)
      (some (Time.Add ⟨2026, 2, 17, 10, 0, 0, 0, 0⟩ (-(2 * 3600 * 1000000000)))) =
        some (GoError.app "BAD_USER_INPUT" "dueAt must be after or equal to startAt") := by
  refine ⟨?_, ?_, ?_, ?_, ?_, by decide, by decide⟩
  · cases startAt with
    | none => simp [validateSchedule]
    | some s =>
        cases dueAt with
        | none => simp [validateSchedule]
        | some d =>
            by_cases hb : d.Before s = true
            · simp [validateSchedule, hb]
            · simp [validateSchedule, hb]
  · cases startAt with
    | none => simp [validateSchedule]
    | some s =>
        cases dueAt with
        | none => simp [validateSchedule]
        | some d =>
            by_cases hb : d.Before s = true
            · simp [validateSchedule, hb, NewBadInput, CodeBadUserInput]
            · simp [validateSchedule, hb]
  · cases dueAt <;> rfl
  · cases startAt <;> rfl
  · intro s d hs hd he
    subst hs hd
    simp [validateSchedule, Time.Before_of_Equal d s he]

/-- C4, an instance: equal start and due times are accepted. -/
theorem validateSchedule_iff_witness :
    Time.Equal ⟨2026, 2, 17, 11, 0, 0, 0, 3600⟩ ⟨2026, 2, 17, 10, 0, 0, 0, 0⟩ = true ∧
    validateSchedule (some ⟨2026, 2, 17, 10, 0, 0, 0, 0⟩)
      (some ⟨2026, 2, 17, 11, 0, 0, 0, 3600⟩) = none :=
  ⟨by decide, (validateSchedule_iff (some ⟨2026, 2, 17, 10, 0, 0, 0, 0⟩)
    (some ⟨2026, 2, 17, 11, 0, 0, 0, 3600⟩)).2.2.2.2.1 _ _ rfl rfl (by decide)⟩

/-! ## Pagination: claims -/

/-- C5: for a limit that is not negative, `paginateRows` reports a next page exactly when
there are more rows than the limit, keeps the first `limit` rows in that case and all rows
otherwise, and derives the end cursor from the last row kept (none for an empty page). So
21 rows with limit 20 give 20 items, a next page and the cursor of the 20th row, and 20
rows with limit 20 give no next page. -/
theorem paginateRows_spec {T : Type} (rows : List T) (limit : Int) (cursorFn : T → String)
    (h : 0 ≤ limit) :
    ∃ page, paginateRows rows limit cursorFn = some page ∧
      (page.HasNextPage = true ↔ (rows.length : Int) > limit) ∧
      ((rows.length : Int) > limit → page.Items = rows.take limit.toNat) ∧
      (¬ (rows.length : Int) > limit → page.Items = rows) ∧
      page.EndCursor = page.Items.getLast?.map cursorFn ∧
      (page.Items = [] → page.EndCursor = none) ∧
      (rows.length = 21 → limit = 20 →
        page.Items.length = 20 ∧ page.HasNextPage = true ∧
          page.EndCursor = (rows.get? 19).map cursorFn) ∧
      (rows.length = 20 → limit = 20 → page.HasNextPage = false ∧ page.Items = rows) := by
  by_cases hgt : (rows.length : Int) > limit
  · have hneg : ¬ limit < 0 := by omega
    refine ⟨PageResult.mk (rows.take limit.toNat)
      ((rows.take limit.toNat).getLast?.map cursorFn) true,
      by simp only [paginateRows, hgt, if_true, hneg, if_false], ?_⟩
    refine ⟨by simp [hgt], fun _ => rfl, fun hn => absurd hgt hn, rfl, ?_, ?_, ?_⟩
    · intro he
      simp only at he
      simp [he]
    · intro h21 hl
      subst hl
      have h20 : (rows.take 20).length = 20 := by simp [h21]
      refine ⟨by simpa using h20, rfl, ?_⟩
      have hn : Int.toNat 20 = 20 := rfl
      show Option.map cursorFn (List.take (Int.toNat 20) rows).getLast? = _
      rw [hn, List.getLast?_eq_getElem?, h20]
      simp [List.getElem?_take]
    · intro h20 hl
      subst hl
      rw [h20] at hgt
      omega
  · refine ⟨PageResult.mk rows (rows.getLast?.map cursorFn) false,
      by simp only [paginateRows, hgt, if_false], ?_⟩
    refine ⟨by simp [hgt], fun hn => absurd hn hgt, fun _ => rfl, rfl, ?_, ?_, ?_⟩
    · intro he
      simp only at he
      simp [he]
    · intro h21 hl
      subst hl
      rw [h21] at hgt
      omega
    · intro _ _
      exact ⟨rfl, rfl⟩

/-- C5, an instance: three rows with limit 2. -/
theorem paginateRows_spec_witness :
    (0 : Int) ≤ 2 ∧
    paginateRows ["a", "b", "c"] 2 (fun r => r ++ "!") =
      some { Items := ["a", "b"], EndCursor := some "b!", HasNextPage := true } ∧
    ∃ page, paginateRows ["a", "b", "c"] 2 (fun r => r ++ "!") = some page ∧
      (page.HasNextPage = true ↔ ((["a", "b", "c"].length : Nat) : Int) > 2) :=
  ⟨by decide, by decide,
    (paginateRows_spec ["a", "b", "c"] 2 (fun r => r ++ "!") (by decide)).imp
      fun _ hp => ⟨hp.1, hp.2.1⟩⟩


theorem normalizePageSize_range (first d m : Int) (hd1 : 1 ≤ d) (hd2 : d ≤ m) :
    1 ≤ normalizePageSize first d m ∧ normalizePageSize first d m ≤ m := by
  unfold normalizePageSize
  split_ifs <;> omega

theorem toInt32_small (x : Int) (h0 : 0 ≤ x) (h1 : x ≤ 1000) : toInt32 x = x := by
  unfold toInt32
  omega


theorem toPgTime_valid (t : Option Time) : (toPgTime t).Valid = true ↔ t ≠ none := by
  cases t <;> simp [toPgTime]

theorem updateCompletedAt_ne_none (existing : Task) (status : String) (now : Time) :
    updateCompletedAt existing status now ≠ none ↔ status = "DONE" := by
  unfold updateCompletedAt
  by_cases hs : status = "DONE"
  · by_cases hc : existing.Status ≠ "DONE" ∨ fromPgTime existing.CompletedAt = none
    · simp [hs, hc]
    · have hc2 : fromPgTime existing.CompletedAt ≠ none := fun h => hc (Or.inr h)
      simp only [hs, if_true, hc, if_false]
      simpa using hc2
  · simp [hs]

/-- C7: in every run of CreateTask and of UpdateTask, each task row handed to storage (the
arguments of the `CreateTask` and `UpdateTask` queries) has a valid `CompletedAt` if and
only if its status, the normalised or effective one, is DONE. -/
theorem completedAt_iff_done {σ : Type} (U : UnicodeTables) (Q : Queries σ) (now : Time)
    (create : CreateTaskInput) (update : UpdateTaskInput) (s : Service) (d : σ) :
    (∀ ev ∈ (CreateTask U Q now create s d).events, ∀ a, ev.call = .CreateTask a →
      (a.CompletedAt.Valid = true ↔ a.Status = "DONE")) ∧
    (∀ ev ∈ (UpdateTask U Q now update s d).events, ∀ a, ev.call = .UpdateTask a →
      (a.CompletedAt.Valid = true ↔ a.Status = "DONE")) := by
  constructor
  · have h : Op.Issues (CreateTask U Q now create) (fun ev => ∀ a, ev.call = .CreateTask a →
        (a.CompletedAt.Valid = true ↔ a.Status = "DONE")) := by
      unfold CreateTask userID
      repeat' first
        | exact Op.issues_ret _ _
        | exact Op.issues_check _ _
        | exact Op.issues_checkErr _ _
        | exact Op.issues_failIf _ _ _
        | refine issues_ensureDefaultUser Q _ ?_
        | refine issues_checkParent Q _ _ _ _ ?_
        | refine issues_replaceTaskLabels Q _ _ _ _ ?_ ?_ ?_
        | refine issues_WithTx Q _ _ ?_ ?_ ?_ ?_
        | refine Op.issues_exec _ _ _ _ ?_
        | refine Op.issues_bind _ _ _ ?_ ?_
        | intro _
      all_goals first
        | (rename_i h; cases h; split_ifs <;> simp_all [toPgTime])
        | simp_all
    exact h.all s d
  · have h : Op.Issues (UpdateTask U Q now update) (fun ev => ∀ a, ev.call = .UpdateTask a →
        (a.CompletedAt.Valid = true ↔ a.Status = "DONE")) := by
      unfold UpdateTask userID
      repeat' first
        | exact Op.issues_ret _ _
        | exact Op.issues_check _ _
        | exact Op.issues_checkErr _ _
        | refine issues_ensureDefaultUser Q _ ?_
        | refine issues_updateLabels Q _ _ _ _ ?_ ?_ ?_
        | refine issues_WithTx Q _ _ ?_ ?_ ?_ ?_
        | refine Op.issues_exec _ _ _ _ ?_
        | refine Op.issues_bind _ _ _ ?_ ?_
        | intro _
      all_goals first
        | (rename_i h; cases h; simp only [updateTaskParams, toPgTime_valid, updateCompletedAt_ne_none])
        | simp_all
    exact h.all s d

/-- C7, instances: with the scripted storage layer, CreateTask with status `done` hands
storage a row with status DONE completed at the reading of the clock, and UpdateTask to
`todo` hands it a row with status TODO and no completion time. -/
theorem completedAt_iff_done_witness :
    Sample.taskWrites (CreateTask asciiTables Script.queries Sample.now Sample.createDone
      (Service.cached Sample.owner) Script.blank).events =
        [("DONE", { Time := Sample.now, Valid := true })] ∧
    Sample.taskWrites (UpdateTask asciiTables Script.queries Sample.now (Sample.setStatus "todo")
      (Service.cached Sample.owner) Script.blank).events = [("TODO", PgTime.zero)] ∧
    ((∀ ev ∈ (CreateTask asciiTables Script.queries Sample.now Sample.createDone
        (Service.cached Sample.owner) Script.blank).events, ∀ a, ev.call = .CreateTask a →
        (a.CompletedAt.Valid = true ↔ a.Status = "DONE")) ∧
      (∀ ev ∈ (UpdateTask asciiTables Script.queries Sample.now (Sample.setStatus "todo")
        (Service.cached Sample.owner) Script.blank).events, ∀ a, ev.call = .UpdateTask a →
        (a.CompletedAt.Valid = true ↔ a.Status = "DONE"))) :=
  ⟨by decide, by decide,
    completedAt_iff_done asciiTables Script.queries Sample.now Sample.createDone
      (Sample.setStatus "todo") (Service.cached Sample.owner) Script.blank⟩


theorem toPgTime_UTC (t : Time) (h : t.Valid) : toPgTime (some t.UTC) = ⟨t.UTC, true⟩ := by
  simp [toPgTime, Time.UTC_idem t h]

/-- C8: the completion time UpdateTask writes is the clock reading when the effective
status is DONE and the stored row was not DONE or had no completion time, the stored
completion time when the effective status is DONE and the stored row was DONE with one,
and none when the effective status is not DONE; UpdateTask writes that value and the
effective status after fetching the stored row, and CreateTask writes the clock reading
exactly when the normalised status is DONE. -/
theorem completedAt_transitions {σ : Type} (U : UnicodeTables) (Q : Queries σ) (now : Time)
    (create : CreateTaskInput) (update : UpdateTaskInput) (s : Service) (d d1 d2 : σ)
    (uid taskID : UUID) (existing : Task) (title status priority : String) :
    (status = "DONE" →
      (existing.Status ≠ "DONE" ∨ fromPgTime existing.CompletedAt = none) →
      updateCompletedAt existing status now = some now.UTC) ∧
    (status = "DONE" → existing.Status = "DONE" →
      ∀ c0, fromPgTime existing.CompletedAt = some c0 →
        updateCompletedAt existing status now = some c0) ∧
    (status ≠ "DONE" → updateCompletedAt existing status now = none) ∧
    ((ensureDefaultUser Q s d).result = .ok uid →
      parseUUID update.ID "task id" = .ok taskID →
      Q.BeginTx (ensureDefaultUser Q s d).db = (none, d1) →
      Q.GetTaskByID ⟨toPgUUID taskID, toPgUUID uid⟩ d1 = (.ok existing, d2) →
      updateTitle existing update.Title = .ok title →
      updateEnum (normalizeStatus U) existing.Status update.Status = .ok status →
      updateEnum (normalizePriority U) existing.Priority update.Priority = .ok priority →
      validateSchedule (supplied update.StartAt (fromPgTime existing.StartAt))
        (supplied update.DueAt (fromPgTime existing.DueAt)) = none →
      ∃ e rest, (UpdateTask U Q now update s d).events =
        (ensureDefaultUser Q s d).events ++ ⟨.BeginTx, none⟩ ::
          ⟨.GetTaskByID ⟨toPgUUID taskID, toPgUUID uid⟩, none⟩ ::
          ⟨.UpdateTask (updateTaskParams now update uid taskID existing title status priority),
            e⟩ :: rest) ∧
    (updateTaskParams now update uid taskID existing title status priority).Status = status ∧
    (updateTaskParams now update uid taskID existing title status priority).CompletedAt =
      toPgTime (updateCompletedAt existing status now) ∧
    (∀ ev ∈ (CreateTask U Q now create s d).events, ∀ a, ev.call = .CreateTask a →
      a.CompletedAt = if a.Status = "DONE" then toPgTime (some now.UTC) else PgTime.zero) ∧
    (now.Valid → toPgTime (some now.UTC) = ⟨now.UTC, true⟩) := by
  refine ⟨?_, ?_, ?_, ?_, rfl, rfl, ?_, toPgTime_UTC now⟩
  · intro hs hc
    simp [updateCompletedAt, hs, hc]
  · intro hs he c0 hc
    simp [updateCompletedAt, hs, he, hc]
  · intro hs
    simp [updateCompletedAt, hs]
  · intro hown hid hb hg h1 h2 h3 h4
    rw [UpdateTask_run U Q now update s d uid taskID hown hid]
    obtain ⟨tail, hev, -, -⟩ := WithTx_events Q (updateTaskTx U Q now update uid taskID)
      (ensureDefaultUser Q s d).svc _ d1 hb
    obtain ⟨e, rest, hrun⟩ := updateTaskTx_valid U Q now update uid taskID
      (ensureDefaultUser Q s d).svc d1 d2 existing hg title status priority h1 h2 h3 h4
    refine ⟨e, rest ++ tail, ?_⟩
    simp only [hev, hrun, List.cons_append]
  · have h : Op.Issues (CreateTask U Q now create) (fun ev => ∀ a, ev.call = .CreateTask a →
        a.CompletedAt = if a.Status = "DONE" then toPgTime (some now.UTC) else PgTime.zero) := by
      unfold CreateTask userID
      repeat' first
        | exact Op.issues_ret _ _
        | exact Op.issues_check _ _
        | exact Op.issues_checkErr _ _
        | exact Op.issues_failIf _ _ _
        | refine issues_ensureDefaultUser Q _ ?_
        | refine issues_checkParent Q _ _ _ _ ?_
        | refine issues_replaceTaskLabels Q _ _ _ _ ?_ ?_ ?_
        | refine issues_WithTx Q _ _ ?_ ?_ ?_ ?_
        | refine Op.issues_exec _ _ _ _ ?_
        | refine Op.issues_bind _ _ _ ?_ ?_
        | intro _
      all_goals first
        | (rename_i h; cases h; rfl)
        | simp_all
    exact h.all s d

/-- C8, the scenario on the scripted storage layer: a task created DONE at 10:00 is
written with that completion time; updating the stored DONE row to `in_progress` writes
no completion time; updating the stored IN_PROGRESS row back to `done` the next day writes
the later clock reading, not the original one. -/
theorem completedAt_transitions_witness :
    Sample.taskWrites (CreateTask asciiTables Script.queries Sample.now Sample.createDone
      (Service.cached Sample.owner) Script.blank).events =
        [("DONE", { Time := Sample.now, Valid := true })] ∧
    Sample.taskWrites (UpdateTask asciiTables Script.queries Sample.later
      (Sample.setStatus "in_progress") (Service.cached Sample.owner)
      { Script.blank with task := Sample.storedTask "DONE" ⟨Sample.now, true⟩ }).events =
        [("IN_PROGRESS", PgTime.zero)] ∧
    Sample.taskWrites (UpdateTask asciiTables Script.queries Sample.later
      (Sample.setStatus "done") (Service.cached Sample.owner)
      { Script.blank with task := Sample.storedTask "IN_PROGRESS" PgTime.zero }).events =
        [("DONE", { Time := Sample.later, Valid := true })] ∧
    Sample.later ≠ Sample.now ∧
    (∃ e rest, (UpdateTask asciiTables Script.queries Sample.later (Sample.setStatus "done")
      (Service.cached Sample.owner)
      { Script.blank with task := Sample.storedTask "DONE" ⟨Sample.now, true⟩ }).events =
        (ensureDefaultUser Script.queries (Service.cached Sample.owner)
          { Script.blank with task := Sample.storedTask "DONE" ⟨Sample.now, true⟩ }).events ++
        ⟨.BeginTx, none⟩ :: ⟨.GetTaskByID ⟨toPgUUID Sample.id, toPgUUID Sample.owner⟩, none⟩ ::
          ⟨.UpdateTask (updateTaskParams Sample.later (Sample.setStatus "done") Sample.owner
            Sample.id (Sample.storedTask "DONE" ⟨Sample.now, true⟩) "write" "DONE" "P3"), e⟩ ::
          rest) ∧
    updateCompletedAt (Sample.storedTask "DONE" ⟨Sample.now, true⟩) "DONE" Sample.later =
      some Sample.now :=
  ⟨by decide, by decide, by decide, by decide,
    (completedAt_transitions asciiTables Script.queries Sample.later Sample.createDone
      (Sample.setStatus "done") (Service.cached Sample.owner)
      { Script.blank with task := Sample.storedTask "DONE" ⟨Sample.now, true⟩ }
      { Script.blank with task := Sample.storedTask "DONE" ⟨Sample.now, true⟩ }
      { Script.blank with task := Sample.storedTask "DONE" ⟨Sample.now, true⟩ }
      Sample.owner Sample.id (Sample.storedTask "DONE" ⟨Sample.now, true⟩) "write" "DONE"
      "P3").2.2.2.1 (by decide) (by decide) (by decide) (by decide) (by decide) (by decide)
      (by decide) (by decide),
    by decide⟩


/-! ## Error handling: claims -/

theorem ownerEvents_upsert {σ : Type} (Q : Queries σ) (req : Request) (s : Service) (d : σ) :
    ∀ ev ∈ ownerEvents Q req s d, ∃ a e, ev = ⟨.UpsertUserByEmail a, e⟩ := by
  have h : Op.Issues (ensureDefaultUser Q) (fun ev => ∃ a e, ev = ⟨.UpsertUserByEmail a, e⟩) :=
    issues_ensureDefaultUser Q _ (fun a e => ⟨a, e, rfl⟩)
  cases req <;> first
    | exact h.all s d
    | (intro ev hev; cases hev)

theorem ownerEvents_cached {σ : Type} (Q : Queries σ) (req : Request) (s : Service) (d : σ)
    (hs : s.defaultUserSet = true) (hn : s.defaultUserID ≠ UUID.Nil) :
    ownerResolved Q req s d ∧ ownerEvents Q req s d = [] := by
  have h := ensureDefaultUser_cached Q s d hs hn
  cases req <;> simp [ownerResolved, ownerEvents, h]

/-- C9 (as amended): a request whose arguments fail validation returns the validator's
own BAD_USER_INPUT error, without cause, and has issued no storage call except those of
owner resolution, which are upserts of the owner and are absent when the owner id is
cached; UpdateTask checks title, status, priority and schedule inside its transaction,
after fetching the stored row, returns the validator's error as it is and then has issued
only BeginTx, the fetch and the rollback. -/
theorem validation_failures {σ : Type} (U : UnicodeTables) (Q : Queries σ) (now : Time)
    (req : Request) (s : Service) (d d1 d2 : σ) (e e' : GoError) (update : UpdateTaskInput)
    (uid taskID : UUID) (existing : Task) :
    (inputError U req = some e → ownerResolved Q req s d →
      (perform U Q now req s d).result = .error e ∧
      (perform U Q now req s d).events = ownerEvents Q req s d ∧ IsBadInput e) ∧
    (∀ ev ∈ ownerEvents Q req s d, ∃ a err, ev = ⟨.UpsertUserByEmail a, err⟩) ∧
    (s.defaultUserSet = true → s.defaultUserID ≠ UUID.Nil →
      ownerResolved Q req s d ∧ ownerEvents Q req s d = []) ∧
    ((ensureDefaultUser Q s d).result = .ok uid →
      parseUUID update.ID "task id" = .ok taskID →
      Q.BeginTx (ensureDefaultUser Q s d).db = (none, d1) →
      Q.GetTaskByID ⟨toPgUUID taskID, toPgUUID uid⟩ d1 = (.ok existing, d2) →
      updateInputError U existing update = some e' →
      (UpdateTask U Q now update s d).result = .error e' ∧ IsBadInput e' ∧
      ∃ r, (UpdateTask U Q now update s d).events =
        (ensureDefaultUser Q s d).events ++
          [⟨.BeginTx, none⟩, ⟨.GetTaskByID ⟨toPgUUID taskID, toPgUUID uid⟩, none⟩,
            ⟨.Rollback, r⟩]) := by
  refine ⟨?_, ownerEvents_upsert Q req s d, ownerEvents_cached Q req s d, ?_⟩
  · intro he hown
    have h := perform_invalid U Q now req s d e he hown
    exact ⟨h.1, h.2, inputError_bad U req e he⟩
  · intro hown hid hb hg he
    rw [UpdateTask_run U Q now update s d uid taskID hown hid]
    obtain ⟨tail, hev, -, hres⟩ := WithTx_events Q (updateTaskTx U Q now update uid taskID)
      (ensureDefaultUser Q s d).svc _ d1 hb
    have hrun := updateTaskTx_invalid U Q now update uid taskID (ensureDefaultUser Q s d).svc
      d1 d2 existing hg e' he
    obtain ⟨hr, r, ht⟩ := hres e' (by rw [hrun])
    refine ⟨hr, updateInputError_bad U existing update e' he, r, ?_⟩
    simp only [hev, hrun, ht, List.cons_append, List.nil_append]

/-- C9, instances on the scripted storage layer with a cached owner: CreateTask with the
status `bogus` fails before any storage call, and UpdateTask with a blank title fails
after BeginTx and the fetch. -/
theorem validation_failures_witness :
    inputError asciiTables (.CreateTask { Sample.createDone with Status := "bogus" }) =
      some (NewBadInput "invalid status \"BOGUS\"") ∧
    (perform asciiTables Script.queries Sample.now
      (.CreateTask { Sample.createDone with Status := "bogus" })
      (Service.cached Sample.owner) Script.blank).result =
        .error (NewBadInput "invalid status \"BOGUS\"") ∧
    (perform asciiTables Script.queries Sample.now
      (.CreateTask { Sample.createDone with Status := "bogus" })
      (Service.cached Sample.owner) Script.blank).events =
        ownerEvents Script.queries (.CreateTask { Sample.createDone with Status := "bogus" })
          (Service.cached Sample.owner) Script.blank ∧
    ownerEvents Script.queries (.CreateTask { Sample.createDone with Status := "bogus" })
      (Service.cached Sample.owner) Script.blank = [] ∧
    (UpdateTask asciiTables Script.queries Sample.now
      { Sample.setStatus "done" with Title := some "  " } (Service.cached Sample.owner)
      Script.blank).result = .error (NewBadInput "task title cannot be empty") :=
  have h := validation_failures asciiTables Script.queries Sample.now
    (.CreateTask { Sample.createDone with Status := "bogus" }) (Service.cached Sample.owner)
    Script.blank Script.blank Script.blank (NewBadInput "invalid status \"BOGUS\"")
    (NewBadInput "task title cannot be empty")
    { Sample.setStatus "done" with Title := some "  " } Sample.owner Sample.id Task.zero
  ⟨by decide, (h.1 (by decide) ⟨Sample.owner, by decide⟩).1,
    (h.1 (by decide) ⟨Sample.owner, by decide⟩).2.1, by decide,
    (h.2.2.2 (by decide) (by decide) (by decide) (by decide) (by decide)).1⟩

/-- C9 as stated fails. With no owner id cached, CreateProject with a blank title has
issued the owner upsert when the validation error is returned; UpdateTask with a blank
title has issued BeginTx and the fetch of the stored row; and UpdateTask with a malformed
label id has also written the task row (the transaction is then rolled back). -/
theorem validation_after_storage_calls :
    (perform asciiTables Script.queries Sample.now (.CreateProject ⟨"  ", none, none⟩)
      Service.fresh Script.blank).result = .error (NewBadInput "project title is required") ∧
    (perform asciiTables Script.queries Sample.now (.CreateProject ⟨"  ", none, none⟩)
      Service.fresh Script.blank).events =
        [⟨.UpsertUserByEmail ⟨"Owner", "owner@example.com", "UTC", none⟩, none⟩] ∧
    (UpdateTask asciiTables Script.queries Sample.now
      { Sample.setStatus "done" with Title := some "  " } (Service.cached Sample.owner)
      Script.blank).result = .error (NewBadInput "task title cannot be empty") ∧
    (UpdateTask asciiTables Script.queries Sample.now
      { Sample.setStatus "done" with Title := some "  " } (Service.cached Sample.owner)
      Script.blank).events =
        [⟨.BeginTx, none⟩, ⟨.GetTaskByID ⟨toPgUUID Sample.id, toPgUUID Sample.owner⟩, none⟩,
          ⟨.Rollback, none⟩] ∧
    (UpdateTask asciiTables Script.queries Sample.now
      { Sample.setStatus "done" with LabelIDs := some ["not a uuid"] }
      (Service.cached Sample.owner) Script.blank).result =
        .error (NewBadInput "labelIds must be a valid UUID") ∧
    (UpdateTask asciiTables Script.queries Sample.now
      { Sample.setStatus "done" with LabelIDs := some ["not a uuid"] }
      (Service.cached Sample.owner) Script.blank).events.map (fun ev => ev.call.isQuery) =
        [false, true, true, false] := by
  decide

/-- C10 (as amended): in every run of every operation, each query that fails with an
error of the driver is answered by the classifier applied once to that error, an
`*AppError` whose cause, if it has one, is the driver's error; except that Project and
Task return no error when the query found no row. -/
theorem storage_failures_classified {σ : Type} (U : UnicodeTables) (Q : Queries σ) (now : Time)
    (req : Request) (s : Service) (d : σ) (ev : Event) (se : StorageError)
    (hev : ev ∈ (perform U Q now req s d).events) (hq : ev.call.isQuery = true)
    (hse : ev.err = some se) :
    ((∃ fallback, (perform U Q now req s d).result = .error (classify (.storage se) fallback)) ∨
      ((∃ id, req = .Project id ∨ req = .Task id) ∧ se.noRows = true ∧
        (perform U Q now req s d).result = .ok ())) ∧
    (∀ fallback,
      classify (.storage se) fallback = .app "NOT_FOUND" fallback ∨
      classify (.storage se) fallback =
        .appWrap "CONFLICT" "resource already exists" (.storage se) ∨
      classify (.storage se) fallback =
        .app "BAD_USER_INPUT" "request violates data constraints" ∨
      classify (.storage se) fallback = .appWrap "INTERNAL" fallback (.storage se)) := by
  refine ⟨?_, classify_storage se⟩
  by_cases h1 : ∃ id, req = .Project id
  · obtain ⟨id, rfl⟩ := h1
    rcases (Op.soundOrAbsent_void _ (soundOrAbsent_GetProject Q id)).all s d ev hev hq se hse
      with h | ⟨hn, a, ha⟩
    · exact Or.inl h
    · exact Or.inr ⟨⟨id, Or.inl rfl⟩, hn, ha⟩
  · by_cases h2 : ∃ id, req = .Task id
    · obtain ⟨id, rfl⟩ := h2
      rcases (Op.soundOrAbsent_void _ (soundOrAbsent_GetTask Q id)).all s d ev hev hq se hse
        with h | ⟨hn, a, ha⟩
      · exact Or.inl h
      · exact Or.inr ⟨⟨id, Or.inr rfl⟩, hn, ha⟩
    · exact Or.inl ((perform_sound U Q now req (fun id h => h1 ⟨id, h⟩)
        (fun id h => h2 ⟨id, h⟩)).all s d ev hev hq se hse)

/-- C10, an instance: in DeleteProject the soft delete of the project fails with an
outage; the operation returns the INTERNAL error that wraps it. -/
theorem storage_failures_classified_witness :
    (⟨.SoftDeleteProject ⟨toPgUUID Sample.id, toPgUUID Sample.owner⟩, some Sample.outage⟩ : Event) ∈
      (perform asciiTables Script.queries Sample.now (.DeleteProject Sample.idText)
        (Service.cached Sample.owner)
        { Script.blank with faults := [none, some Sample.outage] }).events ∧
    (perform asciiTables Script.queries Sample.now (.DeleteProject Sample.idText)
      (Service.cached Sample.owner)
      { Script.blank with faults := [none, some Sample.outage] }).result =
        .error (.appWrap "INTERNAL" "project not found" (.storage Sample.outage)) ∧
    ((∃ fallback, (perform asciiTables Script.queries Sample.now (.DeleteProject Sample.idText)
        (Service.cached Sample.owner)
        { Script.blank with faults := [none, some Sample.outage] }).result =
          .error (classify (.storage Sample.outage) fallback)) ∨
      ((∃ id, Request.DeleteProject Sample.idText = .Project id ∨
          Request.DeleteProject Sample.idText = .Task id) ∧
        Sample.outage.noRows = true ∧
        (perform asciiTables Script.queries Sample.now (.DeleteProject Sample.idText)
          (Service.cached Sample.owner)
          { Script.blank with faults := [none, some Sample.outage] }).result = .ok ())) :=
  ⟨by decide, by decide,
    (storage_failures_classified asciiTables Script.queries Sample.now
      (.DeleteProject Sample.idText) (Service.cached Sample.owner)
      { Script.blank with faults := [none, some Sample.outage] }
      ⟨.SoftDeleteProject ⟨toPgUUID Sample.id, toPgUUID Sample.owner⟩, some Sample.outage⟩
      Sample.outage (by decide) (by decide) (by decide)).1⟩

/-- C10 as stated fails. When BeginTx fails, DeleteProject returns the driver's error
itself, which is not an `*AppError`; the same when Commit fails after the unit of work
succeeded; and Project returns no error at all when its query finds no row. -/
theorem storage_failures_unclassified :
    (DeleteProject Script.queries Sample.idText (Service.cached Sample.owner)
      { Script.blank with faults := [some Sample.outage] }).result =
        .error (.storage Sample.outage) ∧
    (DeleteProject Script.queries Sample.idText (Service.cached Sample.owner)
      { Script.blank with faults := [some Sample.outage] }).events =
        [⟨.BeginTx, some Sample.outage⟩] ∧
    (DeleteProject Script.queries Sample.idText (Service.cached Sample.owner)
      { Script.blank with faults := [none, none, none, some Sample.outage] }).result =
        .error (.storage Sample.outage) ∧
    (DeleteProject Script.queries Sample.idText (Service.cached Sample.owner)
      { Script.blank with faults := [none, none, none, some Sample.outage] }).events.map
        (fun ev => ev.err) = [none, none, none, some Sample.outage, none] ∧
    (GetProject Script.queries Sample.idText (Service.cached Sample.owner)
      { Script.blank with faults := [some Sample.noRows] }).result = .ok none ∧
    (GetProject Script.queries Sample.idText (Service.cached Sample.owner)
      { Script.blank with faults := [some Sample.noRows] }).events =
        [⟨.GetProjectByID ⟨toPgUUID Sample.id, toPgUUID Sample.owner⟩, some Sample.noRows⟩] ∧
    (∀ fallback, wrapDBError (some (.storage Sample.outage)) fallback ≠
      some (.storage Sample.outage)) := by
  refine ⟨by decide, by decide, by decide, by decide, by decide, by decide, ?_⟩
  intro fallback h
  simp [wrapDBError, classify, isNoRows, pgCodeOf, Sample.outage, NewInternal, mkAppError] at h


/-! ## The error classifier: claims -/

/-- C11: `wrapDBError` returns nil for nil; for an error `e` with fallback `m` it returns
NOT_FOUND with message `m` and no cause when `e` is the no-rows error, whatever Postgres
code `e` carries; otherwise CONFLICT "resource already exists" wrapping `e` for code 23505,
BAD_USER_INPUT "request violates data constraints" without cause for codes 23503 and
23514, and INTERNAL with message `m` wrapping `e` in every other case. -/
theorem wrapDBError_spec (e : GoError) (m : String) :
    wrapDBError none m = none ∧
    (isNoRows e = true → wrapDBError (some e) m = some (.app "NOT_FOUND" m)) ∧
    (isNoRows e = false → pgCodeOf e = some "23505" →
      wrapDBError (some e) m = some (.appWrap "CONFLICT" "resource already exists" e)) ∧
    (isNoRows e = false → (pgCodeOf e = some "23503" ∨ pgCodeOf e = some "23514") →
      wrapDBError (some e) m =
        some (.app "BAD_USER_INPUT" "request violates data constraints")) ∧
    (isNoRows e = false → pgCodeOf e ≠ some "23505" → pgCodeOf e ≠ some "23503" →
      pgCodeOf e ≠ some "23514" → wrapDBError (some e) m = some (.appWrap "INTERNAL" m e)) := by
  refine ⟨rfl, ?_, ?_, ?_, ?_⟩
  · intro h
    simp [wrapDBError, classify, h, NewNotFound, CodeNotFound]
  · intro h hc
    simp [wrapDBError, classify, h, hc, NewConflict, mkAppError, CodeConflict]
  · intro h hc
    rcases hc with hc | hc <;>
      simp [wrapDBError, classify, h, hc, NewBadInput, CodeBadUserInput]
  · intro h h1 h2 h3
    cases hc : pgCodeOf e with
    | none => simp [wrapDBError, classify, h, hc, NewInternal, mkAppError, CodeInternal]
    | some code =>
        rw [hc] at h1 h2 h3
        have n1 : code ≠ "23505" := fun h => h1 (by rw [h])
        have n2 : code ≠ "23503" := fun h => h2 (by rw [h])
        have n3 : code ≠ "23514" := fun h => h3 (by rw [h])
        simp [wrapDBError, classify, h, hc, n1, n2, n3, NewInternal, mkAppError, CodeInternal]

/-- C11, instances: a no-rows error that also carries the code 23505 is NOT_FOUND, a
unique violation is CONFLICT, a check violation is BAD_USER_INPUT and an outage is
INTERNAL. -/
theorem wrapDBError_spec_witness :
    wrapDBError (some (.storage ⟨true, some "23505", "no rows in result set"⟩)) "task not found" =
      some (.app "NOT_FOUND" "task not found") ∧
    wrapDBError (some (.storage ⟨false, some "23505", "duplicate key"⟩)) "failed to create label" =
      some (.appWrap "CONFLICT" "resource already exists"
        (.storage ⟨false, some "23505", "duplicate key"⟩)) ∧
    wrapDBError (some (.storage ⟨false, some "23514", "check"⟩)) "failed to create task" =
      some (.app "BAD_USER_INPUT" "request violates data constraints") ∧
    wrapDBError (some (.storage ⟨false, none, "connection refused"⟩)) "failed to list labels" =
      some (.appWrap "INTERNAL" "failed to list labels"
        (.storage ⟨false, none, "connection refused"⟩)) :=
  ⟨(wrapDBError_spec (.storage ⟨true, some "23505", "no rows in result set"⟩)
      "task not found").2.1 (by decide),
    (wrapDBError_spec (.storage ⟨false, some "23505", "duplicate key"⟩)
      "failed to create label").2.2.1 (by decide) (by decide),
    (wrapDBError_spec (.storage ⟨false, some "23514", "check"⟩)
      "failed to create task").2.2.2.1 (by decide) (Or.inr (by decide)),
    (wrapDBError_spec (.storage ⟨false, none, "connection refused"⟩)
      "failed to list labels").2.2.2.2 (by decide) (by decide) (by decide) (by decide)⟩


/-! ## De-duplicated lists: claims -/

theorem keepFirst_mem {α : Type} [DecidableEq α] (l : List α) (v : α) :
    v ∈ keepFirst l ↔ v ∈ l := by
  induction l with
  | nil => simp [keepFirst]
  | cons x xs ih =>
      simp only [keepFirst, List.mem_cons, List.mem_filter, ih, decide_eq_true_eq]
      constructor
      · rintro (h | ⟨h, -⟩)
        · exact Or.inl h
        · exact Or.inr h
      · intro h
        by_cases hv : v = x
        · exact Or.inl hv
        · rcases h with h | h
          · exact absurd h hv
          · exact Or.inr ⟨h, hv⟩

theorem keepFirst_nodup {α : Type} [DecidableEq α] (l : List α) : (keepFirst l).Nodup := by
  induction l with
  | nil => simp [keepFirst]
  | cons x xs ih =>
      simp only [keepFirst, List.nodup_cons, List.mem_filter, decide_eq_true_eq]
      exact ⟨fun h => h.2 rfl, ih.filter _⟩

theorem keepFirst_sublist {α : Type} [DecidableEq α] (l : List α) : (keepFirst l).Sublist l := by
  induction l with
  | nil => simp [keepFirst]
  | cons x xs ih =>
      simp only [keepFirst]
      exact List.Sublist.cons₂ x ((List.filter_sublist _).trans ih)

/-- Two filters that drop the values in `out`, one of them after dropping `v`. -/
theorem filter_notMem_of_mem {α : Type} [DecidableEq α] (l out : List α) (v : α)
    (hv : v ∈ out) :
    (l.filter (fun y => decide (y ≠ v))).filter (fun y => decide (y ∉ out)) =
      l.filter (fun y => decide (y ∉ out)) := by
  rw [List.filter_filter]
  apply List.filter_congr
  intro y _
  by_cases hy : y ∈ out
  · simp [hy]
  · have : y ≠ v := fun h => hy (h ▸ hv)
    simp [hy, this]

theorem filter_notMem_snoc {α : Type} [DecidableEq α] (l out : List α) (v : α) :
    l.filter (fun y => decide (y ∉ out ++ [v])) =
      (l.filter (fun y => decide (y ≠ v))).filter (fun y => decide (y ∉ out)) := by
  rw [List.filter_filter]
  apply List.filter_congr
  intro y _
  by_cases hy : y ∈ out <;> by_cases hyv : y = v <;> simp [hy, hyv]

/-- The loop of `normalizeFilters` when every element normalises. -/
theorem normalizeFiltersLoop_ok (n : String → Except GoError String) (items vs : List String)
    (h : List.Forall₂ (fun x v => n x = .ok v) items vs) (out : List String) :
    normalizeFiltersLoop n items out =
      .ok (out ++ (keepFirst vs).filter (fun (y : String) => decide (y ∉ out))) := by
  induction h generalizing out with
  | nil => simp [normalizeFiltersLoop, keepFirst]
  | @cons x v xs vs' hx _ ih =>
      simp only [normalizeFiltersLoop, hx, keepFirst]
      by_cases hv : v ∈ out
      · rw [if_pos hv, ih out, List.filter_cons_of_neg (by simpa using hv),
          filter_notMem_of_mem _ _ _ hv]
      · rw [if_neg hv, ih (out ++ [v]), List.filter_cons_of_pos (by simpa using hv),
          filter_notMem_snoc]
        simp

/-- The loop of `normalizeFilters` returns the error of the first element that fails. -/
theorem normalizeFiltersLoop_first (n : String → Except GoError String)
    (pre : List String) (x : String) (post : List String) (e : GoError)
    (hpre : ∀ y ∈ pre, ∃ v, n y = .ok v) (hx : n x = .error e) (out : List String) :
    normalizeFiltersLoop n (pre ++ x :: post) out = .error e := by
  induction pre generalizing out with
  | nil => simp [normalizeFiltersLoop, hx]
  | cons y ys ih =>
      obtain ⟨v, hv⟩ := hpre y (List.mem_cons_self _ _)
      have hys : ∀ z ∈ ys, ∃ v, n z = .ok v := fun z hz => hpre z (List.mem_cons_of_mem _ hz)
      simp only [List.cons_append, normalizeFiltersLoop, hv]
      split
      · exact ih hys out
      · exact ih hys _

/-- A list of checks either passes throughout or has a first element that fails. -/
theorem all_ok_or_first_error {α β : Type} (n : α → Except GoError β) (l : List α) :
    (∃ vs, List.Forall₂ (fun x v => n x = .ok v) l vs) ∨
    (∃ pre x post e, l = pre ++ x :: post ∧ (∀ y ∈ pre, ∃ v, n y = .ok v) ∧ n x = .error e) := by
  induction l with
  | nil => exact Or.inl ⟨[], List.Forall₂.nil⟩
  | cons a as ih =>
      cases ha : n a with
      | error e => exact Or.inr ⟨[], a, as, e, rfl, by simp, ha⟩
      | ok v =>
          rcases ih with ⟨vs, hvs⟩ | ⟨pre, x, post, e, hl, hpre, hx⟩
          · exact Or.inl ⟨v :: vs, List.Forall₂.cons ha hvs⟩
          · refine Or.inr ⟨a :: pre, x, post, e, by rw [hl]; rfl, ?_, hx⟩
            intro y hy
            rcases List.mem_cons.1 hy with rfl | hy
            · exact ⟨v, ha⟩
            · exact hpre y hy

theorem forall₂_values_mem {α β : Type} (n : α → Except GoError β) (l : List α) (vs : List β)
    (h : List.Forall₂ (fun x v => n x = .ok v) l vs) (v : β) (hv : v ∈ vs) :
    ∃ x ∈ l, n x = .ok v := by
  induction h with
  | nil => cases hv
  | cons hx _ ih =>
      rcases List.mem_cons.1 hv with rfl | hv
      · exact ⟨_, List.mem_cons_self _ _, hx⟩
      · obtain ⟨x, hxm, hxv⟩ := ih hv
        exact ⟨x, List.mem_cons_of_mem _ hxm, hxv⟩

theorem forall₂_ok_of_mem {α β : Type} (n : α → Except GoError β) (l : List α) (vs : List β)
    (h : List.Forall₂ (fun x v => n x = .ok v) l vs) (x : α) (hx : x ∈ l) :
    ∃ v, n x = .ok v := by
  induction h with
  | nil => cases hx
  | cons ha _ ih =>
      rcases List.mem_cons.1 hx with rfl | hx
      · exact ⟨_, ha⟩
      · exact ih hx

theorem normalizeFilters_ok (n : String → Except GoError String) (input vs : List String)
    (h : List.Forall₂ (fun x v => n x = .ok v) input vs) :
    normalizeFilters input n = .ok (keepFirst vs) := by
  unfold normalizeFilters
  split
  · rename_i h0
    have : input = [] := List.length_eq_zero.1 h0
    subst this
    cases h
    rfl
  · rw [normalizeFiltersLoop_ok n input vs h []]
    simp

theorem normalizeFilters_first (n : String → Except GoError String)
    (pre : List String) (x : String) (post : List String) (e : GoError)
    (hpre : ∀ y ∈ pre, ∃ v, n y = .ok v) (hx : n x = .error e) :
    normalizeFilters (pre ++ x :: post) n = .error e := by
  unfold normalizeFilters
  rw [if_neg (by simp)]
  exact normalizeFiltersLoop_first n pre x post e hpre hx []

theorem normalizeStatus_valid (U : UnicodeTables) (v r : String)
    (h : normalizeStatus U v = .ok r) : r ∈ validStatuses := by
  unfold normalizeStatus at h
  dsimp only at h
  split_ifs at h with h1 h2
  · cases h; decide
  · cases h
    exact h2

theorem normalizePriority_valid (U : UnicodeTables) (v r : String)
    (h : normalizePriority U v = .ok r) : r ∈ validPriorities := by
  unfold normalizePriority at h
  dsimp only at h
  split_ifs at h with h1 h2
  · cases h; decide
  · cases h
    exact h2

/-- C18: `normalizeFilters` fails exactly when the normaliser fails on some element, and
then with the error of the first such element; otherwise it returns the normalised
values with every later duplicate removed, in order of first occurrence. The result has no
duplicates, holds only values of the enumerated set for `normalizeStatus` and for
`normalizePriority`, and is empty for empty input. -/
theorem normalizeFilters_spec (U : UnicodeTables) (n : String → Except GoError String)
    (input : List String) :
    ((∃ e, normalizeFilters input n = .error e) ↔ ∃ x ∈ input, ∃ e, n x = .error e) ∧
    (∀ pre x post e, input = pre ++ x :: post → (∀ y ∈ pre, ∃ v, n y = .ok v) →
      n x = .error e → normalizeFilters input n = .error e) ∧
    (∀ vs, List.Forall₂ (fun x v => n x = .ok v) input vs →
      normalizeFilters input n = .ok (keepFirst vs)) ∧
    (∀ out, normalizeFilters input n = .ok out →
      out.Nodup ∧ ∀ v ∈ out, ∃ x ∈ input, n x = .ok v) ∧
    (∀ out, normalizeFilters input (normalizeStatus U) = .ok out →
      ∀ v ∈ out, v ∈ ["TODO", "IN_PROGRESS", "BLOCKED", "DONE"]) ∧
    (∀ out, normalizeFilters input (normalizePriority U) = .ok out →
      ∀ v ∈ out, v ∈ ["P1", "P2", "P3", "P4", "P5"]) ∧
    normalizeFilters [] n = .ok [] := by
  have key : ∀ (m : String → Except GoError String) (out : List String),
      normalizeFilters input m = .ok out →
        out.Nodup ∧ ∀ v ∈ out, ∃ x ∈ input, m x = .ok v := by
    intro m out hout
    rcases all_ok_or_first_error m input with ⟨vs, hvs⟩ | ⟨pre, x, post, e, hl, hpre, hx⟩
    · rw [normalizeFilters_ok m input vs hvs] at hout
      cases hout
      refine ⟨keepFirst_nodup vs, ?_⟩
      intro v hv
      exact forall₂_values_mem m input vs hvs v ((keepFirst_mem vs v).1 hv)
    · rw [hl, normalizeFilters_first m pre x post e hpre hx] at hout
      cases hout
  refine ⟨⟨?_, ?_⟩, ?_, normalizeFilters_ok n input, key n, ?_, ?_, rfl⟩
  · rintro ⟨e, he⟩
    rcases all_ok_or_first_error n input with ⟨vs, hvs⟩ | ⟨pre, x, post, e', hl, -, hx⟩
    · rw [normalizeFilters_ok n input vs hvs] at he
      cases he
    · exact ⟨x, by rw [hl]; simp, e', hx⟩
  · rintro ⟨x, hx, e, he⟩
    rcases all_ok_or_first_error n input with ⟨vs, hvs⟩ | ⟨pre, y, post, e', hl, hpre, hy⟩
    · obtain ⟨v, hv⟩ := forall₂_ok_of_mem n input vs hvs x hx
      rw [hv] at he
      cases he
    · exact ⟨e', by rw [hl]; exact normalizeFilters_first n pre y post e' hpre hy⟩
  · intro pre x post e hl hpre hx
    rw [hl]
    exact normalizeFilters_first n pre x post e hpre hx
  · intro out hout v hv
    obtain ⟨x, -, hx⟩ := (key _ out hout).2 v hv
    exact normalizeStatus_valid U x v hx
  · intro out hout v hv
    obtain ⟨x, -, hx⟩ := (key _ out hout).2 v hv
    exact normalizePriority_valid U x v hx

/-- C18, instances: `done`, ` todo `, `DONE` and the empty string give DONE and TODO, and a
list whose second element is not a status fails with the error of that element. -/
theorem normalizeFilters_spec_witness :
    List.Forall₂ (fun x v => normalizeStatus asciiTables x = .ok v) ["done", " todo ", "DONE", ""]
      ["DONE", "TODO", "DONE", "TODO"] ∧
    keepFirst ["DONE", "TODO", "DONE", "TODO"] = ["DONE", "TODO"] ∧
    normalizeFilters ["done", " todo ", "DONE", ""] (normalizeStatus asciiTables) =
      .ok (keepFirst ["DONE", "TODO", "DONE", "TODO"]) ∧
    normalizeFilters ["done", "later", "never"] (normalizeStatus asciiTables) =
      .error (NewBadInput "invalid status \"LATER\"") :=
  ⟨by repeat' first | exact List.Forall₂.nil | refine List.Forall₂.cons (by decide) ?_,
    by decide,
    (normalizeFilters_spec asciiTables (normalizeStatus asciiTables)
      ["done", " todo ", "DONE", ""]).2.2.1 ["DONE", "TODO", "DONE", "TODO"]
      (by repeat' first | exact List.Forall₂.nil | refine List.Forall₂.cons (by decide) ?_),
    (normalizeFilters_spec asciiTables (normalizeStatus asciiTables)
      ["done", "later", "never"]).2.1 ["done"] "later" ["never"] _ (by decide)
      (by intro y hy; simp at hy; subst hy; exact ⟨"DONE", by decide⟩) (by decide)⟩

/-! ### Identifier lists -/

/-- The loop of `parseUUIDList` when every element parses. -/
theorem parseUUIDListLoop_ok (field : String) (ids : List String) (vs : List UUID)
    (h : List.Forall₂ (fun raw id => parseUUID raw field = .ok id) ids vs) (out : List UUID) :
    parseUUIDListLoop field ids out =
      .ok (out ++ (keepFirst vs).filter (fun (y : UUID) => decide (y ∉ out))) := by
  induction h generalizing out with
  | nil => simp [parseUUIDListLoop, keepFirst]
  | @cons x v xs vs' hx _ ih =>
      simp only [parseUUIDListLoop, hx, keepFirst]
      by_cases hv : v ∈ out
      · rw [if_pos hv, ih out, List.filter_cons_of_neg (by simpa using hv),
          filter_notMem_of_mem _ _ _ hv]
      · rw [if_neg hv, ih (out ++ [v]), List.filter_cons_of_pos (by simpa using hv),
          filter_notMem_snoc]
        simp

/-- The loop of `parseUUIDList` stops at the first element that does not parse. -/
theorem parseUUIDListLoop_first (field : String) (pre : List String) (x : String)
    (post : List String) (e : GoError) (hpre : ∀ y ∈ pre, ∃ v, parseUUID y field = .ok v)
    (hx : parseUUID x field = .error e) (out : List UUID) :
    parseUUIDListLoop field (pre ++ x :: post) out = .error e := by
  induction pre generalizing out with
  | nil => simp [parseUUIDListLoop, hx]
  | cons y ys ih =>
      obtain ⟨v, hv⟩ := hpre y (List.mem_cons_self _ _)
      have hys : ∀ z ∈ ys, ∃ v, parseUUID z field = .ok v :=
        fun z hz => hpre z (List.mem_cons_of_mem _ hz)
      simp only [List.cons_append, parseUUIDListLoop, hv]
      split
      · exact ih hys out
      · exact ih hys _

theorem parseUUIDList_ok (field : String) (ids : List String) (vs : List UUID)
    (h : List.Forall₂ (fun raw id => parseUUID raw field = .ok id) ids vs) :
    parseUUIDList ids field = .ok (keepFirst vs) := by
  unfold parseUUIDList
  split
  · rename_i h0
    have : ids = [] := List.length_eq_zero.1 h0
    subst this
    cases h
    rfl
  · rw [parseUUIDListLoop_ok field ids vs h []]
    simp

theorem parseUUIDList_first (field : String) (pre : List String) (x : String)
    (post : List String) (e : GoError) (hpre : ∀ y ∈ pre, ∃ v, parseUUID y field = .ok v)
    (hx : parseUUID x field = .error e) :
    parseUUIDList (pre ++ x :: post) field = .error e := by
  unfold parseUUIDList
  rw [if_neg (by simp)]
  exact parseUUIDListLoop_first field pre x post e hpre hx []

theorem parseUUID_ok_iff (raw field : String) (id : UUID) :
    parseUUID raw field = .ok id ↔ UUID.Parse (bytesOf (TrimSpace raw)) = some id := by
  unfold parseUUID
  cases UUID.Parse (bytesOf (TrimSpace raw)) <;> simp

theorem parseUUID_error_iff (raw field : String) (e : GoError) :
    parseUUID raw field = .error e ↔
      UUID.Parse (bytesOf (TrimSpace raw)) = none ∧
        e = NewBadInput (field ++ " must be a valid UUID") := by
  unfold parseUUID
  cases UUID.Parse (bytesOf (TrimSpace raw)) <;> simp [eq_comm]

theorem parseUUIDList_error_eq (ids : List String) (field : String) (e : GoError)
    (he : parseUUIDList ids field = .error e) :
    e = NewBadInput (field ++ " must be a valid UUID") := by
  rcases all_ok_or_first_error (fun raw => parseUUID raw field) ids with
    ⟨vs, hvs⟩ | ⟨pre, x, post, e', hl, hpre, hx⟩
  · rw [parseUUIDList_ok field ids vs hvs] at he
    cases he
  · have he' := ((parseUUID_error_iff x field e').1 hx).2
    rw [hl, parseUUIDList_first field pre x post e' hpre hx] at he
    cases he
    exact he'

/-- C19: `parseUUIDList` fails exactly when some element, trimmed, does not parse as a
UUID, and then with BAD_USER_INPUT and the message naming the field; otherwise it returns
the parsed UUIDs with every later duplicate removed, in order of first occurrence, where
two spellings of one UUID are duplicates; the result has no duplicates and is empty for
empty input. -/
theorem parseUUIDList_spec (ids : List String) (field : String) :
    (parseUUIDList ids field = .error (GoError.app "BAD_USER_INPUT" (field ++ " must be a valid UUID")) ↔
      ∃ raw ∈ ids, UUID.Parse (bytesOf (TrimSpace raw)) = none) ∧
    (∀ e, parseUUIDList ids field = .error e →
      e = GoError.app "BAD_USER_INPUT" (field ++ " must be a valid UUID")) ∧
    (∀ vs, List.Forall₂ (fun raw id => UUID.Parse (bytesOf (TrimSpace raw)) = some id) ids vs →
      parseUUIDList ids field = .ok (keepFirst vs)) ∧
    (∀ out, parseUUIDList ids field = .ok out →
      out.Nodup ∧ ∀ id ∈ out, ∃ raw ∈ ids, UUID.Parse (bytesOf (TrimSpace raw)) = some id) ∧
    parseUUIDList [] field = .ok [] := by
  have conv : ∀ vs, List.Forall₂ (fun raw id => UUID.Parse (bytesOf (TrimSpace raw)) = some id)
      ids vs → List.Forall₂ (fun raw id => parseUUID raw field = .ok id) ids vs := by
    intro vs h
    exact h.imp fun {raw id} hp => (parseUUID_ok_iff raw field id).2 hp
  have cases := all_ok_or_first_error (fun raw => parseUUID raw field) ids
  refine ⟨⟨?_, ?_⟩, ?_, fun vs h => parseUUIDList_ok field ids vs (conv vs h), ?_, rfl⟩
  · intro he
    rcases cases with ⟨vs, hvs⟩ | ⟨pre, x, post, e', hl, -, hx⟩
    · rw [parseUUIDList_ok field ids vs hvs] at he
      cases he
    · exact ⟨x, by rw [hl]; simp, ((parseUUID_error_iff x field e').1 hx).1⟩
  · rintro ⟨raw, hraw, hp⟩
    rcases cases with ⟨vs, hvs⟩ | ⟨pre, x, post, e', hl, hpre, hx⟩
    · obtain ⟨v, hv⟩ := forall₂_ok_of_mem _ ids vs hvs raw hraw
      rw [(parseUUID_ok_iff raw field v).1 hv] at hp
      cases hp
    · have he' := ((parseUUID_error_iff x field e').1 hx).2
      rw [hl, parseUUIDList_first field pre x post e' hpre hx, he']
      rfl
  · intro e he
    exact parseUUIDList_error_eq ids field e he
  · intro out hout
    rcases cases with ⟨vs, hvs⟩ | ⟨pre, x, post, e', hl, hpre, hx⟩
    · rw [parseUUIDList_ok field ids vs hvs] at hout
      cases hout
      refine ⟨keepFirst_nodup vs, ?_⟩
      intro id hid
      obtain ⟨raw, hraw, hp⟩ := forall₂_values_mem _ ids vs hvs id ((keepFirst_mem vs id).1 hid)
      exact ⟨raw, hraw, (parseUUID_ok_iff raw field id).1 hp⟩
    · rw [hl, parseUUIDList_first field pre x post e' hpre hx] at hout
      cases hout

/-- C19, instances: three spellings of one UUID and the nil UUID give two UUIDs, and a list
with an element that is not a UUID is rejected. -/
theorem parseUUIDList_spec_witness :
    List.Forall₂ (fun raw id => UUID.Parse (bytesOf (TrimSpace raw)) = some id)
      ["123e4567-e89b-12d3-a456-426614174000", " 123E4567-E89B-12D3-A456-426614174000 ",
        "00000000-0000-0000-0000-000000000000", "urn:uuid:123e4567-e89b-12d3-a456-426614174000"]
      [Sample.id, Sample.id, UUID.Nil, Sample.id] ∧
    keepFirst [Sample.id, Sample.id, UUID.Nil, Sample.id] = [Sample.id, UUID.Nil] ∧
    parseUUIDList
      ["123e4567-e89b-12d3-a456-426614174000", " 123E4567-E89B-12D3-A456-426614174000 ",
        "00000000-0000-0000-0000-000000000000", "urn:uuid:123e4567-e89b-12d3-a456-426614174000"]
      "labelIds" = .ok (keepFirst [Sample.id, Sample.id, UUID.Nil, Sample.id]) ∧
    parseUUIDList ["123e4567-e89b-12d3-a456-426614174000", "42"] "labelIds" =
      .error (GoError.app "BAD_USER_INPUT" "labelIds must be a valid UUID") :=
  ⟨by repeat' first | exact List.Forall₂.nil | refine List.Forall₂.cons (by decide) ?_,
    by decide,
    (parseUUIDList_spec
      ["123e4567-e89b-12d3-a456-426614174000", " 123E4567-E89B-12D3-A456-426614174000 ",
        "00000000-0000-0000-0000-000000000000", "urn:uuid:123e4567-e89b-12d3-a456-426614174000"]
      "labelIds").2.2.1 [Sample.id, Sample.id, UUID.Nil, Sample.id]
      (by repeat' first | exact List.Forall₂.nil | refine List.Forall₂.cons (by decide) ?_),
    (parseUUIDList_spec ["123e4567-e89b-12d3-a456-426614174000", "42"] "labelIds").1.2
      ⟨"42", by simp, by decide⟩⟩


/-! ## Colors: claims -/

theorem char_le_iff (a b : Char) : a ≤ b ↔ a.toNat ≤ b.toNat := by
  rw [Char.le_def]
  exact Iff.rfl

theorem isHexDigit_range (d : Char) (h : isHexDigit d = true) :
    (48 ≤ d.toNat ∧ d.toNat ≤ 57) ∨ (65 ≤ d.toNat ∧ d.toNat ≤ 70) ∨
      (97 ≤ d.toNat ∧ d.toNat ≤ 102) := by
  unfold isHexDigit at h
  simp only [Bool.or_eq_true, Bool.and_eq_true, decide_eq_true_eq, char_le_iff] at h
  have e0 : '0'.toNat = 48 := rfl
  have e9 : '9'.toNat = 57 := rfl
  have eA : 'A'.toNat = 65 := rfl
  have eF : 'F'.toNat = 70 := rfl
  have ea : 'a'.toNat = 97 := rfl
  have ef : 'f'.toNat = 102 := rfl
  rw [e0, e9, eA, eF, ea, ef] at h
  omega

/-- Upper-casing a hexadecimal digit gives a digit of the class `[0-9A-F]`. -/
theorem toUpperRune_hex (U : UnicodeTables) (d : Char) (h : isHexDigit d = true) :
    ('0' ≤ toUpperRune U d ∧ toUpperRune U d ≤ '9') ∨
      ('A' ≤ toUpperRune U d ∧ toUpperRune U d ≤ 'F') := by
  have e0 : '0'.toNat = 48 := rfl
  have e9 : '9'.toNat = 57 := rfl
  have eA : 'A'.toNat = 65 := rfl
  have eF : 'F'.toNat = 70 := rfl
  have ea : 'a'.toNat = 97 := rfl
  have ez : 'z'.toNat = 122 := rfl
  simp only [char_le_iff, e0, e9, eA, eF]
  unfold toUpperRune
  rw [ea, ez]
  rcases isHexDigit_range d h with ⟨h1, h2⟩ | ⟨h1, h2⟩ | ⟨h1, h2⟩
  · rw [if_pos (by omega), if_neg (by omega)]
    exact Or.inl ⟨h1, h2⟩
  · rw [if_pos (by omega), if_neg (by omega)]
    exact Or.inr ⟨h1, h2⟩
  · rw [if_pos (by omega), if_pos (by omega)]
    right
    interval_cases d.toNat <;> decide

theorem colorPatternMatch_iff (s : String) :
    colorPatternMatch s = true ↔
      ∃ digits, s.toList = '#' :: digits ∧ digits.length = 6 ∧ ∀ d ∈ digits, isHexDigit d = true := by
  unfold colorPatternMatch
  cases h : s.toList with
  | nil => simp
  | cons c digits =>
      simp only [Bool.and_eq_true, beq_iff_eq, List.all_eq_true, List.cons.injEq]
      constructor
      · rintro ⟨⟨rfl, h1⟩, h2⟩
        exact ⟨digits, ⟨rfl, rfl⟩, h1, h2⟩
      · rintro ⟨ds, ⟨rfl, rfl⟩, h1, h2⟩
        exact ⟨⟨rfl, h1⟩, h2⟩

/-- C20: `validateColor` accepts an absent color and leaves it absent; rejects a color that
is empty after trimming; otherwise accepts exactly the colors whose trimmed value matches
`^#[0-9A-Fa-f]{6}$`, that is, a `#` and six hexadecimal digits. On success the value is
replaced by the upper-cased trimmed value, a `#` and six digits of `[0-9A-F]`; on failure
the error is BAD_USER_INPUT and the value is kept. -/
theorem validateColor_spec (U : UnicodeTables) (c : String) :
    validateColor U none = (none, none) ∧
    (TrimSpace c = "" → validateColor U (some c) =
      (some c, some (GoError.app "BAD_USER_INPUT"
        "color cannot be empty; omit it or use #RRGGBB"))) ∧
    (TrimSpace c ≠ "" →
      ((validateColor U (some c)).2 = none ↔ colorPatternMatch (TrimSpace c) = true)) ∧
    (colorPatternMatch (TrimSpace c) = true ↔
      ∃ digits, (TrimSpace c).toList = '#' :: digits ∧ digits.length = 6 ∧
        ∀ d ∈ digits, isHexDigit d = true) ∧
    ((validateColor U (some c)).2 = none →
      (validateColor U (some c)).1 = some (ToUpper U (TrimSpace c)) ∧
      ∃ digits, (ToUpper U (TrimSpace c)).toList = '#' :: digits ∧ digits.length = 6 ∧
        ∀ d ∈ digits, ('0' ≤ d ∧ d ≤ '9') ∨ ('A' ≤ d ∧ d ≤ 'F')) ∧
    (∀ e, (validateColor U (some c)).2 = some e →
      (validateColor U (some c)).1 = some c ∧ ∃ msg, e = GoError.app "BAD_USER_INPUT" msg) := by
  refine ⟨rfl, ?_, ?_, colorPatternMatch_iff _, ?_, ?_⟩
  · intro h
    simp [validateColor, h, NewBadInput, CodeBadUserInput]
  · intro h
    by_cases hm : colorPatternMatch (TrimSpace c) = true
    · simp [validateColor, h, hm]
    · simp [validateColor, h, hm]
  · intro h
    by_cases h0 : TrimSpace c = ""
    · simp [validateColor, h0] at h
    · by_cases hm : colorPatternMatch (TrimSpace c) = true
      · refine ⟨by simp [validateColor, h0, hm], ?_⟩
        obtain ⟨digits, hd, hl, hall⟩ := (colorPatternMatch_iff _).1 hm
        refine ⟨digits.map (toUpperRune U), ?_, by simpa using hl, ?_⟩
        · show (String.mk ((TrimSpace c).toList.map (toUpperRune U))).toList = _
          rw [hd]
          show List.map (toUpperRune U) ('#' :: digits) = _
          rw [List.map_cons]
          congr 1
        · intro d hd'
          obtain ⟨d0, hd0, rfl⟩ := List.mem_map.1 hd'
          exact toUpperRune_hex U d0 (hall d0 hd0)
      · simp [validateColor, h0, hm] at h
  · intro e h
    by_cases h0 : TrimSpace c = ""
    · simp only [validateColor, h0, if_true, Option.some.injEq] at h ⊢
      exact ⟨trivial, _, h.symm⟩
    · by_cases hm : colorPatternMatch (TrimSpace c) = true
      · simp [validateColor, h0, hm] at h
      · simp only [validateColor, h0, hm, if_false, Bool.not_false, if_true,
          Option.some.injEq] at h ⊢
        exact ⟨trivial, _, h.symm⟩

/-- C20, instances: ` #a1b2c3 ` is accepted and stored as `#A1B2C3`; `#12345G` and a blank
color are rejected and kept. -/
theorem validateColor_spec_witness :
    TrimSpace " #a1b2c3 " ≠ "" ∧ colorPatternMatch (TrimSpace " #a1b2c3 ") = true ∧
    (validateColor asciiTables (some " #a1b2c3 ")).2 = none ∧
    (validateColor asciiTables (some " #a1b2c3 ")).1 = some "#A1B2C3" ∧
    validateColor asciiTables (some "#12345G") =
      (some "#12345G", some (GoError.app "BAD_USER_INPUT" "color must be in #RRGGBB format")) ∧
    validateColor asciiTables (some "  ") =
      (some "  ", some (GoError.app "BAD_USER_INPUT"
        "color cannot be empty; omit it or use #RRGGBB")) :=
  ⟨by decide, by decide,
    ((validateColor_spec asciiTables " #a1b2c3 ").2.2.1 (by decide)).2 (by decide),
    by decide, by decide, (validateColor_spec asciiTables "  ").2.1 (by decide)⟩


/-! ## The errors service code returns -/

namespace Op

variable {σ α β : Type}

theorem fails_ret (a : α) (P : GoError → Prop) : Fails (ret a : Op σ α) P :=
  ⟨by intro s d e h; simp at h⟩

theorem fails_fail (e : GoError) (P : GoError → Prop) (h : P e) : Fails (fail e : Op σ α) P :=
  ⟨by intro s d e' he; simp at he; exact he ▸ h⟩

theorem fails_check (r : Except GoError α) (P : GoError → Prop)
    (h : ∀ e, r = .error e → P e) : Fails (check r : Op σ α) P := by
  cases r with
  | ok a => exact fails_ret a P
  | error e => exact fails_fail e P (h e rfl)

theorem fails_checkErr (err : Option GoError) (P : GoError → Prop)
    (h : ∀ e, err = some e → P e) : Fails (checkErr err : Op σ Unit) P := by
  cases err with
  | none => exact fails_ret () P
  | some e => exact fails_fail e P (h e rfl)

theorem fails_failIf (cond : Prop) [Decidable cond] (e : GoError) (P : GoError → Prop)
    (h : P e) : Fails (failIf cond e : Op σ Unit) P := by
  unfold failIf
  split
  · exact fails_fail e P h
  · exact fails_ret () P

theorem fails_bind (p : Op σ α) (f : α → Op σ β) (P : GoError → Prop) (hp : Fails p P)
    (hf : ∀ a, Fails (f a) P) : Fails (p >>= f) P := by
  refine ⟨?_⟩
  intro s d e he
  cases hr : (p s d).result with
  | error e' =>
      rw [run_bind_error p f s d e' hr] at he
      cases he
      exact hp.all s d e hr
  | ok a =>
      rw [run_bind_ok p f s d a hr] at he
      exact (hf a).all _ _ e he

end Op

theorem fails_exec {σ R : Type} (c : Call) (run : σ → Except StorageError R × σ) (m : String)
    (P : GoError → Prop) (h : ∀ se, P (classify (.storage se) m)) :
    Op.Fails (exec c run m) P := by
  refine ⟨?_⟩
  intro s d e he
  rcases run_exec_cases c run m s d with ⟨row, _, hr⟩ | ⟨se, _, hr⟩
  · rw [hr] at he
    cases he
  · rw [hr] at he
    cases he
    exact h se

/-- `WithTx` returns the error of its unit of work, or that of BeginTx or of Commit. -/
theorem fails_WithTx {σ α : Type} (Q : Queries σ) (fn : Op σ α) (P : GoError → Prop)
    (hfn : Op.Fails fn P) (hs : ∀ se, P (.storage se)) : Op.Fails (WithTx Q fn) P := by
  refine ⟨?_⟩
  intro s d e he
  unfold WithTx at he
  split at he
  · cases he
    exact hs _
  · dsimp only at he
    split at he
    · rename_i err herr
      cases he
      exact hfn.all _ _ _ herr
    · dsimp only at he
      split at he
      · cases he
        exact hs _
      · cases he

theorem fails_insertTaskLabels {σ : Type} (Q : Queries σ) (taskID : UUID) (ids : List PgUUID)
    (P : GoError → Prop) (h : ∀ se, P (classify (.storage se) "failed to attach labels")) :
    Op.Fails (insertTaskLabels Q taskID ids) P := by
  induction ids with
  | nil => exact Op.fails_ret () P
  | cons id rest ih =>
      unfold insertTaskLabels
      exact Op.fails_bind _ _ P (fails_exec _ _ _ P h) fun _ => ih


/-! ## UpdateTask: the values written and the schedule check -/

theorem validateSchedule_some_iff (startAt dueAt : Option Time) :
    validateSchedule startAt dueAt =
        some (GoError.app "BAD_USER_INPUT" "dueAt must be after or equal to startAt") ↔
      ∃ s0 d0, startAt = some s0 ∧ dueAt = some d0 ∧ d0.Before s0 = true := by
  cases startAt with
  | none => simp [validateSchedule]
  | some s0 =>
      cases dueAt with
      | none => simp [validateSchedule]
      | some d0 =>
          by_cases h : d0.Before s0 = true
          · simp [validateSchedule, h, NewBadInput, CodeBadUserInput]
          · simp [validateSchedule, h]

theorem validateSchedule_cases (startAt dueAt : Option Time) :
    validateSchedule startAt dueAt = none ∨
      validateSchedule startAt dueAt =
        some (GoError.app "BAD_USER_INPUT" "dueAt must be after or equal to startAt") := by
  cases startAt with
  | none => simp [validateSchedule]
  | some s0 =>
      cases dueAt with
      | none => simp [validateSchedule]
      | some d0 =>
          by_cases h : d0.Before s0 = true
          · simp [validateSchedule, h, NewBadInput, CodeBadUserInput]
          · simp [validateSchedule, h]

/-- The classifier never returns the error of the schedule check. -/
theorem classify_ne_schedule (se : StorageError) (m : String) :
    classify (.storage se) m ≠
      GoError.app "BAD_USER_INPUT" "dueAt must be after or equal to startAt" := by
  rcases classify_storage se m with h | h | h | h <;> rw [h] <;> intro hc
  · exact absurd (GoError.app.inj hc).1 (by decide)
  · cases hc
  · exact absurd (GoError.app.inj hc).2 (by decide)
  · cases hc

theorem fails_replaceTaskLabels {σ : Type} (Q : Queries σ) (uid taskID : UUID)
    (labelIDs : List UUID) (P : GoError → Prop) (hc : ∀ se m, P (classify (.storage se) m))
    (hl : P (NewBadInput "one or more labelIds are invalid")) :
    Op.Fails (replaceTaskLabels Q uid taskID labelIDs) P := by
  unfold replaceTaskLabels
  refine Op.fails_bind _ _ P (fails_exec _ _ _ P fun se => hc se _) fun _ => ?_
  split
  · exact Op.fails_ret () P
  · refine Op.fails_bind _ _ P (fails_exec _ _ _ P fun se => hc se _) fun _ => ?_
    refine Op.fails_bind _ _ P (Op.fails_failIf _ _ P hl) fun _ => ?_
    exact fails_insertTaskLabels Q taskID _ P fun se => hc se _

theorem fails_updateLabels {σ : Type} (Q : Queries σ) (uid taskID : UUID)
    (labelIDs : Option (List String)) (P : GoError → Prop)
    (hc : ∀ se m, P (classify (.storage se) m))
    (hl : P (NewBadInput "one or more labelIds are invalid"))
    (hp : P (NewBadInput "labelIds must be a valid UUID")) :
    Op.Fails (updateLabels Q uid taskID labelIDs) P := by
  unfold updateLabels
  cases labelIDs with
  | none => exact Op.fails_ret () P
  | some ids =>
      refine Op.fails_bind _ _ P (Op.fails_check _ P ?_) fun _ =>
        fails_replaceTaskLabels Q uid taskID _ P hc hl
      intro e he
      rw [parseUUIDList_error_eq ids "labelIds" e he]
      exact hp

/-- The run of UpdateTask's unit of work once the stored row is found and the input has
passed the checks: either the write fails and its classified error is returned, or the
write succeeds and the label set is dealt with. -/
theorem updateTaskTx_written {σ : Type} (U : UnicodeTables) (Q : Queries σ) (now : Time)
    (input : UpdateTaskInput) (uid taskID : UUID) (s : Service) (d d2 : σ) (existing : Task)
    (hg : Q.GetTaskByID ⟨toPgUUID taskID, toPgUUID uid⟩ d = (.ok existing, d2))
    (title status priority : String) (h1 : updateTitle existing input.Title = .ok title)
    (h2 : updateEnum (normalizeStatus U) existing.Status input.Status = .ok status)
    (h3 : updateEnum (normalizePriority U) existing.Priority input.Priority = .ok priority)
    (h4 : validateSchedule (supplied input.StartAt (fromPgTime existing.StartAt))
      (supplied input.DueAt (fromPgTime existing.DueAt)) = none) :
    (∃ se, (updateTaskTx U Q now input uid taskID s d).result =
        .error (classify (.storage se) "failed to update task") ∧
      (updateTaskTx U Q now input uid taskID s d).events =
        [⟨.GetTaskByID ⟨toPgUUID taskID, toPgUUID uid⟩, none⟩,
          ⟨.UpdateTask (updateTaskParams now input uid taskID existing title status priority),
            some se⟩]) ∨
    (∃ rest, (updateTaskTx U Q now input uid taskID s d).events =
        ⟨.GetTaskByID ⟨toPgUUID taskID, toPgUUID uid⟩, none⟩ ::
          ⟨.UpdateTask (updateTaskParams now input uid taskID existing title status priority),
            none⟩ :: rest ∧
      ∀ e, (updateTaskTx U Q now input uid taskID s d).result = .error e →
        (∃ se m, e = classify (.storage se) m) ∨
          e = NewBadInput "one or more labelIds are invalid" ∨
          e = NewBadInput "labelIds must be a valid UUID") := by
  unfold updateTaskTx
  rw [Op.run_bind, run_exec_ok _ _ _ _ _ _ _ hg]
  dsimp only
  rw [Op.run_bind]
  simp only [h1, Op.run_check_ok]
  rw [Op.run_bind]
  simp only [h2, Op.run_check_ok]
  rw [Op.run_bind]
  simp only [h3, Op.run_check_ok]
  rw [Op.run_bind]
  simp only [h4, Op.run_checkErr_none]
  rw [Op.run_bind]
  rcases run_exec_cases (.UpdateTask (updateTaskParams now input uid taskID existing title
      status priority)) (Q.UpdateTask (updateTaskParams now input uid taskID existing title
      status priority)) "failed to update task" s d2 with ⟨row, _, hr⟩ | ⟨e, _, hr⟩
  · right
    rw [hr]
    dsimp only
    refine ⟨_, by simp only [List.nil_append, List.cons_append, List.singleton_append]; rfl, ?_⟩
    intro e he
    have hf : Op.Fails (updateLabels Q uid taskID input.LabelIDs >>= fun _ => Op.ret row)
        (fun e => (∃ se m, e = classify (.storage se) m) ∨
          e = NewBadInput "one or more labelIds are invalid" ∨
          e = NewBadInput "labelIds must be a valid UUID") :=
      Op.fails_bind _ _ _
        (fails_updateLabels Q uid taskID input.LabelIDs _ (fun se m => Or.inl ⟨se, m, rfl⟩)
          (Or.inr (Or.inl rfl)) (Or.inr (Or.inr rfl)))
        fun _ => Op.fails_ret _ _
    exact hf.all _ _ e he
  · left
    rw [hr]
    exact ⟨e, rfl, by simp⟩

/-- An error of `WithTx` is the error of the unit of work, run after a successful BeginTx,
or an error of the driver. -/
theorem WithTx_result_error {σ α : Type} (Q : Queries σ) (fn : Op σ α) (s : Service) (d : σ)
    (e : GoError) (h : (WithTx Q fn s d).result = .error e) :
    (∃ d1, Q.BeginTx d = (none, d1) ∧ (fn s d1).result = .error e) ∨ ∃ se, e = .storage se := by
  unfold WithTx at h
  split at h
  · cases h
    exact Or.inr ⟨_, rfl⟩
  · rename_i d1 hb
    dsimp only at h
    split at h
    · rename_i err herr
      cases h
      exact Or.inl ⟨d1, hb, herr⟩
    · dsimp only at h
      split at h
      · cases h
        exact Or.inr ⟨_, rfl⟩
      · cases h

theorem updateInputError_of_schedule (U : UnicodeTables) (existing : Task)
    (input : UpdateTaskInput) (title status priority : String)
    (h1 : updateTitle existing input.Title = .ok title)
    (h2 : updateEnum (normalizeStatus U) existing.Status input.Status = .ok status)
    (h3 : updateEnum (normalizePriority U) existing.Priority input.Priority = .ok priority) :
    updateInputError U existing input =
      validateSchedule (supplied input.StartAt (fromPgTime existing.StartAt))
        (supplied input.DueAt (fromPgTime existing.DueAt)) := by
  unfold updateInputError
  rw [h1, h2, h3]
  simp only [errorOf, firstError]
  cases validateSchedule (supplied input.StartAt (fromPgTime existing.StartAt))
    (supplied input.DueAt (fromPgTime existing.DueAt)) <;> rfl

/-- C17 (amended): in UpdateTask, once the stored row is fetched and title, status and
priority have passed their checks, the update is rejected by the schedule check, with
BAD_USER_INPUT "dueAt must be after or equal to startAt", exactly when the effective start
and due times (the supplied ones, the stored ones otherwise) are both present and the due
time is before the start time; an update rejected by this check issues no task write, and an
update that passes it issues the write. -/
theorem updateTask_schedule_check {σ : Type} (U : UnicodeTables) (Q : Queries σ) (now : Time)
    (input : UpdateTaskInput) (s : Service) (d d1 d2 : σ) (uid taskID : UUID) (existing : Task)
    (title status priority : String)
    (hown : (ensureDefaultUser Q s d).result = .ok uid)
    (hid : parseUUID input.ID "task id" = .ok taskID)
    (hb : Q.BeginTx (ensureDefaultUser Q s d).db = (none, d1))
    (hg : Q.GetTaskByID ⟨toPgUUID taskID, toPgUUID uid⟩ d1 = (.ok existing, d2))
    (h1 : updateTitle existing input.Title = .ok title)
    (h2 : updateEnum (normalizeStatus U) existing.Status input.Status = .ok status)
    (h3 : updateEnum (normalizePriority U) existing.Priority input.Priority = .ok priority) :
    ((UpdateTask U Q now input s d).result =
        .error (GoError.app "BAD_USER_INPUT" "dueAt must be after or equal to startAt") ↔
      ∃ s0 d0, supplied input.StartAt (fromPgTime existing.StartAt) = some s0 ∧
        supplied input.DueAt (fromPgTime existing.DueAt) = some d0 ∧ d0.Before s0 = true) ∧
    ((∃ s0 d0, supplied input.StartAt (fromPgTime existing.StartAt) = some s0 ∧
        supplied input.DueAt (fromPgTime existing.DueAt) = some d0 ∧ d0.Before s0 = true) →
      ∃ r, (UpdateTask U Q now input s d).events =
        (ensureDefaultUser Q s d).events ++
          [⟨.BeginTx, none⟩, ⟨.GetTaskByID ⟨toPgUUID taskID, toPgUUID uid⟩, none⟩,
            ⟨.Rollback, r⟩]) ∧
    ((¬ ∃ s0 d0, supplied input.StartAt (fromPgTime existing.StartAt) = some s0 ∧
        supplied input.DueAt (fromPgTime existing.DueAt) = some d0 ∧ d0.Before s0 = true) →
      ∃ e rest, (UpdateTask U Q now input s d).events =
        (ensureDefaultUser Q s d).events ++ ⟨.BeginTx, none⟩ ::
          ⟨.GetTaskByID ⟨toPgUUID taskID, toPgUUID uid⟩, none⟩ ::
          ⟨.UpdateTask (updateTaskParams now input uid taskID existing title status priority),
            e⟩ :: rest) := by
  rw [UpdateTask_run U Q now input s d uid taskID hown hid]
  obtain ⟨tail, hev, -, hres⟩ := WithTx_events Q (updateTaskTx U Q now input uid taskID)
    (ensureDefaultUser Q s d).svc _ d1 hb
  have hie := updateInputError_of_schedule U existing input title status priority h1 h2 h3
  have bad : (∃ s0 d0, supplied input.StartAt (fromPgTime existing.StartAt) = some s0 ∧
        supplied input.DueAt (fromPgTime existing.DueAt) = some d0 ∧ d0.Before s0 = true) →
      (WithTx Q (updateTaskTx U Q now input uid taskID) (ensureDefaultUser Q s d).svc
          (ensureDefaultUser Q s d).db).result =
        .error (GoError.app "BAD_USER_INPUT" "dueAt must be after or equal to startAt") ∧
      ∃ r, (WithTx Q (updateTaskTx U Q now input uid taskID) (ensureDefaultUser Q s d).svc
          (ensureDefaultUser Q s d).db).events =
        [⟨.BeginTx, none⟩, ⟨.GetTaskByID ⟨toPgUUID taskID, toPgUUID uid⟩, none⟩,
          ⟨.Rollback, r⟩] := by
    intro hbad
    have hs := (validateSchedule_some_iff _ _).2 hbad
    have hrun := updateTaskTx_invalid U Q now input uid taskID (ensureDefaultUser Q s d).svc
      d1 d2 existing hg _ (hie.trans hs)
    obtain ⟨hr, r, ht⟩ := hres _ (by rw [hrun])
    exact ⟨hr, r, by rw [hev, hrun, ht]; rfl⟩
  have good : (¬ ∃ s0 d0, supplied input.StartAt (fromPgTime existing.StartAt) = some s0 ∧
        supplied input.DueAt (fromPgTime existing.DueAt) = some d0 ∧ d0.Before s0 = true) →
      (WithTx Q (updateTaskTx U Q now input uid taskID) (ensureDefaultUser Q s d).svc
          (ensureDefaultUser Q s d).db).result ≠
        .error (GoError.app "BAD_USER_INPUT" "dueAt must be after or equal to startAt") ∧
      ∃ e rest, (WithTx Q (updateTaskTx U Q now input uid taskID) (ensureDefaultUser Q s d).svc
          (ensureDefaultUser Q s d).db).events =
        ⟨.BeginTx, none⟩ :: ⟨.GetTaskByID ⟨toPgUUID taskID, toPgUUID uid⟩, none⟩ ::
          ⟨.UpdateTask (updateTaskParams now input uid taskID existing title status priority),
            e⟩ :: rest := by
    intro hgood
    have h4 : validateSchedule (supplied input.StartAt (fromPgTime existing.StartAt))
        (supplied input.DueAt (fromPgTime existing.DueAt)) = none := by
      rcases validateSchedule_cases (supplied input.StartAt (fromPgTime existing.StartAt))
        (supplied input.DueAt (fromPgTime existing.DueAt)) with h | h
      · exact h
      · exact absurd ((validateSchedule_some_iff _ _).1 h) hgood
    have hw := updateTaskTx_written U Q now input uid taskID (ensureDefaultUser Q s d).svc
      d1 d2 existing hg title status priority h1 h2 h3 h4
    constructor
    · intro hr
      rcases WithTx_result_error Q _ _ _ _ hr with ⟨d1', hb', hbody⟩ | ⟨se, hse⟩
      · rw [hb] at hb'
        cases hb'
        rcases hw with ⟨se, hres', -⟩ | ⟨rest, -, herr⟩
        · rw [hres'] at hbody
          exact classify_ne_schedule se _ (Except.error.inj hbody)
        · rcases herr _ hbody with ⟨se, m, hc⟩ | hc | hc
          · exact classify_ne_schedule se m hc.symm
          · exact absurd (GoError.app.inj hc).2 (by decide)
          · exact absurd (GoError.app.inj hc).2 (by decide)
      · cases hse
    · rcases hw with ⟨se, -, hevs⟩ | ⟨rest, hevs, -⟩
      · exact ⟨some se, tail, by rw [hev, hevs]; rfl⟩
      · exact ⟨none, rest ++ tail, by rw [hev, hevs]; rfl⟩
  refine ⟨⟨?_, fun h => (bad h).1⟩, ?_, ?_⟩
  · intro hr
    by_contra hgood
    exact (good hgood).1 hr
  · intro hbad
    obtain ⟨r, hr⟩ := (bad hbad).2
    exact ⟨r, by rw [hr]⟩
  · intro hgood
    obtain ⟨e, rest, hr⟩ := (good hgood).2
    exact ⟨e, rest, by rw [hr]⟩

/-- C17, the example: the stored task starts on 2026-02-18 and only a due time on
2026-02-17 is supplied; the update is rejected after the fetch and nothing is written. -/
theorem updateTask_schedule_check_witness :
    (∃ s0 d0, supplied (Sample.setDue Sample.now).StartAt
        (fromPgTime Sample.scheduled.StartAt) = some s0 ∧
      supplied (Sample.setDue Sample.now).DueAt (fromPgTime Sample.scheduled.DueAt) = some d0 ∧
      d0.Before s0 = true) ∧
    (UpdateTask asciiTables Script.queries Sample.later (Sample.setDue Sample.now)
      (Service.cached Sample.owner) { Script.blank with task := Sample.scheduled }).result =
        .error (GoError.app "BAD_USER_INPUT" "dueAt must be after or equal to startAt") ∧
    (∃ r, (UpdateTask asciiTables Script.queries Sample.later (Sample.setDue Sample.now)
      (Service.cached Sample.owner) { Script.blank with task := Sample.scheduled }).events =
        (ensureDefaultUser Script.queries (Service.cached Sample.owner)
          { Script.blank with task := Sample.scheduled }).events ++
          [⟨.BeginTx, none⟩, ⟨.GetTaskByID ⟨toPgUUID Sample.id, toPgUUID Sample.owner⟩, none⟩,
            ⟨.Rollback, r⟩]) :=
  have h := updateTask_schedule_check asciiTables Script.queries Sample.later
    (Sample.setDue Sample.now) (Service.cached Sample.owner)
    { Script.blank with task := Sample.scheduled } { Script.blank with task := Sample.scheduled }
    { Script.blank with task := Sample.scheduled } Sample.owner Sample.id Sample.scheduled
    "write" "TODO" "P3" (by decide) (by decide) (by decide) (by decide) (by decide) (by decide)
    (by decide)
  ⟨⟨Sample.later, Sample.now, by decide, by decide, by decide⟩,
    h.1.2 ⟨Sample.later, Sample.now, by decide, by decide, by decide⟩,
    h.2.1 ⟨Sample.later, Sample.now, by decide, by decide, by decide⟩⟩

/-- C17 as stated fails: the stored task starts on 2026-02-18 and the update supplies a due
time on 2026-02-19, so title, status and priority pass their checks and the effective
schedule is sound; yet with a label id that is no UUID, and with the id of a label the owner
does not have, the update is rejected with BAD_USER_INPUT, and in both runs the task write
has been issued before the rejection. -/
theorem updateTask_rejected_after_write :
    updateTitle Sample.scheduled (Sample.setDue ⟨2026, 2, 19, 0, 0, 0, 0, 0⟩).Title =
      .ok "write" ∧
    updateEnum (normalizeStatus asciiTables) Sample.scheduled.Status
      (Sample.setDue ⟨2026, 2, 19, 0, 0, 0, 0, 0⟩).Status = .ok "TODO" ∧
    updateEnum (normalizePriority asciiTables) Sample.scheduled.Priority
      (Sample.setDue ⟨2026, 2, 19, 0, 0, 0, 0, 0⟩).Priority = .ok "P3" ∧
    validateSchedule
      (supplied (Sample.setDue ⟨2026, 2, 19, 0, 0, 0, 0, 0⟩).StartAt
        (fromPgTime Sample.scheduled.StartAt))
      (supplied (Sample.setDue ⟨2026, 2, 19, 0, 0, 0, 0, 0⟩).DueAt
        (fromPgTime Sample.scheduled.DueAt)) = none ∧
    (UpdateTask asciiTables Script.queries Sample.later
      { Sample.setDue ⟨2026, 2, 19, 0, 0, 0, 0, 0⟩ with LabelIDs := some ["not a uuid"] }
      (Service.cached Sample.owner) { Script.blank with task := Sample.scheduled }).result =
        .error (GoError.app "BAD_USER_INPUT" "labelIds must be a valid UUID") ∧
    (UpdateTask asciiTables Script.queries Sample.later
      { Sample.setDue ⟨2026, 2, 19, 0, 0, 0, 0, 0⟩ with LabelIDs := some ["not a uuid"] }
      (Service.cached Sample.owner)
      { Script.blank with task := Sample.scheduled }).events.map (fun ev => ev.call.isQuery) =
        [false, true, true, false] ∧
    (⟨.UpdateTask (updateTaskParams Sample.later
        { Sample.setDue ⟨2026, 2, 19, 0, 0, 0, 0, 0⟩ with LabelIDs := some ["not a uuid"] }
        Sample.owner Sample.id Sample.scheduled "write" "TODO" "P3"), none⟩ : Event) ∈
      (UpdateTask asciiTables Script.queries Sample.later
        { Sample.setDue ⟨2026, 2, 19, 0, 0, 0, 0, 0⟩ with LabelIDs := some ["not a uuid"] }
        (Service.cached Sample.owner) { Script.blank with task := Sample.scheduled }).events ∧
    (UpdateTask asciiTables Script.queries Sample.later
      { Sample.setDue ⟨2026, 2, 19, 0, 0, 0, 0, 0⟩ with LabelIDs := some [Sample.idText] }
      (Service.cached Sample.owner) { Script.blank with task := Sample.scheduled }).result =
        .error (GoError.app "BAD_USER_INPUT" "one or more labelIds are invalid") ∧
    (UpdateTask asciiTables Script.queries Sample.later
      { Sample.setDue ⟨2026, 2, 19, 0, 0, 0, 0, 0⟩ with LabelIDs := some [Sample.idText] }
      (Service.cached Sample.owner)
      { Script.blank with task := Sample.scheduled }).events.map (fun ev => ev.call.isQuery) =
        [false, true, true, true, true, false] ∧
    (⟨.UpdateTask (updateTaskParams Sample.later
        { Sample.setDue ⟨2026, 2, 19, 0, 0, 0, 0, 0⟩ with LabelIDs := some [Sample.idText] }
        Sample.owner Sample.id Sample.scheduled "write" "TODO" "P3"), none⟩ : Event) ∈
      (UpdateTask asciiTables Script.queries Sample.later
        { Sample.setDue ⟨2026, 2, 19, 0, 0, 0, 0, 0⟩ with LabelIDs := some [Sample.idText] }
        (Service.cached Sample.owner) { Script.blank with task := Sample.scheduled }).events := by
  decide

/-! ### The values written -/

theorem pgTime_same_toPgTime (t : Time) (ht : t.Valid) :
    PgTime.Same (toPgTime (some t)) ⟨t, true⟩ :=
  ⟨rfl, fun _ => Time.Equal_UTC t ht⟩

theorem pgTime_same_roundtrip (v : PgTime) (hv : v.Time.Valid) :
    PgTime.Same (toPgTime (fromPgTime v)) v := by
  obtain ⟨t, valid⟩ := v
  cases valid with
  | false => exact ⟨rfl, fun h => by simp [fromPgTime, toPgTime] at h⟩
  | true =>
      refine ⟨rfl, fun _ => ?_⟩
      show Time.Equal (toPgTime (fromPgTime ⟨t, true⟩)).Time t = true
      simp only [fromPgTime, toPgTime, Bool.not_true, Bool.false_eq_true, if_false]
      rw [Time.UTC_idem t hv]
      exact Time.Equal_UTC t hv

/-- A successful run of UpdateTask has fetched the stored row, found the input valid and
written the row. -/
theorem UpdateTask_ok {σ : Type} (U : UnicodeTables) (Q : Queries σ) (now : Time)
    (input : UpdateTaskInput) (s : Service) (d : σ) (row : Task)
    (hok : (UpdateTask U Q now input s d).result = .ok row) :
    ∃ uid taskID d1 d2 existing title status priority rest,
      parseUUID input.ID "task id" = .ok taskID ∧
      Q.GetTaskByID ⟨toPgUUID taskID, toPgUUID uid⟩ d1 = (.ok existing, d2) ∧
      updateTitle existing input.Title = .ok title ∧
      updateEnum (normalizeStatus U) existing.Status input.Status = .ok status ∧
      updateEnum (normalizePriority U) existing.Priority input.Priority = .ok priority ∧
      (UpdateTask U Q now input s d).events =
        (ensureDefaultUser Q s d).events ++ ⟨.BeginTx, none⟩ ::
          ⟨.GetTaskByID ⟨toPgUUID taskID, toPgUUID uid⟩, none⟩ ::
          ⟨.UpdateTask (updateTaskParams now input uid taskID existing title status priority),
            none⟩ :: rest := by
  cases hown : (ensureDefaultUser Q s d).result with
  | error e =>
      unfold UpdateTask userID at hok
      rw [Op.run_bind_error _ _ _ _ e hown] at hok
      cases hok
  | ok uid =>
      cases hid : parseUUID input.ID "task id" with
      | error e =>
          unfold UpdateTask userID at hok
          rw [Op.run_bind_ok _ _ _ _ uid hown, Op.run_bind] at hok
          simp [hid] at hok
      | ok taskID =>
          rw [UpdateTask_run U Q now input s d uid taskID hown hid] at hok ⊢
          dsimp only at hok ⊢
          cases hb : Q.BeginTx (ensureDefaultUser Q s d).db with
          | mk berr d1 =>
              cases berr with
              | some err =>
                  unfold WithTx at hok
                  simp [hb] at hok
              | none =>
                  obtain ⟨tail, hev, -, hres⟩ := WithTx_events Q
                    (updateTaskTx U Q now input uid taskID) (ensureDefaultUser Q s d).svc _ d1 hb
                  have hbody : ∀ e, (updateTaskTx U Q now input uid taskID
                      (ensureDefaultUser Q s d).svc d1).result ≠ .error e := by
                    intro e he
                    rw [(hres e he).1] at hok
                    cases hok
                  cases hg : Q.GetTaskByID ⟨toPgUUID taskID, toPgUUID uid⟩ d1 with
                  | mk r d2 =>
                      cases r with
                      | error se =>
                          exfalso
                          refine hbody (classify (.storage se) "task not found") ?_
                          unfold updateTaskTx
                          rw [Op.run_bind_error _ _ _ _ _
                            (by rw [run_exec_error _ _ _ _ _ _ _ hg])]
                      | ok existing =>
                          cases hv : updateInputError U existing input with
                          | some e =>
                              exfalso
                              refine hbody e ?_
                              rw [updateTaskTx_invalid U Q now input uid taskID _ d1 d2 existing
                                hg e hv]
                          | none =>
                              have hv0 := hv
                              unfold updateInputError at hv
                              obtain ⟨title, h1⟩ : ∃ t, updateTitle existing input.Title = .ok t := by
                                cases h : updateTitle existing input.Title with
                                | ok t => exact ⟨t, rfl⟩
                                | error e => simp [h, errorOf, firstError] at hv
                              obtain ⟨status, h2⟩ : ∃ t, updateEnum (normalizeStatus U)
                                  existing.Status input.Status = .ok t := by
                                cases h : updateEnum (normalizeStatus U) existing.Status
                                    input.Status with
                                | ok t => exact ⟨t, rfl⟩
                                | error e => simp [h1, h, errorOf, firstError] at hv
                              obtain ⟨priority, h3⟩ : ∃ t, updateEnum (normalizePriority U)
                                  existing.Priority input.Priority = .ok t := by
                                cases h : updateEnum (normalizePriority U) existing.Priority
                                    input.Priority with
                                | ok t => exact ⟨t, rfl⟩
                                | error e => simp [h1, h2, h, errorOf, firstError] at hv
                              have h4 : validateSchedule
                                  (supplied input.StartAt (fromPgTime existing.StartAt))
                                  (supplied input.DueAt (fromPgTime existing.DueAt)) = none := by
                                exact (updateInputError_of_schedule U existing input title
                                  status priority h1 h2 h3).symm.trans hv0
                              rcases updateTaskTx_written U Q now input uid taskID
                                (ensureDefaultUser Q s d).svc d1 d2 existing hg title status
                                priority h1 h2 h3 h4 with ⟨se, hr, -⟩ | ⟨rest, hevs, -⟩
                              · exact absurd hr (hbody _)
                              · exact ⟨uid, taskID, d1, d2, existing, title, status, priority,
                                  rest ++ tail, rfl, hg, h1, h2, h3, by rw [hev, hevs]; rfl⟩

/-- C16: a successful run of UpdateTask has fetched the stored row `existing` and then
written a row `w` in which title, description, status, priority, start and due time are
the supplied value (the title trimmed, status and priority normalised, the times in UTC)
where one is supplied and the stored value where it is omitted; for the times, written
and stored value are the same database value. -/
theorem updateTask_frame {σ : Type} (U : UnicodeTables) (Q : Queries σ) (now : Time)
    (input : UpdateTaskInput) (s : Service) (d : σ) (row : Task)
    (hok : (UpdateTask U Q now input s d).result = .ok row) :
    ∃ uid taskID d1 d2 existing rest w,
      Q.GetTaskByID ⟨toPgUUID taskID, toPgUUID uid⟩ d1 = (.ok existing, d2) ∧
      (UpdateTask U Q now input s d).events =
        (ensureDefaultUser Q s d).events ++ ⟨.BeginTx, none⟩ ::
          ⟨.GetTaskByID ⟨toPgUUID taskID, toPgUUID uid⟩, none⟩ ::
          ⟨.UpdateTask w, none⟩ :: rest ∧
      (∀ t, input.Title = some t → w.Title = TrimSpace t) ∧
      (input.Title = none → w.Title = existing.Title) ∧
      (∀ v, input.Description = some v → w.Description = some v) ∧
      (input.Description = none → w.Description = existing.Description) ∧
      (∀ v, input.Status = some v → normalizeStatus U v = .ok w.Status) ∧
      (input.Status = none → w.Status = existing.Status) ∧
      (∀ v, input.Priority = some v → normalizePriority U v = .ok w.Priority) ∧
      (input.Priority = none → w.Priority = existing.Priority) ∧
      (∀ t, input.StartAt = some t →
        w.StartAt = ⟨t.UTC, true⟩ ∧ (t.Valid → PgTime.Same w.StartAt ⟨t, true⟩)) ∧
      (input.StartAt = none → w.StartAt = toPgTime (fromPgTime existing.StartAt) ∧
        (existing.StartAt.Time.Valid → PgTime.Same w.StartAt existing.StartAt)) ∧
      (∀ t, input.DueAt = some t →
        w.DueAt = ⟨t.UTC, true⟩ ∧ (t.Valid → PgTime.Same w.DueAt ⟨t, true⟩)) ∧
      (input.DueAt = none → w.DueAt = toPgTime (fromPgTime existing.DueAt) ∧
        (existing.DueAt.Time.Valid → PgTime.Same w.DueAt existing.DueAt)) := by
  obtain ⟨uid, taskID, d1, d2, existing, title, status, priority, rest, -, hg, h1, h2, h3, hev⟩ :=
    UpdateTask_ok U Q now input s d row hok
  refine ⟨uid, taskID, d1, d2, existing, rest,
    updateTaskParams now input uid taskID existing title status priority, hg, hev,
    ?_, ?_, ?_, ?_, ?_, ?_, ?_, ?_, ?_, ?_, ?_, ?_⟩
  · intro t ht
    rw [ht] at h1
    unfold updateTitle at h1
    dsimp only at h1
    split at h1
    · cases h1
    · cases h1
      rfl
  · intro ht
    rw [ht] at h1
    cases h1
    rfl
  · intro v hv
    simp [updateTaskParams, supplied, hv]
  · intro hv
    simp [updateTaskParams, supplied, hv]
  · intro v hv
    rw [hv] at h2
    exact h2
  · intro hv
    rw [hv] at h2
    cases h2
    rfl
  · intro v hv
    rw [hv] at h3
    exact h3
  · intro hv
    rw [hv] at h3
    cases h3
    rfl
  · intro t ht
    have hw : (updateTaskParams now input uid taskID existing title status priority).StartAt =
        toPgTime (some t) := by simp [updateTaskParams, supplied, ht]
    exact ⟨hw, fun hv => hw ▸ pgTime_same_toPgTime t hv⟩
  · intro ht
    have hw : (updateTaskParams now input uid taskID existing title status priority).StartAt =
        toPgTime (fromPgTime existing.StartAt) := by simp [updateTaskParams, supplied, ht]
    exact ⟨hw, fun hv => hw ▸ pgTime_same_roundtrip _ hv⟩
  · intro t ht
    have hw : (updateTaskParams now input uid taskID existing title status priority).DueAt =
        toPgTime (some t) := by simp [updateTaskParams, supplied, ht]
    exact ⟨hw, fun hv => hw ▸ pgTime_same_toPgTime t hv⟩
  · intro ht
    have hw : (updateTaskParams now input uid taskID existing title status priority).DueAt =
        toPgTime (fromPgTime existing.DueAt) := by simp [updateTaskParams, supplied, ht]
    exact ⟨hw, fun hv => hw ▸ pgTime_same_roundtrip _ hv⟩

/-- C16, instances on the scripted storage layer: an update that supplies a title, a
description and a start time succeeds and writes them over the stored row, keeping its
status, priority and due time; an update that supplies nothing writes the stored
values. -/
theorem updateTask_frame_witness :
    (UpdateTask asciiTables Script.queries Sample.later Sample.retitle
      (Service.cached Sample.owner) { Script.blank with task := Sample.scheduled }).result =
        .ok Sample.scheduled ∧
    (UpdateTask asciiTables Script.queries Sample.later Sample.retitle
      (Service.cached Sample.owner) { Script.blank with task := Sample.scheduled }).events.map
        (fun ev => ev.call) =
      [.BeginTx, .GetTaskByID ⟨toPgUUID Sample.id, toPgUUID Sample.owner⟩,
        .UpdateTask ⟨toPgUUID Sample.id, toPgUUID Sample.owner, "read", some "chapter 2", "TODO",
          "P3", ⟨Sample.now, true⟩, PgTime.zero, PgTime.zero⟩,
        .Commit, .Rollback] ∧
    (∃ uid taskID d1 d2 existing rest w,
      Script.queries.GetTaskByID ⟨toPgUUID taskID, toPgUUID uid⟩ d1 = (.ok existing, d2) ∧
      (UpdateTask asciiTables Script.queries Sample.later Sample.retitle
        (Service.cached Sample.owner) { Script.blank with task := Sample.scheduled }).events =
        (ensureDefaultUser Script.queries (Service.cached Sample.owner)
          { Script.blank with task := Sample.scheduled }).events ++ ⟨.BeginTx, none⟩ ::
          ⟨.GetTaskByID ⟨toPgUUID taskID, toPgUUID uid⟩, none⟩ ::
          ⟨.UpdateTask w, none⟩ :: rest ∧
      (∀ t, Sample.retitle.Title = some t → w.Title = TrimSpace t) ∧
      (Sample.retitle.Status = none → w.Status = existing.Status)) :=
  ⟨by decide, by decide,
    (updateTask_frame asciiTables Script.queries Sample.later Sample.retitle
      (Service.cached Sample.owner) { Script.blank with task := Sample.scheduled }
      Sample.scheduled (by decide)).imp fun _ h => h.imp fun _ h => h.imp fun _ h =>
        h.imp fun _ h => h.imp fun _ h => h.imp fun _ h => h.imp fun _ h =>
          ⟨h.1, h.2.1, h.2.2.1, h.2.2.2.2.2.2.2.1⟩⟩


/-! ## CreateTask: the checks of the parent -/

theorem firstError_eq_none (l : List (Option GoError)) (h : firstError l = none) :
    ∀ x ∈ l, x = none := by
  induction l with
  | nil => intro x hx; cases hx
  | cons y rest ih =>
      cases y with
      | some e => simp [firstError] at h
      | none =>
          intro x hx
          rcases List.mem_cons.1 hx with rfl | hx
          · rfl
          · exact ih (by simpa [firstError] using h) x hx

/-- CreateTask after owner resolution, for an input that passes the checks: the unit of
work runs in a transaction. -/
theorem CreateTask_run {σ : Type} (U : UnicodeTables) (Q : Queries σ) (now : Time)
    (input : CreateTaskInput) (s : Service) (d : σ) (uid projectID : UUID)
    (parentID : Option UUID)
    (hown : (ensureDefaultUser Q s d).result = .ok uid)
    (hvalid : inputError U (.CreateTask input) = none)
    (hproj : parseUUID input.ProjectID "project id" = .ok projectID)
    (hpar : parseParent input.ParentTaskID = .ok parentID) :
    ∃ status priority labelIDs,
      normalizeStatus U input.Status = .ok status ∧
      normalizePriority U input.Priority = .ok priority ∧
      parseUUIDList (input.LabelIDs.getD []) "labelIds" = .ok labelIDs ∧
      CreateTask U Q now input s d =
        ⟨(WithTx Q (createTaskTx Q now input uid projectID parentID (TrimSpace input.Title)
            status priority labelIDs) (ensureDefaultUser Q s d).svc
            (ensureDefaultUser Q s d).db).result,
          (WithTx Q (createTaskTx Q now input uid projectID parentID (TrimSpace input.Title)
            status priority labelIDs) (ensureDefaultUser Q s d).svc
            (ensureDefaultUser Q s d).db).svc,
          (WithTx Q (createTaskTx Q now input uid projectID parentID (TrimSpace input.Title)
            status priority labelIDs) (ensureDefaultUser Q s d).svc
            (ensureDefaultUser Q s d).db).db,
          (ensureDefaultUser Q s d).events ++
            (WithTx Q (createTaskTx Q now input uid projectID parentID (TrimSpace input.Title)
              status priority labelIDs) (ensureDefaultUser Q s d).svc
              (ensureDefaultUser Q s d).db).events⟩ := by
  have hall := firstError_eq_none _ hvalid
  simp only [List.forall_mem_cons, List.not_mem_nil, false_imp_iff, implies_true,
    and_true] at hall
  obtain ⟨-, -, ht, hs, hp, hsch, hl⟩ := hall
  obtain ⟨status, hs⟩ := errorOf_eq_none _ hs
  obtain ⟨priority, hp⟩ := errorOf_eq_none _ hp
  obtain ⟨labelIDs, hl⟩ := errorOf_eq_none _ hl
  have ht' : ¬ TrimSpace input.Title = "" := by
    intro h
    simp [blankError, h] at ht
  refine ⟨status, priority, labelIDs, hs, hp, hl, ?_⟩
  unfold CreateTask userID
  rw [Op.run_bind_ok _ _ _ _ uid hown]
  simp only [Op.run_check_bind, Op.run_failIf_bind, Op.run_checkErr_bind, hproj, hpar, hs, hp,
    hl, hsch, ht', if_false, List.nil_append]

/-- The outcome of the checks CreateTask makes of a parent. -/
theorem checkParent_run {σ : Type} (Q : Queries σ) (uid projectID pid : UUID) (s : Service)
    (d d' : σ) (r : Except StorageError Task)
    (hg : Q.GetTaskByID ⟨toPgUUID pid, toPgUUID uid⟩ d = (r, d')) :
    (∀ se, r = .error se → checkParent Q uid projectID (some pid) s d =
      ⟨.error (classify (.storage se) "parent task not found"), s, d',
        [⟨.GetTaskByID ⟨toPgUUID pid, toPgUUID uid⟩, some se⟩]⟩) ∧
    (∀ parent, r = .ok parent → parent.ParentTaskID.Valid = true →
      checkParent Q uid projectID (some pid) s d =
        ⟨.error (NewBadInput "only one level of subtasks is supported"), s, d',
          [⟨.GetTaskByID ⟨toPgUUID pid, toPgUUID uid⟩, none⟩]⟩) ∧
    (∀ parent, r = .ok parent → parent.ParentTaskID.Valid = false →
      fromPgUUID parent.ProjectID ≠ projectID →
      checkParent Q uid projectID (some pid) s d =
        ⟨.error (NewBadInput "parent task must belong to the same project"), s, d',
          [⟨.GetTaskByID ⟨toPgUUID pid, toPgUUID uid⟩, none⟩]⟩) ∧
    (∀ parent, r = .ok parent → parent.ParentTaskID.Valid = false →
      fromPgUUID parent.ProjectID = projectID →
      checkParent Q uid projectID (some pid) s d =
        ⟨.ok (toPgUUID pid), s, d', [⟨.GetTaskByID ⟨toPgUUID pid, toPgUUID uid⟩, none⟩]⟩) := by
  refine ⟨?_, ?_, ?_, ?_⟩
  · intro se hr
    subst hr
    unfold checkParent
    dsimp only
    rw [Op.run_bind_error _ _ _ _ _ (by rw [run_exec_error _ _ _ _ _ _ _ hg]),
      run_exec_error _ _ _ _ _ _ _ hg]
  all_goals
    intro parent hr
    subst hr
    unfold checkParent
    dsimp only
    rw [Op.run_bind, run_exec_ok _ _ _ _ _ _ _ hg]
    dsimp only
    intros
    simp_all [Op.run_failIf_bind]

/-- The unit of work of CreateTask stops at a parent that fails its checks. -/
theorem createTaskTx_parent_rejected {σ : Type} (Q : Queries σ) (now : Time)
    (input : CreateTaskInput) (uid projectID pid : UUID) (title status priority : String)
    (labelIDs : List UUID) (s : Service) (d1 d2 d3 : σ) (project : Project) (e : GoError)
    (evs : List Event)
    (hp : Q.GetProjectByID ⟨toPgUUID projectID, toPgUUID uid⟩ d1 = (.ok project, d2))
    (hc : checkParent Q uid projectID (some pid) s d2 = ⟨.error e, s, d3, evs⟩) :
    createTaskTx Q now input uid projectID (some pid) title status priority labelIDs s d1 =
      ⟨.error e, s, d3, ⟨.GetProjectByID ⟨toPgUUID projectID, toPgUUID uid⟩, none⟩ :: evs⟩ := by
  unfold createTaskTx
  rw [Op.run_bind, run_exec_ok _ _ _ _ _ _ _ hp]
  dsimp only
  rw [Op.run_bind_error _ _ _ _ e (by rw [hc]), hc]
  rfl

/-- C14: CreateTask with a parent id, for an input that passes the checks and a project
that is found: when the parent has a parent itself the error is BAD_USER_INPUT "only one
level of subtasks is supported"; when the parent belongs to another project the error is
BAD_USER_INPUT; when no parent row is found for the owner the error is NOT_FOUND; in each
case the transaction is rolled back after the fetch of the parent and no task row is
created. -/
theorem createTask_parent_checks {σ : Type} (U : UnicodeTables) (Q : Queries σ) (now : Time)
    (input : CreateTaskInput) (s : Service) (d d1 d2 d3 : σ) (uid projectID pid : UUID)
    (project : Project) (r : Except StorageError Task)
    (hown : (ensureDefaultUser Q s d).result = .ok uid)
    (hvalid : inputError U (.CreateTask input) = none)
    (hproj : parseUUID input.ProjectID "project id" = .ok projectID)
    (hpar : parseParent input.ParentTaskID = .ok (some pid))
    (hb : Q.BeginTx (ensureDefaultUser Q s d).db = (none, d1))
    (hp : Q.GetProjectByID ⟨toPgUUID projectID, toPgUUID uid⟩ d1 = (.ok project, d2))
    (hg : Q.GetTaskByID ⟨toPgUUID pid, toPgUUID uid⟩ d2 = (r, d3)) :
    (∀ parent, r = .ok parent → parent.ParentTaskID.Valid = true →
      (CreateTask U Q now input s d).result =
        .error (GoError.app "BAD_USER_INPUT" "only one level of subtasks is supported")) ∧
    (∀ parent, r = .ok parent → fromPgUUID parent.ProjectID ≠ projectID →
      ∃ msg, (CreateTask U Q now input s d).result =
        .error (GoError.app "BAD_USER_INPUT" msg)) ∧
    (∀ se, r = .error se → se.noRows = true →
      (CreateTask U Q now input s d).result =
        .error (GoError.app "NOT_FOUND" "parent task not found")) ∧
    (((∃ parent, r = .ok parent ∧
          (parent.ParentTaskID.Valid = true ∨ fromPgUUID parent.ProjectID ≠ projectID)) ∨
        ∃ se, r = .error se) →
      (∃ e rb, (CreateTask U Q now input s d).events =
        (ensureDefaultUser Q s d).events ++
          [⟨.BeginTx, none⟩, ⟨.GetProjectByID ⟨toPgUUID projectID, toPgUUID uid⟩, none⟩,
            ⟨.GetTaskByID ⟨toPgUUID pid, toPgUUID uid⟩, e⟩, ⟨.Rollback, rb⟩]) ∧
      ∀ ev ∈ (CreateTask U Q now input s d).events, ∀ a, ev.call ≠ .CreateTask a) := by
  obtain ⟨status, priority, labelIDs, -, -, -, hrun⟩ :=
    CreateTask_run U Q now input s d uid projectID (some pid) hown hvalid hproj hpar
  rw [hrun]
  dsimp only
  obtain ⟨tail, hev, -, hres⟩ := WithTx_events Q
    (createTaskTx Q now input uid projectID (some pid) (TrimSpace input.Title) status priority
      labelIDs) (ensureDefaultUser Q s d).svc _ d1 hb
  obtain ⟨c1, c2, c3, -⟩ := checkParent_run Q uid projectID pid (ensureDefaultUser Q s d).svc
    d2 d3 r hg
  -- the run of the transaction when the checks of the parent fail with `e`
  have key : ∀ e err, checkParent Q uid projectID (some pid) (ensureDefaultUser Q s d).svc d2 =
      ⟨.error e, (ensureDefaultUser Q s d).svc, d3,
        [⟨.GetTaskByID ⟨toPgUUID pid, toPgUUID uid⟩, err⟩]⟩ →
      (WithTx Q (createTaskTx Q now input uid projectID (some pid) (TrimSpace input.Title)
          status priority labelIDs) (ensureDefaultUser Q s d).svc
          (ensureDefaultUser Q s d).db).result = .error e ∧
      ∃ rb, (WithTx Q (createTaskTx Q now input uid projectID (some pid)
          (TrimSpace input.Title) status priority labelIDs) (ensureDefaultUser Q s d).svc
          (ensureDefaultUser Q s d).db).events =
        [⟨.BeginTx, none⟩, ⟨.GetProjectByID ⟨toPgUUID projectID, toPgUUID uid⟩, none⟩,
          ⟨.GetTaskByID ⟨toPgUUID pid, toPgUUID uid⟩, err⟩, ⟨.Rollback, rb⟩] := by
    intro e err hc
    have hbody := createTaskTx_parent_rejected Q now input uid projectID pid
      (TrimSpace input.Title) status priority labelIDs _ d1 d2 d3 project e _ hp hc
    obtain ⟨hr, rb, ht⟩ := hres e (by rw [hbody])
    exact ⟨hr, rb, by rw [hev, hbody, ht]; rfl⟩
  have rejected : ((∃ parent, r = .ok parent ∧
        (parent.ParentTaskID.Valid = true ∨ fromPgUUID parent.ProjectID ≠ projectID)) ∨
      ∃ se, r = .error se) →
      ∃ e err, checkParent Q uid projectID (some pid) (ensureDefaultUser Q s d).svc d2 =
        ⟨.error e, (ensureDefaultUser Q s d).svc, d3,
          [⟨.GetTaskByID ⟨toPgUUID pid, toPgUUID uid⟩, err⟩]⟩ := by
    rintro (⟨parent, hr, hcase⟩ | ⟨se, hr⟩)
    · by_cases hv : parent.ParentTaskID.Valid = true
      · exact ⟨_, _, c2 parent hr hv⟩
      · rcases hcase with h | h
        · exact absurd h hv
        · exact ⟨_, _, c3 parent hr (by simpa using hv) h⟩
    · exact ⟨_, _, c1 se hr⟩
  refine ⟨?_, ?_, ?_, ?_⟩
  · intro parent hr hv
    exact (key _ _ (c2 parent hr hv)).1
  · intro parent hr hne
    by_cases hv : parent.ParentTaskID.Valid = true
    · exact ⟨_, (key _ _ (c2 parent hr hv)).1⟩
    · exact ⟨_, (key _ _ (c3 parent hr (by simpa using hv) hne)).1⟩
  · intro se hr hno
    have h := (key _ _ (c1 se hr)).1
    rw [h]
    simp [classify, isNoRows, hno, NewNotFound, CodeNotFound]
  · intro hcase
    obtain ⟨e, err, hc⟩ := rejected hcase
    obtain ⟨-, rb, hevs⟩ := key e err hc
    refine ⟨⟨err, rb, by rw [hevs]⟩, ?_⟩
    intro ev hmem a hcall
    rw [hevs] at hmem
    rcases List.mem_append.1 hmem with h | h
    · obtain ⟨b, e', hb'⟩ := (issues_ensureDefaultUser Q
        (fun ev => ∃ b e', ev = ⟨.UpsertUserByEmail b, e'⟩) (fun b e' => ⟨b, e', rfl⟩)).all s d ev h
      rw [hb'] at hcall
      cases hcall
    · simp only [List.mem_cons, List.mem_singleton, List.not_mem_nil, or_false] at h
      rcases h with rfl | rfl | rfl | rfl <;> cases hcall

/-- C14, instances on the scripted storage layer: a parent that has a parent, a parent in
another project, and a parent that is not found. -/
theorem createTask_parent_checks_witness :
    (CreateTask asciiTables Script.queries Sample.now Sample.subtask (Service.cached Sample.owner)
      { Script.blank with task := { Task.zero with ParentTaskID := toPgUUID Sample.owner } }).result =
        .error (GoError.app "BAD_USER_INPUT" "only one level of subtasks is supported") ∧
    (∃ msg, (CreateTask asciiTables Script.queries Sample.now Sample.subtask
      (Service.cached Sample.owner)
      { Script.blank with task := { Task.zero with ProjectID := toPgUUID Sample.owner } }).result =
        .error (GoError.app "BAD_USER_INPUT" msg)) ∧
    (CreateTask asciiTables Script.queries Sample.now Sample.subtask (Service.cached Sample.owner)
      { Script.blank with faults := [none, none, some Sample.noRows] }).result =
        .error (GoError.app "NOT_FOUND" "parent task not found") ∧
    (CreateTask asciiTables Script.queries Sample.now Sample.subtask (Service.cached Sample.owner)
      { Script.blank with faults := [none, none, some Sample.noRows] }).events.map
        (fun ev => ev.call) =
      [.BeginTx, .GetProjectByID ⟨toPgUUID Sample.id, toPgUUID Sample.owner⟩,
        .GetTaskByID ⟨toPgUUID Sample.owner, toPgUUID Sample.owner⟩, .Rollback] :=
  ⟨(createTask_parent_checks asciiTables Script.queries Sample.now Sample.subtask
      (Service.cached Sample.owner)
      { Script.blank with task := { Task.zero with ParentTaskID := toPgUUID Sample.owner } }
      { Script.blank with task := { Task.zero with ParentTaskID := toPgUUID Sample.owner } }
      { Script.blank with task := { Task.zero with ParentTaskID := toPgUUID Sample.owner } }
      { Script.blank with task := { Task.zero with ParentTaskID := toPgUUID Sample.owner } }
      Sample.owner Sample.id Sample.owner Project.zero
      (.ok { Task.zero with ParentTaskID := toPgUUID Sample.owner })
      (by decide) (by decide) (by decide) (by decide) (by decide) (by decide) (by decide)).1
      _ rfl (by decide),
    (createTask_parent_checks asciiTables Script.queries Sample.now Sample.subtask
      (Service.cached Sample.owner)
      { Script.blank with task := { Task.zero with ProjectID := toPgUUID Sample.owner } }
      { Script.blank with task := { Task.zero with ProjectID := toPgUUID Sample.owner } }
      { Script.blank with task := { Task.zero with ProjectID := toPgUUID Sample.owner } }
      { Script.blank with task := { Task.zero with ProjectID := toPgUUID Sample.owner } }
      Sample.owner Sample.id Sample.owner Project.zero
      (.ok { Task.zero with ProjectID := toPgUUID Sample.owner })
      (by decide) (by decide) (by decide) (by decide) (by decide) (by decide) (by decide)).2.1
      _ rfl (by decide),
    (createTask_parent_checks asciiTables Script.queries Sample.now Sample.subtask
      (Service.cached Sample.owner) { Script.blank with faults := [none, none, some Sample.noRows] }
      { Script.blank with faults := [none, some Sample.noRows] }
      { Script.blank with faults := [some Sample.noRows] } Script.blank
      Sample.owner Sample.id Sample.owner Project.zero (.error Sample.noRows)
      (by decide) (by decide) (by decide) (by decide) (by decide) (by decide) (by decide)).2.2.1
      _ rfl (by decide),
    by decide⟩


/-! ## Service code and the states of the storage layer -/

namespace Op

variable {σ α β : Type}

theorem keeps_of_same_db (I : σ → Prop) (p : Op σ α) (h : ∀ s d, (p s d).db = d) : Keeps I p :=
  ⟨fun s d hd => by rw [h s d]; exact hd⟩

theorem keeps_ret (I : σ → Prop) (a : α) : Keeps I (ret a : Op σ α) :=
  keeps_of_same_db I _ fun _ _ => rfl

theorem keeps_fail (I : σ → Prop) (e : GoError) : Keeps I (fail e : Op σ α) :=
  keeps_of_same_db I _ fun _ _ => rfl

theorem keeps_check (I : σ → Prop) (r : Except GoError α) : Keeps I (check r : Op σ α) :=
  keeps_of_same_db I _ fun _ _ => by cases r <;> rfl

theorem keeps_checkErr (I : σ → Prop) (x : Option GoError) : Keeps I (checkErr x : Op σ Unit) :=
  keeps_of_same_db I _ fun _ _ => by cases x <;> rfl

theorem keeps_failIf (I : σ → Prop) (c : Prop) [Decidable c] (e : GoError) :
    Keeps I (failIf c e : Op σ Unit) :=
  keeps_of_same_db I _ fun s d => by
    by_cases h : c
    · rw [run_failIf_pos c e s d h]
    · rw [run_failIf_neg c e s d h]

theorem keeps_getService (I : σ → Prop) : Keeps I (getService : Op σ Service) :=
  keeps_of_same_db I _ fun _ _ => rfl

theorem keeps_setService (I : σ → Prop) (s' : Service) : Keeps I (setService s' : Op σ Unit) :=
  keeps_of_same_db I _ fun _ _ => rfl

theorem keeps_bind (I : σ → Prop) (p : Op σ α) (f : α → Op σ β) (hp : Keeps I p)
    (hf : ∀ a, Keeps I (f a)) : Keeps I (p >>= f) := by
  refine ⟨?_⟩
  intro s d hd
  cases hr : (p s d).result with
  | error e =>
      rw [run_bind_error p f s d e hr]
      exact hp.all s d hd
  | ok a =>
      rw [run_bind_ok p f s d a hr]
      exact (hf a).all _ _ (hp.all s d hd)

theorem keeps_void (I : σ → Prop) (p : Op σ α) (hp : Keeps I p) : Keeps I p.void :=
  ⟨fun s d hd => hp.all s d hd⟩

theorem keeps_query {R : Type} (I : σ → Prop) (c : Call) (run : σ → Except StorageError R × σ)
    (h : ∀ d, I d → I (run d).2) : Keeps I (query c run) :=
  ⟨fun _ d hd => h d hd⟩

theorem keeps_orAbsent {R : Type} (I : σ → Prop) (r : Except StorageError R) (m : String) :
    Keeps I (orAbsent r m : Op σ (Option R)) :=
  keeps_of_same_db I _ fun s d => by
    unfold orAbsent
    cases r with
    | ok row => rfl
    | error e =>
        dsimp only
        split <;> rfl

/-! ### Triples -/

theorem triple_ret (P : σ → Prop) (a : α) (R : α → σ → Prop) (E : σ → Prop)
    (h : ∀ d, P d → R a d) : Triple P (ret a : Op σ α) R E :=
  ⟨by intro s d b hd hb; simp at hb; subst hb; exact h d hd, by intro s d e hd he; simp at he⟩

theorem triple_fail (P : σ → Prop) (e : GoError) (R : α → σ → Prop) (E : σ → Prop)
    (h : ∀ d, P d → E d) : Triple P (fail e : Op σ α) R E :=
  ⟨by intro s d b hd hb; simp at hb, by intro s d e' hd he; exact h d hd⟩

theorem triple_check (P : σ → Prop) (r : Except GoError α) (R : α → σ → Prop) (E : σ → Prop)
    (hok : ∀ a, r = .ok a → ∀ d, P d → R a d) (herr : ∀ d, P d → E d) :
    Triple P (check r : Op σ α) R E := by
  cases r with
  | ok a => exact triple_ret P a R E (hok a rfl)
  | error e => exact triple_fail P e R E herr

theorem triple_failIf (P : σ → Prop) (c : Prop) [Decidable c] (e : GoError)
    (R : Unit → σ → Prop) (E : σ → Prop) (hok : ¬ c → ∀ d, P d → R () d)
    (herr : ∀ d, P d → E d) : Triple P (failIf c e : Op σ Unit) R E := by
  unfold failIf
  split
  · exact triple_fail P e R E herr
  · rename_i hc
    exact triple_ret P () R E (hok hc)

theorem triple_bind (P : σ → Prop) (p : Op σ α) (f : α → Op σ β) (R1 : α → σ → Prop)
    (R : β → σ → Prop) (E : σ → Prop) (hp : Triple P p R1 E)
    (hf : ∀ a, Triple (R1 a) (f a) R E) : Triple P (p >>= f) R E := by
  refine ⟨?_, ?_⟩
  · intro s d b hd hb
    cases hr : (p s d).result with
    | error e =>
        rw [run_bind_error p f s d e hr] at hb
        cases hb
    | ok a =>
        rw [run_bind_ok p f s d a hr] at hb ⊢
        exact (hf a).ok _ _ b (hp.ok s d a hd hr) hb
  · intro s d e hd he
    cases hr : (p s d).result with
    | error e' =>
        rw [run_bind_error p f s d e' hr] at he ⊢
        exact hp.err s d e' hd hr
    | ok a =>
        rw [run_bind_ok p f s d a hr] at he ⊢
        exact (hf a).err _ _ e (hp.ok s d a hd hr) he

theorem triple_of_keeps (I : σ → Prop) (p : Op σ α) (h : Keeps I p) :
    Triple I p (fun _ => I) I :=
  ⟨fun s d _ hd _ => h.all s d hd, fun s d _ hd _ => h.all s d hd⟩

theorem keeps_of_triple (I : σ → Prop) (p : Op σ α) (h : Triple I p (fun _ => I) I) :
    Keeps I p := by
  refine ⟨?_⟩
  intro s d hd
  cases hr : (p s d).result with
  | ok a => exact h.ok s d a hd hr
  | error e => exact h.err s d e hd hr

end Op

theorem keeps_exec {σ R : Type} (I : σ → Prop) (c : Call) (run : σ → Except StorageError R × σ)
    (m : String) (h : ∀ d, I d → I (run d).2) : Op.Keeps I (exec c run m) := by
  refine ⟨?_⟩
  intro s d hd
  rcases run_exec_cases c run m s d with ⟨row, _, hr⟩ | ⟨e, _, hr⟩ <;> rw [hr] <;> exact h d hd

theorem triple_exec {σ R : Type} (P : σ → Prop) (c : Call)
    (run : σ → Except StorageError R × σ) (m : String) (Rp : R → σ → Prop) (E : σ → Prop)
    (hok : ∀ d row, P d → (run d).1 = .ok row → Rp row (run d).2)
    (herr : ∀ d e, P d → (run d).1 = .error e → E (run d).2) :
    Op.Triple P (exec c run m) Rp E := by
  refine ⟨?_, ?_⟩
  · intro s d a hd ha
    rcases run_exec_cases c run m s d with ⟨row, h1, hr⟩ | ⟨e, _, hr⟩
    · rw [hr] at ha ⊢
      cases ha
      exact hok d _ hd h1
    · rw [hr] at ha
      cases ha
  · intro s d e hd he
    rcases run_exec_cases c run m s d with ⟨row, _, hr⟩ | ⟨e', h1, hr⟩
    · rw [hr] at he
      cases he
    · rw [hr]
      exact herr d _ hd h1

/-! ### The store -/

theorem Store.run_saved {R : Type} (src : Source)
    (f : UUID → Time → Tables → Except StorageError R × Tables) (d : Store) :
    (Store.run src f d).2.saved = d.saved := rfl

/-- A statement that keeps a property of the tables keeps it of the store. -/
theorem Store.run_inv {R : Type} (src : Source)
    (f : UUID → Time → Tables → Except StorageError R × Tables) (J : Tables → Prop)
    (h : ∀ id now T, J T → J (f id now T).2) (d : Store) (hd : Store.Inv J d) :
    Store.Inv J (Store.run src f d).2 :=
  ⟨h _ _ _ hd.1, hd.2⟩

theorem keeps_exec_run {R : Type} (src : Source) (J : Tables → Prop) (c : Call)
    (f : UUID → Time → Tables → Except StorageError R × Tables) (m : String)
    (h : ∀ id now T, J T → J (f id now T).2) :
    Op.Keeps (Store.Inv J) (exec c (Store.run src f) m) :=
  keeps_exec _ c _ m (Store.run_inv src f J h)

theorem keeps_query_run {R : Type} (src : Source) (J : Tables → Prop) (c : Call)
    (f : UUID → Time → Tables → Except StorageError R × Tables)
    (h : ∀ id now T, J T → J (f id now T).2) :
    Op.Keeps (Store.Inv J) (Op.query c (Store.run src f)) :=
  Op.keeps_query _ c _ (Store.run_inv src f J h)

/-- A transaction keeps a property of the tables that its unit of work keeps. -/
theorem keeps_WithTx_store {α : Type} (src : Source) (J : Tables → Prop) (fn : Op Store α)
    (hfn : Op.Keeps (Store.Inv J) fn) : Op.Keeps (Store.Inv J) (WithTx (Store.queries src) fn) := by
  refine ⟨?_⟩
  intro s d hd
  have h1 : Store.Inv J { d with saved := some d.tables } :=
    ⟨hd.1, fun t ht => by cases ht; exact hd.1⟩
  have h2 := hfn.all s _ h1
  unfold WithTx
  simp only [Store.queries]
  cases hr : (fn s { d with saved := some d.tables }).result with
  | error e =>
      dsimp only
      cases hs : (fn s { d with saved := some d.tables }).db.saved with
      | none => exact h2
      | some t => exact ⟨h2.2 t hs, fun t' ht' => by cases ht'⟩
  | ok a =>
      dsimp only
      cases hs : (fn s { d with saved := some d.tables }).db.saved with
      | none =>
          simp only [hs]
          exact h2
      | some t =>
          simp only [hs]
          exact ⟨h2.1, fun t' ht' => by cases ht'⟩


/-! ## Statements of the store and the keys of the task rows -/

namespace Tables

theorem updateOne_map {α β : Type} (p : α → Bool) (f : α → α) (rows : List α) (key : α → β)
    (hk : ∀ t, key (f t) = key t) : (updateOne p f rows).2.map key = rows.map key := by
  unfold updateOne
  split
  · rfl
  · simp only [List.map_map]
    apply List.map_congr_left
    intro t _
    simp only [Function.comp]
    split
    · exact hk t
    · rfl

theorem map_if_key {α β : Type} (p : α → Bool) (f : α → α) (rows : List α) (key : α → β)
    (hk : ∀ t, key (f t) = key t) :
    (rows.map fun t => if p t = true then f t else t).map key = rows.map key := by
  simp only [List.map_map]
  apply List.map_congr_left
  intro t _
  simp only [Function.comp]
  split
  · exact hk t
  · rfl

@[simp] theorem keys_upsertUserByEmail (id : UUID) (now : Time) (arg : UpsertUserByEmailParams)
    (T : Tables) : (upsertUserByEmail id now arg T).2.keys = T.keys := by
  unfold upsertUserByEmail
  split
  · rfl
  · split <;> rfl

@[simp] theorem keys_getUserByID (id : PgUUID) (T : Tables) :
    (getUserByID id T).2.keys = T.keys := rfl

@[simp] theorem keys_createProject (id : UUID) (now : Time) (arg : CreateProjectParams)
    (T : Tables) : (createProject id now arg T).2.keys = T.keys := by
  unfold createProject
  split <;> rfl

@[simp] theorem keys_updateProject (now : Time) (arg : UpdateProjectParams) (T : Tables) :
    (updateProject now arg T).2.keys = T.keys := rfl

@[simp] theorem keys_softDeleteProject (now : Time) (arg : SoftDeleteProjectParams) (T : Tables) :
    (softDeleteProject now arg T).2.keys = T.keys := rfl

@[simp] theorem keys_softDeleteTasksByProject (now : Time) (arg : SoftDeleteTasksByProjectParams)
    (T : Tables) : (softDeleteTasksByProject now arg T).2.keys = T.keys :=
  map_if_key _ _ T.tasks Task.key fun _ => rfl

@[simp] theorem keys_getProjectByID (arg : GetProjectByIDParams) (T : Tables) :
    (getProjectByID arg T).2.keys = T.keys := rfl

@[simp] theorem keys_listProjects (arg : ListProjectsParams) (T : Tables) :
    (listProjects arg T).2.keys = T.keys := rfl

@[simp] theorem keys_createLabel (id : UUID) (now : Time) (arg : CreateLabelParams)
    (T : Tables) : (createLabel id now arg T).2.keys = T.keys := by
  unfold createLabel
  split <;> rfl

@[simp] theorem keys_updateLabel (now : Time) (arg : UpdateLabelParams) (T : Tables) :
    (updateLabel now arg T).2.keys = T.keys := by
  unfold updateLabel
  split <;> rfl

@[simp] theorem keys_softDeleteLabel (now : Time) (arg : SoftDeleteLabelParams) (T : Tables) :
    (softDeleteLabel now arg T).2.keys = T.keys := rfl

@[simp] theorem keys_deleteTaskLabelsByLabelID (id : PgUUID) (T : Tables) :
    (deleteTaskLabelsByLabelID id T).2.keys = T.keys := rfl

@[simp] theorem keys_listLabels (arg : ListLabelsParams) (T : Tables) :
    (listLabels arg T).2.keys = T.keys := rfl

@[simp] theorem keys_getTaskByID (arg : GetTaskByIDParams) (T : Tables) :
    (getTaskByID arg T).2.keys = T.keys := rfl

@[simp] theorem keys_updateTask (now : Time) (arg : UpdateTaskParams) (T : Tables) :
    (updateTask now arg T).2.keys = T.keys :=
  updateOne_map _ _ T.tasks Task.key fun _ => rfl

@[simp] theorem keys_softDeleteTask (now : Time) (arg : SoftDeleteTaskParams) (T : Tables) :
    (softDeleteTask now arg T).2.keys = T.keys :=
  updateOne_map _ _ T.tasks Task.key fun _ => rfl

@[simp] theorem keys_softDeleteDirectSubtasks (now : Time) (arg : SoftDeleteDirectSubtasksParams)
    (T : Tables) : (softDeleteDirectSubtasks now arg T).2.keys = T.keys :=
  map_if_key _ _ T.tasks Task.key fun _ => rfl

@[simp] theorem keys_listRootTasks (arg : ListRootTasksParams) (T : Tables) :
    (listRootTasks arg T).2.keys = T.keys := rfl

@[simp] theorem keys_listSubtasks (arg : ListSubtasksParams) (T : Tables) :
    (listSubtasks arg T).2.keys = T.keys := rfl

@[simp] theorem keys_listLabelsByTaskID (arg : ListLabelsByTaskIDParams) (T : Tables) :
    (listLabelsByTaskID arg T).2.keys = T.keys := rfl

@[simp] theorem keys_listSubtasksByParentID (arg : ListSubtasksByParentIDParams) (T : Tables) :
    (listSubtasksByParentID arg T).2.keys = T.keys := rfl

@[simp] theorem keys_deleteTaskLabelsForTask (id : PgUUID) (T : Tables) :
    (deleteTaskLabelsForTask id T).2.keys = T.keys := rfl

@[simp] theorem keys_getLabelsByIDs (arg : GetLabelsByIDsParams) (T : Tables) :
    (getLabelsByIDs arg T).2.keys = T.keys := rfl

@[simp] theorem keys_insertTaskLabel (arg : InsertTaskLabelParams) (T : Tables) :
    (insertTaskLabel arg T).2.keys = T.keys := by
  unfold insertTaskLabel
  split <;> rfl

end Tables


/-! ## Operations and the keys of the task rows -/

theorem keeps_keys_insertTaskLabels (src : Source) (P : List (PgUUID × PgUUID × PgUUID) → Prop)
    (taskID : UUID) (ids : List PgUUID) :
    Op.Keeps (Store.Inv fun T => P T.keys)
      (insertTaskLabels (Store.queries src) taskID ids) := by
  induction ids with
  | nil => exact Op.keeps_ret _ _
  | cons id rest ih =>
      unfold insertTaskLabels
      simp only [Store.queries]
      refine Op.keeps_bind _ _ _ (keeps_exec_run src _ _ _ _ ?_) fun _ => ih
      intro _ _ T h
      simpa using h

theorem keeps_keys_replaceTaskLabels (src : Source)
    (P : List (PgUUID × PgUUID × PgUUID) → Prop) (uid taskID : UUID) (ids : List UUID) :
    Op.Keeps (Store.Inv fun T => P T.keys)
      (replaceTaskLabels (Store.queries src) uid taskID ids) := by
  simp only [replaceTaskLabels, Store.queries]
  repeat' first
    | exact Op.keeps_ret _ _
    | exact Op.keeps_failIf _ _ _
    | exact keeps_keys_insertTaskLabels src P _ _
    | refine keeps_exec_run src _ _ _ _ ?_
    | refine Op.keeps_bind _ _ _ ?_ ?_
    | split
    | intro _
  all_goals simp_all

theorem keeps_keys_ensureDefaultUser (src : Source)
    (P : List (PgUUID × PgUUID × PgUUID) → Prop) :
    Op.Keeps (Store.Inv fun T => P T.keys) (ensureDefaultUser (Store.queries src)) := by
  simp only [ensureDefaultUser, Store.queries]
  repeat' first
    | exact Op.keeps_ret _ _
    | exact Op.keeps_getService _
    | exact Op.keeps_setService _ _
    | refine keeps_exec_run src _ _ _ _ ?_
    | refine Op.keeps_bind _ _ _ ?_ ?_
    | split
    | intro _
  all_goals simp_all

set_option maxHeartbeats 4000000 in
/-- Every operation but CreateTask keeps every property of the list of ids, parents and
projects of the task rows. -/
theorem perform_keeps_keys (src : Source) (U : UnicodeTables) (now : Time) (req : Request)
    (hreq : ∀ input, req ≠ .CreateTask input) (P : List (PgUUID × PgUUID × PgUUID) → Prop) :
    Op.Keeps (Store.Inv fun T => P T.keys) (perform U (Store.queries src) now req) := by
  cases req
  case CreateTask input => exact absurd rfl (hreq input)
  all_goals
    simp only [perform]
    refine Op.keeps_void _ _ ?_
    simp only [Bootstrap, Me, UpsertMe, CreateProject, UpdateProject, DeleteProject,
      ListProjects, CreateLabel, UpdateLabel, DeleteLabel, ListLabels, GetProject, GetTask,
      UpdateTask, DeleteTask, ListTasks, LabelsForTask, SubtasksForTask, userID,
      deleteProjectTx, deleteLabelTx, updateTaskTx, deleteTaskTx,
      updateLabels, listTaskRows]
    repeat' first
      | exact Op.keeps_ret _ _
      | exact Op.keeps_check _ _
      | exact Op.keeps_checkErr _ _
      | exact Op.keeps_failIf _ _ _
      | exact Op.keeps_getService _
      | exact Op.keeps_setService _ _
      | exact Op.keeps_orAbsent _ _ _
      | exact keeps_keys_ensureDefaultUser src P
      | exact keeps_keys_replaceTaskLabels src P _ _ _
      | refine keeps_exec_run src _ _ _ _ ?_
      | refine keeps_query_run src _ _ _ ?_
      | refine keeps_WithTx_store src _ _ ?_
      | refine Op.keeps_bind _ _ _ ?_ ?_
      | split
      | intro _
    all_goals simp_all

/-! ### CreateTask -/

/-- What CreateTask has checked of the parent it passes to the insert. -/
theorem nested_snoc (keys : List (PgUUID × PgUUID × PgUUID)) (k : PgUUID × PgUUID × PgUUID)
    (h : Nested keys) (hid : k.1 ∉ keys.map fun x => x.1) (hproj : k.2.2.Valid = true)
    (hpar : k.2.1.Valid = false ∨
      ∃ p ∈ keys, p.1 = k.2.1 ∧ p.2.1.Valid = false ∧ p.2.2 = k.2.2) :
    Nested (keys ++ [k]) := by
  obtain ⟨h1, h2, h3⟩ := h
  refine ⟨?_, ?_, ?_⟩
  · rw [List.map_append, List.nodup_append]
    refine ⟨h1, by simp, ?_⟩
    intro a ha hb
    simp only [List.map_cons, List.map_nil, List.mem_singleton] at hb
    subst hb
    exact hid ha
  · intro x hx
    rcases List.mem_append.1 hx with hx | hx
    · exact h2 x hx
    · simp only [List.mem_singleton] at hx
      subst hx
      exact hproj
  · intro x hx hv
    rcases List.mem_append.1 hx with hx | hx
    · obtain ⟨p, hp, hp'⟩ := h3 x hx hv
      exact ⟨p, List.mem_append_left _ hp, hp'⟩
    · simp only [List.mem_singleton] at hx
      subst hx
      rcases hpar with hpar | ⟨p, hp, hp'⟩
      · rw [hpar] at hv
        cases hv
      · exact ⟨p, List.mem_append_left _ hp, hp'⟩

theorem nested_createTask (id : UUID) (now : Time) (arg : CreateTaskParams) (T : Tables)
    (h : Nested T.keys) (hproj : arg.ProjectID.Valid = true)
    (hpar : arg.ParentTaskID.Valid = false ∨
      ∃ p ∈ T.keys, p.1 = arg.ParentTaskID ∧ p.2.1.Valid = false ∧ p.2.2 = arg.ProjectID) :
    Nested (Tables.createTask id now arg T).2.keys := by
  unfold Tables.createTask
  split
  · exact h
  · rename_i hfresh
    simp only [Tables.keys, List.map_append, List.map_cons, List.map_nil]
    refine nested_snoc _ _ h ?_ hproj hpar
    intro hmem
    apply hfresh
    simp only [Tables.keys, List.map_map, List.mem_map, Function.comp] at hmem
    obtain ⟨t, ht, hti⟩ := hmem
    simp only [List.any_eq_true, beq_iff_eq]
    exact ⟨t, ht, hti⟩

theorem Tables.getOne_ok {α : Type} (p : α → Bool) (rows : List α) (row : α)
    (h : Tables.getOne p rows = .ok row) : row ∈ rows ∧ p row = true := by
  unfold Tables.getOne at h
  split at h
  · cases h
  · rename_i r hr
    cases h
    exact ⟨List.mem_of_find?_eq_some hr, List.find?_some hr⟩

theorem eq_toPgUUID_of_valid (v : PgUUID) (id : UUID) (hv : v.Valid = true)
    (h : fromPgUUID v = id) : v = toPgUUID id := by
  cases v with
  | mk b valid =>
      simp only at hv
      subst hv
      simp only [fromPgUUID, Bool.not_true, Bool.false_eq_true, if_false] at h
      subst h
      rfl

/-- On the store, the parent CreateTask passes to the insert is none, or a task row
without parent in the project of the new task. -/
theorem checkParent_store (src : Source) (uid projectID : UUID) (parentID : Option UUID) :
    Op.Triple (Store.Inv fun T => Nested T.keys)
      (checkParent (Store.queries src) uid projectID parentID)
      (fun ppg d => Store.Inv (fun T => Nested T.keys) d ∧
        (ppg.Valid = false ∨
          ∃ p ∈ d.tables.keys, p.1 = ppg ∧ p.2.1.Valid = false ∧ p.2.2 = toPgUUID projectID))
      (Store.Inv fun T => Nested T.keys) := by
  cases parentID with
  | none =>
      unfold checkParent
      exact Op.triple_ret _ _ _ _ fun d hd => ⟨hd, Or.inl rfl⟩
  | some pid =>
      have run := fun (s : Service) (d : Store) =>
        checkParent_run (Store.queries src) uid projectID pid s d
          ((Store.queries src).GetTaskByID ⟨toPgUUID pid, toPgUUID uid⟩ d).2
          ((Store.queries src).GetTaskByID ⟨toPgUUID pid, toPgUUID uid⟩ d).1 rfl
      have hdb : ∀ d : Store, Store.Inv (fun T => Nested T.keys) d →
          Store.Inv (fun T => Nested T.keys)
            ((Store.queries src).GetTaskByID ⟨toPgUUID pid, toPgUUID uid⟩ d).2 :=
        fun d hd => hd
      refine ⟨?_, ?_⟩
      · intro s d a hd ha
        obtain ⟨c1, c2, c3, c4⟩ := run s d
        cases hr : ((Store.queries src).GetTaskByID ⟨toPgUUID pid, toPgUUID uid⟩ d).1 with
        | error se =>
            rw [c1 se hr] at ha
            cases ha
        | ok parent =>
            by_cases hv : parent.ParentTaskID.Valid = true
            · rw [c2 parent hr hv] at ha
              cases ha
            · have hv' : parent.ParentTaskID.Valid = false := by simpa using hv
              by_cases hp : fromPgUUID parent.ProjectID = projectID
              · rw [c4 parent hr hv' hp] at ha ⊢
                cases ha
                refine ⟨hdb d hd, Or.inr ?_⟩
                have hget : Tables.getOne (fun t => t.ID == toPgUUID pid &&
                    t.UserID == toPgUUID uid && Tables.live t.DeletedAt) d.tables.tasks =
                    .ok parent := hr
                obtain ⟨hmem, hprow⟩ := Tables.getOne_ok _ _ _ hget
                simp only [Bool.and_eq_true, beq_iff_eq] at hprow
                have hkey : parent.key ∈ d.tables.keys := List.mem_map_of_mem _ hmem
                have hpv : parent.ProjectID.Valid = true := hd.1.2.1 _ hkey
                refine ⟨parent.key, hkey, hprow.1.1, hv', ?_⟩
                exact eq_toPgUUID_of_valid _ _ hpv hp
              · rw [c3 parent hr hv' hp] at ha
                cases ha
      · intro s d e hd he
        obtain ⟨c1, c2, c3, c4⟩ := run s d
        cases hr : ((Store.queries src).GetTaskByID ⟨toPgUUID pid, toPgUUID uid⟩ d).1 with
        | error se =>
            rw [c1 se hr]
            exact hdb d hd
        | ok parent =>
            by_cases hv : parent.ParentTaskID.Valid = true
            · rw [c2 parent hr hv]
              exact hdb d hd
            · have hv' : parent.ParentTaskID.Valid = false := by simpa using hv
              by_cases hp : fromPgUUID parent.ProjectID = projectID
              · rw [c4 parent hr hv' hp] at he
                cases he
              · rw [c3 parent hr hv' hp]
                exact hdb d hd

/-- On the store, the unit of work of CreateTask keeps the nesting invariant. -/
theorem keeps_nested_createTaskTx (src : Source) (now : Time) (input : CreateTaskInput)
    (uid projectID : UUID) (parentID : Option UUID) (title status priority : String)
    (labelIDs : List UUID) :
    Op.Keeps (Store.Inv fun T => Nested T.keys)
      (createTaskTx (Store.queries src) now input uid projectID parentID title status priority
        labelIDs) := by
  apply Op.keeps_of_triple
  unfold createTaskTx
  refine Op.triple_bind _ _ _ (fun _ => Store.Inv fun T => Nested T.keys) _ _
    (Op.triple_of_keeps _ _ ?_) fun _ => ?_
  · simp only [Store.queries]
    refine keeps_exec_run src _ _ _ _ ?_
    intro _ _ T h
    simpa using h
  refine Op.triple_bind _ _ _ _ _ _ (checkParent_store src uid projectID parentID) fun ppg => ?_
  dsimp only
  refine Op.triple_bind _ _ _ (fun _ => Store.Inv fun T => Nested T.keys) _ _ ?_ fun created => ?_
  · simp only [Store.queries]
    refine triple_exec _ _ _ _ _ _ ?_ ?_
    · intro d row hd _
      exact ⟨nested_createTask _ _ _ _ hd.1.1 rfl hd.2, hd.1.2⟩
    · intro d e hd _
      exact ⟨nested_createTask _ _ _ _ hd.1.1 rfl hd.2, hd.1.2⟩
  · refine Op.triple_of_keeps _ _ ?_
    exact Op.keeps_bind _ _ _ (keeps_keys_replaceTaskLabels src Nested _ _ _) fun _ =>
      Op.keeps_ret _ _

/-- On the store, every operation keeps the nesting invariant. -/
theorem perform_keeps_nested (src : Source) (U : UnicodeTables) (now : Time) (req : Request) :
    Op.Keeps (Store.Inv fun T => Nested T.keys) (perform U (Store.queries src) now req) := by
  by_cases hreq : ∀ input, req ≠ .CreateTask input
  · exact perform_keeps_keys src U now req hreq Nested
  · simp only [not_forall, not_not] at hreq
    obtain ⟨input, rfl⟩ := hreq
    simp only [perform]
    refine Op.keeps_void _ _ ?_
    simp only [CreateTask, userID]
    repeat' first
      | exact Op.keeps_check _ _
      | exact Op.keeps_checkErr _ _
      | exact Op.keeps_failIf _ _ _
      | exact keeps_keys_ensureDefaultUser src Nested
      | exact keeps_nested_createTaskTx src now input _ _ _ _ _ _ _
      | refine keeps_WithTx_store src _ _ ?_
      | refine Op.keeps_bind _ _ _ ?_ ?_
      | intro _

theorem runAll_keeps_nested (src : Source) (U : UnicodeTables) (steps : List (Time × Request))
    (s : Service) (d : Store) (hd : Store.Inv (fun T => Nested T.keys) d) :
    Store.Inv (fun T => Nested T.keys) (runAll U (Store.queries src) steps s d).2 := by
  induction steps generalizing s d with
  | nil => exact hd
  | cons step rest ih =>
      unfold runAll
      exact ih _ _ ((perform_keeps_nested src U step.1 step.2).all s d hd)


/-! ## The nesting invariant: claims -/

theorem nested_tasks (T : Tables) (h : Nested T.keys) (t : Task) (ht : t ∈ T.tasks)
    (hv : t.ParentTaskID.Valid = true) :
    ∃ p ∈ T.tasks, p.ID = t.ParentTaskID ∧ p.ParentTaskID.Valid = false ∧
      p.ProjectID = t.ProjectID ∧
      ∀ q ∈ T.tasks, q.ID = t.ParentTaskID →
        q.ParentTaskID.Valid = false ∧ q.ProjectID = t.ProjectID := by
  obtain ⟨h1, -, h3⟩ := h
  obtain ⟨k, hk, hk1, hk2, hk3⟩ := h3 t.key (List.mem_map_of_mem _ ht) hv
  obtain ⟨p, hp, rfl⟩ := List.mem_map.1 hk
  refine ⟨p, hp, hk1, hk2, hk3, ?_⟩
  intro q hq hqid
  have hqk : q.key ∈ T.keys := List.mem_map_of_mem _ hq
  have heq : q.key = p.key :=
    List.inj_on_of_nodup_map h1 hqk hk (hqid.trans hk1.symm)
  have e1 : q.ParentTaskID = p.ParentTaskID := congrArg (fun k => k.2.1) heq
  have e2 : q.ProjectID = p.ProjectID := congrArg (fun k => k.2.2) heq
  exact ⟨by rw [e1]; exact hk2, by rw [e2]; exact hk3⟩

/-- C15: in every state of the store reached from the empty store by a sequence of
operations of the service, every task with a parent has, among the task rows, a parent
that has no parent and is in the same project, and every row with the id of the parent is
such; an operation other than CreateTask, UpdateTask included, leaves the ids, parents and
projects of the task rows as they are. -/
theorem nesting_depth_invariant (src : Source) (U : UnicodeTables)
    (steps : List (Time × Request)) (s0 : Service) :
    (∀ t ∈ (runAll U (Store.queries src) steps s0 Store.empty).2.tables.tasks,
      t.ParentTaskID.Valid = true →
      ∃ p ∈ (runAll U (Store.queries src) steps s0 Store.empty).2.tables.tasks,
        p.ID = t.ParentTaskID ∧ p.ParentTaskID.Valid = false ∧ p.ProjectID = t.ProjectID ∧
        ∀ q ∈ (runAll U (Store.queries src) steps s0 Store.empty).2.tables.tasks,
          q.ID = t.ParentTaskID → q.ParentTaskID.Valid = false ∧ q.ProjectID = t.ProjectID) ∧
    (∀ (req : Request) (now : Time) (s : Service) (d : Store),
      (∀ input, req ≠ .CreateTask input) → d.saved = none →
      (perform U (Store.queries src) now req s d).db.tables.tasks.map Task.key =
        d.tables.tasks.map Task.key) := by
  constructor
  · have hn : Nested Store.empty.tables.keys := by
      refine ⟨List.nodup_nil, ?_, ?_⟩ <;> intro k hk <;> cases hk
    have h0 : Store.Inv (fun T => Nested T.keys) Store.empty :=
      ⟨hn, fun t ht => by cases ht⟩
    have h := (runAll_keeps_nested src U steps s0 Store.empty h0).1
    exact fun t ht hv => nested_tasks _ h t ht hv
  · intro req now s d hreq hs
    have h := (perform_keeps_keys src U now req hreq (fun K => K = d.tables.keys)).all s d
      ⟨rfl, fun t ht => by rw [hs] at ht; cases ht⟩
    exact h.1

/-- C15, an instance: after a project, a task, a subtask of it and the rejected attempt to
create a subtask of the subtask, the store holds the task and the subtask. -/
theorem nesting_depth_invariant_witness :
    (runAll asciiTables (Store.queries Sample.source) Sample.session Service.fresh
      Store.empty).2.tables.tasks.map Task.key =
      [(toPgUUID (Sample.source.uuid 3), PgUUID.zero, toPgUUID (Sample.source.uuid 1)),
       (toPgUUID (Sample.source.uuid 7), toPgUUID (Sample.source.uuid 3),
         toPgUUID (Sample.source.uuid 1))] ∧
    (∀ t ∈ (runAll asciiTables (Store.queries Sample.source) Sample.session Service.fresh
        Store.empty).2.tables.tasks,
      t.ParentTaskID.Valid = true →
      ∃ p ∈ (runAll asciiTables (Store.queries Sample.source) Sample.session Service.fresh
          Store.empty).2.tables.tasks,
        p.ID = t.ParentTaskID ∧ p.ParentTaskID.Valid = false ∧ p.ProjectID = t.ProjectID) :=
  ⟨by decide, fun t ht hv =>
    ((nesting_depth_invariant Sample.source asciiTables Sample.session Service.fresh).1
      t ht hv).imp fun _ h => ⟨h.1, h.2.1, h.2.2.1, h.2.2.2.1⟩⟩


/-! ## The label check on the store -/

namespace Tables

@[simp] theorem labels_upsertUserByEmail (id : UUID) (now : Time) (arg : UpsertUserByEmailParams)
    (T : Tables) : (upsertUserByEmail id now arg T).2.labels = T.labels := by
  unfold upsertUserByEmail
  split
  · rfl
  · split <;> rfl

@[simp] theorem labels_getProjectByID (arg : GetProjectByIDParams) (T : Tables) :
    (getProjectByID arg T).2.labels = T.labels := rfl

@[simp] theorem labels_getTaskByID (arg : GetTaskByIDParams) (T : Tables) :
    (getTaskByID arg T).2.labels = T.labels := rfl

@[simp] theorem labels_createTask (id : UUID) (now : Time) (arg : CreateTaskParams)
    (T : Tables) : (createTask id now arg T).2.labels = T.labels := by
  unfold createTask
  split <;> rfl

@[simp] theorem labels_updateTask (now : Time) (arg : UpdateTaskParams) (T : Tables) :
    (updateTask now arg T).2.labels = T.labels := rfl

@[simp] theorem labels_deleteTaskLabelsForTask (id : PgUUID) (T : Tables) :
    (deleteTaskLabelsForTask id T).2.labels = T.labels := rfl

@[simp] theorem labels_getLabelsByIDs (arg : GetLabelsByIDsParams) (T : Tables) :
    (getLabelsByIDs arg T).2.labels = T.labels := rfl

@[simp] theorem labels_insertTaskLabel (arg : InsertTaskLabelParams) (T : Tables) :
    (insertTaskLabel arg T).2.labels = T.labels := by
  unfold insertTaskLabel
  split <;> rfl

theorem ownedLabels_congr (arg : GetLabelsByIDsParams) (T T' : Tables)
    (h : T'.labels = T.labels) : ownedLabels arg T' = ownedLabels arg T := by
  unfold ownedLabels
  rw [h]

end Tables

/-- A statement that keeps a property of the tables keeps it of the current tables. -/
theorem keeps_exec_tables {R : Type} (src : Source) (J : Tables → Prop) (c : Call)
    (f : UUID → Time → Tables → Except StorageError R × Tables) (m : String)
    (h : ∀ id now T, J T → J (f id now T).2) :
    Op.Keeps (fun d => J d.tables) (exec c (Store.run src f) m) :=
  keeps_exec _ c _ m fun _ hd => h _ _ _ hd

namespace Op

variable {α β : Type}

theorem lc_of_issues (p : Op Store α)
    (h : Issues p fun ev => ∀ arg, ev ≠ ⟨.GetLabelsByIDs arg, none⟩) : LabelsChecked p :=
  ⟨fun s d arg hmem _ => absurd rfl (h.all s d _ hmem arg)⟩

theorem lc_ret (a : α) : LabelsChecked (ret a : Op Store α) :=
  lc_of_issues _ (issues_ret _ _)

theorem lc_bind (p : Op Store α) (f : α → Op Store β)
    (hk : ∀ L, Keeps (fun (d : Store) => d.tables.labels = L) p) (hp : LabelsChecked p)
    (hf : ∀ a, LabelsChecked (f a)) : LabelsChecked (p >>= f) := by
  refine ⟨?_⟩
  intro s d arg hmem hmis
  cases hr : (p s d).result with
  | error e =>
      rw [run_bind_error p f s d e hr] at hmem ⊢
      have := hp.all s d arg hmem hmis
      rw [hr] at this
      rw [Except.error.inj this]
  | ok a =>
      rw [run_bind_ok p f s d a hr] at hmem ⊢
      rcases List.mem_append.1 hmem with h | h
      · have := hp.all s d arg h hmis
        rw [hr] at this
        cases this
      · refine (hf a).all _ _ arg h ?_
        rw [Tables.ownedLabels_congr arg _ _ ((hk d.tables.labels).all s d rfl)]
        exact hmis

end Op

theorem lc_exec {R : Type} (c : Call) (run : Store → Except StorageError R × Store) (m : String)
    (hc : ∀ arg, c ≠ .GetLabelsByIDs arg) : Op.LabelsChecked (exec c run m) :=
  Op.lc_of_issues _ (Op.issues_exec _ _ _ _ fun _ arg h => hc arg (congrArg Event.call h))

/-- A transaction checks the labels it fetches when its unit of work does. -/
theorem lc_WithTx {α : Type} (src : Source) (fn : Op Store α) (hfn : Op.LabelsChecked fn) :
    Op.LabelsChecked (WithTx (Store.queries src) fn) := by
  refine ⟨?_⟩
  intro s d arg hmem hmis
  obtain ⟨tail, hev, -, hres⟩ := WithTx_events (Store.queries src) fn s d
    { d with saved := some d.tables } rfl
  have htail : ∀ ev ∈ tail, ev.call = .Commit ∨ ev.call = .Rollback := by
    intro ev hev'
    unfold WithTx at hev
    simp only [Store.queries] at hev
    split at hev
    · simp only [List.cons_append, List.cons.injEq, true_and] at hev
      have := List.append_cancel_left hev
      subst this
      simp only [List.mem_singleton] at hev'
      subst hev'
      exact Or.inr rfl
    · simp only [List.cons_append, List.cons.injEq, true_and] at hev
      have := List.append_cancel_left hev
      subst this
      simp only [List.mem_cons, List.mem_singleton, List.not_mem_nil, or_false] at hev'
      rcases hev' with rfl | rfl
      · exact Or.inl rfl
      · exact Or.inr rfl
  rw [hev] at hmem
  simp only [List.cons_append, List.mem_cons, List.mem_append] at hmem
  rcases hmem with h | h | h
  · cases h
  · have hb := hfn.all s { d with saved := some d.tables } arg h hmis
    exact (hres _ hb).1
  · rcases htail _ h with h' | h' <;> cases h'

theorem issues_insert_only (src : Source) (taskID : UUID) (ids : List PgUUID) :
    Op.Issues (insertTaskLabels (Store.queries src) taskID ids)
      (fun ev => ∀ arg, ev ≠ ⟨.GetLabelsByIDs arg, none⟩) :=
  issues_insertTaskLabels _ _ _ _ fun _ _ arg h => by cases h

/-- The fetch of the labels and what follows it in `replaceTaskLabels`. -/
theorem lc_fetch (src : Source) (uid taskID : UUID) (pgIDs : List PgUUID) :
    Op.LabelsChecked
      (exec (.GetLabelsByIDs ⟨toPgUUID uid, pgIDs⟩)
          ((Store.queries src).GetLabelsByIDs ⟨toPgUUID uid, pgIDs⟩) "failed to validate labels" >>=
        fun labels =>
          Op.failIf (labels.length ≠ pgIDs.length)
              (NewBadInput "one or more labelIds are invalid") >>=
            fun _ => insertTaskLabels (Store.queries src) taskID pgIDs) := by
  refine ⟨?_⟩
  intro s d arg hmem hmis
  have hrun : exec (.GetLabelsByIDs ⟨toPgUUID uid, pgIDs⟩)
      ((Store.queries src).GetLabelsByIDs ⟨toPgUUID uid, pgIDs⟩) "failed to validate labels" s d =
      ⟨.ok (Tables.ownedLabels ⟨toPgUUID uid, pgIDs⟩ d.tables), s,
        ((Store.queries src).GetLabelsByIDs ⟨toPgUUID uid, pgIDs⟩ d).2,
        [⟨.GetLabelsByIDs ⟨toPgUUID uid, pgIDs⟩, none⟩]⟩ :=
    run_exec_ok _ _ _ _ _ _ _ rfl
  rw [Op.run_bind, hrun] at hmem ⊢
  dsimp only at hmem ⊢
  by_cases hlen : (Tables.ownedLabels ⟨toPgUUID uid, pgIDs⟩ d.tables).length ≠ pgIDs.length
  · rw [Op.run_failIf_bind, if_pos hlen]
  · exfalso
    rw [Op.run_failIf_bind, if_neg hlen] at hmem
    simp only [List.singleton_append, List.mem_cons] at hmem
    rcases hmem with h | h
    · cases h
      exact hlen hmis
    · exact (issues_insert_only src taskID pgIDs).all _ _ _ h arg rfl

theorem keeps_labels_exec {R : Type} (src : Source) (c : Call)
    (f : UUID → Time → Tables → Except StorageError R × Tables) (m : String)
    (h : ∀ id now T, (f id now T).2.labels = T.labels) (L : List Label) :
    Op.Keeps (fun (d : Store) => d.tables.labels = L) (exec c (Store.run src f) m) :=
  keeps_exec_tables src (fun T => T.labels = L) c f m fun id now T hT => (h id now T).trans hT

theorem lc_replaceTaskLabels (src : Source) (uid taskID : UUID) (ids : List UUID) :
    Op.LabelsChecked (replaceTaskLabels (Store.queries src) uid taskID ids) := by
  unfold replaceTaskLabels
  refine Op.lc_bind _ _ ?_ (lc_exec _ _ _ fun arg h => by cases h) fun _ => ?_
  · intro L
    exact keeps_labels_exec src _ _ _ (fun _ _ T => Tables.labels_deleteTaskLabelsForTask _ T) L
  · split
    · exact Op.lc_ret _
    · exact lc_fetch src uid taskID _

theorem lc_updateLabels (src : Source) (uid taskID : UUID) (ids : Option (List String)) :
    Op.LabelsChecked (updateLabels (Store.queries src) uid taskID ids) := by
  unfold updateLabels
  cases ids with
  | none => exact Op.lc_ret _
  | some raw =>
      refine Op.lc_bind _ _ (fun L => Op.keeps_check _ _)
        (Op.lc_of_issues _ (Op.issues_check _ _)) fun _ => lc_replaceTaskLabels src uid taskID _

theorem keeps_labels_ensureDefaultUser (src : Source) (L : List Label) :
    Op.Keeps (fun (d : Store) => d.tables.labels = L) (ensureDefaultUser (Store.queries src)) := by
  simp only [ensureDefaultUser]
  repeat' first
    | exact Op.keeps_ret _ _
    | exact Op.keeps_getService _
    | exact Op.keeps_setService _ _
    | exact keeps_labels_exec src _ _ _ (fun _ _ T => by simp) L
    | refine Op.keeps_bind _ _ _ ?_ ?_
    | split
    | intro _

theorem lc_ensureDefaultUser (src : Source) :
    Op.LabelsChecked (ensureDefaultUser (Store.queries src)) :=
  Op.lc_of_issues _ (issues_ensureDefaultUser _ _ fun _ _ arg h => by cases h)

theorem lc_checkParent (src : Source) (uid projectID : UUID) (parentID : Option UUID) :
    Op.LabelsChecked (checkParent (Store.queries src) uid projectID parentID) :=
  Op.lc_of_issues _ (issues_checkParent _ _ _ _ _ fun _ _ arg h => by cases h)

theorem keeps_labels_checkParent (src : Source) (uid projectID : UUID)
    (parentID : Option UUID) (L : List Label) :
    Op.Keeps (fun (d : Store) => d.tables.labels = L)
      (checkParent (Store.queries src) uid projectID parentID) := by
  simp only [checkParent]
  repeat' first
    | exact Op.keeps_ret _ _
    | exact Op.keeps_failIf _ _ _
    | exact keeps_labels_exec src _ _ _ (fun _ _ T => by simp) L
    | refine Op.keeps_bind _ _ _ ?_ ?_
    | split
    | intro _

theorem keeps_labels_insertTaskLabels (src : Source) (taskID : UUID) (ids : List PgUUID)
    (L : List Label) :
    Op.Keeps (fun (d : Store) => d.tables.labels = L)
      (insertTaskLabels (Store.queries src) taskID ids) := by
  induction ids with
  | nil => exact Op.keeps_ret _ _
  | cons id rest ih =>
      unfold insertTaskLabels
      exact Op.keeps_bind _ _ _ (keeps_labels_exec src _ _ _ (fun _ _ T => by simp) L) fun _ => ih

theorem keeps_labels_replaceTaskLabels (src : Source) (uid taskID : UUID) (ids : List UUID)
    (L : List Label) :
    Op.Keeps (fun (d : Store) => d.tables.labels = L)
      (replaceTaskLabels (Store.queries src) uid taskID ids) := by
  simp only [replaceTaskLabels]
  repeat' first
    | exact Op.keeps_ret _ _
    | exact Op.keeps_failIf _ _ _
    | exact keeps_labels_insertTaskLabels src _ _ L
    | exact keeps_labels_exec src _ _ _ (fun _ _ T => by simp) L
    | refine Op.keeps_bind _ _ _ ?_ ?_
    | split
    | intro _

theorem keeps_labels_updateLabels (src : Source) (uid taskID : UUID)
    (ids : Option (List String)) (L : List Label) :
    Op.Keeps (fun (d : Store) => d.tables.labels = L)
      (updateLabels (Store.queries src) uid taskID ids) := by
  unfold updateLabels
  cases ids with
  | none => exact Op.keeps_ret _ _
  | some raw =>
      exact Op.keeps_bind _ _ _ (Op.keeps_check _ _) fun _ =>
        keeps_labels_replaceTaskLabels src uid taskID _ L

/-- UpdateTask on the store checks the labels it fetches. -/
theorem lc_UpdateTask (src : Source) (U : UnicodeTables) (now : Time) (input : UpdateTaskInput) :
    Op.LabelsChecked (UpdateTask U (Store.queries src) now input) := by
  simp only [UpdateTask, userID, updateTaskTx]
  refine Op.lc_bind _ _ (keeps_labels_ensureDefaultUser src) (lc_ensureDefaultUser src) fun _ => ?_
  refine Op.lc_bind _ _ (fun L => Op.keeps_check _ _)
    (Op.lc_of_issues _ (Op.issues_check _ _)) fun _ => ?_
  refine lc_WithTx src _ ?_
  refine Op.lc_bind _ _ (fun L => keeps_labels_exec src _ _ _ (fun _ _ T => by simp) L)
    (lc_exec _ _ _ fun arg h => by cases h) fun _ => ?_
  refine Op.lc_bind _ _ (fun L => Op.keeps_check _ _)
    (Op.lc_of_issues _ (Op.issues_check _ _)) fun _ => ?_
  refine Op.lc_bind _ _ (fun L => Op.keeps_check _ _)
    (Op.lc_of_issues _ (Op.issues_check _ _)) fun _ => ?_
  refine Op.lc_bind _ _ (fun L => Op.keeps_check _ _)
    (Op.lc_of_issues _ (Op.issues_check _ _)) fun _ => ?_
  refine Op.lc_bind _ _ (fun L => Op.keeps_checkErr _ _)
    (Op.lc_of_issues _ (Op.issues_checkErr _ _)) fun _ => ?_
  refine Op.lc_bind _ _ (fun L => keeps_labels_exec src _ _ _ (fun _ _ T => by simp) L)
    (lc_exec _ _ _ fun arg h => by cases h) fun _ => ?_
  exact Op.lc_bind _ _ (fun L => keeps_labels_updateLabels src _ _ _ L)
    (lc_updateLabels src _ _ _) fun _ => Op.lc_ret _

/-- CreateTask on the store checks the labels it fetches. -/
theorem lc_CreateTask (src : Source) (U : UnicodeTables) (now : Time) (input : CreateTaskInput) :
    Op.LabelsChecked (CreateTask U (Store.queries src) now input) := by
  simp only [CreateTask, userID, createTaskTx]
  refine Op.lc_bind _ _ (keeps_labels_ensureDefaultUser src) (lc_ensureDefaultUser src) fun _ => ?_
  refine Op.lc_bind _ _ (fun L => Op.keeps_check _ _)
    (Op.lc_of_issues _ (Op.issues_check _ _)) fun _ => ?_
  refine Op.lc_bind _ _ (fun L => Op.keeps_check _ _)
    (Op.lc_of_issues _ (Op.issues_check _ _)) fun _ => ?_
  refine Op.lc_bind _ _ (fun L => Op.keeps_failIf _ _ _)
    (Op.lc_of_issues _ (Op.issues_failIf _ _ _)) fun _ => ?_
  refine Op.lc_bind _ _ (fun L => Op.keeps_check _ _)
    (Op.lc_of_issues _ (Op.issues_check _ _)) fun _ => ?_
  refine Op.lc_bind _ _ (fun L => Op.keeps_check _ _)
    (Op.lc_of_issues _ (Op.issues_check _ _)) fun _ => ?_
  refine Op.lc_bind _ _ (fun L => Op.keeps_checkErr _ _)
    (Op.lc_of_issues _ (Op.issues_checkErr _ _)) fun _ => ?_
  refine Op.lc_bind _ _ (fun L => Op.keeps_check _ _)
    (Op.lc_of_issues _ (Op.issues_check _ _)) fun _ => ?_
  refine lc_WithTx src _ ?_
  refine Op.lc_bind _ _ (fun L => keeps_labels_exec src _ _ _ (fun _ _ T => by simp) L)
    (lc_exec _ _ _ fun arg h => by cases h) fun _ => ?_
  refine Op.lc_bind _ _ (fun L => keeps_labels_checkParent src _ _ _ L)
    (lc_checkParent src _ _ _) fun _ => ?_
  refine Op.lc_bind _ _ (fun L => keeps_labels_exec src _ _ _ (fun _ _ T => by simp) L)
    (lc_exec _ _ _ fun arg h => by cases h) fun _ => ?_
  exact Op.lc_bind _ _ (fun L => keeps_labels_replaceTaskLabels src _ _ _ L)
    (lc_replaceTaskLabels src _ _ _) fun _ => Op.lc_ret _

/-! ## Failing transactions leave the tables as they were -/

theorem keeps_saved_exec {R : Type} (src : Source) (c : Call)
    (f : UUID → Time → Tables → Except StorageError R × Tables) (m : String)
    (v : Option Tables) :
    Op.Keeps (fun (d : Store) => d.saved = v) (exec c (Store.run src f) m) :=
  keeps_exec _ c _ m fun _ hd => hd

theorem keeps_saved_insertTaskLabels (src : Source) (taskID : UUID) (ids : List PgUUID)
    (v : Option Tables) :
    Op.Keeps (fun (d : Store) => d.saved = v)
      (insertTaskLabels (Store.queries src) taskID ids) := by
  induction ids with
  | nil => exact Op.keeps_ret _ _
  | cons id rest ih =>
      unfold insertTaskLabels
      exact Op.keeps_bind _ _ _ (keeps_saved_exec src _ _ _ v) fun _ => ih

theorem keeps_saved_createTaskTx (src : Source) (now : Time) (input : CreateTaskInput)
    (uid projectID : UUID) (parentID : Option UUID) (title status priority : String)
    (labelIDs : List UUID) (v : Option Tables) :
    Op.Keeps (fun (d : Store) => d.saved = v)
      (createTaskTx (Store.queries src) now input uid projectID parentID title status priority
        labelIDs) := by
  simp only [createTaskTx, checkParent, replaceTaskLabels]
  repeat' first
    | exact Op.keeps_ret _ _
    | exact Op.keeps_failIf _ _ _
    | exact keeps_saved_insertTaskLabels src _ _ v
    | exact keeps_saved_exec src _ _ _ v
    | refine Op.keeps_bind _ _ _ ?_ ?_
    | split
    | intro _

theorem keeps_saved_updateTaskTx (src : Source) (U : UnicodeTables) (now : Time)
    (input : UpdateTaskInput) (uid taskID : UUID) (v : Option Tables) :
    Op.Keeps (fun (d : Store) => d.saved = v)
      (updateTaskTx U (Store.queries src) now input uid taskID) := by
  simp only [updateTaskTx, updateLabels, replaceTaskLabels]
  repeat' first
    | exact Op.keeps_ret _ _
    | exact Op.keeps_check _ _
    | exact Op.keeps_checkErr _ _
    | exact Op.keeps_failIf _ _ _
    | exact keeps_saved_insertTaskLabels src _ _ v
    | exact keeps_saved_exec src _ _ _ v
    | refine Op.keeps_bind _ _ _ ?_ ?_
    | split
    | intro _

namespace Op

variable {α β : Type}

theorem atomic_of_same_db (p : Op Store α) (h : ∀ s d, (p s d).db = d) : Atomic p :=
  ⟨fun s d _ _ => by rw [h s d]⟩

theorem atomic_bind_same (p : Op Store α) (f : α → Op Store β) (h : ∀ s d, (p s d).db = d)
    (hf : ∀ a, Atomic (f a)) : Atomic (p >>= f) := by
  refine ⟨?_⟩
  intro s d e he
  cases hr : (p s d).result with
  | error e' =>
      rw [run_bind_error p f s d e' hr]
      exact congrArg Store.tables (h s d)
  | ok a =>
      rw [run_bind_ok p f s d a hr] at he ⊢
      have h1 := (hf a).all (p s d).svc (p s d).db e he
      exact h1.trans (congrArg Store.tables (h s d))

theorem atomic_check_bind (r : Except GoError α) (f : α → Op Store β)
    (hf : ∀ a, Atomic (f a)) : Atomic (check r >>= f) :=
  atomic_bind_same _ f (fun _ _ => by cases r <;> rfl) hf

theorem atomic_checkErr_bind (x : Option GoError) (f : Unit → Op Store β)
    (hf : ∀ a, Atomic (f a)) : Atomic (checkErr x >>= f) :=
  atomic_bind_same _ f (fun _ _ => by cases x <;> rfl) hf

theorem atomic_failIf_bind (c : Prop) [Decidable c] (e : GoError) (f : Unit → Op Store β)
    (hf : ∀ a, Atomic (f a)) : Atomic (failIf c e >>= f) :=
  atomic_bind_same _ f (fun s d => by
    by_cases h : c
    · rw [run_failIf_pos c e s d h]
    · rw [run_failIf_neg c e s d h]) hf

end Op

/-- A transaction on the store whose unit of work fails is rolled back to the tables it
began with. -/
theorem atomic_WithTx {α : Type} (src : Source) (fn : Op Store α)
    (hfn : ∀ v, Op.Keeps (fun (d : Store) => d.saved = v) fn) :
    Op.Atomic (WithTx (Store.queries src) fn) := by
  refine ⟨?_⟩
  intro s d e he
  have hs := (hfn (some d.tables)).all s { d with saved := some d.tables } rfl
  unfold WithTx at he ⊢
  simp only [Store.queries] at he ⊢
  cases hr : (fn s { d with saved := some d.tables }).result with
  | error e' =>
      simp only [hr, hs]
  | ok a =>
      simp only [hr, hs] at he
      cases he

theorem atomic_UpdateTask_rest (src : Source) (U : UnicodeTables) (now : Time)
    (input : UpdateTaskInput) (uid : UUID) :
    Op.Atomic (Op.check (parseUUID input.ID "task id") >>= fun taskID =>
      WithTx (Store.queries src) (updateTaskTx U (Store.queries src) now input uid taskID)) :=
  Op.atomic_check_bind _ _ fun _ =>
    atomic_WithTx src _ fun v => keeps_saved_updateTaskTx src U now input uid _ v

/-- UpdateTask and CreateTask on the store: a run that returns an error leaves the tables
as owner resolution left them. -/
theorem UpdateTask_atomic (src : Source) (U : UnicodeTables) (now : Time)
    (input : UpdateTaskInput) (s : Service) (d : Store) (e : GoError)
    (he : (UpdateTask U (Store.queries src) now input s d).result = .error e) :
    (UpdateTask U (Store.queries src) now input s d).db.tables =
      (ensureDefaultUser (Store.queries src) s d).db.tables := by
  unfold UpdateTask userID at he ⊢
  cases hr : (ensureDefaultUser (Store.queries src) s d).result with
  | error e' => rw [Op.run_bind_error _ _ s d e' hr]
  | ok uid =>
      rw [Op.run_bind_ok _ _ s d uid hr] at he ⊢
      exact (atomic_UpdateTask_rest src U now input uid).all _ _ e he

theorem CreateTask_atomic (src : Source) (U : UnicodeTables) (now : Time)
    (input : CreateTaskInput) (s : Service) (d : Store) (e : GoError)
    (he : (CreateTask U (Store.queries src) now input s d).result = .error e) :
    (CreateTask U (Store.queries src) now input s d).db.tables =
      (ensureDefaultUser (Store.queries src) s d).db.tables := by
  unfold CreateTask userID at he ⊢
  cases hr : (ensureDefaultUser (Store.queries src) s d).result with
  | error e' => rw [Op.run_bind_error _ _ s d e' hr]
  | ok uid =>
      rw [Op.run_bind_ok _ _ s d uid hr] at he ⊢
      refine Op.Atomic.all ?_ _ _ e he
      repeat' first
        | exact atomic_WithTx src _ fun v => keeps_saved_createTaskTx src now input _ _ _ _ _ _ _ v
        | refine Op.atomic_check_bind _ _ ?_
        | refine Op.atomic_checkErr_bind _ _ ?_
        | refine Op.atomic_failIf_bind _ _ _ ?_
        | intro _

/-! ### Owner resolution -/

theorem Tables.withoutUsers_upsertUserByEmail (id : UUID) (now : Time)
    (arg : UpsertUserByEmailParams) (T : Tables) :
    (Tables.upsertUserByEmail id now arg T).2.withoutUsers = T.withoutUsers := by
  unfold Tables.upsertUserByEmail
  split
  · rfl
  · split <;> rfl

/-- Owner resolution on the store changes no table but that of users, and nothing when
the owner id is cached. -/
theorem ensureDefaultUser_tables (src : Source) (s : Service) (d : Store) :
    (ensureDefaultUser (Store.queries src) s d).db.tables.withoutUsers = d.tables.withoutUsers ∧
    (s.defaultUserSet = true → s.defaultUserID ≠ UUID.Nil →
      (ensureDefaultUser (Store.queries src) s d).db.tables = d.tables) := by
  constructor
  · have h : Op.Keeps (fun (d' : Store) => d'.tables.withoutUsers = d.tables.withoutUsers)
        (ensureDefaultUser (Store.queries src)) := by
      simp only [ensureDefaultUser]
      repeat' first
        | exact Op.keeps_ret _ _
        | exact Op.keeps_getService _
        | exact Op.keeps_setService _ _
        | exact keeps_exec_tables src (fun T => T.withoutUsers = d.tables.withoutUsers) _ _ _
            (fun _ _ T hT => (Tables.withoutUsers_upsertUserByEmail _ _ _ T).trans hT)
        | refine Op.keeps_bind _ _ _ ?_ ?_
        | split
        | intro _
    exact h.all s d rfl
  · intro hs hn
    rw [ensureDefaultUser_cached _ s d hs hn]


/-- C12: UpdateTask and CreateTask on the relational store. When the run fetched the
labels for the ids of the request and their number in the store differs from the number of
ids asked for, the operation fails with BadUserInput "one or more labelIds are invalid", and
the store is as before the call: the tables of projects, labels, tasks and task-label links
are those before the call for every state of the service (no link of the request is kept,
the links the task had are there, no field change is kept and no task row is created), and
with the owner id cached, as Bootstrap leaves it before any request is served, every table
is the one before the call. -/
theorem invalid_labels_atomic (src : Source) (U : UnicodeTables) (now : Time) (req : Request)
    (hreq : (∃ input, req = .UpdateTask input) ∨ ∃ input, req = .CreateTask input)
    (s : Service) (d : Store) (arg : GetLabelsByIDsParams)
    (hfetch : (⟨.GetLabelsByIDs arg, none⟩ : Event) ∈
      (perform U (Store.queries src) now req s d).events)
    (hcount : (Tables.ownedLabels arg d.tables).length ≠ arg.Column2.length) :
    (perform U (Store.queries src) now req s d).result =
      .error (NewBadInput "one or more labelIds are invalid") ∧
    (perform U (Store.queries src) now req s d).db.tables =
      (ensureDefaultUser (Store.queries src) s d).db.tables ∧
    (perform U (Store.queries src) now req s d).db.tables.projects = d.tables.projects ∧
    (perform U (Store.queries src) now req s d).db.tables.labels = d.tables.labels ∧
    (perform U (Store.queries src) now req s d).db.tables.tasks = d.tables.tasks ∧
    (perform U (Store.queries src) now req s d).db.tables.taskLabels = d.tables.taskLabels ∧
    (s.defaultUserSet = true → s.defaultUserID ≠ UUID.Nil →
      (perform U (Store.queries src) now req s d).db.tables = d.tables) := by
  have key : ∀ {α : Type} (p : Op Store α),
      p.LabelsChecked →
      (∀ e, (p s d).result = .error e →
        (p s d).db.tables = (ensureDefaultUser (Store.queries src) s d).db.tables) →
      (⟨.GetLabelsByIDs arg, none⟩ : Event) ∈ (p.void s d).events →
      (p.void s d).result = .error (NewBadInput "one or more labelIds are invalid") ∧
      (p.void s d).db.tables = (ensureDefaultUser (Store.queries src) s d).db.tables ∧
      (p.void s d).db.tables.projects = d.tables.projects ∧
      (p.void s d).db.tables.labels = d.tables.labels ∧
      (p.void s d).db.tables.tasks = d.tables.tasks ∧
      (p.void s d).db.tables.taskLabels = d.tables.taskLabels ∧
      (s.defaultUserSet = true → s.defaultUserID ≠ UUID.Nil →
        (p.void s d).db.tables = d.tables) := by
    intro α p hlc hat hev
    have hr := hlc.all s d arg hev hcount
    have ht : (p.void s d).db.tables = (ensureDefaultUser (Store.queries src) s d).db.tables :=
      hat _ hr
    have ho := ensureDefaultUser_tables src s d
    have hw : (p.void s d).db.tables.withoutUsers = d.tables.withoutUsers := by
      rw [ht]; exact ho.1
    have h1 := congrArg Tables.projects hw
    have h2 := congrArg Tables.labels hw
    have h3 := congrArg Tables.tasks hw
    have h4 := congrArg Tables.taskLabels hw
    refine ⟨?_, ht, h1, h2, h3, h4, fun h1 h2 => ?_⟩
    · show (p s d).result.map (fun _ => ()) = _
      rw [hr]; rfl
    · rw [ht]; exact ho.2 h1 h2
  rcases hreq with ⟨input, rfl⟩ | ⟨input, rfl⟩
  · exact key _ (lc_UpdateTask src U now input)
      (fun e he => UpdateTask_atomic src U now input s d e he) hfetch
  · exact key _ (lc_CreateTask src U now input)
      (fun e he => CreateTask_atomic src U now input s d e he) hfetch

/-- C12, an instance: with the owner id cached, the update of a task to a label id that is
no label of the store fails, and the tables are those before the call. -/
theorem invalid_labels_atomic_witness :
    (perform asciiTables (Store.queries Sample.source) Sample.later
      (.UpdateTask (Sample.relabel (some [Sample.idText])))
      (runAll asciiTables (Store.queries Sample.source) Sample.renamed Service.fresh
        Store.empty).1
      (runAll asciiTables (Store.queries Sample.source) Sample.renamed Service.fresh
        Store.empty).2).result =
      .error (GoError.app "BAD_USER_INPUT" "one or more labelIds are invalid") ∧
    (perform asciiTables (Store.queries Sample.source) Sample.later
      (.UpdateTask (Sample.relabel (some [Sample.idText])))
      (runAll asciiTables (Store.queries Sample.source) Sample.renamed Service.fresh
        Store.empty).1
      (runAll asciiTables (Store.queries Sample.source) Sample.renamed Service.fresh
        Store.empty).2).db.tables =
      (runAll asciiTables (Store.queries Sample.source) Sample.renamed Service.fresh
        Store.empty).2.tables :=
  have h := invalid_labels_atomic Sample.source asciiTables Sample.later
    (.UpdateTask (Sample.relabel (some [Sample.idText]))) (Or.inl ⟨_, rfl⟩)
    (runAll asciiTables (Store.queries Sample.source) Sample.renamed Service.fresh Store.empty).1
    (runAll asciiTables (Store.queries Sample.source) Sample.renamed Service.fresh Store.empty).2
    ⟨toPgUUID (Sample.source.uuid 0), [toPgUUID Sample.id]⟩ (by decide) (by decide)
  ⟨h.1, h.2.2.2.2.2.2 (by decide) (by decide)⟩


/-! ## The label set of a task on the store -/

theorem parseUUIDList_nodup (ids : List String) (field : String) (out : List UUID)
    (h : parseUUIDList ids field = .ok out) : out.Nodup := by
  rcases all_ok_or_first_error (fun raw => parseUUID raw field) ids with
    ⟨vs, hvs⟩ | ⟨pre, x, post, e, hl, hpre, hx⟩
  · rw [parseUUIDList_ok field ids vs hvs] at h
    cases h
    exact keepFirst_nodup vs
  · rw [hl, parseUUIDList_first field pre x post e hpre hx] at h
    cases h

theorem toPgUUID_injective : Function.Injective toPgUUID := by
  intro a b h
  have := congrArg PgUUID.Bytes h
  exact this

theorem Tables.labelsOf_deleteTaskLabelsForTask (t : PgUUID) (T : Tables) :
    Tables.labelsOf (Tables.deleteTaskLabelsForTask t T).2 t = [] := by
  simp [Tables.labelsOf, Tables.deleteTaskLabelsForTask, List.filter_filter]

theorem Tables.mem_labelsOf (T : Tables) (t id : PgUUID) :
    id ∈ Tables.labelsOf T t ↔ (⟨t, id⟩ : InsertTaskLabelParams) ∈ T.taskLabels := by
  simp only [Tables.labelsOf, List.mem_map, List.mem_filter, beq_iff_eq]
  constructor
  · rintro ⟨r, ⟨hr, ht⟩, hid⟩
    cases r
    simp only at ht hid
    subst ht hid
    exact hr
  · intro h
    exact ⟨_, ⟨h, rfl⟩, rfl⟩

theorem Tables.labelsOf_insertTaskLabel (T : Tables) (t id : PgUUID)
    (h : id ∉ Tables.labelsOf T t) :
    Tables.labelsOf (Tables.insertTaskLabel ⟨t, id⟩ T).2 t = Tables.labelsOf T t ++ [id] := by
  have hn : (⟨t, id⟩ : InsertTaskLabelParams) ∉ T.taskLabels :=
    fun hm => h ((Tables.mem_labelsOf T t id).2 hm)
  unfold Tables.insertTaskLabel
  rw [if_neg (by simpa using hn)]
  simp [Tables.labelsOf, List.filter_append]

theorem Tables.insertTaskLabel_ok (arg : InsertTaskLabelParams) (T : Tables) :
    (Tables.insertTaskLabel arg T).1 = .ok () := by
  unfold Tables.insertTaskLabel
  split <;> rfl

/-- The loop that inserts the links succeeds on the store. -/
theorem insertTaskLabels_store_ok (src : Source) (taskID : UUID) (ids : List PgUUID)
    (s : Service) (d : Store) :
    (insertTaskLabels (Store.queries src) taskID ids s d).result = .ok () := by
  induction ids generalizing d with
  | nil => rfl
  | cons id rest ih =>
      unfold insertTaskLabels
      rcases run_exec_cases (.InsertTaskLabel ⟨toPgUUID taskID, id⟩)
          ((Store.queries src).InsertTaskLabel ⟨toPgUUID taskID, id⟩)
          "failed to attach labels" s d with ⟨row, _, hr⟩ | ⟨e, he, _⟩
      · rw [Op.run_bind_ok _ _ s d row (by rw [hr])]
        rw [hr]
        exact ih _
      · have h0 := Tables.insertTaskLabel_ok ⟨toPgUUID taskID, id⟩ d.tables
        have h1 : ((Store.queries src).InsertTaskLabel ⟨toPgUUID taskID, id⟩ d).1 =
            (Tables.insertTaskLabel ⟨toPgUUID taskID, id⟩ d.tables).1 := rfl
        rw [h1, h0] at he
        cases he

/-- The loop that inserts the links appends the ids to the labels of the task, when they
are distinct and none is linked yet. -/
theorem insertTaskLabels_store_labels (src : Source) (taskID : UUID) (ids : List PgUUID)
    (s : Service) (d : Store) (hn : ids.Nodup)
    (hnew : ∀ id ∈ ids, id ∉ Tables.labelsOf d.tables (toPgUUID taskID)) :
    Tables.labelsOf (insertTaskLabels (Store.queries src) taskID ids s d).db.tables
      (toPgUUID taskID) = Tables.labelsOf d.tables (toPgUUID taskID) ++ ids := by
  induction ids generalizing d with
  | nil => simp [insertTaskLabels, Op.ret]
  | cons id rest ih =>
      unfold insertTaskLabels
      have hstep : Tables.labelsOf
          ((Store.queries src).InsertTaskLabel ⟨toPgUUID taskID, id⟩ d).2.tables
          (toPgUUID taskID) = Tables.labelsOf d.tables (toPgUUID taskID) ++ [id] :=
        Tables.labelsOf_insertTaskLabel d.tables (toPgUUID taskID) id
          (hnew id (List.mem_cons_self _ _))
      rcases run_exec_cases (.InsertTaskLabel ⟨toPgUUID taskID, id⟩)
          ((Store.queries src).InsertTaskLabel ⟨toPgUUID taskID, id⟩)
          "failed to attach labels" s d with ⟨row, _, hr⟩ | ⟨e, he, _⟩
      · rw [Op.run_bind_ok _ _ s d row (by rw [hr])]
        rw [hr]
        dsimp only
        rw [ih _ (List.nodup_cons.1 hn).2, hstep]
        · simp
        · intro x hx
          rw [hstep]
          simp only [List.mem_append, List.mem_singleton, not_or]
          refine ⟨hnew x (List.mem_cons_of_mem _ hx), ?_⟩
          rintro rfl
          exact (List.nodup_cons.1 hn).1 hx
      · have h0 := Tables.insertTaskLabel_ok ⟨toPgUUID taskID, id⟩ d.tables
        have h1 : ((Store.queries src).InsertTaskLabel ⟨toPgUUID taskID, id⟩ d).1 =
            (Tables.insertTaskLabel ⟨toPgUUID taskID, id⟩ d.tables).1 := rfl
        rw [h1, h0] at he
        cases he

/-- The run of `replaceTaskLabels` on the store: it succeeds exactly when every id asked
for is one label of the owner, and then the labels of the task are the ids, when these are
distinct. -/
theorem replaceTaskLabels_store (src : Source) (uid taskID : UUID) (L : List UUID)
    (s : Service) (d : Store) :
    ((replaceTaskLabels (Store.queries src) uid taskID L s d).result = .ok () ↔
      (Tables.ownedLabels ⟨toPgUUID uid, L.map toPgUUID⟩ d.tables).length = L.length) ∧
    ((replaceTaskLabels (Store.queries src) uid taskID L s d).result = .ok () → L.Nodup →
      Tables.labelsOf (replaceTaskLabels (Store.queries src) uid taskID L s d).db.tables
        (toPgUUID taskID) = L.map toPgUUID) := by
  have hdel : exec (.DeleteTaskLabelsForTask (toPgUUID taskID))
      ((Store.queries src).DeleteTaskLabelsForTask (toPgUUID taskID))
      "failed to reset task labels" s d =
      ⟨.ok (), s, ((Store.queries src).DeleteTaskLabelsForTask (toPgUUID taskID) d).2,
        [⟨.DeleteTaskLabelsForTask (toPgUUID taskID), none⟩]⟩ := by
    rcases run_exec_cases (.DeleteTaskLabelsForTask (toPgUUID taskID))
        ((Store.queries src).DeleteTaskLabelsForTask (toPgUUID taskID))
        "failed to reset task labels" s d with ⟨row, _, hr⟩ | ⟨e, he, _⟩
    · exact hr
    · cases he
  have hlab0 : Tables.labelsOf
      ((Store.queries src).DeleteTaskLabelsForTask (toPgUUID taskID) d).2.tables
      (toPgUUID taskID) = [] :=
    Tables.labelsOf_deleteTaskLabelsForTask (toPgUUID taskID) d.tables
  unfold replaceTaskLabels
  rw [Op.run_bind_ok _ _ s d () (by rw [hdel])]
  rw [hdel]
  dsimp only
  by_cases hL : L.length = 0
  · rw [if_pos hL]
    have hnil : L = [] := List.length_eq_zero.1 hL
    subst hnil
    refine ⟨⟨fun _ => ?_, fun _ => rfl⟩, fun _ _ => hlab0⟩
    simp [Tables.ownedLabels]
  · rw [if_neg hL]
    have hget : exec (.GetLabelsByIDs ⟨toPgUUID uid, L.map toPgUUID⟩)
        ((Store.queries src).GetLabelsByIDs ⟨toPgUUID uid, L.map toPgUUID⟩)
        "failed to validate labels" s
        ((Store.queries src).DeleteTaskLabelsForTask (toPgUUID taskID) d).2 =
        ⟨.ok (Tables.ownedLabels ⟨toPgUUID uid, L.map toPgUUID⟩ d.tables), s,
          ((Store.queries src).GetLabelsByIDs ⟨toPgUUID uid, L.map toPgUUID⟩
            ((Store.queries src).DeleteTaskLabelsForTask (toPgUUID taskID) d).2).2,
          [⟨.GetLabelsByIDs ⟨toPgUUID uid, L.map toPgUUID⟩, none⟩]⟩ := by
      rcases run_exec_cases (.GetLabelsByIDs ⟨toPgUUID uid, L.map toPgUUID⟩)
          ((Store.queries src).GetLabelsByIDs ⟨toPgUUID uid, L.map toPgUUID⟩)
          "failed to validate labels" s
          ((Store.queries src).DeleteTaskLabelsForTask (toPgUUID taskID) d).2 with
        ⟨row, h1, hr⟩ | ⟨e, he, _⟩
      · cases h1
        exact hr
      · cases he
    have hlab1 : Tables.labelsOf
        ((Store.queries src).GetLabelsByIDs ⟨toPgUUID uid, L.map toPgUUID⟩
          ((Store.queries src).DeleteTaskLabelsForTask (toPgUUID taskID) d).2).2.tables
        (toPgUUID taskID) = [] := hlab0
    rw [Op.run_bind_ok _ _ _ _ _ (by rw [hget])]
    rw [hget]
    dsimp only
    by_cases hc : (Tables.ownedLabels ⟨toPgUUID uid, L.map toPgUUID⟩ d.tables).length =
        L.length
    · have hc' : ¬ (Tables.ownedLabels ⟨toPgUUID uid, L.map toPgUUID⟩ d.tables).length ≠
          (L.map toPgUUID).length := by simpa using hc
      rw [Op.run_bind_ok _ _ _ _ ()
        (by rw [Op.run_failIf_neg _ _ _ _ hc'])]
      rw [Op.run_failIf_neg _ _ _ _ hc']
      dsimp only
      refine ⟨⟨fun _ => hc, fun _ => insertTaskLabels_store_ok src taskID _ _ _⟩, ?_⟩
      intro _ hn
      rw [insertTaskLabels_store_labels src taskID _ _ _ (hn.map toPgUUID_injective)
        (by intro id _; rw [hlab1]; simp), hlab1]
      rfl
    · have hc' : (Tables.ownedLabels ⟨toPgUUID uid, L.map toPgUUID⟩ d.tables).length ≠
          (L.map toPgUUID).length := by simpa using hc
      rw [Op.run_bind_error _ _ _ _ _
        (by rw [Op.run_failIf_pos _ _ _ _ hc'])]
      rw [Op.run_failIf_pos _ _ _ _ hc']
      dsimp only
      refine ⟨⟨fun h => ?_, fun h => absurd h hc⟩, fun h => ?_⟩ <;> cases h

/-- A transaction on the store that succeeds ends with the tables its unit of work
left. -/
theorem WithTx_store_ok {α : Type} (src : Source) (fn : Op Store α)
    (hfn : ∀ v, Op.Keeps (fun (d : Store) => d.saved = v) fn) (s : Service) (d : Store) (a : α)
    (h : (WithTx (Store.queries src) fn s d).result = .ok a) :
    (fn s { d with saved := some d.tables }).result = .ok a ∧
    (WithTx (Store.queries src) fn s d).db.tables =
      (fn s { d with saved := some d.tables }).db.tables := by
  have hs := (hfn (some d.tables)).all s { d with saved := some d.tables } rfl
  unfold WithTx at h ⊢
  simp only [Store.queries] at h ⊢
  cases hr : (fn s { d with saved := some d.tables }).result with
  | error e =>
      simp only [hr, hs] at h
      cases h
  | ok b =>
      simp only [hr, hs] at h ⊢
      cases h
      constructor <;> first | rfl | trivial

theorem triple_updateLabels_some (src : Source) (uid taskID : UUID) (ids : List String)
    (L : List UUID) (hp : parseUUIDList ids "labelIds" = .ok L) :
    Op.Triple (fun (_ : Store) => True)
      (updateLabels (Store.queries src) uid taskID (some ids))
      (fun _ db => Tables.labelsOf db.tables (toPgUUID taskID) = L.map toPgUUID)
      (fun _ => True) := by
  have hn := parseUUIDList_nodup ids "labelIds" L hp
  simp only [updateLabels, hp]
  refine Op.triple_bind _ _ _ (fun l _ => l = L) _ _
    (Op.triple_check _ _ _ _ (fun a ha _ _ => (Except.ok.inj ha).symm) fun _ _ => trivial) ?_
  intro l
  refine ⟨?_, fun _ _ _ _ _ => trivial⟩
  intro s d a hl h
  subst hl
  exact (replaceTaskLabels_store src uid taskID l s d).2 h hn

theorem triple_updateTaskTx_labels (src : Source) (U : UnicodeTables) (now : Time)
    (input : UpdateTaskInput) (uid taskID : UUID) (ids : List String) (L : List UUID)
    (hl : input.LabelIDs = some ids) (hp : parseUUIDList ids "labelIds" = .ok L) :
    Op.Triple (fun (_ : Store) => True)
      (updateTaskTx U (Store.queries src) now input uid taskID)
      (fun _ db => Tables.labelsOf db.tables (toPgUUID taskID) = L.map toPgUUID)
      (fun _ => True) := by
  unfold updateTaskTx
  rw [hl]
  have step : ∀ {α : Type} (p : Op Store α),
      Op.Triple (fun (_ : Store) => True) p (fun _ _ => True) (fun _ => True) :=
    fun p => ⟨fun _ _ _ _ _ => trivial, fun _ _ _ _ _ => trivial⟩
  refine Op.triple_bind _ _ _ (fun _ _ => True) _ _ (step _) fun existing => ?_
  refine Op.triple_bind _ _ _ (fun _ _ => True) _ _ (step _) fun title => ?_
  refine Op.triple_bind _ _ _ (fun _ _ => True) _ _ (step _) fun status => ?_
  refine Op.triple_bind _ _ _ (fun _ _ => True) _ _ (step _) fun priority => ?_
  refine Op.triple_bind _ _ _ (fun _ _ => True) _ _ (step _) fun _ => ?_
  refine Op.triple_bind _ _ _ (fun _ _ => True) _ _ (step _) fun updated => ?_
  refine Op.triple_bind _ _ _
    (fun _ db => Tables.labelsOf db.tables (toPgUUID taskID) = L.map toPgUUID) _ _
    (triple_updateLabels_some src uid taskID ids L hp) fun _ => ?_
  exact Op.triple_ret _ _ _ _ fun _ h => h

/-- UpdateTask on the store, with a list of label ids: a run that succeeds leaves the task
with the ids of the list, duplicates dropped, as its labels. -/
theorem UpdateTask_store_labels (src : Source) (U : UnicodeTables) (now : Time)
    (input : UpdateTaskInput) (s : Service) (d : Store) (row : Task) (taskID : UUID)
    (ids : List String) (L : List UUID) (hl : input.LabelIDs = some ids)
    (hp : parseUUIDList ids "labelIds" = .ok L)
    (hid : parseUUID input.ID "task id" = .ok taskID)
    (hok : (UpdateTask U (Store.queries src) now input s d).result = .ok row) :
    Tables.labelsOf (UpdateTask U (Store.queries src) now input s d).db.tables
      (toPgUUID taskID) = L.map toPgUUID := by
  unfold UpdateTask userID at hok ⊢
  cases hr : (ensureDefaultUser (Store.queries src) s d).result with
  | error e =>
      rw [Op.run_bind_error _ _ s d e hr] at hok
      cases hok
  | ok uid =>
      rw [Op.run_bind_ok _ _ s d uid hr] at hok ⊢
      rw [hid] at hok ⊢
      rw [Op.run_bind_ok _ _ _ _ taskID rfl] at hok ⊢
      dsimp only at hok ⊢
      obtain ⟨h1, h2⟩ := WithTx_store_ok src _
        (fun v => keeps_saved_updateTaskTx src U now input uid taskID v) _ _ row hok
      rw [h2]
      exact (triple_updateTaskTx_labels src U now input uid taskID ids L hl hp).ok _ _ row
        trivial h1

/-- UpdateTask without a list of label ids issues no call that deletes or inserts links
between tasks and labels. -/
theorem issues_UpdateTask_nil {σ : Type} (U : UnicodeTables) (Q : Queries σ) (now : Time)
    (input : UpdateTaskInput) (hl : input.LabelIDs = none) :
    Op.Issues (UpdateTask U Q now input) (fun ev => ev.call.writesTaskLabels = false) := by
  unfold UpdateTask userID
  refine Op.issues_bind _ _ _ (issues_ensureDefaultUser Q _ fun _ _ => rfl) fun uid => ?_
  refine Op.issues_bind _ _ _ (Op.issues_check _ _) fun taskID => ?_
  refine issues_WithTx Q _ _ (fun _ => rfl) (fun _ => rfl) (fun _ => rfl) ?_
  unfold updateTaskTx
  rw [hl]
  simp only [updateLabels]
  repeat' first
    | exact Op.issues_ret _ _
    | exact Op.issues_check _ _
    | exact Op.issues_checkErr _ _
    | exact Op.issues_exec _ _ _ _ fun _ => rfl
    | refine Op.issues_bind _ _ _ ?_ ?_
    | intro _

/-- Distinct ids that are each a label of the owner are fetched in full, when the ids of
the labels table are distinct. -/
theorem Tables.ownedLabels_length (T : Tables) (owner : PgUUID) (ids : List PgUUID)
    (hn : ids.Nodup) (hkey : (T.labels.map fun l => l.ID).Nodup)
    (hall : ∀ id ∈ ids, ∃ l ∈ T.labels, l.ID = id ∧ l.UserID = owner ∧
      Tables.live l.DeletedAt = true) :
    (Tables.ownedLabels ⟨owner, ids⟩ T).length = ids.length := by
  have hlen : (Tables.ownedLabels ⟨owner, ids⟩ T).length =
      ((Tables.ownedLabels ⟨owner, ids⟩ T).map fun l => l.ID).length := by simp
  have hM : ((Tables.ownedLabels ⟨owner, ids⟩ T).map fun l => l.ID).Nodup :=
    hkey.sublist ((List.filter_sublist _).map _)
  have h1 : ((Tables.ownedLabels ⟨owner, ids⟩ T).map fun l => l.ID) ⊆ ids := by
    intro x hx
    obtain ⟨l, hl, rfl⟩ := List.mem_map.1 hx
    have := (List.mem_filter.1 hl).2
    simp only [Bool.and_eq_true] at this
    simpa using this.2
  have h2 : ids ⊆ ((Tables.ownedLabels ⟨owner, ids⟩ T).map fun l => l.ID) := by
    intro x hx
    obtain ⟨l, hl, hid, hu, hlive⟩ := hall x hx
    refine List.mem_map.2 ⟨l, List.mem_filter.2 ⟨hl, ?_⟩, hid⟩
    simp [hu, hlive, hid, hx]
  rw [hlen]
  exact Nat.le_antisymm (List.subperm_of_subset hM h1).length_le
    (List.subperm_of_subset hn h2).length_le


/-- C13: on the relational store, `replaceTaskLabels` for a list `L` of label ids succeeds
exactly when the labels of the owner fetched for `L` are as many as `L`, which is so when
the ids of `L` are distinct and each is a label of the owner that is not deleted; a run
that succeeds with `L` distinct leaves the task with exactly the labels of `L`, in the
order of `L`, whatever its labels were before, and with none when `L` is empty. UpdateTask
with `labelIds` nil issues no call that deletes or inserts links between tasks and labels,
on any storage; a run of UpdateTask with a list that succeeds leaves the task with the ids of the
list, and with no label when the list is empty. -/
theorem replaceTaskLabels_spec (src : Source) (U : UnicodeTables) (now : Time) :
    (∀ (uid taskID : UUID) (L : List UUID) (s : Service) (d : Store),
      ((replaceTaskLabels (Store.queries src) uid taskID L s d).result = .ok () ↔
        (Tables.ownedLabels ⟨toPgUUID uid, L.map toPgUUID⟩ d.tables).length = L.length) ∧
      (L.Nodup → (d.tables.labels.map fun l => l.ID).Nodup →
        (∀ id ∈ L, ∃ l ∈ d.tables.labels, l.ID = toPgUUID id ∧ l.UserID = toPgUUID uid ∧
          l.DeletedAt.Valid = false) →
        (replaceTaskLabels (Store.queries src) uid taskID L s d).result = .ok ()) ∧
      ((replaceTaskLabels (Store.queries src) uid taskID L s d).result = .ok () → L.Nodup →
        Tables.labelsOf (replaceTaskLabels (Store.queries src) uid taskID L s d).db.tables
          (toPgUUID taskID) = L.map toPgUUID) ∧
      (L = [] →
        (replaceTaskLabels (Store.queries src) uid taskID L s d).result = .ok () ∧
        Tables.labelsOf (replaceTaskLabels (Store.queries src) uid taskID L s d).db.tables
          (toPgUUID taskID) = [])) ∧
    (∀ (σ : Type) (Q : Queries σ) (input : UpdateTaskInput) (s : Service) (d : σ),
      input.LabelIDs = none →
      ∀ ev ∈ (UpdateTask U Q now input s d).events, ev.call.writesTaskLabels = false) ∧
    (∀ (input : UpdateTaskInput) (s : Service) (d : Store) (taskID : UUID)
      (ids : List String) (L : List UUID),
      input.LabelIDs = some ids → parseUUIDList ids "labelIds" = .ok L →
      parseUUID input.ID "task id" = .ok taskID →
      (UpdateTask U (Store.queries src) now input s d).result.toBool = true →
      Tables.labelsOf (UpdateTask U (Store.queries src) now input s d).db.tables
        (toPgUUID taskID) = L.map toPgUUID) ∧
    (∀ (input : UpdateTaskInput) (s : Service) (d : Store) (taskID : UUID),
      input.LabelIDs = some [] → parseUUID input.ID "task id" = .ok taskID →
      (UpdateTask U (Store.queries src) now input s d).result.toBool = true →
      Tables.labelsOf (UpdateTask U (Store.queries src) now input s d).db.tables
        (toPgUUID taskID) = []) := by
  refine ⟨?_, ?_, ?_, ?_⟩
  · intro uid taskID L s d
    have h := replaceTaskLabels_store src uid taskID L s d
    refine ⟨h.1, ?_, h.2, ?_⟩
    · intro hn hkey hall
      refine h.1.2 ?_
      have := Tables.ownedLabels_length d.tables (toPgUUID uid) (L.map toPgUUID)
        (hn.map toPgUUID_injective) hkey (by
          intro id hid
          obtain ⟨x, hx, rfl⟩ := List.mem_map.1 hid
          obtain ⟨l, hl, h1, h2, h3⟩ := hall x hx
          exact ⟨l, hl, h1, h2, by simp [Tables.live, h3]⟩)
      simpa using this
    · rintro rfl
      have hok : (replaceTaskLabels (Store.queries src) uid taskID [] s d).result = .ok () :=
        h.1.2 (by simp [Tables.ownedLabels])
      exact ⟨hok, h.2 hok List.nodup_nil⟩
  · intro σ Q input s d hl
    exact (issues_UpdateTask_nil U Q now input hl).all s d
  · intro input s d taskID ids L hl hp hid hok
    cases hr : (UpdateTask U (Store.queries src) now input s d).result with
    | error e => rw [hr] at hok; cases hok
    | ok row => exact UpdateTask_store_labels src U now input s d row taskID ids L hl hp hid hr
  · intro input s d taskID hl hid hok
    cases hr : (UpdateTask U (Store.queries src) now input s d).result with
    | error e => rw [hr] at hok; cases hok
    | ok row => exact UpdateTask_store_labels src U now input s d row taskID [] [] hl rfl hid hr

/-- C13, instances on a store with a task and the labels 05 and 06: replacing the labels
of the task by 06 and 05 succeeds and leaves it with these two, in this order; an update
without a list issues no call that writes links; the update to the empty list succeeds and
leaves the task without labels. -/
theorem replaceTaskLabels_spec_witness :
    Tables.labelsOf
      (replaceTaskLabels (Store.queries Sample.source) (Sample.source.uuid 0)
        (Sample.source.uuid 3) [Sample.source.uuid 6, Sample.source.uuid 5]
        (runAll asciiTables (Store.queries Sample.source) Sample.labelled Service.fresh
          Store.empty).1
        (runAll asciiTables (Store.queries Sample.source) Sample.labelled Service.fresh
          Store.empty).2).db.tables
      (toPgUUID (Sample.source.uuid 3)) =
      [Sample.source.uuid 6, Sample.source.uuid 5].map toPgUUID ∧
    (∀ (s : Service) (d : Store),
      ∀ ev ∈ (UpdateTask asciiTables (Store.queries Sample.source) Sample.later
        (Sample.relabel none) s d).events, ev.call.writesTaskLabels = false) ∧
    Tables.labelsOf
      (UpdateTask asciiTables (Store.queries Sample.source) Sample.later
        (Sample.relabel (some []))
        (runAll asciiTables (Store.queries Sample.source) Sample.labelled Service.fresh
          Store.empty).1
        (runAll asciiTables (Store.queries Sample.source) Sample.labelled Service.fresh
          Store.empty).2).db.tables
      (toPgUUID (Sample.source.uuid 3)) = [] :=
  ⟨((replaceTaskLabels_spec Sample.source asciiTables Sample.later).1
      (Sample.source.uuid 0) (Sample.source.uuid 3)
      [Sample.source.uuid 6, Sample.source.uuid 5]
      (runAll asciiTables (Store.queries Sample.source) Sample.labelled Service.fresh
        Store.empty).1
      (runAll asciiTables (Store.queries Sample.source) Sample.labelled Service.fresh
        Store.empty).2).2.2.1 (by decide) (by decide),
    fun s d => (replaceTaskLabels_spec Sample.source asciiTables Sample.later).2.1 Store
      (Store.queries Sample.source) (Sample.relabel none) s d rfl,
    (replaceTaskLabels_spec Sample.source asciiTables Sample.later).2.2.2
      (Sample.relabel (some []))
      (runAll asciiTables (Store.queries Sample.source) Sample.labelled Service.fresh
        Store.empty).1
      (runAll asciiTables (Store.queries Sample.source) Sample.labelled Service.fresh
        Store.empty).2
      (Sample.source.uuid 3) rfl (by decide) (by decide)⟩


/-! ## What a caller sees of an error -/

/-- C24: for an `AppError`, `asGraphQLError` returns the message and the code of the error,
whatever cause it wraps, so two errors with the same code and message and different causes
(or none) give the same result; for an error that is no `AppError` it returns "internal
server error" with the code INTERNAL, whatever the error is; nil is kept. -/
theorem asGraphQLError_hides_cause (code : ErrorCode) (msg : String) (c1 c2 : GoError)
    (e1 e2 : StorageError) :
    asGraphQLError (some (.appWrap code msg c1)) = some ⟨msg, code⟩ ∧
    asGraphQLError (some (.app code msg)) = some ⟨msg, code⟩ ∧
    asGraphQLError (some (.appWrap code msg c1)) = asGraphQLError (some (.appWrap code msg c2)) ∧
    asGraphQLError (some (.appWrap code msg c1)) = asGraphQLError (some (.app code msg)) ∧
    (∀ cause, asGraphQLError (some (mkAppError code msg cause)) = some ⟨msg, code⟩) ∧
    asGraphQLError (some (.storage e1)) = some ⟨"internal server error", "INTERNAL"⟩ ∧
    asGraphQLError (some (.storage e1)) = asGraphQLError (some (.storage e2)) ∧
    asGraphQLError none = none := by
  refine ⟨rfl, rfl, rfl, rfl, ?_, rfl, rfl, rfl⟩
  intro cause
  cases cause <;> rfl


/-! ## The message for a value outside the enumeration -/

/-- The text `%q` writes for a string of printable characters without quote and backslash
is the string between quotes. -/
theorem Quote_plain (U : UnicodeTables) (u : String)
    (h : ∀ c ∈ u.toList, IsPrint U c = true ∧ c ≠ '"' ∧ c ≠ '\\') :
    (Quote U u).toList = '"' :: (u.toList ++ ['"']) := by
  have hflat : ∀ l : List Char, (∀ c ∈ l, IsPrint U c = true ∧ c ≠ '"' ∧ c ≠ '\\') →
      l.flatMap (escapedRune U) = l := by
    intro l
    induction l with
    | nil => intro _; rfl
    | cons c cs ih =>
        intro hl
        have hc := hl c (List.mem_cons_self _ _)
        have hcs := ih fun x hx => hl x (List.mem_cons_of_mem _ hx)
        have he : escapedRune U c = [c] := by
          unfold escapedRune
          simp [hc.1, hc.2.1, hc.2.2]
        simp [List.flatMap_cons, he, hcs]
  unfold Quote
  show '"' :: (u.toList.flatMap (escapedRune U) ++ ['"']) = _
  rw [hflat u.toList h]

theorem infix_of_quoted (pre : String) (U : UnicodeTables) (u : String)
    (h : ∀ c ∈ u.toList, IsPrint U c = true ∧ c ≠ '"' ∧ c ≠ '\\') :
    u.toList <:+: (pre ++ Quote U u).toList := by
  have h1 : (pre ++ Quote U u).toList = pre.toList ++ (Quote U u).toList :=
    String.data_append pre (Quote U u)
  rw [h1, Quote_plain U u h]
  exact ⟨pre.toList ++ ['"'], ['"'], by simp⟩

/-- C25 (amended): for an input whose upper-cased, trimmed form `u` is not empty and not
in the enumerated set, `normalizeStatus` and `normalizePriority` fail with BAD_USER_INPUT
and the message `invalid status ` or `invalid priority ` followed by `u` as the verb `%q`
writes it; the message contains `u` as a substring when every character of `u` is
printable and none is a quote or a backslash. -/
theorem invalid_value_message (U : UnicodeTables) (v : String)
    (hne : TrimSpace (ToUpper U v) ≠ "") :
    (TrimSpace (ToUpper U v) ∉ validStatuses →
      normalizeStatus U v = .error (GoError.app "BAD_USER_INPUT"
        ("invalid status " ++ Quote U (TrimSpace (ToUpper U v)))) ∧
      ((∀ c ∈ (TrimSpace (ToUpper U v)).toList, IsPrint U c = true ∧ c ≠ '"' ∧ c ≠ '\\') →
        (TrimSpace (ToUpper U v)).toList <:+:
          ("invalid status " ++ Quote U (TrimSpace (ToUpper U v))).toList)) ∧
    (TrimSpace (ToUpper U v) ∉ validPriorities →
      normalizePriority U v = .error (GoError.app "BAD_USER_INPUT"
        ("invalid priority " ++ Quote U (TrimSpace (ToUpper U v)))) ∧
      ((∀ c ∈ (TrimSpace (ToUpper U v)).toList, IsPrint U c = true ∧ c ≠ '"' ∧ c ≠ '\\') →
        (TrimSpace (ToUpper U v)).toList <:+:
          ("invalid priority " ++ Quote U (TrimSpace (ToUpper U v))).toList)) := by
  constructor
  · intro hv
    refine ⟨?_, infix_of_quoted _ U _⟩
    unfold normalizeStatus
    simp only [hne, hv, if_false, not_false_eq_true, if_true]
    rfl
  · intro hv
    refine ⟨?_, infix_of_quoted _ U _⟩
    unfold normalizePriority
    simp only [hne, hv, if_false, not_false_eq_true, if_true]
    rfl

/-- C25, instances: the status ` urgent ` and the priority `p9` are rejected with messages
that contain `URGENT` and `P9`. -/
theorem invalid_value_message_witness :
    normalizeStatus asciiTables " urgent " =
      .error (GoError.app "BAD_USER_INPUT" "invalid status \"URGENT\"") ∧
    "URGENT".toList <:+: "invalid status \"URGENT\"".toList ∧
    normalizePriority asciiTables "p9" =
      .error (GoError.app "BAD_USER_INPUT" "invalid priority \"P9\"") ∧
    "P9".toList <:+: "invalid priority \"P9\"".toList :=
  have h1 := (invalid_value_message asciiTables " urgent " (by decide)).1 (by decide)
  have h2 := (invalid_value_message asciiTables "p9" (by decide)).2 (by decide)
  ⟨h1.1, h1.2 (by decide), h2.1, h2.2 (by decide)⟩

/-- C25, where the sentence fails: the value `A"B` is rejected with the message
`invalid status "A\"B"`, in which the quote is escaped, so the value is no substring of the
message; likewise a value with a backslash and a value with a tab. -/
theorem invalid_value_escaped :
    normalizeStatus asciiTables "A\"B" =
      .error (GoError.app "BAD_USER_INPUT" "invalid status \"A\\\"B\"") ∧
    ¬ "A\"B".toList <:+: "invalid status \"A\\\"B\"".toList ∧
    normalizePriority asciiTables "P\\1" =
      .error (GoError.app "BAD_USER_INPUT" "invalid priority \"P\\\\1\"") ∧
    ¬ "P\\1".toList <:+: "invalid priority \"P\\\\1\"".toList ∧
    normalizeStatus asciiTables "TO\tDO" =
      .error (GoError.app "BAD_USER_INPUT" "invalid status \"TO\\tDO\"") ∧
    ¬ "TO\tDO".toList <:+: "invalid status \"TO\\tDO\"".toList := by
  decide


/-! ## Page sizes are safe -/

/-- With a limit from 1 to `m`, `paginateRows` does not slice out of range and returns the
first `limit` rows, or all rows when there are fewer. -/
theorem paginateRows_safe {T : Type} (rows : List T) (limit m : Int) (cursorFn : T → String)
    (h1 : 1 ≤ limit) (h2 : limit ≤ m) :
    ∃ page, paginateRows rows limit cursorFn = some page ∧
      page.Items = rows.take limit.toNat ∧
      page.Items.length = min rows.length limit.toNat ∧
      page.Items <+: rows ∧ (page.Items.length : Int) ≤ m := by
  have hlen : (rows.take limit.toNat).length = min rows.length limit.toNat := by
    rw [List.length_take, Nat.min_comm]
  have hm : ((rows.take limit.toNat).length : Int) ≤ m := by
    rw [hlen]
    have : (min rows.length limit.toNat : Int) ≤ (limit.toNat : Int) := by
      exact_mod_cast Nat.min_le_right _ _
    have h3 : (limit.toNat : Int) = limit := Int.toNat_of_nonneg (by omega)
    omega
  by_cases hgt : (rows.length : Int) > limit
  · have hneg : ¬ limit < 0 := by omega
    exact ⟨PageResult.mk (rows.take limit.toNat)
      ((rows.take limit.toNat).getLast?.map cursorFn) true,
      by simp only [paginateRows, hgt, if_true, hneg, if_false], rfl, hlen,
      List.take_prefix _ _, hm⟩
  · have hall : rows.take limit.toNat = rows := by
      apply List.take_of_length_le
      have h3 : (limit.toNat : Int) = limit := Int.toNat_of_nonneg (by omega)
      omega
    refine ⟨PageResult.mk rows (rows.getLast?.map cursorFn) false,
      by simp only [paginateRows, hgt, if_false], hall.symm, ?_, List.prefix_refl _, ?_⟩
    · show rows.length = _
      rw [← hlen, hall]
    · show (rows.length : Int) ≤ m
      rw [← hall]; exact hm

/-- C29: for every `first`, the limit of ListProjects, ListLabels and ListTasks lies between
1 and the maximum (100, 200, 100), so the conversion of `limit + 1` to `int32` keeps its
value; with such a limit `paginateRows` does not slice out of range, and the page is the
first `limit` rows, or all rows when there are fewer: its length is the minimum of the
number of rows and the limit, it is a prefix of the rows and has at most the maximum of
items. So every page the three operations return exists and has at most 100, 200 and 100
items. -/
theorem page_size_safe {σ T : Type} (U : UnicodeTables) (Q : Queries σ) (first : Int)
    (after : Option String) (projectID : String) (parentTaskID : Option String)
    (statuses priorities : List String) (rows : List T) (cursorFn : T → String) :
    (1 ≤ normalizePageSize first 20 100 ∧ normalizePageSize first 20 100 ≤ 100) ∧
    (1 ≤ normalizePageSize first 50 200 ∧ normalizePageSize first 50 200 ≤ 200) ∧
    toInt32 (normalizePageSize first 20 100 + 1) = normalizePageSize first 20 100 + 1 ∧
    toInt32 (normalizePageSize first 50 200 + 1) = normalizePageSize first 50 200 + 1 ∧
    (∃ page, paginateRows rows (normalizePageSize first 20 100) cursorFn = some page ∧
      page.Items = rows.take (normalizePageSize first 20 100).toNat ∧
      page.Items.length = min rows.length (normalizePageSize first 20 100).toNat ∧
      page.Items <+: rows ∧ page.Items.length ≤ 100) ∧
    (∃ page, paginateRows rows (normalizePageSize first 50 200) cursorFn = some page ∧
      page.Items = rows.take (normalizePageSize first 50 200).toNat ∧
      page.Items.length = min rows.length (normalizePageSize first 50 200).toNat ∧
      page.Items <+: rows ∧ page.Items.length ≤ 200) ∧
    Op.Returns (ListProjects Q first after)
      (fun page => ∃ p, page = some p ∧ p.Items.length ≤ 100) ∧
    Op.Returns (ListLabels Q first after)
      (fun page => ∃ p, page = some p ∧ p.Items.length ≤ 200) ∧
    Op.Returns (ListTasks U Q projectID parentTaskID statuses priorities first after)
      (fun page => ∃ p, page = some p ∧ p.Items.length ≤ 100) := by
  have r1 := normalizePageSize_range first 20 100 (by decide) (by decide)
  have r2 := normalizePageSize_range first 50 200 (by decide) (by decide)
  have e1 := toInt32_small (normalizePageSize first 20 100 + 1) (by omega) (by omega)
  have e2 := toInt32_small (normalizePageSize first 50 200 + 1) (by omega) (by omega)
  have p1 : ∀ {R : Type} (rs : List R) (f : R → String),
      ∃ page, paginateRows rs (normalizePageSize first 20 100) f = some page ∧
        page.Items = rs.take (normalizePageSize first 20 100).toNat ∧
        page.Items.length = min rs.length (normalizePageSize first 20 100).toNat ∧
        page.Items <+: rs ∧ page.Items.length ≤ 100 := by
    intro R rs f
    obtain ⟨page, h1, h2, h3, h4, h5⟩ := paginateRows_safe rs _ 100 f r1.1 r1.2
    exact ⟨page, h1, h2, h3, h4, by exact_mod_cast h5⟩
  have p2 : ∀ {R : Type} (rs : List R) (f : R → String),
      ∃ page, paginateRows rs (normalizePageSize first 50 200) f = some page ∧
        page.Items = rs.take (normalizePageSize first 50 200).toNat ∧
        page.Items.length = min rs.length (normalizePageSize first 50 200).toNat ∧
        page.Items <+: rs ∧ page.Items.length ≤ 200 := by
    intro R rs f
    obtain ⟨page, h1, h2, h3, h4, h5⟩ := paginateRows_safe rs _ 200 f r2.1 r2.2
    exact ⟨page, h1, h2, h3, h4, by exact_mod_cast h5⟩
  refine ⟨r1, r2, e1, e2, p1 rows cursorFn, p2 rows cursorFn, ?_, ?_, ?_⟩
  · unfold ListProjects
    repeat' first
      | exact Op.returns_ret _ _ ((p1 _ _).imp fun _ h => ⟨h.1, h.2.2.2.2⟩)
      | refine Op.returns_bind _ _ _ ?_
      | intro _
  · unfold ListLabels
    repeat' first
      | exact Op.returns_ret _ _ ((p2 _ _).imp fun _ h => ⟨h.1, h.2.2.2.2⟩)
      | refine Op.returns_bind _ _ _ ?_
      | intro _
  · unfold ListTasks
    repeat' first
      | exact Op.returns_ret _ _ ((p1 _ _).imp fun _ h => ⟨h.1, h.2.2.2.2⟩)
      | refine Op.returns_bind _ _ _ ?_
      | intro _


/-! ## Edge cursors and end cursors -/

theorem edgeCursor_eq (t : Time) (v : PgUUID) :
    edgeCursor t v = encodeCursor t (fromPgUUID v) := by
  unfold edgeCursor encodeCursor cursorText fromPgUUID
  cases v.Valid <;> rfl

theorem edgeCursor_eq_UTC (t : Time) (v : PgUUID) (ht : t.Valid) :
    edgeCursor t v = encodeCursor t.UTC (fromPgUUID v) := by
  rw [edgeCursor_eq]
  unfold encodeCursor cursorText
  rw [Time.UTC_idem t ht]

/-- The end cursor of a page is the cursor function at the last item. -/
theorem paginateRows_endCursor {T : Type} (rows : List T) (limit : Int) (f : T → String)
    (page : PageResult T) (h : paginateRows rows limit f = some page) :
    page.EndCursor = page.Items.getLast?.map f ∧ ∀ x ∈ page.Items, x ∈ rows := by
  unfold paginateRows at h
  split at h
  · split at h
    · cases h
    · cases h
      exact ⟨rfl, fun x hx => List.mem_of_mem_take hx⟩
  · cases h
    exact ⟨rfl, fun _ hx => hx⟩

theorem getLast?_map_congr {α β : Type} (f g : α → β) (l : List α)
    (h : ∀ x ∈ l, f x = g x) : l.getLast?.map f = l.getLast?.map g := by
  cases hl : l.getLast? with
  | none => rfl
  | some x =>
      have hx : x ∈ l := List.mem_of_getLast?_eq_some hl
      simp [h x hx]

theorem endCursor_last_edge {T N : Type} (created : T → PgTime) (id : T → PgUUID)
    (node : T → N) (rows : List T) (limit : Int) (page : PageResult T)
    (hv : ∀ p ∈ rows, (created p).Time.Valid)
    (h : paginateRows rows limit
      (fun p => encodeCursor (created p).Time.UTC (fromPgUUID (id p))) = some page) :
    page.EndCursor =
      ((page.Items.map fun item =>
        ({ Cursor := edgeCursor (created item).Time (id item), Node := node item } : Edge N)
        ).getLast?.map fun e => e.Cursor) := by
  obtain ⟨h1, h2⟩ := paginateRows_endCursor rows limit _ page h
  rw [h1, List.getLast?_map, Option.map_map]
  exact getLast?_map_congr _ _ _ fun x hx =>
    (edgeCursor_eq_UTC (created x).Time (id x) (hv x (h2 x hx))).symm

/-- C28 (amended): the edge cursor of a row with creation time `t` and id `v` is the
cursor the service encodes for `t` in UTC and `fromPgUUID v`, which is the nil UUID when
`v` is not valid; so on every page of ListProjects, ListLabels and ListTasks the end cursor
of the page information is the cursor of the last edge (and there is none on an empty
page); and the edge cursor of a row with a valid id and a creation time whose UTC reading
has a year from 0 to 9999 decodes to the creation time in UTC, the same instant, and the
id. -/
theorem edgeCursor_is_encodeCursor (t : Time) (v : PgUUID) (ht : t.Valid) :
    edgeCursor t v = encodeCursor t.UTC (fromPgUUID v) ∧
    (v.Valid = false → edgeCursor t v = encodeCursor t.UTC UUID.Nil) ∧
    (∀ (rows : List Project) (limit : Int) (page : PageResult Project),
      (∀ p ∈ rows, p.CreatedAt.Time.Valid) →
      paginateRows rows limit
        (fun p => encodeCursor p.CreatedAt.Time.UTC (fromPgUUID p.ID)) = some page →
      (toProjectConnection page).PageInfo.EndCursor =
        (toProjectConnection page).Edges.getLast?.map fun e => e.Cursor) ∧
    (∀ (rows : List Label) (limit : Int) (page : PageResult Label),
      (∀ p ∈ rows, p.CreatedAt.Time.Valid) →
      paginateRows rows limit
        (fun p => encodeCursor p.CreatedAt.Time.UTC (fromPgUUID p.ID)) = some page →
      (toLabelConnection page).PageInfo.EndCursor =
        (toLabelConnection page).Edges.getLast?.map fun e => e.Cursor) ∧
    (∀ (rows : List Task) (limit : Int) (page : PageResult Task),
      (∀ p ∈ rows, p.CreatedAt.Time.Valid) →
      paginateRows rows limit
        (fun p => encodeCursor p.CreatedAt.Time.UTC (fromPgUUID p.ID)) = some page →
      (toTaskConnection page).PageInfo.EndCursor =
        (toTaskConnection page).Edges.getLast?.map fun e => e.Cursor) ∧
    (v.Valid = true → v.Bytes.WF → 0 ≤ t.UTC.year → t.UTC.year ≤ 9999 →
      decodeCursor (edgeCursor t v) = ({ CreatedAt := t.UTC, ID := v.Bytes }, none) ∧
        Time.Equal t.UTC t = true) := by
  refine ⟨edgeCursor_eq_UTC t v ht, ?_, ?_, ?_, ?_, ?_⟩
  · intro hv
    rw [edgeCursor_eq_UTC t v ht]
    simp [fromPgUUID, hv]
  · intro rows limit page hv h
    have key := endCursor_last_edge (fun (p : Project) => p.CreatedAt) (fun p => p.ID)
      toModelProject rows limit page hv h
    unfold toProjectConnection
    exact key
  · intro rows limit page hv h
    have key := endCursor_last_edge (fun (p : Label) => p.CreatedAt) (fun p => p.ID)
      toModelLabel rows limit page hv h
    unfold toLabelConnection
    exact key
  · intro rows limit page hv h
    have key := endCursor_last_edge (fun (p : Task) => p.CreatedAt) (fun p => p.ID)
      toModelTask rows limit page hv h
    unfold toTaskConnection
    exact key
  · intro hv hwf hy0 hy1
    have hid : fromPgUUID v = v.Bytes := by simp [fromPgUUID, hv]
    rw [edgeCursor_eq, hid]
    exact ⟨decodeCursor_encodeCursor t v.Bytes ht hwf hy0 hy1, Time.Equal_UTC t ht⟩

/-- C28, an instance: the edge cursor of a row created at 2026-02-17T12:45:00.5+01:00. -/
theorem edgeCursor_is_encodeCursor_witness :
    (⟨2026, 2, 17, 12, 45, 0, 500000000, 3600⟩ : Time).Valid ∧
    edgeCursor ⟨2026, 2, 17, 12, 45, 0, 500000000, 3600⟩ (toPgUUID Sample.id) =
      encodeCursor ⟨2026, 2, 17, 11, 45, 0, 500000000, 0⟩ Sample.id ∧
    decodeCursor (edgeCursor ⟨2026, 2, 17, 12, 45, 0, 500000000, 3600⟩ (toPgUUID Sample.id)) =
      ({ CreatedAt := ⟨2026, 2, 17, 11, 45, 0, 500000000, 0⟩, ID := Sample.id }, none) :=
  have h := edgeCursor_is_encodeCursor ⟨2026, 2, 17, 12, 45, 0, 500000000, 3600⟩
    (toPgUUID Sample.id) (by decide)
  ⟨by decide, h.1,
    (h.2.2.2.2.2 rfl (by decide) (by decide) (by decide)).1⟩

/-- C28, where the sentence fails: a row with a valid id created at
10000-01-01T00:00:00Z, a value of `timestamptz`; its edge cursor writes the year with five
digits and `decodeCursor` rejects it. -/
theorem edgeCursor_year_10000_rejected :
    (⟨10000, 1, 1, 0, 0, 0, 0, 0⟩ : Time).Valid ∧ (toPgUUID Sample.id).Valid = true ∧
    (toPgUUID Sample.id).Bytes.WF ∧
    decodeCursor (edgeCursor ⟨10000, 1, 1, 0, 0, 0, 0, 0⟩ (toPgUUID Sample.id)) =
      (cursor.zero, some (NewBadInput "invalid cursor")) := by
  decide


/-! ## The transaction helper -/

/-- C21: `WithTx` for every unit of work `fn`. When BeginTx fails, its error is returned,
BeginTx is the only call and nothing of `fn` is in the outcome (it is the same for every
`fn`). After a BeginTx that succeeds `fn` runs; when `fn` returns an error, that error is
returned and the calls are BeginTx, those of `fn`, and Rollback, without Commit; when `fn`
succeeds the calls are BeginTx, those of `fn`, Commit and Rollback, and the result is that
of Commit: the value of `fn` when Commit succeeds and the error of Commit otherwise. So
after a BeginTx that succeeds Commit follows the calls of `fn` exactly when `fn` succeeded
and Rollback is the last call on every path. -/
theorem WithTx_contract {σ α : Type} (Q : Queries σ) (fn : Op σ α) (s : Service) (d : σ) :
    (∀ err d1, Q.BeginTx d = (some err, d1) →
      (WithTx Q fn s d).result = .error (.storage err) ∧
      (WithTx Q fn s d).events = [⟨.BeginTx, some err⟩] ∧
      (WithTx Q fn s d).svc = s ∧ (WithTx Q fn s d).db = d1 ∧
      ∀ fn2 : Op σ α, WithTx Q fn2 s d = WithTx Q fn s d) ∧
    (∀ d1 e, Q.BeginTx d = (none, d1) → (fn s d1).result = .error e →
      (WithTx Q fn s d).result = .error e ∧
      (WithTx Q fn s d).events =
        ⟨.BeginTx, none⟩ :: (fn s d1).events ++ [⟨.Rollback, (Q.Rollback (fn s d1).db).1⟩] ∧
      (WithTx Q fn s d).db = (Q.Rollback (fn s d1).db).2) ∧
    (∀ d1 a, Q.BeginTx d = (none, d1) → (fn s d1).result = .ok a →
      (WithTx Q fn s d).events =
        ⟨.BeginTx, none⟩ :: (fn s d1).events ++
          [⟨.Commit, (Q.Commit (fn s d1).db).1⟩,
            ⟨.Rollback, (Q.Rollback (Q.Commit (fn s d1).db).2).1⟩] ∧
      ((Q.Commit (fn s d1).db).1 = none → (WithTx Q fn s d).result = .ok a) ∧
      (∀ err, (Q.Commit (fn s d1).db).1 = some err →
        (WithTx Q fn s d).result = .error (.storage err)) ∧
      (WithTx Q fn s d).db = (Q.Rollback (Q.Commit (fn s d1).db).2).2) ∧
    (∀ d1, Q.BeginTx d = (none, d1) →
      (∃ r, (WithTx Q fn s d).events.getLast? = some ⟨.Rollback, r⟩) ∧
      ((∃ c rest, (WithTx Q fn s d).events =
          ⟨.BeginTx, none⟩ :: (fn s d1).events ++ ⟨.Commit, c⟩ :: rest) ↔
        ∃ a, (fn s d1).result = .ok a)) := by
  have hfail : ∀ d1 e, Q.BeginTx d = (none, d1) → (fn s d1).result = .error e →
      WithTx Q fn s d = ⟨.error e, (fn s d1).svc, (Q.Rollback (fn s d1).db).2,
        ⟨.BeginTx, none⟩ :: (fn s d1).events ++
          [⟨.Rollback, (Q.Rollback (fn s d1).db).1⟩]⟩ := by
    intro d1 e hb he
    unfold WithTx
    simp only [hb, he]
  have hok : ∀ d1 a, Q.BeginTx d = (none, d1) → (fn s d1).result = .ok a →
      (WithTx Q fn s d).events =
        ⟨.BeginTx, none⟩ :: (fn s d1).events ++
          [⟨.Commit, (Q.Commit (fn s d1).db).1⟩,
            ⟨.Rollback, (Q.Rollback (Q.Commit (fn s d1).db).2).1⟩] ∧
      ((Q.Commit (fn s d1).db).1 = none → (WithTx Q fn s d).result = .ok a) ∧
      (∀ err, (Q.Commit (fn s d1).db).1 = some err →
        (WithTx Q fn s d).result = .error (.storage err)) ∧
      (WithTx Q fn s d).db = (Q.Rollback (Q.Commit (fn s d1).db).2).2 := by
    intro d1 a hb ha
    unfold WithTx
    simp only [hb, ha]
    refine ⟨?_, ?_, ?_, ?_⟩
    · trivial
    · intro hc
      simp only [hc]
    · intro err hc
      simp only [hc]
    · trivial
  refine ⟨?_, ?_, ?_, ?_⟩
  · intro err d1 hb
    have h : ∀ fn2 : Op σ α, WithTx Q fn2 s d =
        ⟨.error (.storage err), s, d1, [⟨.BeginTx, some err⟩]⟩ := by
      intro fn2
      unfold WithTx
      simp only [hb]
    refine ⟨by rw [h fn], by rw [h fn], by rw [h fn], by rw [h fn], fun fn2 => ?_⟩
    rw [h fn, h fn2]
  · intro d1 e hb he
    rw [hfail d1 e hb he]
    exact ⟨rfl, rfl, rfl⟩
  · intro d1 a hb ha
    exact hok d1 a hb ha
  · intro d1 hb
    cases hr : (fn s d1).result with
    | error e =>
        rw [hfail d1 e hb hr]
        refine ⟨⟨(Q.Rollback (fn s d1).db).1, ?_⟩, ?_⟩
        · show (⟨.BeginTx, none⟩ :: ((fn s d1).events ++
            [(⟨.Rollback, (Q.Rollback (fn s d1).db).1⟩ : Event)])).getLast? = _
          rw [← List.cons_append, List.getLast?_append]
          rfl
        constructor
        · rintro ⟨c, rest, h⟩
          simp only [List.cons.injEq, true_and] at h
          have h2 := List.append_cancel_left h
          cases rest <;> simp at h2
        · rintro ⟨a, ha⟩
          cases ha
    | ok a =>
        rw [(hok d1 a hb hr).1]
        refine ⟨⟨(Q.Rollback (Q.Commit (fn s d1).db).2).1, ?_⟩, ?_⟩
        · show (⟨.BeginTx, none⟩ :: ((fn s d1).events ++
            [(⟨.Commit, (Q.Commit (fn s d1).db).1⟩ : Event),
              ⟨.Rollback, (Q.Rollback (Q.Commit (fn s d1).db).2).1⟩])).getLast? = _
          rw [← List.cons_append, List.getLast?_append]
          rfl
        · exact ⟨fun _ => ⟨a, rfl⟩, fun _ => ⟨_, _, rfl⟩⟩

/-- C21, an instance: on the store, a unit of work that fails has its error returned and
is followed by Rollback alone, and one that succeeds is followed by Commit and Rollback. -/
theorem WithTx_contract_witness :
    (WithTx (Store.queries Sample.source) (Op.fail (GoError.app "X" "m") : Op Store Unit)
        Service.fresh Store.empty).result = .error (GoError.app "X" "m") ∧
    (WithTx (Store.queries Sample.source) (Op.fail (GoError.app "X" "m") : Op Store Unit)
        Service.fresh Store.empty).events = [⟨.BeginTx, none⟩, ⟨.Rollback, none⟩] ∧
    (WithTx (Store.queries Sample.source) (Op.ret 7 : Op Store Nat)
        Service.fresh Store.empty).result = .ok 7 :=
  ⟨((WithTx_contract (Store.queries Sample.source)
      (Op.fail (GoError.app "X" "m") : Op Store Unit) Service.fresh Store.empty).2.1
      _ _ rfl rfl).1,
    by decide,
    ((WithTx_contract (Store.queries Sample.source) (Op.ret 7 : Op Store Nat) Service.fresh
      Store.empty).2.2.1 _ _ rfl rfl).2.1 rfl⟩


/-! ## Service code and the cached owner id -/

namespace Op

variable {σ α β : Type}

theorem keepsCache_of_same (s0 : Service) (p : Op σ α) (h : ∀ s d, (p s d).svc = s) :
    KeepsCache s0 p :=
  ⟨fun d => h s0 d⟩

theorem keepsCache_ret (s0 : Service) (a : α) : KeepsCache s0 (ret a : Op σ α) :=
  keepsCache_of_same s0 _ fun _ _ => rfl

theorem keepsCache_fail (s0 : Service) (e : GoError) : KeepsCache s0 (fail e : Op σ α) :=
  keepsCache_of_same s0 _ fun _ _ => rfl

theorem keepsCache_check (s0 : Service) (r : Except GoError α) :
    KeepsCache s0 (check r : Op σ α) :=
  keepsCache_of_same s0 _ fun _ _ => by cases r <;> rfl

theorem keepsCache_checkErr (s0 : Service) (x : Option GoError) :
    KeepsCache s0 (checkErr x : Op σ Unit) :=
  keepsCache_of_same s0 _ fun _ _ => by cases x <;> rfl

theorem keepsCache_failIf (s0 : Service) (c : Prop) [Decidable c] (e : GoError) :
    KeepsCache s0 (failIf c e : Op σ Unit) :=
  keepsCache_of_same s0 _ fun s d => by
    by_cases h : c
    · rw [run_failIf_pos c e s d h]
    · rw [run_failIf_neg c e s d h]

theorem keepsCache_getService (s0 : Service) : KeepsCache s0 (getService : Op σ Service) :=
  keepsCache_of_same s0 _ fun _ _ => rfl

theorem keepsCache_bind (s0 : Service) (p : Op σ α) (f : α → Op σ β) (hp : KeepsCache s0 p)
    (hf : ∀ a, KeepsCache s0 (f a)) : KeepsCache s0 (p >>= f) := by
  refine ⟨?_⟩
  intro d
  cases hr : (p s0 d).result with
  | error e =>
      rw [run_bind_error p f s0 d e hr]
      exact hp.all d
  | ok a =>
      rw [run_bind_ok p f s0 d a hr]
      show (f a (p s0 d).svc (p s0 d).db).svc = s0
      rw [hp.all d]
      exact (hf a).all _

theorem keepsCache_void (s0 : Service) (p : Op σ α) (hp : KeepsCache s0 p) :
    KeepsCache s0 p.void :=
  ⟨fun d => hp.all d⟩

theorem keepsCache_query {R : Type} (s0 : Service) (c : Call)
    (run : σ → Except StorageError R × σ) : KeepsCache s0 (query c run) :=
  keepsCache_of_same s0 _ fun _ _ => rfl

theorem keepsCache_orAbsent {R : Type} (s0 : Service) (r : Except StorageError R)
    (m : String) : KeepsCache s0 (orAbsent r m : Op σ (Option R)) :=
  keepsCache_of_same s0 _ fun s d => by
    unfold orAbsent
    cases r with
    | ok row => rfl
    | error e =>
        dsimp only
        split <;> rfl

end Op

theorem keepsCache_exec {σ R : Type} (s0 : Service) (c : Call)
    (run : σ → Except StorageError R × σ) (m : String) : Op.KeepsCache s0 (exec c run m) := by
  refine ⟨?_⟩
  intro d
  rcases run_exec_cases c run m s0 d with ⟨row, _, hr⟩ | ⟨e, _, hr⟩ <;> rw [hr]

theorem keepsCache_WithTx {σ α : Type} (s0 : Service) (Q : Queries σ) (fn : Op σ α)
    (hfn : Op.KeepsCache s0 fn) : Op.KeepsCache s0 (WithTx Q fn) := by
  refine ⟨?_⟩
  intro d
  unfold WithTx
  split
  · rfl
  · dsimp only
    split
    · exact hfn.all _
    · exact hfn.all _

theorem keepsCache_ensureDefaultUser {σ : Type} (s0 : Service) (Q : Queries σ)
    (h : s0.Cached) : Op.KeepsCache s0 (ensureDefaultUser Q) :=
  ⟨fun d => by rw [ensureDefaultUser_cached Q s0 d h.1 h.2]⟩

theorem keepsCache_insertTaskLabels {σ : Type} (s0 : Service) (Q : Queries σ) (taskID : UUID)
    (ids : List PgUUID) : Op.KeepsCache s0 (insertTaskLabels Q taskID ids) := by
  induction ids with
  | nil => exact Op.keepsCache_ret _ _
  | cons id rest ih =>
      unfold insertTaskLabels
      exact Op.keepsCache_bind _ _ _ (keepsCache_exec _ _ _ _) fun _ => ih

set_option maxHeartbeats 4000000 in
/-- Every operation but UpsertMe leaves a service struct with a cached owner id as it
is. -/
theorem perform_keepsCache {σ : Type} (U : UnicodeTables) (Q : Queries σ) (now : Time)
    (req : Request) (hreq : ∀ input, req ≠ .UpsertMe input) (s0 : Service) (h : s0.Cached) :
    Op.KeepsCache s0 (perform U Q now req) := by
  cases req
  case UpsertMe input => exact absurd rfl (hreq input)
  all_goals
    simp only [perform]
    refine Op.keepsCache_void _ _ ?_
    simp only [Bootstrap, Me, CreateProject, UpdateProject, DeleteProject,
      ListProjects, CreateLabel, UpdateLabel, DeleteLabel, ListLabels, GetProject, GetTask,
      CreateTask, UpdateTask, DeleteTask, ListTasks, LabelsForTask, SubtasksForTask, userID,
      deleteProjectTx, deleteLabelTx, createTaskTx, updateTaskTx, deleteTaskTx, checkParent,
      replaceTaskLabels, updateLabels, listTaskRows]
    repeat' first
      | exact Op.keepsCache_ret _ _
      | exact Op.keepsCache_check _ _
      | exact Op.keepsCache_checkErr _ _
      | exact Op.keepsCache_failIf _ _ _
      | exact Op.keepsCache_orAbsent _ _ _
      | exact keepsCache_ensureDefaultUser s0 Q h
      | exact keepsCache_insertTaskLabels _ _ _ _
      | exact keepsCache_exec _ _ _ _
      | exact Op.keepsCache_query _ _ _
      | refine keepsCache_WithTx _ _ _ ?_
      | refine Op.keepsCache_bind _ _ _ ?_ ?_
      | split
      | intro _


/-! ## Owner resolution and the profile edit -/

theorem ensureDefaultUser_upsert_ok {σ : Type} (Q : Queries σ) (s : Service) (d d1 : σ)
    (user : User) (hfresh : ¬ s.Cached)
    (h : Q.UpsertUserByEmail s.defaultsArg d = (.ok user, d1)) :
    ensureDefaultUser Q s d =
      ⟨.ok (fromPgUUID user.ID),
        { s with defaultUserID := fromPgUUID user.ID, defaultUserSet := true }, d1,
        [⟨.UpsertUserByEmail s.defaultsArg, none⟩]⟩ := by
  have hb : (s.defaultUserSet && s.defaultUserID != UUID.Nil) = false := by
    unfold Service.Cached at hfresh
    cases hs : s.defaultUserSet
    · rfl
    · simp only [Bool.true_and, bne_eq_false_iff_eq]
      by_contra hne
      exact hfresh ⟨hs, hne⟩
  have he := run_exec_ok (.UpsertUserByEmail s.defaultsArg) (Q.UpsertUserByEmail s.defaultsArg)
    "failed to bootstrap default user" s d d1 user h
  unfold ensureDefaultUser
  rw [Op.run_bind]
  simp only [Op.run_getService, hb]
  show (Op.andThen (exec (.UpsertUserByEmail s.defaultsArg)
    (Q.UpsertUserByEmail s.defaultsArg) "failed to bootstrap default user") _ s d) = _
  unfold Op.andThen
  simp only [he]
  rfl

theorem ensureDefaultUser_upsert_error {σ : Type} (Q : Queries σ) (s : Service) (d d1 : σ)
    (e : StorageError) (hfresh : ¬ s.Cached)
    (h : Q.UpsertUserByEmail s.defaultsArg d = (.error e, d1)) :
    ensureDefaultUser Q s d =
      ⟨.error (classify (.storage e) "failed to bootstrap default user"), s, d1,
        [⟨.UpsertUserByEmail s.defaultsArg, some e⟩]⟩ := by
  have hb : (s.defaultUserSet && s.defaultUserID != UUID.Nil) = false := by
    unfold Service.Cached at hfresh
    cases hs : s.defaultUserSet
    · rfl
    · simp only [Bool.true_and, bne_eq_false_iff_eq]
      by_contra hne
      exact hfresh ⟨hs, hne⟩
  have he := run_exec_error (.UpsertUserByEmail s.defaultsArg)
    (Q.UpsertUserByEmail s.defaultsArg) "failed to bootstrap default user" s d d1 e h
  unfold ensureDefaultUser
  rw [Op.run_bind]
  simp only [Op.run_getService, hb]
  show (Op.andThen (exec (.UpsertUserByEmail s.defaultsArg)
    (Q.UpsertUserByEmail s.defaultsArg) "failed to bootstrap default user") _ s d) = _
  unfold Op.andThen
  simp only [he]

/-- C22: owner resolution with no owner id cached. When the upsert with the configured
defaults succeeds, `ensureDefaultUser` has issued that one call, returns the id of the row
and caches it; when that id is not the nil UUID, every later call of `ensureDefaultUser` or
`userID` returns it, issues no storage call and leaves the service struct as it is, and so
does every operation other than UpsertMe leave the cache. When the upsert fails, the error
of the classifier is returned and the service struct is as before. -/
theorem owner_resolution {σ : Type} (U : UnicodeTables) (Q : Queries σ) (s : Service) (d : σ)
    (hfresh : ¬ s.Cached) :
    (∀ user d1, Q.UpsertUserByEmail s.defaultsArg d = (.ok user, d1) →
      ensureDefaultUser Q s d =
        ⟨.ok (fromPgUUID user.ID),
          { s with defaultUserID := fromPgUUID user.ID, defaultUserSet := true }, d1,
          [⟨.UpsertUserByEmail s.defaultsArg, none⟩]⟩ ∧
      (fromPgUUID user.ID ≠ UUID.Nil →
        (∀ d2, ensureDefaultUser Q (ensureDefaultUser Q s d).svc d2 =
          ⟨.ok (fromPgUUID user.ID), (ensureDefaultUser Q s d).svc, d2, []⟩) ∧
        (∀ d2, userID Q (ensureDefaultUser Q s d).svc d2 =
          ⟨.ok (fromPgUUID user.ID), (ensureDefaultUser Q s d).svc, d2, []⟩) ∧
        (∀ now req d2, (∀ input, req ≠ .UpsertMe input) →
          (perform U Q now req (ensureDefaultUser Q s d).svc d2).svc =
            (ensureDefaultUser Q s d).svc))) ∧
    (∀ e d1, Q.UpsertUserByEmail s.defaultsArg d = (.error e, d1) →
      ensureDefaultUser Q s d =
        ⟨.error (classify (.storage e) "failed to bootstrap default user"), s, d1,
          [⟨.UpsertUserByEmail s.defaultsArg, some e⟩]⟩ ∧
      wrapDBError (some (.storage e)) "failed to bootstrap default user" =
        some (classify (.storage e) "failed to bootstrap default user") ∧
      ¬ (ensureDefaultUser Q s d).svc.Cached) := by
  constructor
  · intro user d1 h
    have h1 := ensureDefaultUser_upsert_ok Q s d d1 user hfresh h
    refine ⟨h1, fun hn => ?_⟩
    have hc : (ensureDefaultUser Q s d).svc.Cached := by
      rw [h1]
      exact ⟨rfl, hn⟩
    have hid : (ensureDefaultUser Q s d).svc.defaultUserID = fromPgUUID user.ID := by
      rw [h1]
    have key : ∀ d2, ensureDefaultUser Q (ensureDefaultUser Q s d).svc d2 =
        ⟨.ok (fromPgUUID user.ID), (ensureDefaultUser Q s d).svc, d2, []⟩ := by
      intro d2
      rw [ensureDefaultUser_cached Q _ d2 hc.1 hc.2, hid]
    exact ⟨key, key, fun now req d2 hreq => (perform_keepsCache U Q now req hreq _ hc).all d2⟩
  · intro e d1 h
    have h1 := ensureDefaultUser_upsert_error Q s d d1 e hfresh h
    refine ⟨h1, rfl, ?_⟩
    rw [h1]
    exact hfresh

/-- C22, an instance: a fresh service on the empty store; the first call creates the owner
with the first id the store draws, the second call returns it without a storage call. -/
theorem owner_resolution_witness :
    ¬ Service.fresh.Cached ∧
    (ensureDefaultUser (Store.queries Sample.source) Service.fresh Store.empty).result =
      .ok (Sample.source.uuid 0) ∧
    (ensureDefaultUser (Store.queries Sample.source) Service.fresh Store.empty).events =
      [⟨.UpsertUserByEmail ⟨"Owner", "owner@example.com", "UTC", none⟩, none⟩] ∧
    ensureDefaultUser (Store.queries Sample.source)
        (ensureDefaultUser (Store.queries Sample.source) Service.fresh Store.empty).svc
        (ensureDefaultUser (Store.queries Sample.source) Service.fresh Store.empty).db =
      ⟨.ok (Sample.source.uuid 0),
        (ensureDefaultUser (Store.queries Sample.source) Service.fresh Store.empty).svc,
        (ensureDefaultUser (Store.queries Sample.source) Service.fresh Store.empty).db, []⟩ :=
  have h := (owner_resolution asciiTables (Store.queries Sample.source) Service.fresh
    Store.empty (by decide)).1
    ((Tables.upsertUserByEmail (Sample.source.uuid 0) Sample.now
      Service.fresh.defaultsArg Store.empty.tables).1.toOption.getD
        ⟨PgUUID.zero, "", "", "", none, PgTime.zero, PgTime.zero⟩)
    ((Store.queries Sample.source).UpsertUserByEmail Service.fresh.defaultsArg Store.empty).2
    (by decide)
  ⟨by decide, congrArg Outcome.result h.1, congrArg Outcome.events h.1,
    (h.2 (by decide)).1 _⟩

/-- C23: UpsertMe, whatever the cache holds. When the trimmed name, the lower-cased and
trimmed e-mail or the trimmed timezone is empty, it fails with BAD_USER_INPUT, the name
being checked first and the timezone last, issues no storage call and leaves the service
struct as it is. Otherwise it issues one upsert with these three values and the avatar;
when the upsert succeeds it returns the row and caches the id of the row, and when it fails
the error of the classifier is returned and the service struct is as before. -/
theorem upsertMe_contract {σ : Type} (U : UnicodeTables) (Q : Queries σ) (input : UpsertMeInput)
    (s : Service) (d : σ) :
    (TrimSpace input.Name = "" →
      UpsertMe U Q input s d = ⟨.error (GoError.app "BAD_USER_INPUT" "name is required"), s, d, []⟩) ∧
    (TrimSpace input.Name ≠ "" → TrimSpace (ToLower U input.Email) = "" →
      UpsertMe U Q input s d =
        ⟨.error (GoError.app "BAD_USER_INPUT" "email is required"), s, d, []⟩) ∧
    (TrimSpace input.Name ≠ "" → TrimSpace (ToLower U input.Email) ≠ "" →
      TrimSpace input.Timezone = "" →
      UpsertMe U Q input s d =
        ⟨.error (GoError.app "BAD_USER_INPUT" "timezone is required"), s, d, []⟩) ∧
    (TrimSpace input.Name ≠ "" → TrimSpace (ToLower U input.Email) ≠ "" →
      TrimSpace input.Timezone ≠ "" →
      (∀ user d1,
        Q.UpsertUserByEmail ⟨TrimSpace input.Name, TrimSpace (ToLower U input.Email),
          TrimSpace input.Timezone, input.AvatarURL⟩ d = (.ok user, d1) →
        UpsertMe U Q input s d =
          ⟨.ok user, { s with defaultUserID := fromPgUUID user.ID, defaultUserSet := true }, d1,
            [⟨.UpsertUserByEmail ⟨TrimSpace input.Name, TrimSpace (ToLower U input.Email),
              TrimSpace input.Timezone, input.AvatarURL⟩, none⟩]⟩) ∧
      (∀ e d1,
        Q.UpsertUserByEmail ⟨TrimSpace input.Name, TrimSpace (ToLower U input.Email),
          TrimSpace input.Timezone, input.AvatarURL⟩ d = (.error e, d1) →
        UpsertMe U Q input s d =
          ⟨.error (classify (.storage e) "failed to update user"), s, d1,
            [⟨.UpsertUserByEmail ⟨TrimSpace input.Name, TrimSpace (ToLower U input.Email),
              TrimSpace input.Timezone, input.AvatarURL⟩, some e⟩]⟩)) := by
  refine ⟨?_, ?_, ?_, ?_⟩
  · intro h1
    unfold UpsertMe
    rw [Op.run_bind_error _ _ s d _ (by rw [Op.run_failIf_pos _ _ s d h1])]
    rw [Op.run_failIf_pos _ _ s d h1]
    rfl
  · intro h1 h2
    unfold UpsertMe
    rw [Op.run_bind_ok _ _ s d () (by rw [Op.run_failIf_neg _ _ s d h1])]
    rw [Op.run_failIf_neg _ _ s d h1]
    dsimp only
    rw [Op.run_bind_error _ _ s d _ (by rw [Op.run_failIf_pos _ _ s d h2])]
    rw [Op.run_failIf_pos _ _ s d h2]
    rfl
  · intro h1 h2 h3
    unfold UpsertMe
    rw [Op.run_bind_ok _ _ s d () (by rw [Op.run_failIf_neg _ _ s d h1])]
    rw [Op.run_failIf_neg _ _ s d h1]
    dsimp only
    rw [Op.run_bind_ok _ _ s d () (by rw [Op.run_failIf_neg _ _ s d h2])]
    rw [Op.run_failIf_neg _ _ s d h2]
    dsimp only
    rw [Op.run_bind_error _ _ s d _ (by rw [Op.run_failIf_pos _ _ s d h3])]
    rw [Op.run_failIf_pos _ _ s d h3]
    rfl
  · intro h1 h2 h3
    constructor
    · intro user d1 h
      have he := run_exec_ok (.UpsertUserByEmail ⟨TrimSpace input.Name,
        TrimSpace (ToLower U input.Email), TrimSpace input.Timezone, input.AvatarURL⟩)
        (Q.UpsertUserByEmail ⟨TrimSpace input.Name, TrimSpace (ToLower U input.Email),
          TrimSpace input.Timezone, input.AvatarURL⟩) "failed to update user" s d d1 user h
      unfold UpsertMe
      rw [Op.run_bind_ok _ _ s d () (by rw [Op.run_failIf_neg _ _ s d h1])]
      rw [Op.run_failIf_neg _ _ s d h1]
      dsimp only
      rw [Op.run_bind_ok _ _ s d () (by rw [Op.run_failIf_neg _ _ s d h2])]
      rw [Op.run_failIf_neg _ _ s d h2]
      dsimp only
      rw [Op.run_bind_ok _ _ s d () (by rw [Op.run_failIf_neg _ _ s d h3])]
      rw [Op.run_failIf_neg _ _ s d h3]
      dsimp only
      rw [Op.run_bind_ok _ _ s d user (by rw [he])]
      rw [he]
      rfl
    · intro e d1 h
      have he := run_exec_error (.UpsertUserByEmail ⟨TrimSpace input.Name,
        TrimSpace (ToLower U input.Email), TrimSpace input.Timezone, input.AvatarURL⟩)
        (Q.UpsertUserByEmail ⟨TrimSpace input.Name, TrimSpace (ToLower U input.Email),
          TrimSpace input.Timezone, input.AvatarURL⟩) "failed to update user" s d d1 e h
      unfold UpsertMe
      rw [Op.run_bind_ok _ _ s d () (by rw [Op.run_failIf_neg _ _ s d h1])]
      rw [Op.run_failIf_neg _ _ s d h1]
      dsimp only
      rw [Op.run_bind_ok _ _ s d () (by rw [Op.run_failIf_neg _ _ s d h2])]
      rw [Op.run_failIf_neg _ _ s d h2]
      dsimp only
      rw [Op.run_bind_ok _ _ s d () (by rw [Op.run_failIf_neg _ _ s d h3])]
      rw [Op.run_failIf_neg _ _ s d h3]
      dsimp only
      rw [Op.run_bind_error _ _ s d _ (by rw [he])]
      rw [he]
      rfl

/-- C23, an instance: a blank name is refused without a storage call, and a profile with
spaces and capitals is stored trimmed, the e-mail in lower case. -/
theorem upsertMe_contract_witness :
    UpsertMe asciiTables (Store.queries Sample.source) ⟨"  ", "a@b.c", "UTC", none⟩
        Service.fresh Store.empty =
      ⟨.error (GoError.app "BAD_USER_INPUT" "name is required"), Service.fresh, Store.empty,
        []⟩ ∧
    (UpsertMe asciiTables (Store.queries Sample.source)
        ⟨" Bob ", "Owner@Example.com ", "UTC", none⟩ Service.fresh Store.empty).events.map
        Event.call =
      [.UpsertUserByEmail ⟨"Bob", "owner@example.com", "UTC", none⟩] :=
  ⟨(upsertMe_contract asciiTables (Store.queries Sample.source) ⟨"  ", "a@b.c", "UTC", none⟩
      Service.fresh Store.empty).1 (by decide),
    by decide⟩


/-! ## The deletes on the store -/

/-- The run of a unit of work of two statements, the second for its effect only. -/
theorem twoStep_run {σ R1 R2 α : Type} (c1 c2 : Call) (run1 : σ → Except StorageError R1 × σ)
    (run2 : σ → Except StorageError R2 × σ) (m1 m2 : String) (g : R1 → α) (s : Service)
    (d : σ) :
    (∀ e, (run1 d).1 = .error e →
      (exec c1 run1 m1 >>= fun x => exec c2 run2 m2 >>= fun _ => Op.ret (g x)) s d =
        ⟨.error (classify (.storage e) m1), s, (run1 d).2, [⟨c1, some e⟩]⟩) ∧
    (∀ x e, (run1 d).1 = .ok x → (run2 (run1 d).2).1 = .error e →
      (exec c1 run1 m1 >>= fun x => exec c2 run2 m2 >>= fun _ => Op.ret (g x)) s d =
        ⟨.error (classify (.storage e) m2), s, (run2 (run1 d).2).2,
          [⟨c1, none⟩, ⟨c2, some e⟩]⟩) ∧
    (∀ x y, (run1 d).1 = .ok x → (run2 (run1 d).2).1 = .ok y →
      (exec c1 run1 m1 >>= fun x => exec c2 run2 m2 >>= fun _ => Op.ret (g x)) s d =
        ⟨.ok (g x), s, (run2 (run1 d).2).2, [⟨c1, none⟩, ⟨c2, none⟩]⟩) := by
  refine ⟨?_, ?_, ?_⟩
  · intro e h1
    have he := run_exec_error c1 run1 m1 s d (run1 d).2 e (Prod.ext h1 rfl)
    rw [Op.run_bind_error _ _ s d _ (by rw [he]), he]
  · intro x e h1 h2
    have he := run_exec_ok c1 run1 m1 s d (run1 d).2 x (Prod.ext h1 rfl)
    have he2 := run_exec_error c2 run2 m2 s (run1 d).2 (run2 (run1 d).2).2 e (Prod.ext h2 rfl)
    rw [Op.run_bind_ok _ _ s d x (by rw [he]), he]
    dsimp only
    rw [Op.run_bind_error _ _ s _ _ (by rw [he2]), he2]
    rfl
  · intro x y h1 h2
    have he := run_exec_ok c1 run1 m1 s d (run1 d).2 x (Prod.ext h1 rfl)
    have he2 := run_exec_ok c2 run2 m2 s (run1 d).2 (run2 (run1 d).2).2 y (Prod.ext h2 rfl)
    rw [Op.run_bind_ok _ _ s d x (by rw [he]), he]
    dsimp only
    rw [Op.run_bind_ok _ _ s _ y (by rw [he2]), he2]
    rfl

/-- An operation that resolves the owner, parses an id and runs a transaction. -/
theorem txOp_run {σ α : Type} (Q : Queries σ) (field : String) (tx : UUID → UUID → Op σ α)
    (id : String) (s : Service) (d : σ) (uid x : UUID)
    (hown : (ensureDefaultUser Q s d).result = .ok uid) (hid : parseUUID id field = .ok x) :
    (userID Q >>= fun uid => Op.check (parseUUID id field) >>= fun x => WithTx Q (tx uid x)) s d =
      ⟨(WithTx Q (tx uid x) (ensureDefaultUser Q s d).svc (ensureDefaultUser Q s d).db).result,
        (WithTx Q (tx uid x) (ensureDefaultUser Q s d).svc (ensureDefaultUser Q s d).db).svc,
        (WithTx Q (tx uid x) (ensureDefaultUser Q s d).svc (ensureDefaultUser Q s d).db).db,
        (ensureDefaultUser Q s d).events ++
          (WithTx Q (tx uid x) (ensureDefaultUser Q s d).svc
            (ensureDefaultUser Q s d).db).events⟩ := by
  unfold userID
  rw [Op.run_bind_ok _ _ s d uid hown, hid]
  rw [Op.run_bind_ok _ _ _ _ x rfl]
  simp

/-- A transaction over the store: the outcome of the unit of work decides the tables. -/
theorem WithTx_sameTx {α : Type} (src : Source) (Q : Queries Store) (hQ : Store.SameTx src Q)
    (fn : Op Store α) (s : Service) (d : Store)
    (hs : (fn s { d with saved := some d.tables }).db.saved = some d.tables) :
    (WithTx Q fn s d).result = (fn s { d with saved := some d.tables }).result ∧
    (WithTx Q fn s d).svc = (fn s { d with saved := some d.tables }).svc ∧
    (∀ e, (fn s { d with saved := some d.tables }).result = .error e →
      (WithTx Q fn s d).db.tables = d.tables ∧
      (WithTx Q fn s d).events = ⟨.BeginTx, none⟩ ::
        (fn s { d with saved := some d.tables }).events ++ [⟨.Rollback, none⟩]) ∧
    (∀ a, (fn s { d with saved := some d.tables }).result = .ok a →
      (WithTx Q fn s d).db.tables = (fn s { d with saved := some d.tables }).db.tables) ∧
    (WithTx Q fn s d).db.saved = none := by
  unfold WithTx
  rw [hQ.begin, hQ.commit, hQ.rollback]
  simp only [Store.queries]
  cases hr : (fn s { d with saved := some d.tables }).result with
  | error e => simp [hs]
  | ok a => simp [hs]

theorem Store.sameTx_queries (src : Source) : Store.SameTx src (Store.queries src) :=
  ⟨rfl, rfl, rfl⟩

theorem Store.sameTx_failingCascade (src : Source) (e : StorageError) :
    Store.SameTx src (Store.failingCascade src e) :=
  ⟨rfl, rfl, rfl⟩

namespace Tables

theorem updateOne_fst {α : Type} (p : α → Bool) (f : α → α) (rows : List α) :
    (updateOne p f rows).1 =
      match rows.find? p with
      | none => .error errNoRows
      | some row => .ok (f row) := by
  unfold updateOne
  cases rows.find? p <;> rfl

theorem updateOne_snd {α : Type} (p : α → Bool) (f : α → α) (rows : List α) :
    (updateOne p f rows).2 = rows.map fun r => if p r then f r else r := by
  unfold updateOne
  split
  · rename_i h
    have hnone : ∀ r ∈ rows, p r = false := by
      intro r hr
      have := List.find?_eq_none.1 h r hr
      simpa using this
    symm
    calc rows.map (fun r => if p r then f r else r) = rows.map id := by
          apply List.map_congr_left
          intro r hr
          simp [hnone r hr]
      _ = rows := List.map_id _
  · rfl

theorem updateOne_ok {α : Type} (p : α → Bool) (f : α → α) (rows : List α) (r : α)
    (h : (updateOne p f rows).1 = .ok r) : ∃ x ∈ rows, p x = true ∧ r = f x := by
  rw [updateOne_fst] at h
  split at h
  · cases h
  · rename_i x hx
    cases h
    exact ⟨x, List.mem_of_find?_eq_some hx, List.find?_some hx, rfl⟩

theorem updateOne_error {α : Type} (p : α → Bool) (f : α → α) (rows : List α)
    (e : StorageError) (h : (updateOne p f rows).1 = .error e) :
    e = errNoRows ∧ (∀ x ∈ rows, p x = false) ∧ (updateOne p f rows).2 = rows := by
  rw [updateOne_fst] at h
  split at h
  · rename_i hn
    cases h
    have hnone : ∀ r ∈ rows, p r = false := by
      intro r hr
      have := List.find?_eq_none.1 hn r hr
      simpa using this
    refine ⟨rfl, hnone, ?_⟩
    unfold updateOne
    simp [hn]
  · cases h

theorem updateOne_exists {α : Type} (p : α → Bool) (f : α → α) (rows : List α) (x : α)
    (hx : x ∈ rows) (hp : p x = true) : ∃ r, (updateOne p f rows).1 = .ok r := by
  rw [updateOne_fst]
  cases h : rows.find? p with
  | none =>
      have := List.find?_eq_none.1 h x hx
      simp [hp] at this
  | some y => exact ⟨f y, rfl⟩

end Tables

/-- A transaction of two statements on the store: the first failing, the second failing,
both succeeding. The tables are those before the transaction unless both succeed. -/
theorem deleteTx_store {R1 R2 α : Type} (src : Source) (Q : Queries Store)
    (hQ : Store.SameTx src Q) (c1 c2 : Call) (m1 m2 : String)
    (f1 : UUID → Time → Tables → Except StorageError R1 × Tables)
    (f2 : UUID → Time → Tables → Except StorageError R2 × Tables) (g : R1 → α)
    (s : Service) (d : Store) :
    (∀ e, (f1 (src.uuid d.serial) (src.clock d.serial) d.tables).1 = .error e →
      (WithTx Q (exec c1 (Store.run src f1) m1 >>= fun x =>
          exec c2 (Store.run src f2) m2 >>= fun _ => Op.ret (g x)) s d).result =
        .error (classify (.storage e) m1) ∧
      (WithTx Q (exec c1 (Store.run src f1) m1 >>= fun x =>
          exec c2 (Store.run src f2) m2 >>= fun _ => Op.ret (g x)) s d).db.tables =
        d.tables ∧
      (WithTx Q (exec c1 (Store.run src f1) m1 >>= fun x =>
          exec c2 (Store.run src f2) m2 >>= fun _ => Op.ret (g x)) s d).events =
        [⟨.BeginTx, none⟩, ⟨c1, some e⟩, ⟨.Rollback, none⟩]) ∧
    (∀ x e, (f1 (src.uuid d.serial) (src.clock d.serial) d.tables).1 = .ok x →
      (f2 (src.uuid (d.serial + 1)) (src.clock (d.serial + 1))
        (f1 (src.uuid d.serial) (src.clock d.serial) d.tables).2).1 = .error e →
      (WithTx Q (exec c1 (Store.run src f1) m1 >>= fun x =>
          exec c2 (Store.run src f2) m2 >>= fun _ => Op.ret (g x)) s d).result =
        .error (classify (.storage e) m2) ∧
      (WithTx Q (exec c1 (Store.run src f1) m1 >>= fun x =>
          exec c2 (Store.run src f2) m2 >>= fun _ => Op.ret (g x)) s d).db.tables =
        d.tables ∧
      (WithTx Q (exec c1 (Store.run src f1) m1 >>= fun x =>
          exec c2 (Store.run src f2) m2 >>= fun _ => Op.ret (g x)) s d).events =
        [⟨.BeginTx, none⟩, ⟨c1, none⟩, ⟨c2, some e⟩, ⟨.Rollback, none⟩]) ∧
    (∀ x y, (f1 (src.uuid d.serial) (src.clock d.serial) d.tables).1 = .ok x →
      (f2 (src.uuid (d.serial + 1)) (src.clock (d.serial + 1))
        (f1 (src.uuid d.serial) (src.clock d.serial) d.tables).2).1 = .ok y →
      (WithTx Q (exec c1 (Store.run src f1) m1 >>= fun x =>
          exec c2 (Store.run src f2) m2 >>= fun _ => Op.ret (g x)) s d).result = .ok (g x) ∧
      (WithTx Q (exec c1 (Store.run src f1) m1 >>= fun x =>
          exec c2 (Store.run src f2) m2 >>= fun _ => Op.ret (g x)) s d).db.tables =
        (f2 (src.uuid (d.serial + 1)) (src.clock (d.serial + 1))
          (f1 (src.uuid d.serial) (src.clock d.serial) d.tables).2).2) := by
  have key := twoStep_run c1 c2 (Store.run src f1) (Store.run src f2) m1 m2 g s
    { d with saved := some d.tables }
  refine ⟨?_, ?_, ?_⟩
  · intro e h1
    have hb := key.1 e h1
    have hw := WithTx_sameTx src Q hQ (exec c1 (Store.run src f1) m1 >>= fun x =>
      exec c2 (Store.run src f2) m2 >>= fun _ => Op.ret (g x)) s d (by rw [hb]; rfl)
    rw [hw.1, hb]
    refine ⟨rfl, ?_, ?_⟩
    · have := (hw.2.2.1 _ (by rw [hb])).1
      exact this
    · have := (hw.2.2.1 _ (by rw [hb])).2
      rw [this, hb]
      rfl
  · intro x e h1 h2
    have hb := key.2.1 x e h1 h2
    have hw := WithTx_sameTx src Q hQ (exec c1 (Store.run src f1) m1 >>= fun x =>
      exec c2 (Store.run src f2) m2 >>= fun _ => Op.ret (g x)) s d (by rw [hb]; rfl)
    rw [hw.1, hb]
    refine ⟨rfl, ?_, ?_⟩
    · have := (hw.2.2.1 _ (by rw [hb])).1
      exact this
    · have := (hw.2.2.1 _ (by rw [hb])).2
      rw [this, hb]
      rfl
  · intro x y h1 h2
    have hb := key.2.2 x y h1 h2
    have hw := WithTx_sameTx src Q hQ (exec c1 (Store.run src f1) m1 >>= fun x =>
      exec c2 (Store.run src f2) m2 >>= fun _ => Op.ret (g x)) s d (by rw [hb]; rfl)
    rw [hw.1, hb]
    refine ⟨rfl, ?_⟩
    have := hw.2.2.2.1 (g x) (by rw [hb])
    rw [this, hb]
    rfl


/-! ## DeleteProject, DeleteTask and DeleteLabel on the store -/

namespace Tables

theorem matches_iff (a b c d : PgUUID) (t : PgTime) :
    (a == b && c == d && live t) = true ↔ a = b ∧ c = d ∧ t.Valid = false := by
  simp [live, and_assoc]

/-- What a soft delete of one row does to the rows: the row of the owner with the id, if
live, gets the deletion time; afterwards no row of the owner with the id is live. -/
theorem softDelete_rows {α : Type} (getID getUser : α → PgUUID) (del : α → PgTime)
    (f : α → α) (id user : PgUUID) (rows : List α)
    (hf : ∀ r, (del (f r)).Valid = true ∧ getID (f r) = getID r ∧ getUser (f r) = getUser r) :
    ∀ q ∈ (updateOne (fun r => getID r == id && getUser r == user && live (del r)) f rows).2,
      getID q = id → getUser q = user → (del q).Valid = true := by
  intro q hq h1 h2
  rw [updateOne_snd] at hq
  obtain ⟨r, hr, rfl⟩ := List.mem_map.1 hq
  by_cases hm : (getID r == id && getUser r == user && live (del r)) = true
  · simp only [hm, if_true]
    exact (hf r).1
  · simp only [hm] at h1 h2 ⊢
    simp only [Bool.false_eq_true, if_false] at h1 h2 ⊢
    by_contra hv
    exact hm ((matches_iff _ _ _ _ _).2 ⟨h1, h2, by simpa using hv⟩)

/-- What a cascading soft delete does to the rows: every row of the owner under the
parent is deleted afterwards. -/
theorem cascade_rows {α : Type} (getParent getUser : α → PgUUID) (del : α → PgTime)
    (f : α → α) (parent user : PgUUID) (rows : List α)
    (hf : ∀ r, (del (f r)).Valid = true ∧ getParent (f r) = getParent r ∧
      getUser (f r) = getUser r) :
    ∀ q ∈ rows.map (fun r =>
        if (getParent r == parent && getUser r == user && live (del r)) = true then f r else r),
      getParent q = parent → getUser q = user → (del q).Valid = true := by
  intro q hq h1 h2
  obtain ⟨r, hr, rfl⟩ := List.mem_map.1 hq
  by_cases hm : (getParent r == parent && getUser r == user && live (del r)) = true
  · simp only [hm, if_true]
    exact (hf r).1
  · simp only [hm] at h1 h2 ⊢
    simp only [Bool.false_eq_true, if_false] at h1 h2 ⊢
    by_contra hv
    exact hm ((matches_iff _ _ _ _ _).2 ⟨h1, h2, by simpa using hv⟩)

/-- The result of a soft delete of one row: the id asked for and the deletion time, with
the row deleted in the rows; or "no rows" when the owner has no live row with the id, and
then the rows are as before. -/
theorem softDelete_result {α : Type} (getID getUser : α → PgUUID) (del : α → PgTime)
    (f : α → α) (id user : PgUUID) (now : Time) (rows : List α)
    (hf : ∀ r, del (f r) = ⟨now, true⟩ ∧ getID (f r) = getID r ∧ getUser (f r) = getUser r) :
    (∀ row, ((updateOne (fun r => getID r == id && getUser r == user && live (del r)) f
        rows).1.map fun r => (⟨getID r, del r⟩ : DeletedRow)) = .ok row →
      row = ⟨id, ⟨now, true⟩⟩ ∧
      (∃ r ∈ rows, getID r = id ∧ getUser r = user ∧ (del r).Valid = false) ∧
      ∃ q ∈ (updateOne (fun r => getID r == id && getUser r == user && live (del r)) f rows).2,
        getID q = id ∧ getUser q = user ∧ del q = ⟨now, true⟩) ∧
    (∀ e, ((updateOne (fun r => getID r == id && getUser r == user && live (del r)) f
        rows).1.map fun r => (⟨getID r, del r⟩ : DeletedRow)) = .error e →
      e = errNoRows ∧
      (∀ r ∈ rows, ¬ (getID r = id ∧ getUser r = user ∧ (del r).Valid = false)) ∧
      (updateOne (fun r => getID r == id && getUser r == user && live (del r)) f rows).2 =
        rows) ∧
    ((∃ r ∈ rows, getID r = id ∧ getUser r = user ∧ (del r).Valid = false) →
      ∃ row, ((updateOne (fun r => getID r == id && getUser r == user && live (del r)) f
        rows).1.map fun r => (⟨getID r, del r⟩ : DeletedRow)) = .ok row) := by
  refine ⟨?_, ?_, ?_⟩
  · intro row h
    cases hu : (updateOne (fun r => getID r == id && getUser r == user && live (del r)) f
        rows).1 with
    | error e => rw [hu] at h; cases h
    | ok q =>
        rw [hu] at h
        cases h
        obtain ⟨x, hx, hp, rfl⟩ := updateOne_ok _ f rows q hu
        have hm := (matches_iff _ _ _ _ _).1 hp
        have hq : f x ∈ (updateOne (fun r => getID r == id && getUser r == user &&
            live (del r)) f rows).2 := by
          rw [updateOne_snd]
          exact List.mem_map.2 ⟨x, hx, by simp [hp]⟩
        refine ⟨?_, ⟨x, hx, hm⟩, f x, hq, ?_, ?_, (hf x).1⟩
        · show (⟨getID (f x), del (f x)⟩ : DeletedRow) = _
          rw [(hf x).1, (hf x).2.1, hm.1]
        · rw [(hf x).2.1, hm.1]
        · rw [(hf x).2.2, hm.2.1]
  · intro e h
    cases hu : (updateOne (fun r => getID r == id && getUser r == user && live (del r)) f
        rows).1 with
    | ok q => rw [hu] at h; cases h
    | error e2 =>
        rw [hu] at h
        cases h
        obtain ⟨h1, h2, h3⟩ := updateOne_error _ f rows _ hu
        refine ⟨h1, ?_, h3⟩
        intro r hr hm
        have := h2 r hr
        rw [(matches_iff _ _ _ _ _).2 hm] at this
        cases this
  · rintro ⟨r, hr, hm⟩
    obtain ⟨q, hq⟩ := updateOne_exists
      (fun r => getID r == id && getUser r == user && live (del r)) f rows r hr
      ((matches_iff _ _ _ _ _).2 hm)
    exact ⟨_, by rw [hq]; rfl⟩

/-- Rows that are deleted stay deleted under a map that only deletes. -/
theorem deleted_mono {α : Type} (p : α → Bool) (f : α → α) (P : α → Prop) (rows : List α)
    (hf : ∀ r, P r → P (f r)) (h : ∀ r ∈ rows, P r) :
    ∀ q ∈ rows.map (fun r => if p r = true then f r else r), P q := by
  intro q hq
  obtain ⟨r, hr, rfl⟩ := List.mem_map.1 hq
  split
  · exact hf r (h r hr)
  · exact h r hr

end Tables

/-- DeleteProject on the store, after owner resolution and with an id that parses: the first
statement decides; the cascade of the store does not fail. -/
theorem DeleteProject_store (src : Source) (id : String) (s : Service) (d : Store) (uid x : UUID)
    (hown : (ensureDefaultUser (Store.queries src) s d).result = .ok uid)
    (hid : parseUUID id "project id" = .ok x) :
    (∀ e, (Tables.softDeleteProject (src.clock (ensureDefaultUser (Store.queries src) s d).db.serial)
        ⟨toPgUUID x, toPgUUID uid⟩ (ensureDefaultUser (Store.queries src) s d).db.tables).1 =
        .error e →
      (DeleteProject (Store.queries src) id s d).result = .error (classify (.storage e) "project not found") ∧
      (DeleteProject (Store.queries src) id s d).db.tables =
        (ensureDefaultUser (Store.queries src) s d).db.tables) ∧
    (∀ row, (Tables.softDeleteProject (src.clock (ensureDefaultUser (Store.queries src) s d).db.serial)
        ⟨toPgUUID x, toPgUUID uid⟩ (ensureDefaultUser (Store.queries src) s d).db.tables).1 =
        .ok row →
      (DeleteProject (Store.queries src) id s d).result =
        .ok ⟨fromPgUUID row.ID, row.DeletedAt.Time.UTC⟩ ∧
      (DeleteProject (Store.queries src) id s d).db.tables =
        (Tables.softDeleteTasksByProject (src.clock ((ensureDefaultUser (Store.queries src) s d).db.serial + 1))
          ⟨toPgUUID x, toPgUUID uid⟩
          (Tables.softDeleteProject (src.clock (ensureDefaultUser (Store.queries src) s d).db.serial)
            ⟨toPgUUID x, toPgUUID uid⟩
            (ensureDefaultUser (Store.queries src) s d).db.tables).2).2) := by
  have hrun := txOp_run (Store.queries src) "project id" (deleteProjectTx (Store.queries src)) id s d uid x
    hown hid
  have key := deleteTx_store src (Store.queries src) (Store.sameTx_queries src)
    (.SoftDeleteProject ⟨toPgUUID x, toPgUUID uid⟩) (.SoftDeleteTasksByProject ⟨toPgUUID x, toPgUUID uid⟩) "project not found" "failed to delete project tasks"
    (fun _ now => Tables.softDeleteProject now ⟨toPgUUID x, toPgUUID uid⟩)
    (fun _ now => Tables.softDeleteTasksByProject now ⟨toPgUUID x, toPgUUID uid⟩)
    (fun (deleted : DeletedRow) =>
      ({ ID := fromPgUUID deleted.ID, DeletedAt := deleted.DeletedAt.Time.UTC } : DeleteResult))
    (ensureDefaultUser (Store.queries src) s d).svc (ensureDefaultUser (Store.queries src) s d).db
  have hop : DeleteProject (Store.queries src) id s d = _ := hrun
  rw [hop]
  exact ⟨fun e h => ⟨(key.1 e h).1, (key.1 e h).2.1⟩, fun row h => key.2.2 row () h rfl⟩

/-- DeleteProject on the store whose cascade fails: when the first statement has deleted the row,
the error of the cascade is returned, classified, and the tables are those before the
transaction. -/
theorem DeleteProject_failingCascade (src : Source) (e : StorageError) (id : String) (s : Service)
    (d : Store) (uid x : UUID)
    (hown : (ensureDefaultUser (Store.queries src) s d).result = .ok uid)
    (hid : parseUUID id "project id" = .ok x) (row : DeletedRow)
    (h : (Tables.softDeleteProject (src.clock (ensureDefaultUser (Store.queries src) s d).db.serial)
        ⟨toPgUUID x, toPgUUID uid⟩ (ensureDefaultUser (Store.queries src) s d).db.tables).1 =
        .ok row) :
    (DeleteProject (Store.failingCascade src e) id s d).result = .error (classify (.storage e) "failed to delete project tasks") ∧
    (DeleteProject (Store.failingCascade src e) id s d).db.tables =
      (ensureDefaultUser (Store.queries src) s d).db.tables ∧
    (DeleteProject (Store.failingCascade src e) id s d).events =
      (ensureDefaultUser (Store.queries src) s d).events ++
        [⟨.BeginTx, none⟩, ⟨.SoftDeleteProject ⟨toPgUUID x, toPgUUID uid⟩, none⟩,
          ⟨.SoftDeleteTasksByProject ⟨toPgUUID x, toPgUUID uid⟩, some e⟩, ⟨.Rollback, none⟩] := by
  have hrun := txOp_run (Store.failingCascade src e) "project id"
    (deleteProjectTx (Store.failingCascade src e)) id s d uid x hown hid
  have key := deleteTx_store src (Store.failingCascade src e) (Store.sameTx_failingCascade src e)
    (.SoftDeleteProject ⟨toPgUUID x, toPgUUID uid⟩) (.SoftDeleteTasksByProject ⟨toPgUUID x, toPgUUID uid⟩) "project not found" "failed to delete project tasks"
    (fun _ now => Tables.softDeleteProject now ⟨toPgUUID x, toPgUUID uid⟩)
    (fun _ _ T => ((.error e : Except StorageError Unit), T))
    (fun (deleted : DeletedRow) =>
      ({ ID := fromPgUUID deleted.ID, DeletedAt := deleted.DeletedAt.Time.UTC } : DeleteResult))
    (ensureDefaultUser (Store.queries src) s d).svc (ensureDefaultUser (Store.queries src) s d).db
  have hop : DeleteProject (Store.failingCascade src e) id s d = _ := hrun
  rw [hop]
  have k := key.2.1 row e h rfl
  refine ⟨k.1, k.2.1, ?_⟩
  show (ensureDefaultUser (Store.queries src) s d).events ++ _ = _
  exact congrArg _ k.2.2

/-- DeleteTask on the store, after owner resolution and with an id that parses: the first
statement decides; the cascade of the store does not fail. -/
theorem DeleteTask_store (src : Source) (id : String) (s : Service) (d : Store) (uid x : UUID)
    (hown : (ensureDefaultUser (Store.queries src) s d).result = .ok uid)
    (hid : parseUUID id "task id" = .ok x) :
    (∀ e, (Tables.softDeleteTask (src.clock (ensureDefaultUser (Store.queries src) s d).db.serial)
        ⟨toPgUUID x, toPgUUID uid⟩ (ensureDefaultUser (Store.queries src) s d).db.tables).1 =
        .error e →
      (DeleteTask (Store.queries src) id s d).result = .error (classify (.storage e) "task not found") ∧
      (DeleteTask (Store.queries src) id s d).db.tables =
        (ensureDefaultUser (Store.queries src) s d).db.tables) ∧
    (∀ row, (Tables.softDeleteTask (src.clock (ensureDefaultUser (Store.queries src) s d).db.serial)
        ⟨toPgUUID x, toPgUUID uid⟩ (ensureDefaultUser (Store.queries src) s d).db.tables).1 =
        .ok row →
      (DeleteTask (Store.queries src) id s d).result =
        .ok ⟨fromPgUUID row.ID, row.DeletedAt.Time.UTC⟩ ∧
      (DeleteTask (Store.queries src) id s d).db.tables =
        (Tables.softDeleteDirectSubtasks (src.clock ((ensureDefaultUser (Store.queries src) s d).db.serial + 1))
          ⟨toPgUUID x, toPgUUID uid⟩
          (Tables.softDeleteTask (src.clock (ensureDefaultUser (Store.queries src) s d).db.serial)
            ⟨toPgUUID x, toPgUUID uid⟩
            (ensureDefaultUser (Store.queries src) s d).db.tables).2).2) := by
  have hrun := txOp_run (Store.queries src) "task id" (deleteTaskTx (Store.queries src)) id s d uid x
    hown hid
  have key := deleteTx_store src (Store.queries src) (Store.sameTx_queries src)
    (.SoftDeleteTask ⟨toPgUUID x, toPgUUID uid⟩) (.SoftDeleteDirectSubtasks ⟨toPgUUID x, toPgUUID uid⟩) "task not found" "failed to delete subtasks"
    (fun _ now => Tables.softDeleteTask now ⟨toPgUUID x, toPgUUID uid⟩)
    (fun _ now => Tables.softDeleteDirectSubtasks now ⟨toPgUUID x, toPgUUID uid⟩)
    (fun (deleted : DeletedRow) =>
      ({ ID := fromPgUUID deleted.ID, DeletedAt := deleted.DeletedAt.Time.UTC } : DeleteResult))
    (ensureDefaultUser (Store.queries src) s d).svc (ensureDefaultUser (Store.queries src) s d).db
  have hop : DeleteTask (Store.queries src) id s d = _ := hrun
  rw [hop]
  exact ⟨fun e h => ⟨(key.1 e h).1, (key.1 e h).2.1⟩, fun row h => key.2.2 row () h rfl⟩

/-- DeleteTask on the store whose cascade fails: when the first statement has deleted the row,
the error of the cascade is returned, classified, and the tables are those before the
transaction. -/
theorem DeleteTask_failingCascade (src : Source) (e : StorageError) (id : String) (s : Service)
    (d : Store) (uid x : UUID)
    (hown : (ensureDefaultUser (Store.queries src) s d).result = .ok uid)
    (hid : parseUUID id "task id" = .ok x) (row : DeletedRow)
    (h : (Tables.softDeleteTask (src.clock (ensureDefaultUser (Store.queries src) s d).db.serial)
        ⟨toPgUUID x, toPgUUID uid⟩ (ensureDefaultUser (Store.queries src) s d).db.tables).1 =
        .ok row) :
    (DeleteTask (Store.failingCascade src e) id s d).result = .error (classify (.storage e) "failed to delete subtasks") ∧
    (DeleteTask (Store.failingCascade src e) id s d).db.tables =
      (ensureDefaultUser (Store.queries src) s d).db.tables ∧
    (DeleteTask (Store.failingCascade src e) id s d).events =
      (ensureDefaultUser (Store.queries src) s d).events ++
        [⟨.BeginTx, none⟩, ⟨.SoftDeleteTask ⟨toPgUUID x, toPgUUID uid⟩, none⟩,
          ⟨.SoftDeleteDirectSubtasks ⟨toPgUUID x, toPgUUID uid⟩, some e⟩, ⟨.Rollback, none⟩] := by
  have hrun := txOp_run (Store.failingCascade src e) "task id"
    (deleteTaskTx (Store.failingCascade src e)) id s d uid x hown hid
  have key := deleteTx_store src (Store.failingCascade src e) (Store.sameTx_failingCascade src e)
    (.SoftDeleteTask ⟨toPgUUID x, toPgUUID uid⟩) (.SoftDeleteDirectSubtasks ⟨toPgUUID x, toPgUUID uid⟩) "task not found" "failed to delete subtasks"
    (fun _ now => Tables.softDeleteTask now ⟨toPgUUID x, toPgUUID uid⟩)
    (fun _ _ T => ((.error e : Except StorageError Unit), T))
    (fun (deleted : DeletedRow) =>
      ({ ID := fromPgUUID deleted.ID, DeletedAt := deleted.DeletedAt.Time.UTC } : DeleteResult))
    (ensureDefaultUser (Store.queries src) s d).svc (ensureDefaultUser (Store.queries src) s d).db
  have hop : DeleteTask (Store.failingCascade src e) id s d = _ := hrun
  rw [hop]
  have k := key.2.1 row e h rfl
  refine ⟨k.1, k.2.1, ?_⟩
  show (ensureDefaultUser (Store.queries src) s d).events ++ _ = _
  exact congrArg _ k.2.2

/-- DeleteLabel on the store, after owner resolution and with an id that parses: the first
statement decides; the cascade of the store does not fail. -/
theorem DeleteLabel_store (src : Source) (id : String) (s : Service) (d : Store) (uid x : UUID)
    (hown : (ensureDefaultUser (Store.queries src) s d).result = .ok uid)
    (hid : parseUUID id "label id" = .ok x) :
    (∀ e, (Tables.softDeleteLabel (src.clock (ensureDefaultUser (Store.queries src) s d).db.serial)
        ⟨toPgUUID x, toPgUUID uid⟩ (ensureDefaultUser (Store.queries src) s d).db.tables).1 =
        .error e →
      (DeleteLabel (Store.queries src) id s d).result = .error (classify (.storage e) "label not found") ∧
      (DeleteLabel (Store.queries src) id s d).db.tables =
        (ensureDefaultUser (Store.queries src) s d).db.tables) ∧
    (∀ row, (Tables.softDeleteLabel (src.clock (ensureDefaultUser (Store.queries src) s d).db.serial)
        ⟨toPgUUID x, toPgUUID uid⟩ (ensureDefaultUser (Store.queries src) s d).db.tables).1 =
        .ok row →
      (DeleteLabel (Store.queries src) id s d).result =
        .ok ⟨fromPgUUID row.ID, row.DeletedAt.Time.UTC⟩ ∧
      (DeleteLabel (Store.queries src) id s d).db.tables =
        (Tables.deleteTaskLabelsByLabelID (toPgUUID x)
          (Tables.softDeleteLabel (src.clock (ensureDefaultUser (Store.queries src) s d).db.serial)
            ⟨toPgUUID x, toPgUUID uid⟩
            (ensureDefaultUser (Store.queries src) s d).db.tables).2).2) := by
  have hrun := txOp_run (Store.queries src) "label id" (deleteLabelTx (Store.queries src)) id s d uid x
    hown hid
  have key := deleteTx_store src (Store.queries src) (Store.sameTx_queries src)
    (.SoftDeleteLabel ⟨toPgUUID x, toPgUUID uid⟩) (.DeleteTaskLabelsByLabelID (toPgUUID x)) "label not found" "failed to clean task labels"
    (fun _ now => Tables.softDeleteLabel now ⟨toPgUUID x, toPgUUID uid⟩)
    (fun _ now => Tables.deleteTaskLabelsByLabelID (toPgUUID x))
    (fun (deleted : DeletedRow) =>
      ({ ID := fromPgUUID deleted.ID, DeletedAt := deleted.DeletedAt.Time.UTC } : DeleteResult))
    (ensureDefaultUser (Store.queries src) s d).svc (ensureDefaultUser (Store.queries src) s d).db
  have hop : DeleteLabel (Store.queries src) id s d = _ := hrun
  rw [hop]
  exact ⟨fun e h => ⟨(key.1 e h).1, (key.1 e h).2.1⟩, fun row h => key.2.2 row () h rfl⟩

/-- DeleteLabel on the store whose cascade fails: when the first statement has deleted the row,
the error of the cascade is returned, classified, and the tables are those before the
transaction. -/
theorem DeleteLabel_failingCascade (src : Source) (e : StorageError) (id : String) (s : Service)
    (d : Store) (uid x : UUID)
    (hown : (ensureDefaultUser (Store.queries src) s d).result = .ok uid)
    (hid : parseUUID id "label id" = .ok x) (row : DeletedRow)
    (h : (Tables.softDeleteLabel (src.clock (ensureDefaultUser (Store.queries src) s d).db.serial)
        ⟨toPgUUID x, toPgUUID uid⟩ (ensureDefaultUser (Store.queries src) s d).db.tables).1 =
        .ok row) :
    (DeleteLabel (Store.failingCascade src e) id s d).result = .error (classify (.storage e) "failed to clean task labels") ∧
    (DeleteLabel (Store.failingCascade src e) id s d).db.tables =
      (ensureDefaultUser (Store.queries src) s d).db.tables ∧
    (DeleteLabel (Store.failingCascade src e) id s d).events =
      (ensureDefaultUser (Store.queries src) s d).events ++
        [⟨.BeginTx, none⟩, ⟨.SoftDeleteLabel ⟨toPgUUID x, toPgUUID uid⟩, none⟩,
          ⟨.DeleteTaskLabelsByLabelID (toPgUUID x), some e⟩, ⟨.Rollback, none⟩] := by
  have hrun := txOp_run (Store.failingCascade src e) "label id"
    (deleteLabelTx (Store.failingCascade src e)) id s d uid x hown hid
  have key := deleteTx_store src (Store.failingCascade src e) (Store.sameTx_failingCascade src e)
    (.SoftDeleteLabel ⟨toPgUUID x, toPgUUID uid⟩) (.DeleteTaskLabelsByLabelID (toPgUUID x)) "label not found" "failed to clean task labels"
    (fun _ now => Tables.softDeleteLabel now ⟨toPgUUID x, toPgUUID uid⟩)
    (fun _ _ T => ((.error e : Except StorageError Unit), T))
    (fun (deleted : DeletedRow) =>
      ({ ID := fromPgUUID deleted.ID, DeletedAt := deleted.DeletedAt.Time.UTC } : DeleteResult))
    (ensureDefaultUser (Store.queries src) s d).svc (ensureDefaultUser (Store.queries src) s d).db
  have hop : DeleteLabel (Store.failingCascade src e) id s d = _ := hrun
  rw [hop]
  have k := key.2.1 row e h rfl
  refine ⟨k.1, k.2.1, ?_⟩
  show (ensureDefaultUser (Store.queries src) s d).events ++ _ = _
  exact congrArg _ k.2.2

/-- The tables after owner resolution, the table of users apart. -/
theorem owner_tables (src : Source) (s : Service) (d : Store) :
    (ensureDefaultUser (Store.queries src) s d).db.tables.projects = d.tables.projects ∧
    (ensureDefaultUser (Store.queries src) s d).db.tables.labels = d.tables.labels ∧
    (ensureDefaultUser (Store.queries src) s d).db.tables.tasks = d.tables.tasks ∧
    (ensureDefaultUser (Store.queries src) s d).db.tables.taskLabels = d.tables.taskLabels := by
  have h := (ensureDefaultUser_tables src s d).1
  have h1 := congrArg Tables.projects h
  have h2 := congrArg Tables.labels h
  have h3 := congrArg Tables.tasks h
  have h4 := congrArg Tables.taskLabels h
  exact ⟨h1, h2, h3, h4⟩


/-! ## Deleting a label -/

/-- C27: DeleteLabel on the relational store, once the owner is resolved and for an id that
parses. It succeeds when the owner has a label with the id that is not deleted; a run that
succeeds leaves exactly the links of before that do not refer to the label, so no link to
the label is left and the links to other labels are kept, leaves the task rows and the
project rows as they were, and leaves the label deleted. -/
theorem deleteLabel_frame (src : Source) (id : String) (s : Service) (d : Store)
    (uid x : UUID) (hown : (ensureDefaultUser (Store.queries src) s d).result = .ok uid)
    (hid : parseUUID id "label id" = .ok x) :
    ((∃ l ∈ d.tables.labels, l.ID = toPgUUID x ∧ l.UserID = toPgUUID uid ∧
        l.DeletedAt.Valid = false) →
      (DeleteLabel (Store.queries src) id s d).result.toBool = true) ∧
    ((DeleteLabel (Store.queries src) id s d).result.toBool = true →
      (DeleteLabel (Store.queries src) id s d).db.tables.taskLabels =
        d.tables.taskLabels.filter (fun r => !(r.LabelID == toPgUUID x)) ∧
      (∀ r ∈ (DeleteLabel (Store.queries src) id s d).db.tables.taskLabels,
        r.LabelID ≠ toPgUUID x) ∧
      (∀ r ∈ d.tables.taskLabels, r.LabelID ≠ toPgUUID x →
        r ∈ (DeleteLabel (Store.queries src) id s d).db.tables.taskLabels) ∧
      (DeleteLabel (Store.queries src) id s d).db.tables.tasks = d.tables.tasks ∧
      (DeleteLabel (Store.queries src) id s d).db.tables.projects = d.tables.projects ∧
      (∀ l ∈ (DeleteLabel (Store.queries src) id s d).db.tables.labels,
        l.ID = toPgUUID x → l.UserID = toPgUUID uid → l.DeletedAt.Valid = true)) := by
  have hT := owner_tables src s d
  have hstore := DeleteLabel_store src id s d uid x hown hid
  have hres := Tables.softDelete_result Label.ID Label.UserID Label.DeletedAt
    (fun l => { l with
      DeletedAt := ⟨src.clock (ensureDefaultUser (Store.queries src) s d).db.serial, true⟩,
      UpdatedAt := ⟨src.clock (ensureDefaultUser (Store.queries src) s d).db.serial, true⟩ })
    (toPgUUID x) (toPgUUID uid)
    (src.clock (ensureDefaultUser (Store.queries src) s d).db.serial)
    (ensureDefaultUser (Store.queries src) s d).db.tables.labels
    (fun _ => ⟨rfl, rfl, rfl⟩)
  constructor
  · intro hex
    rw [← hT.2.1] at hex
    obtain ⟨row, hrow⟩ := hres.2.2 hex
    rw [(hstore.2 row hrow).1]
    rfl
  · intro hok
    cases h1 : (Tables.softDeleteLabel
        (src.clock (ensureDefaultUser (Store.queries src) s d).db.serial)
        ⟨toPgUUID x, toPgUUID uid⟩
        (ensureDefaultUser (Store.queries src) s d).db.tables).1 with
    | error e =>
        rw [(hstore.1 e h1).1] at hok
        cases hok
    | ok row =>
        have ht := (hstore.2 row h1).2
        have hl : (DeleteLabel (Store.queries src) id s d).db.tables.taskLabels =
            d.tables.taskLabels.filter (fun r => !(r.LabelID == toPgUUID x)) := by
          rw [ht, ← hT.2.2.2]
          rfl
        refine ⟨hl, ?_, ?_, ?_, ?_, ?_⟩
        · intro r hr
          rw [hl] at hr
          have := (List.mem_filter.1 hr).2
          simpa using this
        · intro r hr hne
          rw [hl]
          exact List.mem_filter.2 ⟨hr, by simpa using hne⟩
        · rw [ht, ← hT.2.2.1]
          rfl
        · rw [ht, ← hT.1]
          rfl
        · rw [ht]
          exact Tables.softDelete_rows Label.ID Label.UserID Label.DeletedAt _ (toPgUUID x)
            (toPgUUID uid) (ensureDefaultUser (Store.queries src) s d).db.tables.labels
            (fun _ => ⟨rfl, rfl, rfl⟩)

/-- C27, an instance: a task linked to two labels; deleting the first label leaves the link
to the second and the task rows as they were. -/
theorem deleteLabel_frame_witness :
    (DeleteLabel (Store.queries Sample.source) "07070707-0707-0707-0707-070707070705"
        Sample.linked.1 Sample.linked.2).db.tables.taskLabels =
      Sample.linked.2.tables.taskLabels.filter
        (fun r => !(r.LabelID == toPgUUID (Sample.source.uuid 5))) ∧
    (DeleteLabel (Store.queries Sample.source) "07070707-0707-0707-0707-070707070705"
        Sample.linked.1 Sample.linked.2).db.tables.tasks = Sample.linked.2.tables.tasks :=
  have h := deleteLabel_frame Sample.source "07070707-0707-0707-0707-070707070705"
    Sample.linked.1 Sample.linked.2 (Sample.source.uuid 0) (Sample.source.uuid 5)
    (by decide) (by decide)
  have hok := h.1 (by decide)
  ⟨(h.2 hok).1, (h.2 hok).2.2.2.1⟩


/-! ## The cascades of DeleteProject and DeleteTask -/

theorem classify_noRows (m : String) :
    classify (.storage Tables.errNoRows) m = NewNotFound m := rfl

/-- DeleteProject on the store, once the owner is resolved and for an id that parses. -/
theorem DeleteProject_effect (src : Source) (id : String) (s : Service) (d : Store)
    (uid x : UUID) (hown : (ensureDefaultUser (Store.queries src) s d).result = .ok uid)
    (hid : parseUUID id "project id" = .ok x) :
    ((∃ p ∈ d.tables.projects, p.ID = toPgUUID x ∧ p.UserID = toPgUUID uid ∧
        p.DeletedAt.Valid = false) →
      (DeleteProject (Store.queries src) id s d).result.toBool = true) ∧
    (∀ res, (DeleteProject (Store.queries src) id s d).result = .ok res →
      res.ID = x ∧
      (∃ p ∈ (DeleteProject (Store.queries src) id s d).db.tables.projects,
        p.ID = toPgUUID x ∧ p.UserID = toPgUUID uid ∧ p.DeletedAt.Valid = true ∧
          res.DeletedAt = p.DeletedAt.Time.UTC) ∧
      (∀ p ∈ (DeleteProject (Store.queries src) id s d).db.tables.projects,
        p.ID = toPgUUID x → p.UserID = toPgUUID uid → p.DeletedAt.Valid = true) ∧
      (∀ t ∈ (DeleteProject (Store.queries src) id s d).db.tables.tasks,
        t.ProjectID = toPgUUID x → t.UserID = toPgUUID uid → t.DeletedAt.Valid = true)) ∧
    ((∀ p ∈ d.tables.projects, ¬ (p.ID = toPgUUID x ∧ p.UserID = toPgUUID uid ∧
        p.DeletedAt.Valid = false)) →
      (DeleteProject (Store.queries src) id s d).result =
        .error (GoError.app "NOT_FOUND" "project not found") ∧
      (DeleteProject (Store.queries src) id s d).db.tables.projects = d.tables.projects ∧
      (DeleteProject (Store.queries src) id s d).db.tables.tasks = d.tables.tasks) ∧
    (∀ e, (∃ p ∈ d.tables.projects, p.ID = toPgUUID x ∧ p.UserID = toPgUUID uid ∧
        p.DeletedAt.Valid = false) →
      (DeleteProject (Store.failingCascade src e) id s d).result =
        .error (classify (.storage e) "failed to delete project tasks") ∧
      (DeleteProject (Store.failingCascade src e) id s d).db.tables.projects =
        d.tables.projects ∧
      (DeleteProject (Store.failingCascade src e) id s d).db.tables.tasks = d.tables.tasks) := by
  have hT := owner_tables src s d
  have hstore := DeleteProject_store src id s d uid x hown hid
  have hres := Tables.softDelete_result Project.ID Project.UserID Project.DeletedAt
    (fun p => { p with
      DeletedAt := ⟨src.clock (ensureDefaultUser (Store.queries src) s d).db.serial, true⟩,
      UpdatedAt := ⟨src.clock (ensureDefaultUser (Store.queries src) s d).db.serial, true⟩ })
    (toPgUUID x) (toPgUUID uid)
    (src.clock (ensureDefaultUser (Store.queries src) s d).db.serial)
    (ensureDefaultUser (Store.queries src) s d).db.tables.projects
    (fun _ => ⟨rfl, rfl, rfl⟩)
  refine ⟨?_, ?_, ?_, ?_⟩
  · intro hex
    rw [← hT.1] at hex
    obtain ⟨row, hrow⟩ := hres.2.2 hex
    rw [(hstore.2 row hrow).1]
    rfl
  · intro res hok
    cases h1 : (Tables.softDeleteProject
        (src.clock (ensureDefaultUser (Store.queries src) s d).db.serial)
        ⟨toPgUUID x, toPgUUID uid⟩
        (ensureDefaultUser (Store.queries src) s d).db.tables).1 with
    | error e =>
        rw [(hstore.1 e h1).1] at hok
        cases hok
    | ok row =>
        have ht := (hstore.2 row h1).2
        rw [(hstore.2 row h1).1] at hok
        cases hok
        obtain ⟨hrow, -, q, hq, hq1, hq2, hq3⟩ := hres.1 row h1
        subst hrow
        refine ⟨rfl, ⟨q, ?_, hq1, hq2, by rw [hq3], by rw [hq3]⟩, ?_, ?_⟩
        · rw [ht]
          exact hq
        · rw [ht]
          exact Tables.softDelete_rows Project.ID Project.UserID Project.DeletedAt _
            (toPgUUID x) (toPgUUID uid)
            (ensureDefaultUser (Store.queries src) s d).db.tables.projects
            (fun _ => ⟨rfl, rfl, rfl⟩)
        · rw [ht]
          exact Tables.cascade_rows Task.ProjectID Task.UserID Task.DeletedAt _
            (toPgUUID x) (toPgUUID uid) _ (fun _ => ⟨rfl, rfl, rfl⟩)
  · intro hno
    rw [← hT.1] at hno
    cases h1 : (Tables.softDeleteProject
        (src.clock (ensureDefaultUser (Store.queries src) s d).db.serial)
        ⟨toPgUUID x, toPgUUID uid⟩
        (ensureDefaultUser (Store.queries src) s d).db.tables).1 with
    | ok row =>
        obtain ⟨-, ⟨r, hr, hm⟩, -⟩ := hres.1 row h1
        exact absurd hm (hno r hr)
    | error e =>
        obtain ⟨he, -, -⟩ := hres.2.1 e h1
        subst he
        have h2 := hstore.1 _ h1
        refine ⟨h2.1, ?_, ?_⟩
        · rw [h2.2]; exact hT.1
        · rw [h2.2]; exact hT.2.2.1
  · intro e hex
    rw [← hT.1] at hex
    obtain ⟨row, hrow⟩ := hres.2.2 hex
    have h2 := DeleteProject_failingCascade src e id s d uid x hown hid row hrow
    refine ⟨h2.1, ?_, ?_⟩
    · rw [h2.2.1]; exact hT.1
    · rw [h2.2.1]; exact hT.2.2.1

/-- DeleteTask on the store, once the owner is resolved and for an id that parses. -/
theorem DeleteTask_effect (src : Source) (id : String) (s : Service) (d : Store)
    (uid x : UUID) (hown : (ensureDefaultUser (Store.queries src) s d).result = .ok uid)
    (hid : parseUUID id "task id" = .ok x) :
    ((∃ t ∈ d.tables.tasks, t.ID = toPgUUID x ∧ t.UserID = toPgUUID uid ∧
        t.DeletedAt.Valid = false) →
      (DeleteTask (Store.queries src) id s d).result.toBool = true) ∧
    (∀ res, (DeleteTask (Store.queries src) id s d).result = .ok res →
      res.ID = x ∧
      (∃ t ∈ (DeleteTask (Store.queries src) id s d).db.tables.tasks,
        t.ID = toPgUUID x ∧ t.UserID = toPgUUID uid ∧ t.DeletedAt.Valid = true ∧
          res.DeletedAt = t.DeletedAt.Time.UTC) ∧
      (∀ t ∈ (DeleteTask (Store.queries src) id s d).db.tables.tasks,
        t.ID = toPgUUID x → t.UserID = toPgUUID uid → t.DeletedAt.Valid = true) ∧
      (∀ t ∈ (DeleteTask (Store.queries src) id s d).db.tables.tasks,
        t.ParentTaskID = toPgUUID x → t.UserID = toPgUUID uid → t.DeletedAt.Valid = true) ∧
      (DeleteTask (Store.queries src) id s d).db.tables.projects = d.tables.projects) ∧
    ((∀ t ∈ d.tables.tasks, ¬ (t.ID = toPgUUID x ∧ t.UserID = toPgUUID uid ∧
        t.DeletedAt.Valid = false)) →
      (DeleteTask (Store.queries src) id s d).result =
        .error (GoError.app "NOT_FOUND" "task not found") ∧
      (DeleteTask (Store.queries src) id s d).db.tables.tasks = d.tables.tasks) ∧
    (∀ e, (∃ t ∈ d.tables.tasks, t.ID = toPgUUID x ∧ t.UserID = toPgUUID uid ∧
        t.DeletedAt.Valid = false) →
      (DeleteTask (Store.failingCascade src e) id s d).result =
        .error (classify (.storage e) "failed to delete subtasks") ∧
      (DeleteTask (Store.failingCascade src e) id s d).db.tables.tasks = d.tables.tasks) := by
  have hT := owner_tables src s d
  have hstore := DeleteTask_store src id s d uid x hown hid
  have hres := Tables.softDelete_result Task.ID Task.UserID Task.DeletedAt
    (fun t => { t with
      DeletedAt := ⟨src.clock (ensureDefaultUser (Store.queries src) s d).db.serial, true⟩,
      UpdatedAt := ⟨src.clock (ensureDefaultUser (Store.queries src) s d).db.serial, true⟩ })
    (toPgUUID x) (toPgUUID uid)
    (src.clock (ensureDefaultUser (Store.queries src) s d).db.serial)
    (ensureDefaultUser (Store.queries src) s d).db.tables.tasks
    (fun _ => ⟨rfl, rfl, rfl⟩)
  refine ⟨?_, ?_, ?_, ?_⟩
  · intro hex
    rw [← hT.2.2.1] at hex
    obtain ⟨row, hrow⟩ := hres.2.2 hex
    rw [(hstore.2 row hrow).1]
    rfl
  · intro res hok
    cases h1 : (Tables.softDeleteTask
        (src.clock (ensureDefaultUser (Store.queries src) s d).db.serial)
        ⟨toPgUUID x, toPgUUID uid⟩
        (ensureDefaultUser (Store.queries src) s d).db.tables).1 with
    | error e =>
        rw [(hstore.1 e h1).1] at hok
        cases hok
    | ok row =>
        have ht := (hstore.2 row h1).2
        rw [(hstore.2 row h1).1] at hok
        cases hok
        obtain ⟨hrow, -, q, hq, hq1, hq2, hq3⟩ := hres.1 row h1
        subst hrow
        refine ⟨rfl, ⟨q, ?_, hq1, hq2, by rw [hq3], by rw [hq3]⟩, ?_, ?_, ?_⟩
        · rw [ht]
          refine List.mem_map.2 ⟨q, hq, ?_⟩
          have hl : Tables.live q.DeletedAt = false := by rw [hq3]; rfl
          simp [hl]
        · rw [ht]
          exact Tables.deleted_mono _ _
            (fun (t : Task) => t.ID = toPgUUID x → t.UserID = toPgUUID uid →
              t.DeletedAt.Valid = true) _
            (fun _ _ _ _ => rfl)
            (Tables.softDelete_rows Task.ID Task.UserID Task.DeletedAt _ (toPgUUID x)
              (toPgUUID uid) (ensureDefaultUser (Store.queries src) s d).db.tables.tasks
              (fun _ => ⟨rfl, rfl, rfl⟩))
        · rw [ht]
          exact Tables.cascade_rows Task.ParentTaskID Task.UserID Task.DeletedAt _
            (toPgUUID x) (toPgUUID uid) _ (fun _ => ⟨rfl, rfl, rfl⟩)
        · rw [ht, ← hT.1]
          rfl
  · intro hno
    rw [← hT.2.2.1] at hno
    cases h1 : (Tables.softDeleteTask
        (src.clock (ensureDefaultUser (Store.queries src) s d).db.serial)
        ⟨toPgUUID x, toPgUUID uid⟩
        (ensureDefaultUser (Store.queries src) s d).db.tables).1 with
    | ok row =>
        obtain ⟨-, ⟨r, hr, hm⟩, -⟩ := hres.1 row h1
        exact absurd hm (hno r hr)
    | error e =>
        obtain ⟨he, -, -⟩ := hres.2.1 e h1
        subst he
        have h2 := hstore.1 _ h1
        refine ⟨h2.1, ?_⟩
        rw [h2.2]; exact hT.2.2.1
  · intro e hex
    rw [← hT.2.2.1] at hex
    obtain ⟨row, hrow⟩ := hres.2.2 hex
    have h2 := DeleteTask_failingCascade src e id s d uid x hown hid row hrow
    refine ⟨h2.1, ?_⟩
    rw [h2.2.1]; exact hT.2.2.1


/-! ## Statements of the store and the owners of the rows -/

namespace Tables

@[simp] theorem owners_upsertUserByEmail (id : UUID) (now : Time) (arg : UpsertUserByEmailParams) (T : Tables) :
    (upsertUserByEmail id now arg T).2.owners = T.owners := by
  unfold upsertUserByEmail
  split
  · rfl
  · split <;> rfl

@[simp] theorem owners_getUserByID (id : PgUUID) (T : Tables) :
    (getUserByID id T).2.owners = T.owners := rfl

@[simp] theorem owners_updateProject (now : Time) (arg : UpdateProjectParams) (T : Tables) :
    (updateProject now arg T).2.owners = T.owners := 
  congrArg (fun l => (l, T.tasks.map Task.scope))
    (updateOne_map _ _ T.projects Project.scope fun _ => rfl)

@[simp] theorem owners_softDeleteProject (now : Time) (arg : SoftDeleteProjectParams) (T : Tables) :
    (softDeleteProject now arg T).2.owners = T.owners := 
  congrArg (fun l => (l, T.tasks.map Task.scope))
    (updateOne_map _ _ T.projects Project.scope fun _ => rfl)

@[simp] theorem owners_softDeleteTasksByProject (now : Time) (arg : SoftDeleteTasksByProjectParams) (T : Tables) :
    (softDeleteTasksByProject now arg T).2.owners = T.owners := 
  congrArg (Prod.mk (T.projects.map Project.scope))
    (map_if_key _ _ T.tasks Task.scope fun _ => rfl)

@[simp] theorem owners_getProjectByID (arg : GetProjectByIDParams) (T : Tables) :
    (getProjectByID arg T).2.owners = T.owners := rfl

@[simp] theorem owners_listProjects (arg : ListProjectsParams) (T : Tables) :
    (listProjects arg T).2.owners = T.owners := rfl

@[simp] theorem owners_createLabel (id : UUID) (now : Time) (arg : CreateLabelParams) (T : Tables) :
    (createLabel id now arg T).2.owners = T.owners := by
  unfold createLabel
  split <;> rfl

@[simp] theorem owners_updateLabel (now : Time) (arg : UpdateLabelParams) (T : Tables) :
    (updateLabel now arg T).2.owners = T.owners := by
  unfold updateLabel
  split <;> rfl

@[simp] theorem owners_softDeleteLabel (now : Time) (arg : SoftDeleteLabelParams) (T : Tables) :
    (softDeleteLabel now arg T).2.owners = T.owners := rfl

@[simp] theorem owners_deleteTaskLabelsByLabelID (id : PgUUID) (T : Tables) :
    (deleteTaskLabelsByLabelID id T).2.owners = T.owners := rfl

@[simp] theorem owners_listLabels (arg : ListLabelsParams) (T : Tables) :
    (listLabels arg T).2.owners = T.owners := rfl

@[simp] theorem owners_getTaskByID (arg : GetTaskByIDParams) (T : Tables) :
    (getTaskByID arg T).2.owners = T.owners := rfl

@[simp] theorem owners_updateTask (now : Time) (arg : UpdateTaskParams) (T : Tables) :
    (updateTask now arg T).2.owners = T.owners := 
  congrArg (Prod.mk (T.projects.map Project.scope))
    (updateOne_map _ _ T.tasks Task.scope fun _ => rfl)

@[simp] theorem owners_softDeleteTask (now : Time) (arg : SoftDeleteTaskParams) (T : Tables) :
    (softDeleteTask now arg T).2.owners = T.owners := 
  congrArg (Prod.mk (T.projects.map Project.scope))
    (updateOne_map _ _ T.tasks Task.scope fun _ => rfl)

@[simp] theorem owners_softDeleteDirectSubtasks (now : Time) (arg : SoftDeleteDirectSubtasksParams) (T : Tables) :
    (softDeleteDirectSubtasks now arg T).2.owners = T.owners := 
  congrArg (Prod.mk (T.projects.map Project.scope))
    (map_if_key _ _ T.tasks Task.scope fun _ => rfl)

@[simp] theorem owners_listRootTasks (arg : ListRootTasksParams) (T : Tables) :
    (listRootTasks arg T).2.owners = T.owners := rfl

@[simp] theorem owners_listSubtasks (arg : ListSubtasksParams) (T : Tables) :
    (listSubtasks arg T).2.owners = T.owners := rfl

@[simp] theorem owners_listLabelsByTaskID (arg : ListLabelsByTaskIDParams) (T : Tables) :
    (listLabelsByTaskID arg T).2.owners = T.owners := rfl

@[simp] theorem owners_listSubtasksByParentID (arg : ListSubtasksByParentIDParams) (T : Tables) :
    (listSubtasksByParentID arg T).2.owners = T.owners := rfl

@[simp] theorem owners_deleteTaskLabelsForTask (id : PgUUID) (T : Tables) :
    (deleteTaskLabelsForTask id T).2.owners = T.owners := rfl

@[simp] theorem owners_getLabelsByIDs (arg : GetLabelsByIDsParams) (T : Tables) :
    (getLabelsByIDs arg T).2.owners = T.owners := rfl

@[simp] theorem owners_insertTaskLabel (arg : InsertTaskLabelParams) (T : Tables) :
    (insertTaskLabel arg T).2.owners = T.owners := by
  unfold insertTaskLabel
  split <;> rfl

end Tables


/-! ## Operations and the owners of the rows -/

theorem keeps_owners_insertTaskLabels (src : Source)
    (P : List (PgUUID × PgUUID) × List (PgUUID × PgUUID × PgUUID × PgUUID) → Prop)
    (taskID : UUID) (ids : List PgUUID) :
    Op.Keeps (Store.Inv fun T => P T.owners)
      (insertTaskLabels (Store.queries src) taskID ids) := by
  induction ids with
  | nil => exact Op.keeps_ret _ _
  | cons id rest ih =>
      unfold insertTaskLabels
      simp only [Store.queries]
      refine Op.keeps_bind _ _ _ (keeps_exec_run src _ _ _ _ ?_) fun _ => ih
      intro _ _ T h
      simpa using h

theorem keeps_owners_replaceTaskLabels (src : Source)
    (P : List (PgUUID × PgUUID) × List (PgUUID × PgUUID × PgUUID × PgUUID) → Prop)
    (uid taskID : UUID) (ids : List UUID) :
    Op.Keeps (Store.Inv fun T => P T.owners)
      (replaceTaskLabels (Store.queries src) uid taskID ids) := by
  simp only [replaceTaskLabels, Store.queries]
  repeat' first
    | exact Op.keeps_ret _ _
    | exact Op.keeps_failIf _ _ _
    | exact keeps_owners_insertTaskLabels src P _ _
    | refine keeps_exec_run src _ _ _ _ ?_
    | refine Op.keeps_bind _ _ _ ?_ ?_
    | split
    | intro _
  all_goals simp_all

theorem keeps_owners_ensureDefaultUser (src : Source)
    (P : List (PgUUID × PgUUID) × List (PgUUID × PgUUID × PgUUID × PgUUID) → Prop) :
    Op.Keeps (Store.Inv fun T => P T.owners) (ensureDefaultUser (Store.queries src)) := by
  simp only [ensureDefaultUser, Store.queries]
  repeat' first
    | exact Op.keeps_ret _ _
    | exact Op.keeps_getService _
    | exact Op.keeps_setService _ _
    | refine keeps_exec_run src _ _ _ _ ?_
    | refine Op.keeps_bind _ _ _ ?_ ?_
    | split
    | intro _
  all_goals simp_all

set_option maxHeartbeats 4000000 in
/-- Every operation but CreateProject and CreateTask keeps every property of the owners of
the rows. -/
theorem perform_keeps_owners (src : Source) (U : UnicodeTables) (now : Time) (req : Request)
    (h1 : ∀ input, req ≠ .CreateTask input) (h2 : ∀ input, req ≠ .CreateProject input)
    (P : List (PgUUID × PgUUID) × List (PgUUID × PgUUID × PgUUID × PgUUID) → Prop) :
    Op.Keeps (Store.Inv fun T => P T.owners) (perform U (Store.queries src) now req) := by
  cases req
  case CreateTask input => exact absurd rfl (h1 input)
  case CreateProject input => exact absurd rfl (h2 input)
  all_goals
    simp only [perform]
    refine Op.keeps_void _ _ ?_
    simp only [Bootstrap, Me, UpsertMe, UpdateProject, DeleteProject,
      ListProjects, CreateLabel, UpdateLabel, DeleteLabel, ListLabels, GetProject, GetTask,
      UpdateTask, DeleteTask, ListTasks, LabelsForTask, SubtasksForTask, userID,
      deleteProjectTx, deleteLabelTx, updateTaskTx, deleteTaskTx,
      updateLabels, listTaskRows]
    repeat' first
      | exact Op.keeps_ret _ _
      | exact Op.keeps_check _ _
      | exact Op.keeps_checkErr _ _
      | exact Op.keeps_failIf _ _ _
      | exact Op.keeps_getService _
      | exact Op.keeps_setService _ _
      | exact Op.keeps_orAbsent _ _ _
      | exact keeps_owners_ensureDefaultUser src P
      | exact keeps_owners_replaceTaskLabels src P _ _ _
      | refine keeps_exec_run src _ _ _ _ ?_
      | refine keeps_query_run src _ _ _ ?_
      | refine keeps_WithTx_store src _ _ ?_
      | refine Op.keeps_bind _ _ _ ?_ ?_
      | split
      | intro _
    all_goals simp_all

/-! ### CreateProject and CreateTask -/

theorem scoped_createProject (id : UUID) (now : Time) (arg : CreateProjectParams) (T : Tables)
    (h : Scoped T.owners) : Scoped (Tables.createProject id now arg T).2.owners := by
  unfold Tables.createProject
  split
  · exact h
  · rename_i hfresh
    obtain ⟨h1, h2, h3⟩ := h
    simp only [Tables.owners, List.map_append, List.map_cons, List.map_nil] at h1 h2 h3 ⊢
    refine ⟨?_, h2, ?_⟩
    · dsimp only
      rw [List.map_append, List.nodup_append]
      refine ⟨h1, by simp, ?_⟩
      intro a ha hb
      have hb := List.eq_of_mem_singleton hb
      subst hb
      apply hfresh
      simp only [Tables.owners, List.map_map, List.mem_map, Function.comp] at ha
      obtain ⟨p, hp, hpi⟩ := ha
      simp only [List.any_eq_true, beq_iff_eq]
      exact ⟨p, hp, hpi⟩
    · dsimp only
      intro t ht
      exact ⟨List.mem_append_left _ (h3 t ht).1, (h3 t ht).2⟩

theorem scoped_createTask (id : UUID) (now : Time) (arg : CreateTaskParams) (T : Tables)
    (h : Scoped T.owners) (hproj : (arg.ProjectID, arg.UserID) ∈ T.owners.1)
    (hpar : arg.ParentTaskID.Valid = false ∨
      ∃ q ∈ T.owners.2, q.1 = arg.ParentTaskID ∧ q.2.2.2 = arg.UserID) :
    Scoped (Tables.createTask id now arg T).2.owners := by
  unfold Tables.createTask
  split
  · exact h
  · rename_i hfresh
    obtain ⟨h1, h2, h3⟩ := h
    simp only [Tables.owners, List.map_append, List.map_cons, List.map_nil] at h1 h2 h3 hproj hpar ⊢
    refine ⟨h1, ?_, ?_⟩
    · dsimp only
      rw [List.map_append, List.nodup_append]
      refine ⟨h2, by simp, ?_⟩
      intro a ha hb
      have hb := List.eq_of_mem_singleton hb
      subst hb
      apply hfresh
      simp only [Tables.owners, List.map_map, List.mem_map, Function.comp] at ha
      obtain ⟨t, ht, hti⟩ := ha
      simp only [List.any_eq_true, beq_iff_eq]
      exact ⟨t, ht, hti⟩
    · dsimp only
      intro t ht
      rcases List.mem_append.1 ht with ht | ht
      · refine ⟨(h3 t ht).1, fun hv => ?_⟩
        obtain ⟨q, hq, hq'⟩ := (h3 t ht).2 hv
        exact ⟨q, List.mem_append_left _ hq, hq'⟩
      · simp only [List.mem_singleton] at ht
        subst ht
        refine ⟨hproj, fun hv => ?_⟩
        rcases hpar with hpar | ⟨q, hq, hq'⟩
        · simp only [Task.scope] at hv
          rw [hpar] at hv
          cases hv
        · exact ⟨q, List.mem_append_left _ hq, hq'⟩

theorem keeps_scoped_CreateProject (src : Source) (U : UnicodeTables)
    (input : CreateProjectInput) :
    Op.Keeps (Store.Inv fun T => Scoped T.owners)
      (CreateProject U (Store.queries src) input) := by
  simp only [CreateProject, userID]
  repeat' first
    | exact Op.keeps_ret _ _
    | exact Op.keeps_check _ _
    | exact Op.keeps_checkErr _ _
    | exact Op.keeps_failIf _ _ _
    | exact keeps_owners_ensureDefaultUser src Scoped
    | exact keeps_exec_run src _ _ _ _ fun _ _ T h => scoped_createProject _ _ _ T h
    | refine Op.keeps_bind _ _ _ ?_ ?_
    | split
    | intro _

/-- On the store, the parent CreateTask passes to the insert is none, or a task row of the
owner. -/
theorem checkParent_scoped (src : Source) (uid projectID : UUID) (parentID : Option UUID)
    (K E : Tables → Option Tables → Prop) (hKE : ∀ T sv, K T sv → E T sv) :
    Op.Triple (fun d => K d.tables d.saved)
      (checkParent (Store.queries src) uid projectID parentID)
      (fun ppg d => K d.tables d.saved ∧
        (ppg.Valid = false ∨
          ∃ q ∈ d.tables.owners.2, q.1 = ppg ∧ q.2.2.2 = toPgUUID uid))
      (fun d => E d.tables d.saved) := by
  cases parentID with
  | none =>
      unfold checkParent
      exact Op.triple_ret _ _ _ _ fun d hd => ⟨hd, Or.inl rfl⟩
  | some pid =>
      have run := fun (s : Service) (d : Store) =>
        checkParent_run (Store.queries src) uid projectID pid s d
          ((Store.queries src).GetTaskByID ⟨toPgUUID pid, toPgUUID uid⟩ d).2
          ((Store.queries src).GetTaskByID ⟨toPgUUID pid, toPgUUID uid⟩ d).1 rfl
      have hdb : ∀ d : Store, K d.tables d.saved →
          K ((Store.queries src).GetTaskByID ⟨toPgUUID pid, toPgUUID uid⟩ d).2.tables
            ((Store.queries src).GetTaskByID ⟨toPgUUID pid, toPgUUID uid⟩ d).2.saved :=
        fun d hd => hd
      refine ⟨?_, ?_⟩
      · intro s d a hd ha
        obtain ⟨c1, c2, c3, c4⟩ := run s d
        cases hr : ((Store.queries src).GetTaskByID ⟨toPgUUID pid, toPgUUID uid⟩ d).1 with
        | error se =>
            rw [c1 se hr] at ha
            cases ha
        | ok parent =>
            by_cases hv : parent.ParentTaskID.Valid = true
            · rw [c2 parent hr hv] at ha
              cases ha
            · have hv' : parent.ParentTaskID.Valid = false := by simpa using hv
              by_cases hp : fromPgUUID parent.ProjectID = projectID
              · rw [c4 parent hr hv' hp] at ha ⊢
                cases ha
                refine ⟨hdb d hd, Or.inr ?_⟩
                have hget : Tables.getOne (fun t => t.ID == toPgUUID pid &&
                    t.UserID == toPgUUID uid && Tables.live t.DeletedAt) d.tables.tasks =
                    .ok parent := hr
                obtain ⟨hmem, hprow⟩ := Tables.getOne_ok _ _ _ hget
                simp only [Bool.and_eq_true, beq_iff_eq] at hprow
                exact ⟨parent.scope, List.mem_map_of_mem _ hmem, hprow.1.1, hprow.1.2⟩
              · rw [c3 parent hr hv' hp] at ha
                cases ha
      · intro s d e hd he
        obtain ⟨c1, c2, c3, c4⟩ := run s d
        cases hr : ((Store.queries src).GetTaskByID ⟨toPgUUID pid, toPgUUID uid⟩ d).1 with
        | error se =>
            rw [c1 se hr]
            exact hKE _ _ (hdb d hd)
        | ok parent =>
            by_cases hv : parent.ParentTaskID.Valid = true
            · rw [c2 parent hr hv]
              exact hKE _ _ (hdb d hd)
            · have hv' : parent.ParentTaskID.Valid = false := by simpa using hv
              by_cases hp : fromPgUUID parent.ProjectID = projectID
              · rw [c4 parent hr hv' hp] at he
                cases he
              · rw [c3 parent hr hv' hp]
                exact hKE _ _ (hdb d hd)

/-- On the store, the unit of work of CreateTask keeps the rows scoped by owner. -/
theorem keeps_scoped_createTaskTx (src : Source) (now : Time) (input : CreateTaskInput)
    (uid projectID : UUID) (parentID : Option UUID) (title status priority : String)
    (labelIDs : List UUID) :
    Op.Keeps (Store.Inv fun T => Scoped T.owners)
      (createTaskTx (Store.queries src) now input uid projectID parentID title status priority
        labelIDs) := by
  apply Op.keeps_of_triple
  unfold createTaskTx
  refine Op.triple_bind _ _ _
    (fun _ d => (fun (T : Tables) (sv : Option Tables) =>
      (Scoped T.owners ∧ ∀ t, sv = some t → Scoped t.owners) ∧
        (toPgUUID projectID, toPgUUID uid) ∈ T.owners.1) d.tables d.saved) _ _ ?_ fun _ => ?_
  · simp only [Store.queries]
    refine triple_exec _ _ _ _ _ _ ?_ ?_
    · intro d row hd hrow
      have hget : Tables.getOne (fun p => p.ID == toPgUUID projectID &&
          p.UserID == toPgUUID uid && Tables.live p.DeletedAt) d.tables.projects =
          .ok row := hrow
      obtain ⟨hmem, hprow⟩ := Tables.getOne_ok _ _ _ hget
      simp only [Bool.and_eq_true, beq_iff_eq] at hprow
      have e : row.scope = (toPgUUID projectID, toPgUUID uid) := by
        unfold Project.scope
        rw [hprow.1.1, hprow.1.2]
      have hin : (toPgUUID projectID, toPgUUID uid) ∈ d.tables.owners.1 :=
        e ▸ List.mem_map_of_mem Project.scope hmem
      exact ⟨hd, hin⟩
    · intro d e hd _
      exact hd
  refine Op.triple_bind _ _ _ _ _ _
    (checkParent_scoped src uid projectID parentID
      (fun T sv => (Scoped T.owners ∧ ∀ t, sv = some t → Scoped t.owners) ∧
        (toPgUUID projectID, toPgUUID uid) ∈ T.owners.1)
      (fun T sv => Scoped T.owners ∧ ∀ t, sv = some t → Scoped t.owners)
      (fun _ _ h => h.1)) fun ppg => ?_
  dsimp only
  refine Op.triple_bind _ _ _ (fun _ => Store.Inv fun T => Scoped T.owners) _ _ ?_
    fun created => ?_
  · simp only [Store.queries]
    refine triple_exec _ _ _ _ _ _ ?_ ?_
    · intro d row hd _
      exact ⟨scoped_createTask _ _ _ _ hd.1.1.1 hd.1.2 hd.2, hd.1.1.2⟩
    · intro d e hd _
      exact ⟨scoped_createTask _ _ _ _ hd.1.1.1 hd.1.2 hd.2, hd.1.1.2⟩
  · refine Op.triple_of_keeps _ _ ?_
    exact Op.keeps_bind _ _ _ (keeps_owners_replaceTaskLabels src Scoped _ _ _) fun _ =>
      Op.keeps_ret _ _

set_option maxHeartbeats 4000000 in
/-- On the store, every operation keeps the rows scoped by owner. -/
theorem perform_keeps_scoped (src : Source) (U : UnicodeTables) (now : Time) (req : Request) :
    Op.Keeps (Store.Inv fun T => Scoped T.owners) (perform U (Store.queries src) now req) := by
  by_cases h1 : ∀ input, req ≠ .CreateTask input
  · by_cases h2 : ∀ input, req ≠ .CreateProject input
    · exact perform_keeps_owners src U now req h1 h2 Scoped
    · simp only [not_forall, not_not] at h2
      obtain ⟨input, rfl⟩ := h2
      simp only [perform]
      exact Op.keeps_void _ _ (keeps_scoped_CreateProject src U input)
  · simp only [not_forall, not_not] at h1
    obtain ⟨input, rfl⟩ := h1
    simp only [perform]
    refine Op.keeps_void _ _ ?_
    simp only [CreateTask, userID]
    repeat' first
      | exact Op.keeps_check _ _
      | exact Op.keeps_checkErr _ _
      | exact Op.keeps_failIf _ _ _
      | exact keeps_owners_ensureDefaultUser src Scoped
      | exact keeps_scoped_createTaskTx src now input _ _ _ _ _ _ _
      | refine keeps_WithTx_store src _ _ ?_
      | refine Op.keeps_bind _ _ _ ?_ ?_
      | intro _

theorem runAll_keeps_scoped (src : Source) (U : UnicodeTables) (steps : List (Time × Request))
    (s : Service) (d : Store) (hd : Store.Inv (fun T => Scoped T.owners) d) :
    Store.Inv (fun T => Scoped T.owners) (runAll U (Store.queries src) steps s d).2 := by
  induction steps generalizing s d with
  | nil => exact hd
  | cons step rest ih =>
      unfold runAll
      exact ih _ _ ((perform_keeps_scoped src U step.1 step.2).all s d hd)

theorem scoped_empty : Store.Inv (fun T => Scoped T.owners) Store.empty := by
  refine ⟨⟨List.nodup_nil, List.nodup_nil, fun t ht => ?_⟩, fun t ht => ?_⟩
  · cases ht
  · cases ht

/-- In tables scoped by owner, a task of a project has the owner of the project. -/
theorem Scoped.task_owner (T : Tables) (h : Scoped T.owners) (p : Project) (hp : p ∈ T.projects)
    (t : Task) (ht : t ∈ T.tasks) (hpt : t.ProjectID = p.ID) : t.UserID = p.UserID := by
  obtain ⟨h1, _, h3⟩ := h
  have hin := (h3 t.scope (List.mem_map_of_mem _ ht)).1
  have hq : p.scope ∈ T.owners.1 := List.mem_map_of_mem _ hp
  have := List.inj_on_of_nodup_map h1 hin hq (by simpa [Task.scope, Project.scope] using hpt)
  simpa [Task.scope, Project.scope] using (congrArg Prod.snd this)

/-- In tables scoped by owner, a subtask has the owner of its parent. -/
theorem Scoped.subtask_owner (T : Tables) (h : Scoped T.owners) (p : Task) (hp : p ∈ T.tasks)
    (t : Task) (ht : t ∈ T.tasks) (hv : t.ParentTaskID.Valid = true)
    (hpt : t.ParentTaskID = p.ID) : t.UserID = p.UserID := by
  obtain ⟨_, h2, h3⟩ := h
  obtain ⟨q, hq, hq1, hq2⟩ := (h3 t.scope (List.mem_map_of_mem _ ht)).2 hv
  have hps : p.scope ∈ T.owners.2 := List.mem_map_of_mem _ hp
  have := List.inj_on_of_nodup_map h2 hq hps (by
    rw [hq1]
    simpa [Task.scope] using hpt)
  rw [this] at hq2
  simpa [Task.scope] using hq2.symm


/-! ## Delete cascades: claim -/

/-- C26: on the relational store, in a state `d` reached from the empty store by operations
of the service, with the owner resolved to `uid`: if `d` holds a live project of the owner
with the id `pid` parses to, DeleteProject succeeds; a successful DeleteProject returns that
id and the deletion time of the project row, and leaves that row, every task of the
project and every subtask of such a task soft-deleted; if there is no such project it fails
with NOT_FOUND and changes no project or task row; and if the cascade statement fails the
call fails and the rows of projects and tasks are as before, so the project is not left
deleted. Likewise DeleteTask for the task with the id `tid` parses to and its direct
subtasks. -/
theorem delete_cascade (src : Source) (U : UnicodeTables) (steps : List (Time × Request))
    (s0 s : Service) (d : Store) (pid tid : String) (uid x y : UUID)
    (hd : d = (runAll U (Store.queries src) steps s0 Store.empty).2)
    (hown : (ensureDefaultUser (Store.queries src) s d).result = .ok uid)
    (hpid : parseUUID pid "project id" = .ok x)
    (htid : parseUUID tid "task id" = .ok y) :
    (((∃ p ∈ d.tables.projects, p.ID = toPgUUID x ∧ p.UserID = toPgUUID uid ∧
          p.DeletedAt.Valid = false) →
        (DeleteProject (Store.queries src) pid s d).result.toBool = true) ∧
      (∀ res, (DeleteProject (Store.queries src) pid s d).result = .ok res →
        res.ID = x ∧
        (∃ p ∈ (DeleteProject (Store.queries src) pid s d).db.tables.projects,
          p.ID = toPgUUID x ∧ p.DeletedAt.Valid = true ∧
            res.DeletedAt = p.DeletedAt.Time.UTC) ∧
        (∀ p ∈ (DeleteProject (Store.queries src) pid s d).db.tables.projects,
          p.ID = toPgUUID x → p.DeletedAt.Valid = true) ∧
        (∀ t ∈ (DeleteProject (Store.queries src) pid s d).db.tables.tasks,
          t.ProjectID = toPgUUID x → t.DeletedAt.Valid = true) ∧
        (∀ t ∈ (DeleteProject (Store.queries src) pid s d).db.tables.tasks,
          ∀ q ∈ (DeleteProject (Store.queries src) pid s d).db.tables.tasks,
            q.ProjectID = toPgUUID x → t.ParentTaskID.Valid = true → t.ParentTaskID = q.ID →
              t.DeletedAt.Valid = true)) ∧
      ((∀ p ∈ d.tables.projects, ¬ (p.ID = toPgUUID x ∧ p.UserID = toPgUUID uid ∧
          p.DeletedAt.Valid = false)) →
        (DeleteProject (Store.queries src) pid s d).result =
          .error (GoError.app "NOT_FOUND" "project not found") ∧
        (DeleteProject (Store.queries src) pid s d).db.tables.projects = d.tables.projects ∧
        (DeleteProject (Store.queries src) pid s d).db.tables.tasks = d.tables.tasks) ∧
      (∀ e, (∃ p ∈ d.tables.projects, p.ID = toPgUUID x ∧ p.UserID = toPgUUID uid ∧
          p.DeletedAt.Valid = false) →
        (DeleteProject (Store.failingCascade src e) pid s d).result =
          .error (classify (.storage e) "failed to delete project tasks") ∧
        (DeleteProject (Store.failingCascade src e) pid s d).db.tables.projects =
          d.tables.projects ∧
        (DeleteProject (Store.failingCascade src e) pid s d).db.tables.tasks =
          d.tables.tasks)) ∧
    (((∃ t ∈ d.tables.tasks, t.ID = toPgUUID y ∧ t.UserID = toPgUUID uid ∧
          t.DeletedAt.Valid = false) →
        (DeleteTask (Store.queries src) tid s d).result.toBool = true) ∧
      (∀ res, (DeleteTask (Store.queries src) tid s d).result = .ok res →
        res.ID = y ∧
        (∃ t ∈ (DeleteTask (Store.queries src) tid s d).db.tables.tasks,
          t.ID = toPgUUID y ∧ t.DeletedAt.Valid = true ∧
            res.DeletedAt = t.DeletedAt.Time.UTC) ∧
        (∀ t ∈ (DeleteTask (Store.queries src) tid s d).db.tables.tasks,
          t.ID = toPgUUID y → t.DeletedAt.Valid = true) ∧
        (∀ t ∈ (DeleteTask (Store.queries src) tid s d).db.tables.tasks,
          t.ParentTaskID = toPgUUID y → t.DeletedAt.Valid = true)) ∧
      ((∀ t ∈ d.tables.tasks, ¬ (t.ID = toPgUUID y ∧ t.UserID = toPgUUID uid ∧
          t.DeletedAt.Valid = false)) →
        (DeleteTask (Store.queries src) tid s d).result =
          .error (GoError.app "NOT_FOUND" "task not found") ∧
        (DeleteTask (Store.queries src) tid s d).db.tables.tasks = d.tables.tasks) ∧
      (∀ e, (∃ t ∈ d.tables.tasks, t.ID = toPgUUID y ∧ t.UserID = toPgUUID uid ∧
          t.DeletedAt.Valid = false) →
        (DeleteTask (Store.failingCascade src e) tid s d).result =
          .error (classify (.storage e) "failed to delete subtasks") ∧
        (DeleteTask (Store.failingCascade src e) tid s d).db.tables.tasks =
          d.tables.tasks)) := by
  have hS : Store.Inv (fun T => Scoped T.owners) d :=
    hd ▸ runAll_keeps_scoped src U steps s0 Store.empty scoped_empty
  have hN : Store.Inv (fun T => Nested T.keys) d := by
    have hn : Nested Store.empty.tables.keys := by
      refine ⟨List.nodup_nil, ?_, ?_⟩ <;> intro k hk <;> cases hk
    exact hd ▸ runAll_keeps_nested src U steps s0 Store.empty ⟨hn, fun t ht => by cases ht⟩
  obtain ⟨p1, p2, p3, p4⟩ := DeleteProject_effect src pid s d uid x hown hpid
  obtain ⟨t1, t2, t3, t4⟩ := DeleteTask_effect src tid s d uid y hown htid
  have hSP : Store.Inv (fun T => Scoped T.owners)
      (DeleteProject (Store.queries src) pid s d).db :=
    (perform_keeps_scoped src U (src.clock 0) (.DeleteProject pid)).all s d hS
  have hNP : Store.Inv (fun T => Nested T.keys)
      (DeleteProject (Store.queries src) pid s d).db :=
    (perform_keeps_nested src U (src.clock 0) (.DeleteProject pid)).all s d hN
  have hST : Store.Inv (fun T => Scoped T.owners)
      (DeleteTask (Store.queries src) tid s d).db :=
    (perform_keeps_scoped src U (src.clock 0) (.DeleteTask tid)).all s d hS
  refine ⟨⟨p1, ?_, p3, p4⟩, ⟨t1, ?_, t3, t4⟩⟩
  · intro res hres
    obtain ⟨q1, ⟨row, hrow, hr1, hr2, hr3, hr4⟩, q3, q4⟩ := p2 res hres
    have hproj : ∀ t ∈ (DeleteProject (Store.queries src) pid s d).db.tables.tasks,
        t.ProjectID = toPgUUID x → t.DeletedAt.Valid = true := fun t ht hp =>
      q4 t ht hp ((Scoped.task_owner _ hSP.1 row hrow t ht (hp.trans hr1.symm)).trans hr2)
    refine ⟨q1, ⟨row, hrow, hr1, hr3, hr4⟩, ?_, hproj, ?_⟩
    · intro p hp hpx
      have heq : p.scope = row.scope :=
        List.inj_on_of_nodup_map hSP.1.1 (List.mem_map_of_mem _ hp)
          (List.mem_map_of_mem _ hrow) (hpx.trans hr1.symm)
      exact q3 p hp hpx ((congrArg Prod.snd heq).trans hr2)
    · intro t ht q hq hqx hv hpar
      obtain ⟨_, _, _, _, _, hall⟩ := nested_tasks _ hNP.1 t ht hv
      exact hproj t ht ((hall q hq hpar.symm).2.symm.trans hqx)
  · intro res hres
    obtain ⟨q1, ⟨row, hrow, hr1, hr2, hr3, hr4⟩, q3, q4, _⟩ := t2 res hres
    refine ⟨q1, ⟨row, hrow, hr1, hr3, hr4⟩, ?_, ?_⟩
    · intro t ht htx
      have heq : t.scope = row.scope :=
        List.inj_on_of_nodup_map hST.1.2.1 (List.mem_map_of_mem _ ht)
          (List.mem_map_of_mem _ hrow) (htx.trans hr1.symm)
      exact q3 t ht htx ((congrArg (fun k => k.2.2.2) heq).trans hr2)
    · intro t ht hpar
      have hv : t.ParentTaskID.Valid = true := by rw [hpar]; rfl
      exact q4 t ht hpar
        ((Scoped.subtask_owner _ hST.1 row hrow t ht hv (hpar.trans hr1.symm)).trans hr2)

/-- C26, an instance: after a project, a task in it and a subtask of the task, the owner
deletes the project, and deletes the task. -/
theorem delete_cascade_witness :
    (DeleteProject (Store.queries Sample.source) "07070707-0707-0707-0707-070707070701"
        Sample.nested.1 Sample.nested.2).result.toBool = true ∧
    (DeleteTask (Store.queries Sample.source) "07070707-0707-0707-0707-070707070703"
        Sample.nested.1 Sample.nested.2).result.toBool = true :=
  have h := delete_cascade Sample.source asciiTables (Sample.session.take 3) Service.fresh
    Sample.nested.1 Sample.nested.2 "07070707-0707-0707-0707-070707070701"
    "07070707-0707-0707-0707-070707070703" (Sample.source.uuid 0) (Sample.source.uuid 1)
    (Sample.source.uuid 3) rfl (by decide) (by decide) (by decide)
  ⟨h.1.1 (by decide), h.2.1 (by decide)⟩


/-! ## What the base64 decoder reads -/

namespace Base64

theorem dec_isSome (c : Char) : (dec c).isSome = true ↔ c ∈ encodeStd := by
  have hl : encodeStd.length = 64 := by decide
  unfold dec
  rw [← List.indexOf_lt_length, hl]
  split <;> simp_all

theorem pad_not_mem : '=' ∉ encodeStd := by decide

theorem decodeQuanta_wellformed (n : Nat) :
    ∀ cs : List Char, cs.length ≤ n → (decodeQuanta cs).isSome = true → Wellformed cs := by
  induction n using Nat.strong_induction_on with
  | _ n ih =>
    intro cs hn h
    rcases cs with _ | ⟨a, _ | ⟨b, _ | ⟨c, _ | ⟨d, rest⟩⟩⟩⟩
    · exact Wellformed.nil
    · simp [decodeQuanta] at h
    · simp [decodeQuanta] at h
    · simp [decodeQuanta] at h
    · simp only [decodeQuanta] at h
      split at h
      · rename_i hc
        obtain ⟨rfl, rfl, rfl⟩ := hc
        have ha : (dec a).isSome = true := by
          cases hda : dec a <;> simp_all
        have hb : (dec b).isSome = true := by
          cases hda : dec a <;> cases hdb : dec b <;> simp_all
        exact Wellformed.pad2 a b ((dec_isSome a).1 ha) ((dec_isSome b).1 hb)
      · split at h
        · rename_i hc
          obtain ⟨rfl, rfl⟩ := hc
          have ha : (dec a).isSome = true := by
            cases hda : dec a <;> simp_all
          have hb : (dec b).isSome = true := by
            cases hda : dec a <;> cases hdb : dec b <;> simp_all
          have hc : (dec c).isSome = true := by
            cases hda : dec a <;> cases hdb : dec b <;> cases hdc : dec c <;> simp_all
          exact Wellformed.pad1 a b c ((dec_isSome a).1 ha) ((dec_isSome b).1 hb)
            ((dec_isSome c).1 hc)
        · cases hda : dec a <;> cases hdb : dec b <;> cases hdc : dec c <;>
            cases hdd : dec d <;> cases hr : decodeQuanta rest <;>
            simp only [hda, hdb, hdc, hdd, hr, Option.isSome_none, Bool.false_eq_true] at h
          have hlen : rest.length < n := by
            simp only [List.length_cons] at hn
            omega
          exact Wellformed.group a b c d rest ((dec_isSome a).1 (by rw [hda]; rfl))
            ((dec_isSome b).1 (by rw [hdb]; rfl)) ((dec_isSome c).1 (by rw [hdc]; rfl))
            ((dec_isSome d).1 (by rw [hdd]; rfl))
            (ih rest.length hlen rest (Nat.le_refl _) (by rw [hr]; rfl))

theorem wellformed_decodeQuanta (cs : List Char) (h : Wellformed cs) :
    (decodeQuanta cs).isSome = true := by
  induction h with
  | nil => rfl
  | pad2 a b ha hb =>
      obtain ⟨x, hx⟩ := Option.isSome_iff_exists.1 ((dec_isSome a).2 ha)
      obtain ⟨y, hy⟩ := Option.isSome_iff_exists.1 ((dec_isSome b).2 hb)
      simp [decodeQuanta, hx, hy]
  | pad1 a b c ha hb hc =>
      obtain ⟨x, hx⟩ := Option.isSome_iff_exists.1 ((dec_isSome a).2 ha)
      obtain ⟨y, hy⟩ := Option.isSome_iff_exists.1 ((dec_isSome b).2 hb)
      obtain ⟨z, hz⟩ := Option.isSome_iff_exists.1 ((dec_isSome c).2 hc)
      have hne : c ≠ '=' := fun e => pad_not_mem (e ▸ hc)
      simp [decodeQuanta, hx, hy, hz, hne]
  | group a b c d rest ha hb hc hd _ ih =>
      obtain ⟨x, hx⟩ := Option.isSome_iff_exists.1 ((dec_isSome a).2 ha)
      obtain ⟨y, hy⟩ := Option.isSome_iff_exists.1 ((dec_isSome b).2 hb)
      obtain ⟨z, hz⟩ := Option.isSome_iff_exists.1 ((dec_isSome c).2 hc)
      obtain ⟨w, hw⟩ := Option.isSome_iff_exists.1 ((dec_isSome d).2 hd)
      obtain ⟨out, ho⟩ := Option.isSome_iff_exists.1 ih
      have hne : d ≠ '=' := fun e => pad_not_mem (e ▸ hd)
      simp [decodeQuanta, hx, hy, hz, hw, ho, hne]

theorem DecodeString_eq_none_iff (s : String) : DecodeString s = none ↔ ¬ Valid s := by
  unfold DecodeString Valid
  constructor
  · intro h hv
    have := wellformed_decodeQuanta _ hv
    rw [h] at this
    cases this
  · intro h
    cases hp : decodeQuanta (s.toList.filter fun c => c ≠ '\n' ∧ c ≠ '\r') with
    | none => rfl
    | some out =>
        exact absurd (decodeQuanta_wellformed _ _ (Nat.le_refl _) (by rw [hp]; rfl)) h

end Base64

/-! ## What `time.Parse` reads -/

namespace Time

theorem digits_one (l : List Nat) :
    Digits 1 l ↔ ∃ a, l = [a] ∧ isDigit a = true := by
  constructor
  · rintro ⟨hl, hd⟩
    obtain ⟨a, rfl⟩ := List.length_eq_one.1 hl
    exact ⟨a, rfl, hd a (by simp)⟩
  · rintro ⟨a, rfl, ha⟩
    exact ⟨rfl, by simpa using ha⟩

theorem digits_two (l : List Nat) :
    Digits 2 l ↔ ∃ a b, l = [a, b] ∧ isDigit a = true ∧ isDigit b = true := by
  constructor
  · rintro ⟨hl, hd⟩
    obtain ⟨a, b, rfl⟩ := List.length_eq_two.1 hl
    exact ⟨a, b, rfl, hd a (by simp), hd b (by simp)⟩
  · rintro ⟨a, b, rfl, ha, hb⟩
    exact ⟨rfl, by simp [ha, hb]⟩

theorem digits_four (l : List Nat) :
    Digits 4 l ↔ ∃ a b c d, l = [a, b, c, d] ∧ isDigit a = true ∧ isDigit b = true ∧
      isDigit c = true ∧ isDigit d = true := by
  constructor
  · rintro ⟨hl, hd⟩
    rcases l with _ | ⟨a, _ | ⟨b, _ | ⟨c, _ | ⟨d, _ | ⟨e, l⟩⟩⟩⟩⟩ <;> simp at hl
    exact ⟨a, b, c, d, rfl, hd a (by simp), hd b (by simp), hd c (by simp), hd d (by simp)⟩
  · rintro ⟨a, b, c, d, rfl, ha, hb, hc, hd⟩
    exact ⟨rfl, by simp [ha, hb, hc, hd]⟩

theorem digitsVal_one (a : Nat) : digitsVal [a] = a - 48 := by
  simp [digitsVal]

theorem digitsVal_two (a b : Nat) : digitsVal [a, b] = (a - 48) * 10 + (b - 48) := by
  simp [digitsVal]

theorem digitsVal_four (a b c d : Nat) :
    digitsVal [a, b, c, d] = (a - 48) * 1000 + (b - 48) * 100 + (c - 48) * 10 + (d - 48) := by
  simp only [digitsVal, List.foldl]
  omega

/-! ### The elements of the layout -/

theorem getYear_some (v rest : List Nat) (n : Nat) (h : getYear v = some (n, rest)) :
    ∃ y, Digits 4 y ∧ v = y ++ rest ∧ n = digitsVal y := by
  rcases v with _ | ⟨a, _ | ⟨b, _ | ⟨c, _ | ⟨d, r⟩⟩⟩⟩ <;> simp only [getYear] at h <;>
    try cases h
  split at h
  · rename_i hd
    simp only [Bool.and_eq_true] at hd
    cases h
    exact ⟨[a, b, c, d], (digits_four _).2 ⟨a, b, c, d, rfl, hd.1.1.1, hd.1.1.2, hd.1.2, hd.2⟩,
      rfl, (digitsVal_four a b c d).symm⟩
  · cases h

theorem getYear_digits (y r : List Nat) (h : Digits 4 y) :
    getYear (y ++ r) = some (digitsVal y, r) := by
  obtain ⟨a, b, c, d, rfl, ha, hb, hc, hd⟩ := (digits_four y).1 h
  simp [getYear, ha, hb, hc, hd, digitsVal_four]

theorem getnum_fixed_some (v rest : List Nat) (n : Nat) (h : getnum v true = some (n, rest)) :
    ∃ l, Digits 2 l ∧ v = l ++ rest ∧ n = digitsVal l := by
  rcases v with _ | ⟨a, _ | ⟨b, r⟩⟩
  · simp [getnum] at h
  · simp [getnum] at h
  · simp only [getnum] at h
    by_cases ha : isDigit a = true
    · by_cases hb : isDigit b = true
      · simp only [ha, hb, Bool.not_true, Bool.false_eq_true, if_false, Option.some.injEq,
          Prod.mk.injEq] at h
        obtain ⟨rfl, rfl⟩ := h
        exact ⟨[a, b], (digits_two _).2 ⟨a, b, rfl, ha, hb⟩, rfl, (digitsVal_two a b).symm⟩
      · simp [ha, hb] at h
    · simp [ha] at h

theorem getnum_free_some (v rest : List Nat) (n : Nat) (h : getnum v false = some (n, rest)) :
    ∃ l, (Digits 1 l ∨ Digits 2 l) ∧ v = l ++ rest ∧ n = digitsVal l := by
  rcases v with _ | ⟨a, _ | ⟨b, r⟩⟩
  · simp [getnum] at h
  · simp only [getnum] at h
    by_cases ha : isDigit a = true
    · simp only [ha, Bool.not_false, Bool.and_self, if_true, Option.some.injEq,
        Prod.mk.injEq] at h
      obtain ⟨rfl, rfl⟩ := h
      exact ⟨[a], Or.inl ((digits_one _).2 ⟨a, rfl, ha⟩), rfl, (digitsVal_one a).symm⟩
    · simp [ha] at h
  · simp only [getnum] at h
    by_cases ha : isDigit a = true
    · by_cases hb : isDigit b = true
      · simp only [ha, hb, Bool.not_true, Bool.false_eq_true, if_false, Option.some.injEq,
          Prod.mk.injEq] at h
        obtain ⟨rfl, rfl⟩ := h
        exact ⟨[a, b], Or.inr ((digits_two _).2 ⟨a, b, rfl, ha, hb⟩), rfl,
          (digitsVal_two a b).symm⟩
      · simp only [ha, hb, Bool.not_true, Bool.false_eq_true, if_false, Bool.not_false,
          if_true, Option.some.injEq, Prod.mk.injEq] at h
        obtain ⟨rfl, rfl⟩ := h
        exact ⟨[a], Or.inl ((digits_one _).2 ⟨a, rfl, ha⟩), rfl, (digitsVal_one a).symm⟩
    · simp [ha] at h

theorem getnum_digits (l r : List Nat) (fixed : Bool) (h : Digits 2 l) :
    getnum (l ++ r) fixed = some (digitsVal l, r) := by
  obtain ⟨a, b, rfl, ha, hb⟩ := (digits_two l).1 h
  simp [getnum, ha, hb, digitsVal_two]

theorem getnum_one_digit (l r : List Nat) (h : Digits 1 l) :
    getnum (l ++ 58 :: r) false = some (digitsVal l, 58 :: r) := by
  obtain ⟨a, rfl, ha⟩ := (digits_one l).1 h
  have h58 : isDigit 58 = false := by decide
  simp [getnum, ha, h58, digitsVal_one]

theorem skip_some (c : Nat) (v rest : List Nat) (h : skip c v = some rest) : v = c :: rest := by
  rcases v with _ | ⟨a, r⟩
  · simp [skip] at h
  · simp only [skip] at h
    split at h
    · rename_i hc
      cases h
      rw [hc]
    · cases h

theorem skip_cons (c : Nat) (r : List Nat) : skip c (c :: r) = some r := by
  simp [skip]

theorem require_some (ok : Bool) (u : Unit) (h : require ok = some u) : ok = true := by
  cases ok
  · simp [require] at h
  · rfl

theorem getnum_pair (a b : Nat) :
    getnum [a, b] true =
      if isDigit a = true ∧ isDigit b = true then some (digitsVal [a, b], []) else none := by
  by_cases ha : isDigit a = true <;> by_cases hb : isDigit b = true <;>
    simp [getnum, ha, hb, digitsVal_two]

theorem dropWhile_digits_append (ds z : List Nat) (hds : ∀ b ∈ ds, isDigit b = true)
    (hz : ∀ c ∈ z.head?, isDigit c = false) : (ds ++ z).dropWhile isDigit = z := by
  induction ds with
  | nil =>
      cases z with
      | nil => rfl
      | cons c r =>
          have := hz c (by simp)
          simp [List.dropWhile, this]
  | cons d ds ih =>
      have hd := hds d (by simp)
      simp only [List.cons_append, List.dropWhile, hd]
      exact ih fun b hb => hds b (List.mem_cons_of_mem _ hb)

theorem takeWhile_digits_append (ds z : List Nat) (hds : ∀ b ∈ ds, isDigit b = true)
    (hz : ∀ c ∈ z.head?, isDigit c = false) : (ds ++ z).takeWhile isDigit = ds := by
  induction ds with
  | nil =>
      cases z with
      | nil => rfl
      | cons c r =>
          have := hz c (by simp)
          simp [List.takeWhile, this]
  | cons d ds ih =>
      have hd := hds d (by simp)
      simp only [List.cons_append, List.takeWhile, hd]
      exact congrArg (List.cons d) (ih fun b hb => hds b (List.mem_cons_of_mem _ hb))

/-- The fraction read by `getFrac` is nothing, or a period or a comma and the digits that
follow it. -/
theorem getFrac_text (v : List Nat) : ∃ frac, FracText frac ∧ v = frac ++ (getFrac v).2 := by
  rcases v with _ | ⟨sep, _ | ⟨d, rest⟩⟩
  · exact ⟨[], Or.inl rfl, rfl⟩
  · exact ⟨[], Or.inl rfl, rfl⟩
  · by_cases hc : (sep = 46 ∨ sep = 44) ∧ isDigit d = true
    · refine ⟨sep :: (d :: rest).takeWhile isDigit, Or.inr ⟨sep, _, rfl, hc.1, ?_, ?_⟩, ?_⟩
      · simp [List.takeWhile, hc.2]
      · intro b hb
        exact (List.mem_takeWhile_imp hb)
      · simp only [getFrac, hc, and_self, if_true, List.cons_append,
          List.takeWhile_append_dropWhile]
    · refine ⟨[], Or.inl rfl, ?_⟩
      simp only [getFrac, hc, if_false, List.nil_append]

theorem zoneText_head (zone : List Nat) (h : ZoneText zone) :
    ∃ c r, zone = c :: r ∧ isDigit c = false ∧ c ≠ 46 ∧ c ≠ 44 := by
  rcases h with rfl | ⟨sg, hh, mm, rfl, hsg, -⟩
  · exact ⟨90, [], rfl, by decide, by decide, by decide⟩
  · refine ⟨sg, _, rfl, ?_, ?_, ?_⟩ <;> rcases hsg with rfl | rfl <;> decide

/-- After a fraction and before a zone, `getFrac` leaves the zone. -/
theorem getFrac_append (frac zone : List Nat) (hf : FracText frac) (hz : ZoneText zone) :
    (getFrac (frac ++ zone)).2 = zone := by
  obtain ⟨c, r, rfl, hc, h46, h44⟩ := zoneText_head zone hz
  rcases hf with rfl | ⟨sep, ds, rfl, hsep, hne, hds⟩
  · rcases r with _ | ⟨c2, r⟩
    · rfl
    · have : ¬ ((c = 46 ∨ c = 44) ∧ isDigit c2 = true) := fun h => h.1.elim h46 h44
      simp only [List.nil_append, getFrac, this, if_false]
  · rcases ds with _ | ⟨d, ds⟩
    · exact absurd rfl hne
    · have hd := hds d (by simp)
      have hcond : (sep = 46 ∨ sep = 44) ∧ isDigit d = true := ⟨hsep, hd⟩
      simp only [List.cons_append, getFrac, hcond, and_self, if_true]
      exact dropWhile_digits_append (d :: ds) (c :: r) hds
        (fun x hx => by simp at hx; rw [← hx]; exact hc)

theorem getZone_some (z rest : List Nat) (off : Int) (h : getZone z = some (off, rest)) :
    ∃ zone, ZoneText zone ∧ z = zone ++ rest := by
  rcases z with _ | ⟨c, r⟩
  · simp [getZone] at h
  · by_cases hc : c = 90
    · subst hc
      simp only [getZone, if_true, Option.some.injEq, Prod.mk.injEq] at h
      obtain ⟨-, rfl⟩ := h
      exact ⟨[90], Or.inl rfl, rfl⟩
    · rcases r with _ | ⟨h1, _ | ⟨h2, _ | ⟨colon, _ | ⟨m1, _ | ⟨m2, r⟩⟩⟩⟩⟩ <;>
        simp only [getZone, hc, if_false] at h <;> try cases h
      by_cases hcol : colon = 58
      · subst hcol
        simp only [ne_eq, not_true_eq_false, if_false, getnum_pair] at h
        by_cases hh : isDigit h1 = true ∧ isDigit h2 = true
        · by_cases hm : isDigit m1 = true ∧ isDigit m2 = true
          · simp only [hh, hm, and_self, if_true] at h
            by_cases hr : 24 < digitsVal [h1, h2] ∨ 60 < digitsVal [m1, m2]
            · simp [hr] at h
            · simp only [hr, if_false] at h
              have hsg : c = 43 ∨ c = 45 := by
                by_cases h43 : c = 43
                · exact Or.inl h43
                · by_cases h45 : c = 45
                  · exact Or.inr h45
                  · simp [h43, h45] at h
              have hrest : rest = r := by
                rcases hsg with rfl | rfl <;> simp at h <;> exact h.2.symm
              subst hrest
              refine ⟨c :: ([h1, h2] ++ [58] ++ [m1, m2]),
                Or.inr ⟨c, [h1, h2], [m1, m2], rfl, hsg,
                  (digits_two _).2 ⟨h1, h2, rfl, hh.1, hh.2⟩,
                  (digits_two _).2 ⟨m1, m2, rfl, hm.1, hm.2⟩, ?_, ?_⟩, rfl⟩
              · omega
              · omega
          · simp [hh, hm] at h
        · simp [hh] at h
      · simp [hcol] at h

theorem getZone_text (zone : List Nat) (h : ZoneText zone) :
    ∃ off, getZone zone = some (off, []) := by
  rcases h with rfl | ⟨sg, hh, mm, rfl, hsg, hhh, hmm, h24, h60⟩
  · exact ⟨0, rfl⟩
  · obtain ⟨h1, h2, rfl, d1, d2⟩ := (digits_two hh).1 hhh
    obtain ⟨m1, m2, rfl, d3, d4⟩ := (digits_two mm).1 hmm
    have hr : ¬ (24 < digitsVal [h1, h2] ∨ 60 < digitsVal [m1, m2]) := by omega
    rcases hsg with rfl | rfl
    · refine ⟨(((digitsVal [h1, h2] * 60 + digitsVal [m1, m2]) * 60 : Nat) : Int), ?_⟩
      simp [getZone, getnum_pair, d1, d2, d3, d4, hr]
    · refine ⟨-(((digitsVal [h1, h2] * 60 + digitsVal [m1, m2]) * 60 : Nat) : Int), ?_⟩
      simp [getZone, getnum_pair, d1, d2, d3, d4, hr]

/-! ### The date and the time of day -/

theorem getDate_some (v rest : List Nat) (y M D : Nat)
    (h : getDate v = some ((y, M, D), rest)) :
    ∃ ys Ms Ds, Digits 4 ys ∧ Digits 2 Ms ∧ Digits 2 Ds ∧
      v = ys ++ 45 :: (Ms ++ 45 :: (Ds ++ rest)) ∧
      y = digitsVal ys ∧ M = digitsVal Ms ∧ D = digitsVal Ds ∧ 1 ≤ M ∧ M ≤ 12 := by
  unfold getDate at h
  simp only [Option.bind_eq_some] at h
  obtain ⟨⟨y0, r1⟩, hy, r2, hs1, ⟨m0, r3⟩, hm, u, hreq, r4, hs2, ⟨d0, r5⟩, hd, hfin⟩ := h
  simp only [Option.some.injEq, Prod.mk.injEq] at hfin
  obtain ⟨⟨rfl, rfl, rfl⟩, rfl⟩ := hfin
  obtain ⟨ys, hys, rfl, rfl⟩ := getYear_some _ _ _ hy
  have e1 := skip_some _ _ _ hs1
  obtain ⟨Ms, hMs, e2, rfl⟩ := getnum_fixed_some _ _ _ hm
  have e3 := skip_some _ _ _ hs2
  obtain ⟨Ds, hDs, e4, rfl⟩ := getnum_fixed_some _ _ _ hd
  have hrange := require_some _ _ hreq
  simp only [decide_eq_true_eq] at hrange
  dsimp only at e1 e2 e3 e4
  refine ⟨ys, Ms, Ds, hys, hMs, hDs, ?_, rfl, rfl, rfl, hrange.1, hrange.2⟩
  rw [e1, e2, e3, e4]

theorem getDate_digits (ys Ms Ds rest : List Nat) (hy : Digits 4 ys) (hM : Digits 2 Ms)
    (hD : Digits 2 Ds) (h1 : 1 ≤ digitsVal Ms) (h12 : digitsVal Ms ≤ 12) :
    getDate (ys ++ 45 :: (Ms ++ 45 :: (Ds ++ rest))) =
      some ((digitsVal ys, digitsVal Ms, digitsVal Ds), rest) := by
  unfold getDate
  rw [getYear_digits ys _ hy]
  simp only [Option.some_bind, skip_cons]
  rw [getnum_digits Ms _ true hM]
  simp only [Option.some_bind, skip_cons, require, h1, h12, and_self, decide_True, if_true]
  rw [getnum_digits Ds _ true hD]
  rfl

theorem getClock_some (v rest : List Nat) (h m s : Nat)
    (hc : getClock v = some ((h, m, s), rest)) :
    ∃ hs ms ss, (Digits 1 hs ∨ Digits 2 hs) ∧ Digits 2 ms ∧ Digits 2 ss ∧
      v = hs ++ 58 :: (ms ++ 58 :: (ss ++ rest)) ∧
      h = digitsVal hs ∧ m = digitsVal ms ∧ s = digitsVal ss ∧ h < 24 ∧ m < 60 ∧ s < 60 := by
  unfold getClock at hc
  simp only [Option.bind_eq_some] at hc
  obtain ⟨⟨h0, r1⟩, hh, u1, q1, r2, hs1, ⟨m0, r3⟩, hm, u2, q2, r4, hs2, ⟨s0, r5⟩, hsec, u3, q3,
    hfin⟩ := hc
  simp only [Option.some.injEq, Prod.mk.injEq] at hfin
  obtain ⟨⟨rfl, rfl, rfl⟩, rfl⟩ := hfin
  obtain ⟨hs, hhs, e0, rfl⟩ := getnum_free_some _ _ _ hh
  have e1 := skip_some _ _ _ hs1
  obtain ⟨ms, hms, e2, rfl⟩ := getnum_fixed_some _ _ _ hm
  have e3 := skip_some _ _ _ hs2
  obtain ⟨ss, hss, e4, rfl⟩ := getnum_fixed_some _ _ _ hsec
  have g1 := require_some _ _ q1
  have g2 := require_some _ _ q2
  have g3 := require_some _ _ q3
  simp only [decide_eq_true_eq] at g1 g2 g3
  dsimp only at e1 e2 e3 e4
  refine ⟨hs, ms, ss, hhs, hms, hss, ?_, rfl, rfl, rfl, g1, g2, g3⟩
  rw [e0, e1, e2, e3, e4]

theorem getClock_digits (hs ms ss rest : List Nat) (hh : Digits 1 hs ∨ Digits 2 hs)
    (hm : Digits 2 ms) (hsec : Digits 2 ss) (g1 : digitsVal hs < 24) (g2 : digitsVal ms < 60)
    (g3 : digitsVal ss < 60) :
    getClock (hs ++ 58 :: (ms ++ 58 :: (ss ++ rest))) =
      some ((digitsVal hs, digitsVal ms, digitsVal ss), rest) := by
  have e0 : getnum (hs ++ 58 :: (ms ++ 58 :: (ss ++ rest))) false =
      some (digitsVal hs, 58 :: (ms ++ 58 :: (ss ++ rest))) := by
    rcases hh with h1 | h2
    · exact getnum_one_digit hs _ h1
    · exact getnum_digits hs _ false h2
  unfold getClock
  rw [e0]
  simp only [Option.some_bind, skip_cons, require, g1, decide_True, if_true]
  rw [getnum_digits ms _ true hm]
  simp only [Option.some_bind, skip_cons, require, g2, decide_True, if_true]
  rw [getnum_digits ss _ true hsec]
  simp only [Option.some_bind, skip_cons, require, g3, decide_True, if_true]

/-! ### The whole timestamp -/

/-- What `time.Parse` reads with the layout RFC3339Nano has the accepted form. -/
theorem Parse_accepted (v : List Nat) (t : Time) (h : ParseRFC3339Nano v = some t) :
    Accepted v := by
  unfold ParseRFC3339Nano at h
  simp only [Option.bind_eq_some] at h
  obtain ⟨⟨⟨y, M, D⟩, r1⟩, hdate, r2, hT, ⟨⟨hh, mm, ss⟩, r3⟩, hclock, ⟨off, r4⟩, hzone, u1, hend,
    u2, hday, -⟩ := h
  obtain ⟨ys, Ms, Ds, hys, hMs, hDs, ev, rfl, rfl, rfl, hM1, hM12⟩ := getDate_some _ _ _ _ _ hdate
  have eT := skip_some _ _ _ hT
  obtain ⟨hs, ms, sx, hhs, hms, hsx, ec, rfl, rfl, rfl, g1, g2, g3⟩ :=
    getClock_some _ _ _ _ _ hclock
  obtain ⟨frac, hfrac, ef⟩ := getFrac_text r3
  obtain ⟨zone, hzt, ez⟩ := getZone_some _ _ _ hzone
  have hnil := require_some _ _ hend
  have hdr := require_some _ _ hday
  simp only [decide_eq_true_eq] at hnil hdr
  dsimp only at eT ec ez hnil hdr
  refine ⟨ys, Ms, Ds, hs, ms, sx, frac, zone, ?_, hys, hMs, hDs, hhs, hms, hsx, hfrac, hzt,
    hM1, hM12, hdr.1, hdr.2, g1, g2, g3⟩
  rw [hnil, List.append_nil] at ez
  rw [ev, eT, ec, ef, ez]
  simp only [List.append_assoc, List.cons_append, List.nil_append]

/-- Every text of the accepted form is read by `time.Parse` with the layout RFC3339Nano. -/
theorem accepted_Parse (v : List Nat) (h : Accepted v) : ∃ t, ParseRFC3339Nano v = some t := by
  obtain ⟨ys, Ms, Ds, hs, ms, sx, frac, zone, rfl, hys, hMs, hDs, hhs, hms, hsx, hfrac, hzt,
    hM1, hM12, hD1, hD2, g1, g2, g3⟩ := h
  obtain ⟨off, hoff⟩ := getZone_text zone hzt
  have e : ys ++ [45] ++ Ms ++ [45] ++ Ds ++ [84] ++ hs ++ [58] ++ ms ++ [58] ++ sx ++ frac ++
      zone = ys ++ 45 :: (Ms ++ 45 :: (Ds ++ 84 :: (hs ++ 58 :: (ms ++ 58 :: (sx ++
        (frac ++ zone)))))) := by
    simp only [List.append_assoc, List.cons_append, List.nil_append]
  rw [e]
  unfold ParseRFC3339Nano
  rw [getDate_digits ys Ms Ds _ hys hMs hDs hM1 hM12]
  simp only [Option.some_bind, skip_cons]
  rw [getClock_digits hs ms sx _ hhs hms hsx g1 g2 g3]
  simp only [Option.some_bind, getFrac_append frac zone hfrac hzt, hoff, require, decide_True,
    if_true, hD1, hD2, and_self]
  exact ⟨_, rfl⟩

theorem ParseRFC3339Nano_eq_none_iff (v : List Nat) : ParseRFC3339Nano v = none ↔ ¬ Accepted v := by
  constructor
  · intro h ha
    obtain ⟨t, ht⟩ := accepted_Parse v ha
    rw [h] at ht
    cases ht
  · intro h
    cases hp : ParseRFC3339Nano v with
    | none => rfl
    | some t => exact absurd (Parse_accepted v t hp) h

end Time

/-! ## What `uuid.Parse` reads -/

namespace UUID

theorem cons_of_le_length (l : List Nat) (n : Nat) (h : n + 1 ≤ l.length) :
    ∃ x xs, l = x :: xs ∧ n ≤ xs.length := by
  cases l with
  | nil => simp at h
  | cons x xs => exact ⟨x, xs, rfl, by simpa using h⟩

theorem cons_of_length (l : List Nat) (n : Nat) (h : l.length = n + 1) :
    ∃ x xs, l = x :: xs ∧ xs.length = n := by
  cases l with
  | nil => simp at h
  | cons x xs => exact ⟨x, xs, rfl, by simpa using h⟩

theorem hexAt_isSome (s : List Nat) (xs : List Nat) :
    (hexAt s xs).isSome = true ↔
      ∀ x ∈ xs, (xvalue (s.getD x 0)).isSome = true ∧
        (xvalue (s.getD (x + 1) 0)).isSome = true := by
  induction xs with
  | nil => simp [hexAt]
  | cons x xs ih =>
      simp only [hexAt, xtob, List.forall_mem_cons]
      rw [← ih]
      cases xvalue (s.getD x 0) <;> cases xvalue (s.getD (x + 1) 0) <;>
        cases hexAt s xs <;> simp

theorem parseStandard_isSome (s : List Nat) :
    (parseStandard s).isSome = true ↔
      (s.getD 8 0 = 45 ∧ s.getD 13 0 = 45 ∧ s.getD 18 0 = 45 ∧ s.getD 23 0 = 45) ∧
      ∀ x ∈ [0, 2, 4, 6, 9, 11, 14, 16, 19, 21, 24, 26, 28, 30, 32, 34],
        (xvalue (s.getD x 0)).isSome = true ∧ (xvalue (s.getD (x + 1) 0)).isSome = true := by
  unfold parseStandard
  rw [← hexAt_isSome]
  by_cases h : s.getD 8 0 ≠ 45 ∨ s.getD 13 0 ≠ 45 ∨ s.getD 18 0 ≠ 45 ∨ s.getD 23 0 ≠ 45
  · simp only [h, if_true, Option.isSome_none, Bool.false_eq_true, false_iff, not_and]
    intro h2
    simp only [ne_eq] at h
    tauto
  · simp only [h, if_false, Option.isSome_map']
    simp only [ne_eq, not_or, not_not] at h
    tauto

/-- The canonical form, also when something follows it, is read by `parseStandard`. -/
theorem canonical_parseStandard (t r : List Nat) (h : Canonical t) :
    (parseStandard (t ++ r)).isSome = true := by
  obtain ⟨a, b, c, d, e, rfl, ha, hb, hc, hd, he⟩ := h
  obtain ⟨hal, had⟩ := ha
  obtain ⟨a0, ar1, rfl, hal1⟩ := cons_of_length a 7 hal
  obtain ⟨a1, ar2, rfl, hal2⟩ := cons_of_length ar1 6 hal1
  obtain ⟨a2, ar3, rfl, hal3⟩ := cons_of_length ar2 5 hal2
  obtain ⟨a3, ar4, rfl, hal4⟩ := cons_of_length ar3 4 hal3
  obtain ⟨a4, ar5, rfl, hal5⟩ := cons_of_length ar4 3 hal4
  obtain ⟨a5, ar6, rfl, hal6⟩ := cons_of_length ar5 2 hal5
  obtain ⟨a6, ar7, rfl, hal7⟩ := cons_of_length ar6 1 hal6
  obtain ⟨a7, ar8, rfl, hal8⟩ := cons_of_length ar7 0 hal7
  obtain rfl := List.length_eq_zero.1 hal8
  obtain ⟨hbl, hbd⟩ := hb
  obtain ⟨b0, br1, rfl, hbl1⟩ := cons_of_length b 3 hbl
  obtain ⟨b1, br2, rfl, hbl2⟩ := cons_of_length br1 2 hbl1
  obtain ⟨b2, br3, rfl, hbl3⟩ := cons_of_length br2 1 hbl2
  obtain ⟨b3, br4, rfl, hbl4⟩ := cons_of_length br3 0 hbl3
  obtain rfl := List.length_eq_zero.1 hbl4
  obtain ⟨hcl, hcd⟩ := hc
  obtain ⟨c0, cr1, rfl, hcl1⟩ := cons_of_length c 3 hcl
  obtain ⟨c1, cr2, rfl, hcl2⟩ := cons_of_length cr1 2 hcl1
  obtain ⟨c2, cr3, rfl, hcl3⟩ := cons_of_length cr2 1 hcl2
  obtain ⟨c3, cr4, rfl, hcl4⟩ := cons_of_length cr3 0 hcl3
  obtain rfl := List.length_eq_zero.1 hcl4
  obtain ⟨hdl, hdd⟩ := hd
  obtain ⟨d0, dr1, rfl, hdl1⟩ := cons_of_length d 3 hdl
  obtain ⟨d1, dr2, rfl, hdl2⟩ := cons_of_length dr1 2 hdl1
  obtain ⟨d2, dr3, rfl, hdl3⟩ := cons_of_length dr2 1 hdl2
  obtain ⟨d3, dr4, rfl, hdl4⟩ := cons_of_length dr3 0 hdl3
  obtain rfl := List.length_eq_zero.1 hdl4
  obtain ⟨hel, hed⟩ := he
  obtain ⟨e0, er1, rfl, hel1⟩ := cons_of_length e 11 hel
  obtain ⟨e1, er2, rfl, hel2⟩ := cons_of_length er1 10 hel1
  obtain ⟨e2, er3, rfl, hel3⟩ := cons_of_length er2 9 hel2
  obtain ⟨e3, er4, rfl, hel4⟩ := cons_of_length er3 8 hel3
  obtain ⟨e4, er5, rfl, hel5⟩ := cons_of_length er4 7 hel4
  obtain ⟨e5, er6, rfl, hel6⟩ := cons_of_length er5 6 hel5
  obtain ⟨e6, er7, rfl, hel7⟩ := cons_of_length er6 5 hel6
  obtain ⟨e7, er8, rfl, hel8⟩ := cons_of_length er7 4 hel7
  obtain ⟨e8, er9, rfl, hel9⟩ := cons_of_length er8 3 hel8
  obtain ⟨e9, er10, rfl, hel10⟩ := cons_of_length er9 2 hel9
  obtain ⟨e10, er11, rfl, hel11⟩ := cons_of_length er10 1 hel10
  obtain ⟨e11, er12, rfl, hel12⟩ := cons_of_length er11 0 hel11
  obtain rfl := List.length_eq_zero.1 hel12
  rw [parseStandard_isSome]
  simp only [List.mem_cons, List.mem_singleton, forall_eq_or_imp, forall_eq, List.not_mem_nil,
    false_implies, implies_true, true_and, and_true, or_false] at had hbd hcd hdd hed
  simp [had, hbd, hcd, hdd, hed]

set_option maxHeartbeats 4000000 in
/-- What `parseStandard` reads begins with the canonical form. -/
theorem parseStandard_canonical (s : List Nat) (h : 36 ≤ s.length)
    (hp : (parseStandard s).isSome = true) : Canonical (s.take 36) := by
  obtain ⟨x0, s1, rfl, h1⟩ := cons_of_le_length s 35 h
  obtain ⟨x1, s2, rfl, h2⟩ := cons_of_le_length s1 34 h1
  obtain ⟨x2, s3, rfl, h3⟩ := cons_of_le_length s2 33 h2
  obtain ⟨x3, s4, rfl, h4⟩ := cons_of_le_length s3 32 h3
  obtain ⟨x4, s5, rfl, h5⟩ := cons_of_le_length s4 31 h4
  obtain ⟨x5, s6, rfl, h6⟩ := cons_of_le_length s5 30 h5
  obtain ⟨x6, s7, rfl, h7⟩ := cons_of_le_length s6 29 h6
  obtain ⟨x7, s8, rfl, h8⟩ := cons_of_le_length s7 28 h7
  obtain ⟨x8, s9, rfl, h9⟩ := cons_of_le_length s8 27 h8
  obtain ⟨x9, s10, rfl, h10⟩ := cons_of_le_length s9 26 h9
  obtain ⟨x10, s11, rfl, h11⟩ := cons_of_le_length s10 25 h10
  obtain ⟨x11, s12, rfl, h12⟩ := cons_of_le_length s11 24 h11
  obtain ⟨x12, s13, rfl, h13⟩ := cons_of_le_length s12 23 h12
  obtain ⟨x13, s14, rfl, h14⟩ := cons_of_le_length s13 22 h13
  obtain ⟨x14, s15, rfl, h15⟩ := cons_of_le_length s14 21 h14
  obtain ⟨x15, s16, rfl, h16⟩ := cons_of_le_length s15 20 h15
  obtain ⟨x16, s17, rfl, h17⟩ := cons_of_le_length s16 19 h16
  obtain ⟨x17, s18, rfl, h18⟩ := cons_of_le_length s17 18 h17
  obtain ⟨x18, s19, rfl, h19⟩ := cons_of_le_length s18 17 h18
  obtain ⟨x19, s20, rfl, h20⟩ := cons_of_le_length s19 16 h19
  obtain ⟨x20, s21, rfl, h21⟩ := cons_of_le_length s20 15 h20
  obtain ⟨x21, s22, rfl, h22⟩ := cons_of_le_length s21 14 h21
  obtain ⟨x22, s23, rfl, h23⟩ := cons_of_le_length s22 13 h22
  obtain ⟨x23, s24, rfl, h24⟩ := cons_of_le_length s23 12 h23
  obtain ⟨x24, s25, rfl, h25⟩ := cons_of_le_length s24 11 h24
  obtain ⟨x25, s26, rfl, h26⟩ := cons_of_le_length s25 10 h25
  obtain ⟨x26, s27, rfl, h27⟩ := cons_of_le_length s26 9 h26
  obtain ⟨x27, s28, rfl, h28⟩ := cons_of_le_length s27 8 h27
  obtain ⟨x28, s29, rfl, h29⟩ := cons_of_le_length s28 7 h28
  obtain ⟨x29, s30, rfl, h30⟩ := cons_of_le_length s29 6 h29
  obtain ⟨x30, s31, rfl, h31⟩ := cons_of_le_length s30 5 h30
  obtain ⟨x31, s32, rfl, h32⟩ := cons_of_le_length s31 4 h31
  obtain ⟨x32, s33, rfl, h33⟩ := cons_of_le_length s32 3 h32
  obtain ⟨x33, s34, rfl, h34⟩ := cons_of_le_length s33 2 h33
  obtain ⟨x34, s35, rfl, h35⟩ := cons_of_le_length s34 1 h34
  obtain ⟨x35, s36, rfl, h36⟩ := cons_of_le_length s35 0 h35
  rw [parseStandard_isSome] at hp
  simp only [List.mem_cons, List.mem_singleton, forall_eq_or_imp, forall_eq, List.not_mem_nil,
    false_implies, implies_true, and_true] at hp
  simp only [List.getD_cons_succ, List.getD_cons_zero, Nat.reduceAdd] at hp
  obtain ⟨⟨rfl, rfl, rfl, rfl⟩, hx⟩ := hp
  refine ⟨[x0, x1, x2, x3, x4, x5, x6, x7], [x9, x10, x11, x12], [x14, x15, x16, x17],
    [x19, x20, x21, x22], [x24, x25, x26, x27, x28, x29, x30, x31, x32, x33, x34, x35],
    rfl, ?_, ?_, ?_, ?_, ?_⟩ <;>
    refine ⟨rfl, ?_⟩ <;>
    simp only [List.mem_cons, List.mem_singleton, forall_eq_or_imp, forall_eq,
      List.not_mem_nil, false_implies, implies_true, and_true] <;>
    tauto

set_option maxHeartbeats 4000000 in
/-- Thirty-two hexadecimal digits are what `hexAt` reads at the even offsets. -/
theorem hex32_isSome (s : List Nat) (h : s.length = 32) :
    (hexAt s [0, 2, 4, 6, 8, 10, 12, 14, 16, 18, 20, 22, 24, 26, 28, 30]).isSome = true ↔
      HexDigits 32 s := by
  obtain ⟨x0, s1, rfl, h1⟩ := cons_of_length s 31 h
  obtain ⟨x1, s2, rfl, h2⟩ := cons_of_length s1 30 h1
  obtain ⟨x2, s3, rfl, h3⟩ := cons_of_length s2 29 h2
  obtain ⟨x3, s4, rfl, h4⟩ := cons_of_length s3 28 h3
  obtain ⟨x4, s5, rfl, h5⟩ := cons_of_length s4 27 h4
  obtain ⟨x5, s6, rfl, h6⟩ := cons_of_length s5 26 h5
  obtain ⟨x6, s7, rfl, h7⟩ := cons_of_length s6 25 h6
  obtain ⟨x7, s8, rfl, h8⟩ := cons_of_length s7 24 h7
  obtain ⟨x8, s9, rfl, h9⟩ := cons_of_length s8 23 h8
  obtain ⟨x9, s10, rfl, h10⟩ := cons_of_length s9 22 h9
  obtain ⟨x10, s11, rfl, h11⟩ := cons_of_length s10 21 h10
  obtain ⟨x11, s12, rfl, h12⟩ := cons_of_length s11 20 h11
  obtain ⟨x12, s13, rfl, h13⟩ := cons_of_length s12 19 h12
  obtain ⟨x13, s14, rfl, h14⟩ := cons_of_length s13 18 h13
  obtain ⟨x14, s15, rfl, h15⟩ := cons_of_length s14 17 h14
  obtain ⟨x15, s16, rfl, h16⟩ := cons_of_length s15 16 h15
  obtain ⟨x16, s17, rfl, h17⟩ := cons_of_length s16 15 h16
  obtain ⟨x17, s18, rfl, h18⟩ := cons_of_length s17 14 h17
  obtain ⟨x18, s19, rfl, h19⟩ := cons_of_length s18 13 h18
  obtain ⟨x19, s20, rfl, h20⟩ := cons_of_length s19 12 h19
  obtain ⟨x20, s21, rfl, h21⟩ := cons_of_length s20 11 h20
  obtain ⟨x21, s22, rfl, h22⟩ := cons_of_length s21 10 h21
  obtain ⟨x22, s23, rfl, h23⟩ := cons_of_length s22 9 h22
  obtain ⟨x23, s24, rfl, h24⟩ := cons_of_length s23 8 h23
  obtain ⟨x24, s25, rfl, h25⟩ := cons_of_length s24 7 h24
  obtain ⟨x25, s26, rfl, h26⟩ := cons_of_length s25 6 h25
  obtain ⟨x26, s27, rfl, h27⟩ := cons_of_length s26 5 h26
  obtain ⟨x27, s28, rfl, h28⟩ := cons_of_length s27 4 h27
  obtain ⟨x28, s29, rfl, h29⟩ := cons_of_length s28 3 h28
  obtain ⟨x29, s30, rfl, h30⟩ := cons_of_length s29 2 h29
  obtain ⟨x30, s31, rfl, h31⟩ := cons_of_length s30 1 h30
  obtain ⟨x31, s32, rfl, h32⟩ := cons_of_length s31 0 h31
  obtain rfl := List.length_eq_zero.1 h32
  rw [hexAt_isSome]
  simp only [HexDigits, List.mem_cons, List.mem_singleton, forall_eq_or_imp, forall_eq,
    List.not_mem_nil, false_implies, implies_true, and_true, List.getD_cons_succ,
    List.getD_cons_zero, Nat.reduceAdd, List.length_cons, List.length_nil, true_and]
  tauto

theorem canonical_length (t : List Nat) (h : Canonical t) : t.length = 36 := by
  obtain ⟨a, b, c, d, e, rfl, ha, hb, hc, hd, he⟩ := h
  simp only [List.length_append, List.length_cons, List.length_nil, ha.1, hb.1, hc.1, hd.1,
    he.1]

/-- What `uuid.Parse` reads is of one of the four forms. -/
theorem Parse_parseable (s : List Nat) (h : (Parse s).isSome = true) : Parseable s := by
  unfold Parse at h
  split at h
  · rename_i hl
    have hc := parseStandard_canonical s (by omega) h
    rw [List.take_of_length_le (by omega)] at hc
    exact Or.inl hc
  · split at h
    · rename_i hl
      split at h
      · rename_i hp
        have hc := parseStandard_canonical (s.drop 9) (by simp [hl]) h
        rw [List.take_of_length_le (by simp [hl])] at hc
        exact Or.inr (Or.inl ⟨s.take 9, s.drop 9, (List.take_append_drop 9 s).symm, hp, hc⟩)
      · cases h
    · split at h
      · rename_i hl
        have hc := parseStandard_canonical (s.drop 1) (by simp [hl]) h
        rcases s with _ | ⟨x, r⟩
        · simp at hl
        · simp only [List.drop_succ_cons, List.drop_zero] at hc
          have hr : r.length = 37 := by simpa using hl
          have hy : (r.drop 36).length = 1 := by simp [hr]
          obtain ⟨y, hy⟩ := List.length_eq_one.1 hy
          refine Or.inr (Or.inr (Or.inl ⟨x, y, r.take 36, ?_, hc⟩))
          rw [← hy, List.take_append_drop]
      · split at h
        · rename_i hl
          rw [Option.isSome_map', hex32_isSome s hl] at h
          exact Or.inr (Or.inr (Or.inr h))
        · cases h

/-- Every text of one of the four forms is read by `uuid.Parse`. -/
theorem parseable_Parse (s : List Nat) (h : Parseable s) : (Parse s).isSome = true := by
  rcases h with hc | ⟨p, t, rfl, hp, hc⟩ | ⟨x, y, t, rfl, hc⟩ | hh
  · have hl := canonical_length s hc
    have := canonical_parseStandard s [] hc
    rw [List.append_nil] at this
    simp only [Parse, hl, if_true]
    exact this
  · have hl := canonical_length t hc
    have hpl : p.length = 9 := by
      have := congrArg List.length hp
      simpa using this
    have := canonical_parseStandard t [] hc
    rw [List.append_nil] at this
    have h1 : (p ++ t).length = 36 + 9 := by simp [hl, hpl]
    have h2 : (p ++ t).take 9 = p := by rw [List.take_left' hpl]
    have h3 : (p ++ t).drop 9 = t := by rw [List.drop_left' hpl]
    have h0 : ¬ (p ++ t).length = 36 := by omega
    simp only [Parse, h0, if_false, h1, if_true, h2, hp, h3]
    exact this
  · have hl := canonical_length t hc
    have := canonical_parseStandard t [y] hc
    have h0 : ¬ (x :: (t ++ [y])).length = 36 := by simp [hl]
    have h1 : ¬ (x :: (t ++ [y])).length = 36 + 9 := by simp [hl]
    have h2 : (x :: (t ++ [y])).length = 36 + 2 := by simp [hl]
    simp only [Parse, h0, h1, h2, if_false, if_true, List.drop_succ_cons, List.drop_zero]
    exact this
  · have hl := hh.1
    have h0 : ¬ s.length = 36 := by omega
    have h1 : ¬ s.length = 36 + 9 := by omega
    have h2 : ¬ s.length = 36 + 2 := by omega
    unfold Parse
    rw [if_neg h0, if_neg h1, if_neg h2, if_pos hl, Option.isSome_map']
    exact (hex32_isSome s hl).2 hh

theorem uuidParse_eq_none_iff (s : List Nat) : Parse s = none ↔ ¬ Parseable s := by
  constructor
  · intro h hp
    have := parseable_Parse s hp
    rw [h] at this
    cases this
  · intro h
    cases hp : Parse s with
    | none => rfl
    | some id =>
        exact absurd (Parse_parseable s (by rw [hp]; rfl)) h

end UUID


/-! ### Malformed cursors -/

/-- C2 (amended): a cursor that is not valid standard base64, or whose decoded text does not
contain exactly one vertical bar, or whose part before the bar is not a timestamp of the form
`time.Parse` reads with the layout RFC3339Nano (a date of four, two and two digits, `T`, an
hour of one or two digits, minutes and seconds of two digits, an optional fraction after a
period or a comma, and `Z` or a signed offset of at most 24:60, all fields in range), or
whose part after the bar is not a UUID in one of the four forms `uuid.Parse` reads, is
rejected with the zero cursor and the error BAD_USER_INPUT "invalid cursor" (an `AppError`
without cause); every other cursor is accepted, so `decodeCursor` returns no other error. -/
theorem decodeCursor_malformed (raw : String) :
    (¬ Base64.Valid raw →
      decodeCursor raw = (cursor.zero, some (GoError.app "BAD_USER_INPUT" "invalid cursor"))) ∧
    (∀ decoded, Base64.DecodeString raw = some decoded →
      (decoded.count 124 ≠ 1 ∨ ¬ Time.Accepted (decoded.takeWhile (· ≠ 124)) ∨
        ¬ UUID.Parseable ((decoded.dropWhile (· ≠ 124)).drop 1)) →
      decodeCursor raw = (cursor.zero, some (GoError.app "BAD_USER_INPUT" "invalid cursor"))) ∧
    (Base64.Valid raw → ∃ decoded, Base64.DecodeString raw = some decoded) ∧
    (∀ decoded, Base64.DecodeString raw = some decoded → decoded.count 124 = 1 →
      Time.Accepted (decoded.takeWhile (· ≠ 124)) →
      UUID.Parseable ((decoded.dropWhile (· ≠ 124)).drop 1) → (decodeCursor raw).2 = none) ∧
    ((decodeCursor raw).2 = none ∨
      decodeCursor raw = (cursor.zero, some (GoError.app "BAD_USER_INPUT" "invalid cursor"))) := by
  have key := decodeCursor_cases raw
  refine ⟨?_, ?_, ?_, ?_, ?_⟩
  · intro hv
    apply key.1
    unfold MalformedCursor
    rw [(Base64.DecodeString_eq_none_iff raw).2 hv]
    trivial
  · intro decoded hd hbad
    apply key.1
    unfold MalformedCursor
    rw [hd]
    rcases hbad with h | h | h
    · exact Or.inl h
    · exact Or.inr (Or.inl ((Time.ParseRFC3339Nano_eq_none_iff _).2 h))
    · exact Or.inr (Or.inr ((UUID.uuidParse_eq_none_iff _).2 h))
  · intro hv
    cases hd : Base64.DecodeString raw with
    | none => exact absurd hv ((Base64.DecodeString_eq_none_iff raw).1 hd)
    | some decoded => exact ⟨decoded, rfl⟩
  · intro decoded hd hc ht hu
    apply key.2
    unfold MalformedCursor
    rw [hd]
    intro hbad
    rcases hbad with h | h | h
    · exact h hc
    · exact (Time.ParseRFC3339Nano_eq_none_iff _).1 h ht
    · exact (UUID.uuidParse_eq_none_iff _).1 h hu
  · by_cases hm : MalformedCursor raw
    · exact Or.inr (key.1 hm)
    · exact Or.inl (key.2 hm)

/-- C2, instances: text that is not base64; base64 of `2026-02-17T11:45:00Z`, without a
bar; a timestamp with a blank in place of `T`; and an id that ends in `g`. -/
theorem decodeCursor_malformed_witness :
    decodeCursor "not base64!" =
      (cursor.zero, some (GoError.app "BAD_USER_INPUT" "invalid cursor")) ∧
    decodeCursor "MjAyNi0wMi0xN1QxMTo0NTowMFo=" =
      (cursor.zero, some (GoError.app "BAD_USER_INPUT" "invalid cursor")) ∧
    decodeCursor
        "MjAyNi0wMi0xNyAxMTo0NTowMFp8MTIzZTQ1NjctZTg5Yi0xMmQzLWE0NTYtNDI2NjE0MTc0MDAw" =
      (cursor.zero, some (GoError.app "BAD_USER_INPUT" "invalid cursor")) ∧
    decodeCursor
        "MjAyNi0wMi0xN1QxMTo0NTowMFp8MTIzZTQ1NjctZTg5Yi0xMmQzLWE0NTYtNDI2NjE0MTc0MDBn" =
      (cursor.zero, some (GoError.app "BAD_USER_INPUT" "invalid cursor")) :=
  ⟨(decodeCursor_malformed "not base64!").1
      ((Base64.DecodeString_eq_none_iff _).1 (by decide)),
    (decodeCursor_malformed "MjAyNi0wMi0xN1QxMTo0NTowMFo=").2.1
      ("2026-02-17T11:45:00Z".toList.map Char.toNat) (by decide) (Or.inl (by decide)),
    (decodeCursor_malformed
      "MjAyNi0wMi0xNyAxMTo0NTowMFp8MTIzZTQ1NjctZTg5Yi0xMmQzLWE0NTYtNDI2NjE0MTc0MDAw").2.1
      ("2026-02-17 11:45:00Z|123e4567-e89b-12d3-a456-426614174000".toList.map Char.toNat)
      (by decide) (Or.inr (Or.inl ((Time.ParseRFC3339Nano_eq_none_iff _).1 (by decide)))),
    (decodeCursor_malformed
      "MjAyNi0wMi0xN1QxMTo0NTowMFp8MTIzZTQ1NjctZTg5Yi0xMmQzLWE0NTYtNDI2NjE0MTc0MDBn").2.1
      ("2026-02-17T11:45:00Z|123e4567-e89b-12d3-a456-42661417400g".toList.map Char.toNat)
      (by decide) (Or.inr (Or.inr ((UUID.uuidParse_eq_none_iff _).1 (by decide))))⟩

/-- C2 as stated fails: the text `2026-02-17T9:05:00,25Z` has an hour of one digit and a
comma before the fraction, so it is no RFC 3339 timestamp; yet the cursor that holds it
before the bar and a UUID after it is accepted by `decodeCursor`, as 09:05:00.25 UTC. -/
theorem decodeCursor_accepts_non_rfc3339 :
    Base64.DecodeString
        "MjAyNi0wMi0xN1Q5OjA1OjAwLDI1WnwxMjNlNDU2Ny1lODliLTEyZDMtYTQ1Ni00MjY2MTQxNzQwMDA=" =
      some ("2026-02-17T9:05:00,25Z|123e4567-e89b-12d3-a456-426614174000".toList.map Char.toNat) ∧
    ("2026-02-17T9:05:00,25Z|123e4567-e89b-12d3-a456-426614174000".toList.map Char.toNat).count 124 = 1 ∧
    Time.RFC3339Shape ("2026-02-17T9:05:00,25Z".toList.map Char.toNat) = false ∧
    Time.RFC3339Shape ("2026-02-17T09:05:00.25Z".toList.map Char.toNat) = true ∧
    decodeCursor
        "MjAyNi0wMi0xN1Q5OjA1OjAwLDI1WnwxMjNlNDU2Ny1lODliLTEyZDMtYTQ1Ni00MjY2MTQxNzQwMDA=" =
      ({ CreatedAt := ⟨2026, 2, 17, 9, 5, 0, 250000000, 0⟩, ID := Sample.id }, none) := by
  decide


/-! ## The runs of the list operations -/

/-- The outcome of `exec` in one record. -/
theorem run_exec_eq {σ R : Type} (c : Call) (run : σ → Except StorageError R × σ) (m : String)
    (s : Service) (d : σ) :
    (exec c run m : Op σ R) s d =
      ⟨match (run d).1 with
        | .ok row => .ok row
        | .error e => .error (classify (.storage e) m),
        s, (run d).2, [⟨c, match (run d).1 with | .ok _ => none | .error e => some e⟩]⟩ := by
  rcases run_exec_cases c run m s d with ⟨row, h1, h2⟩ | ⟨e, h1, h2⟩
  · rw [h2, h1]
  · rw [h2, h1]

/-- ListProjects once the owner is resolved and the cursor read: one query, for one row more
than the page size of 20/100, and the page cut from its rows. -/
theorem ListProjects_run {σ : Type} (Q : Queries σ) (first : Int) (after : Option String)
    (s : Service) (d : σ) (uid : UUID) (c : Bool × PgTime × PgUUID)
    (hu : (userID Q s d).result = .ok uid) (hc : cursorArgs after = .ok c) :
    ListProjects Q first after s d =
      ⟨match (Q.ListProjects ⟨toPgUUID uid, c.1, c.2.1, c.2.2,
            normalizePageSize first 20 100 + 1⟩ (userID Q s d).db).1 with
        | .ok rows => .ok (paginateRows rows (normalizePageSize first 20 100)
            fun p => encodeCursor p.CreatedAt.Time.UTC (fromPgUUID p.ID))
        | .error e => .error (classify (.storage e) "failed to list projects"),
        (userID Q s d).svc,
        (Q.ListProjects ⟨toPgUUID uid, c.1, c.2.1, c.2.2,
          normalizePageSize first 20 100 + 1⟩ (userID Q s d).db).2,
        (userID Q s d).events ++
          [⟨.ListProjects ⟨toPgUUID uid, c.1, c.2.1, c.2.2, normalizePageSize first 20 100 + 1⟩,
            match (Q.ListProjects ⟨toPgUUID uid, c.1, c.2.1, c.2.2,
                normalizePageSize first 20 100 + 1⟩ (userID Q s d).db).1 with
            | .ok _ => none
            | .error e => some e⟩]⟩ := by
  have r1 := normalizePageSize_range first 20 100 (by decide) (by decide)
  have e1 := toInt32_small (normalizePageSize first 20 100 + 1) (by omega) (by omega)
  unfold ListProjects
  rw [Op.run_bind_ok _ _ s d uid hu, hc]
  simp only [Op.run_bind, Op.run_check_ok, run_exec_eq, e1, List.nil_append]
  cases (Q.ListProjects ⟨toPgUUID uid, c.1, c.2.1, c.2.2,
    normalizePageSize first 20 100 + 1⟩ (userID Q s d).db).1 <;> simp

/-- ListLabels once the owner is resolved and the cursor read: one query, for one row more
than the page size of 50/200, and the page cut from its rows. -/
theorem ListLabels_run {σ : Type} (Q : Queries σ) (first : Int) (after : Option String)
    (s : Service) (d : σ) (uid : UUID) (c : Bool × PgTime × PgUUID)
    (hu : (userID Q s d).result = .ok uid) (hc : cursorArgs after = .ok c) :
    ListLabels Q first after s d =
      ⟨match (Q.ListLabels ⟨toPgUUID uid, c.1, c.2.1, c.2.2,
            normalizePageSize first 50 200 + 1⟩ (userID Q s d).db).1 with
        | .ok rows => .ok (paginateRows rows (normalizePageSize first 50 200)
            fun l => encodeCursor l.CreatedAt.Time.UTC (fromPgUUID l.ID))
        | .error e => .error (classify (.storage e) "failed to list labels"),
        (userID Q s d).svc,
        (Q.ListLabels ⟨toPgUUID uid, c.1, c.2.1, c.2.2,
          normalizePageSize first 50 200 + 1⟩ (userID Q s d).db).2,
        (userID Q s d).events ++
          [⟨.ListLabels ⟨toPgUUID uid, c.1, c.2.1, c.2.2, normalizePageSize first 50 200 + 1⟩,
            match (Q.ListLabels ⟨toPgUUID uid, c.1, c.2.1, c.2.2,
                normalizePageSize first 50 200 + 1⟩ (userID Q s d).db).1 with
            | .ok _ => none
            | .error e => some e⟩]⟩ := by
  have r1 := normalizePageSize_range first 50 200 (by decide) (by decide)
  have e1 := toInt32_small (normalizePageSize first 50 200 + 1) (by omega) (by omega)
  unfold ListLabels
  rw [Op.run_bind_ok _ _ s d uid hu, hc]
  simp only [Op.run_bind, Op.run_check_ok, run_exec_eq, e1, List.nil_append]
  cases (Q.ListLabels ⟨toPgUUID uid, c.1, c.2.1, c.2.2,
    normalizePageSize first 50 200 + 1⟩ (userID Q s d).db).1 <;> simp

/-- ListTasks without a parent, once the owner is resolved, the arguments are read and the
project is found: the query for root tasks, for one row more than the page size of 20/100,
and the page cut from its rows. -/
theorem ListTasks_run_root {σ : Type} (U : UnicodeTables) (Q : Queries σ) (projectID : String)
    (parentTaskID : Option String) (statuses priorities : List String) (first : Int)
    (after : Option String) (s : Service) (d d1 : σ) (uid pid : UUID) (sts prs : List String)
    (c : Bool × PgTime × PgUUID) (proj : Project)
    (hu : (userID Q s d).result = .ok uid)
    (hp : parseUUID projectID "project id" = .ok pid)
    (hs : normalizeFilters statuses (normalizeStatus U) = .ok sts)
    (hpr : normalizeFilters priorities (normalizePriority U) = .ok prs)
    (hpar : parseParent parentTaskID = .ok none)
    (hc : cursorArgs after = .ok c)
    (hg : Q.GetProjectByID ⟨toPgUUID pid, toPgUUID uid⟩ (userID Q s d).db = (.ok proj, d1)) :
    ListTasks U Q projectID parentTaskID statuses priorities first after s d =
      ⟨match (Q.ListRootTasks ⟨toPgUUID uid, toPgUUID pid, sts, prs, c.1, c.2.1, c.2.2,
            normalizePageSize first 20 100 + 1⟩ d1).1 with
        | .ok rows => .ok (paginateRows rows (normalizePageSize first 20 100)
            fun t => encodeCursor t.CreatedAt.Time.UTC (fromPgUUID t.ID))
        | .error e => .error (classify (.storage e) "failed to list tasks"),
        (userID Q s d).svc,
        (Q.ListRootTasks ⟨toPgUUID uid, toPgUUID pid, sts, prs, c.1, c.2.1, c.2.2,
          normalizePageSize first 20 100 + 1⟩ d1).2,
        (userID Q s d).events ++
          [⟨.GetProjectByID ⟨toPgUUID pid, toPgUUID uid⟩, none⟩,
           ⟨.ListRootTasks ⟨toPgUUID uid, toPgUUID pid, sts, prs, c.1, c.2.1, c.2.2,
              normalizePageSize first 20 100 + 1⟩,
            match (Q.ListRootTasks ⟨toPgUUID uid, toPgUUID pid, sts, prs, c.1, c.2.1, c.2.2,
                normalizePageSize first 20 100 + 1⟩ d1).1 with
            | .ok _ => none
            | .error e => some e⟩]⟩ := by
  have r1 := normalizePageSize_range first 20 100 (by decide) (by decide)
  have e1 := toInt32_small (normalizePageSize first 20 100 + 1) (by omega) (by omega)
  unfold ListTasks
  rw [Op.run_bind_ok _ _ s d uid hu, hp, hs, hpr, hpar, hc]
  simp only [Op.run_bind, Op.run_check_ok, run_exec_eq, e1, List.nil_append, hg, listTaskRows]
  cases (Q.ListRootTasks ⟨toPgUUID uid, toPgUUID pid, sts, prs, c.1, c.2.1, c.2.2,
    normalizePageSize first 20 100 + 1⟩ d1).1 <;> simp

/-- ListTasks with a parent: the query for the subtasks of the parent, with the same
limit. -/
theorem ListTasks_run_sub {σ : Type} (U : UnicodeTables) (Q : Queries σ) (projectID : String)
    (parentTaskID : Option String) (statuses priorities : List String) (first : Int)
    (after : Option String) (s : Service) (d d1 : σ) (uid pid parent : UUID)
    (sts prs : List String) (c : Bool × PgTime × PgUUID) (proj : Project)
    (hu : (userID Q s d).result = .ok uid)
    (hp : parseUUID projectID "project id" = .ok pid)
    (hs : normalizeFilters statuses (normalizeStatus U) = .ok sts)
    (hpr : normalizeFilters priorities (normalizePriority U) = .ok prs)
    (hpar : parseParent parentTaskID = .ok (some parent))
    (hc : cursorArgs after = .ok c)
    (hg : Q.GetProjectByID ⟨toPgUUID pid, toPgUUID uid⟩ (userID Q s d).db = (.ok proj, d1)) :
    ListTasks U Q projectID parentTaskID statuses priorities first after s d =
      ⟨match (Q.ListSubtasks ⟨toPgUUID uid, toPgUUID pid, toPgUUID parent, sts, prs, c.1,
            c.2.1, c.2.2, normalizePageSize first 20 100 + 1⟩ d1).1 with
        | .ok rows => .ok (paginateRows rows (normalizePageSize first 20 100)
            fun t => encodeCursor t.CreatedAt.Time.UTC (fromPgUUID t.ID))
        | .error e => .error (classify (.storage e) "failed to list subtasks"),
        (userID Q s d).svc,
        (Q.ListSubtasks ⟨toPgUUID uid, toPgUUID pid, toPgUUID parent, sts, prs, c.1, c.2.1,
          c.2.2, normalizePageSize first 20 100 + 1⟩ d1).2,
        (userID Q s d).events ++
          [⟨.GetProjectByID ⟨toPgUUID pid, toPgUUID uid⟩, none⟩,
           ⟨.ListSubtasks ⟨toPgUUID uid, toPgUUID pid, toPgUUID parent, sts, prs, c.1, c.2.1,
              c.2.2, normalizePageSize first 20 100 + 1⟩,
            match (Q.ListSubtasks ⟨toPgUUID uid, toPgUUID pid, toPgUUID parent, sts, prs, c.1,
                c.2.1, c.2.2, normalizePageSize first 20 100 + 1⟩ d1).1 with
            | .ok _ => none
            | .error e => some e⟩]⟩ := by
  have r1 := normalizePageSize_range first 20 100 (by decide) (by decide)
  have e1 := toInt32_small (normalizePageSize first 20 100 + 1) (by omega) (by omega)
  unfold ListTasks
  rw [Op.run_bind_ok _ _ s d uid hu, hp, hs, hpr, hpar, hc]
  simp only [Op.run_bind, Op.run_check_ok, run_exec_eq, e1, List.nil_append, hg, listTaskRows]
  cases (Q.ListSubtasks ⟨toPgUUID uid, toPgUUID pid, toPgUUID parent, sts, prs, c.1, c.2.1,
    c.2.2, normalizePageSize first 20 100 + 1⟩ d1).1 <;> simp


/-- C6: `normalizePageSize` returns the default for a size that is not positive, otherwise
the maximum for a size above it, otherwise the size. ListProjects, ListLabels and ListTasks
apply it with 20/100, 50/200 and 20/100: in a run in which the owner is resolved and the
arguments are read (for ListTasks also the project is found), the operation issues exactly
one list query after that, whose limit is one row more than `normalizePageSize` gives, and
when the query returns rows the result is the page `paginateRows` cuts from those rows with
the limit `normalizePageSize` gives. In every run, no list query carries another limit and
every page returned is cut with that limit. -/
theorem page_size_policy {σ : Type} (U : UnicodeTables) (Q : Queries σ) (first d m : Int)
    (after : Option String) (projectID : String) (parentTaskID : Option String)
    (statuses priorities : List String) (s : Service) (db : σ) :
    (first ≤ 0 → normalizePageSize first d m = d) ∧
    (¬ first ≤ 0 → first > m → normalizePageSize first d m = m) ∧
    (¬ first ≤ 0 → ¬ first > m → normalizePageSize first d m = first) ∧
    (∀ uid c, (userID Q s db).result = .ok uid → cursorArgs after = .ok c →
      (ListProjects Q first after s db).events.map Event.call =
        (userID Q s db).events.map Event.call ++ [.ListProjects ⟨toPgUUID uid, c.1, c.2.1, c.2.2, normalizePageSize first 20 100 + 1⟩] ∧
      ∀ rows, (Q.ListProjects ⟨toPgUUID uid, c.1, c.2.1, c.2.2, normalizePageSize first 20 100 + 1⟩ (userID Q s db).db).1 = .ok rows →
        (ListProjects Q first after s db).result =
          .ok (paginateRows rows (normalizePageSize first 20 100)
            fun p => encodeCursor p.CreatedAt.Time.UTC (fromPgUUID p.ID))) ∧
    (∀ uid c, (userID Q s db).result = .ok uid → cursorArgs after = .ok c →
      (ListLabels Q first after s db).events.map Event.call =
        (userID Q s db).events.map Event.call ++ [.ListLabels ⟨toPgUUID uid, c.1, c.2.1, c.2.2, normalizePageSize first 50 200 + 1⟩] ∧
      ∀ rows, (Q.ListLabels ⟨toPgUUID uid, c.1, c.2.1, c.2.2, normalizePageSize first 50 200 + 1⟩ (userID Q s db).db).1 = .ok rows →
        (ListLabels Q first after s db).result =
          .ok (paginateRows rows (normalizePageSize first 50 200)
            fun l => encodeCursor l.CreatedAt.Time.UTC (fromPgUUID l.ID))) ∧
    (∀ uid pid sts prs c proj db1, (userID Q s db).result = .ok uid →
      parseUUID projectID "project id" = .ok pid →
      normalizeFilters statuses (normalizeStatus U) = .ok sts →
      normalizeFilters priorities (normalizePriority U) = .ok prs →
      parseParent parentTaskID = .ok none → cursorArgs after = .ok c →
      Q.GetProjectByID ⟨toPgUUID pid, toPgUUID uid⟩ (userID Q s db).db = (.ok proj, db1) →
      (ListTasks U Q projectID parentTaskID statuses priorities first after s db).events.map
          Event.call =
        (userID Q s db).events.map Event.call ++
          [.GetProjectByID ⟨toPgUUID pid, toPgUUID uid⟩, .ListRootTasks ⟨toPgUUID uid, toPgUUID pid, sts, prs, c.1, c.2.1, c.2.2,
          normalizePageSize first 20 100 + 1⟩] ∧
      ∀ rows, (Q.ListRootTasks ⟨toPgUUID uid, toPgUUID pid, sts, prs, c.1, c.2.1, c.2.2,
          normalizePageSize first 20 100 + 1⟩ db1).1 = .ok rows →
        (ListTasks U Q projectID parentTaskID statuses priorities first after s db).result =
          .ok (paginateRows rows (normalizePageSize first 20 100)
            fun t => encodeCursor t.CreatedAt.Time.UTC (fromPgUUID t.ID))) ∧
    (∀ uid pid parent sts prs c proj db1, (userID Q s db).result = .ok uid →
      parseUUID projectID "project id" = .ok pid →
      normalizeFilters statuses (normalizeStatus U) = .ok sts →
      normalizeFilters priorities (normalizePriority U) = .ok prs →
      parseParent parentTaskID = .ok (some parent) → cursorArgs after = .ok c →
      Q.GetProjectByID ⟨toPgUUID pid, toPgUUID uid⟩ (userID Q s db).db = (.ok proj, db1) →
      (ListTasks U Q projectID parentTaskID statuses priorities first after s db).events.map
          Event.call =
        (userID Q s db).events.map Event.call ++
          [.GetProjectByID ⟨toPgUUID pid, toPgUUID uid⟩, .ListSubtasks ⟨toPgUUID uid, toPgUUID pid, toPgUUID parent, sts, prs, c.1,
          c.2.1, c.2.2, normalizePageSize first 20 100 + 1⟩] ∧
      ∀ rows, (Q.ListSubtasks ⟨toPgUUID uid, toPgUUID pid, toPgUUID parent, sts, prs, c.1,
          c.2.1, c.2.2, normalizePageSize first 20 100 + 1⟩ db1).1 = .ok rows →
        (ListTasks U Q projectID parentTaskID statuses priorities first after s db).result =
          .ok (paginateRows rows (normalizePageSize first 20 100)
            fun t => encodeCursor t.CreatedAt.Time.UTC (fromPgUUID t.ID))) ∧
    Op.Issues (ListProjects Q first after)
      (fun ev => ∀ a, ev.call = .ListProjects a → a.Limit = normalizePageSize first 20 100 + 1) ∧
    Op.Returns (ListProjects Q first after)
      (fun page => ∃ rows f, page = paginateRows rows (normalizePageSize first 20 100) f) ∧
    Op.Issues (ListLabels Q first after)
      (fun ev => ∀ a, ev.call = .ListLabels a → a.Limit = normalizePageSize first 50 200 + 1) ∧
    Op.Returns (ListLabels Q first after)
      (fun page => ∃ rows f, page = paginateRows rows (normalizePageSize first 50 200) f) ∧
    Op.Issues (ListTasks U Q projectID parentTaskID statuses priorities first after)
      (fun ev => (∀ a, ev.call = .ListRootTasks a → a.Limit = normalizePageSize first 20 100 + 1) ∧
        (∀ a, ev.call = .ListSubtasks a → a.Limit = normalizePageSize first 20 100 + 1)) ∧
    Op.Returns (ListTasks U Q projectID parentTaskID statuses priorities first after)
      (fun page => ∃ rows f, page = paginateRows rows (normalizePageSize first 20 100) f) := by
  have r1 := normalizePageSize_range first 20 100 (by decide) (by decide)
  have r2 := normalizePageSize_range first 50 200 (by decide) (by decide)
  have e1 := toInt32_small (normalizePageSize first 20 100 + 1) (by omega) (by omega)
  have e2 := toInt32_small (normalizePageSize first 50 200 + 1) (by omega) (by omega)
  refine ⟨?_, ?_, ?_, ?_, ?_, ?_, ?_, ?_, ?_, ?_, ?_, ?_, ?_⟩
  · intro h; simp [normalizePageSize, h]
  · intro h1 h2; simp [normalizePageSize, h1, h2]
  · intro h1 h2; simp [normalizePageSize, h1, h2]
  · intro uid c hu hc
    rw [ListProjects_run Q first after s db uid c hu hc]
    refine ⟨by simp, fun rows hrows => ?_⟩
    simp only [hrows]
  · intro uid c hu hc
    rw [ListLabels_run Q first after s db uid c hu hc]
    refine ⟨by simp, fun rows hrows => ?_⟩
    simp only [hrows]
  · intro uid pid sts prs c proj db1 hu hp hs hpr hpar hc hg
    rw [ListTasks_run_root U Q projectID parentTaskID statuses priorities first after s db db1
      uid pid sts prs c proj hu hp hs hpr hpar hc hg]
    refine ⟨by simp, fun rows hrows => ?_⟩
    simp only [hrows]
  · intro uid pid parent sts prs c proj db1 hu hp hs hpr hpar hc hg
    rw [ListTasks_run_sub U Q projectID parentTaskID statuses priorities first after s db db1
      uid pid parent sts prs c proj hu hp hs hpr hpar hc hg]
    refine ⟨by simp, fun rows hrows => ?_⟩
    simp only [hrows]
  · unfold ListProjects userID
    repeat' first
      | exact Op.issues_ret _ _
      | exact Op.issues_check _ _
      | refine issues_ensureDefaultUser Q _ ?_
      | refine issues_listTaskRows Q _ _ _ _ _ _ _ _ ?_ ?_
      | refine Op.issues_exec _ _ _ _ ?_
      | refine Op.issues_bind _ _ _ ?_ ?_
      | intro _
    all_goals first
      | (rename_i h; cases h; exact e1)
      | simp_all
  · unfold ListProjects
    repeat' first
      | exact Op.returns_ret _ _ ⟨_, _, rfl⟩
      | refine Op.returns_bind _ _ _ ?_
      | intro _
  · unfold ListLabels userID
    repeat' first
      | exact Op.issues_ret _ _
      | exact Op.issues_check _ _
      | refine issues_ensureDefaultUser Q _ ?_
      | refine issues_listTaskRows Q _ _ _ _ _ _ _ _ ?_ ?_
      | refine Op.issues_exec _ _ _ _ ?_
      | refine Op.issues_bind _ _ _ ?_ ?_
      | intro _
    all_goals first
      | (rename_i h; cases h; exact e2)
      | simp_all
  · unfold ListLabels
    repeat' first
      | exact Op.returns_ret _ _ ⟨_, _, rfl⟩
      | refine Op.returns_bind _ _ _ ?_
      | intro _
  · unfold ListTasks userID
    repeat' first
      | exact Op.issues_ret _ _
      | exact Op.issues_check _ _
      | refine issues_ensureDefaultUser Q _ ?_
      | refine issues_listTaskRows Q _ _ _ _ _ _ _ _ ?_ ?_
      | refine Op.issues_exec _ _ _ _ ?_
      | refine Op.issues_bind _ _ _ ?_ ?_
      | intro _
    all_goals simp_all
  · unfold ListTasks
    repeat' first
      | exact Op.returns_ret _ _ ⟨_, _, rfl⟩
      | refine Op.returns_bind _ _ _ ?_
      | intro _

/-- C6, instances: a size of 0 gives the default 20, a size of 500 the maximum 100, and a
size of 30 is kept; on the scripted storage layer, ListProjects with a size of 0 issues its
query with the limit 21 and returns the page cut with the limit 20, ListLabels with a size
of 500 issues its query with the limit 201, and ListTasks with a size of 30 issues the
query for root tasks with the limit 31. -/
theorem page_size_policy_witness :
    normalizePageSize 0 20 100 = 20 ∧ normalizePageSize 500 20 100 = 100 ∧
    normalizePageSize 30 20 100 = 30 ∧
    (ListProjects Script.queries 0 none (Service.cached Sample.owner)
        Script.blank).events.map Event.call =
      [.ListProjects ⟨toPgUUID Sample.owner, false, ⟨Time.zero, false⟩, ⟨UUID.Nil, false⟩,
        21⟩] ∧
    (ListProjects Script.queries 0 none (Service.cached Sample.owner) Script.blank).result =
      .ok (paginateRows [Project.zero] 20
        fun p => encodeCursor p.CreatedAt.Time.UTC (fromPgUUID p.ID)) ∧
    (ListLabels Script.queries 500 none (Service.cached Sample.owner)
        Script.blank).events.map Event.call =
      [.ListLabels ⟨toPgUUID Sample.owner, false, ⟨Time.zero, false⟩, ⟨UUID.Nil, false⟩,
        201⟩] ∧
    (ListTasks asciiTables Script.queries Sample.idText none [] [] 30 none
        (Service.cached Sample.owner) Script.blank).events.map Event.call =
      [.GetProjectByID ⟨toPgUUID Sample.id, toPgUUID Sample.owner⟩,
        .ListRootTasks ⟨toPgUUID Sample.owner, toPgUUID Sample.id, [], [], false,
          ⟨Time.zero, false⟩, ⟨UUID.Nil, false⟩, 31⟩] :=
  have h0 := page_size_policy asciiTables Script.queries 0 20 100 none Sample.idText none [] []
    (Service.cached Sample.owner) Script.blank
  have h500 := page_size_policy asciiTables Script.queries 500 20 100 none Sample.idText none
    [] [] (Service.cached Sample.owner) Script.blank
  have h30 := page_size_policy asciiTables Script.queries 30 20 100 none Sample.idText none
    [] [] (Service.cached Sample.owner) Script.blank
  have p0 := h0.2.2.2.1 Sample.owner (false, ⟨Time.zero, false⟩, ⟨UUID.Nil, false⟩) (by decide) (by decide)
  have l500 := h500.2.2.2.2.1 Sample.owner (false, ⟨Time.zero, false⟩, ⟨UUID.Nil, false⟩) (by decide) (by decide)
  have t30 := h30.2.2.2.2.2.1 Sample.owner Sample.id [] [] (false, ⟨Time.zero, false⟩, ⟨UUID.Nil, false⟩) Project.zero Script.blank
    (by decide) (by decide) (by decide) (by decide) (by decide) (by decide) (by decide)
  ⟨h0.1 (by decide), h500.2.1 (by decide) (by decide), h30.2.2.1 (by decide) (by decide),
    p0.1.trans (by decide), (p0.2 [Project.zero] (by decide)).trans (by decide),
    l500.1.trans (by decide), t30.1.trans (by decide)⟩

end ZenList

